import Mathlib

/-!
# logzio/data-viz: unified alerting

A shallow embedding of the alerting code of the repository and the properties
proved about it.

* `pkg/services/alerting/ticker.go`: the scheduler `Ticker`.
* `pkg/services/ngalert/store/instance_database.go`: batched upsert and delete
  of alert instances.
* `pkg/services/ngalert/api/logzio_alerting.go`: conversion of evaluation
  results to and from their API form.
* `pkg/services/sqlstore/migrations/ualert/logzio_ualert_org_migration.go`:
  the per-organisation migration of legacy alerts (routes and receivers).

Definitions come first, theorems after them.
-/

namespace DataViz

/-! ## Definitions -/

/-! ### Time -/

/-- Go `time.Time`: an instant, in nanoseconds on the clock's time line. -/
abbrev Time := Int

/-- Go `time.Duration`: a signed 64-bit count of nanoseconds. -/
abbrev Duration := Int

/-- Largest `time.Duration`: `1<<63 - 1`. -/
def maxDuration : Duration := 2 ^ 63 - 1

/-- Smallest `time.Duration`: `-1 << 63`. -/
def minDuration : Duration := -(2 ^ 63)

/-- Two's complement wrap-around of an integer into the int64 range. -/
def wrapInt64 (x : Int) : Int := (x + 2 ^ 63) % 2 ^ 64 - 2 ^ 63

/-- Go `Time.Add`. -/
def Time.Add (t : Time) (d : Duration) : Time := t + d

/-- Go `Time.Sub`: the difference `t - u`, replaced by the largest (smallest)
duration when it does not fit in a `Duration`. -/
def Time.Sub (t u : Time) : Duration :=
  if maxDuration < t - u then maxDuration
  else if t - u < minDuration then minDuration
  else t - u

/-- Unary minus on a `Duration` (int64 arithmetic). -/
def Duration.neg (d : Duration) : Duration := wrapInt64 (-d)

/-! ### Ticker (`pkg/services/alerting/ticker.go`) -/

/-- The fields of `Ticker` that `run` reads and writes. The channel `C` and the
clock are the environment: what is sent on `C` and what is asked of the clock
is recorded as an `Event`. -/
structure Ticker where
  /-- Field `last`, the time of the last tick. -/
  last : Time
  /-- Field `interval`. -/
  interval : Duration
  deriving DecidableEq, Repr

/-- What one iteration of the loop of `Ticker.run` does to its environment. -/
inductive Event where
  /-- The send `t.C <- next`. -/
  | send (tick : Time)
  /-- The wait `<-t.clock.After(d)`. -/
  | after (d : Duration)
  deriving DecidableEq, Repr

/-- `NewTicker`: panics (`none`) on a non-positive interval. -/
def NewTicker (last : Time) (interval : Duration) : Option Ticker :=
  if interval ≤ 0 then none else some { last := last, interval := interval }

/-- One iteration of the `for` loop of `Ticker.run`, `now` being what
`t.clock.Now()` returns in it. -/
def Ticker.iteration (t : Ticker) (now : Time) : Ticker × Event :=
  let next := Time.Add t.last t.interval
  let diff := Time.Sub now next
  if diff ≥ 0 then
    ({ t with last := next }, Event.send next)
  else
    (t, Event.after (Duration.neg diff))

/-- `Ticker.run` along a behaviour of the clock: the list holds the reading of
`t.clock.Now()` of each successive iteration. Returns the ticker after these
iterations and the events, one per iteration. -/
def Ticker.run (t : Ticker) : List Time → Ticker × List Event
  | [] => (t, [])
  | now :: rest =>
    let r := Ticker.run (t.iteration now).1 rest
    (r.1, (t.iteration now).2 :: r.2)

/-- The values sent on the channel, in order. -/
def ticks : List Event → List Time
  | [] => []
  | Event.send x :: es => x :: ticks es
  | Event.after _ :: es => ticks es

/-! ### Instance store (`pkg/services/ngalert/store/instance_database.go`) -/

/-- Go `Time.Unix`: whole seconds of an instant. -/
def Time.Unix (t : Time) : Int := t / 1000000000

/-- An argument of `sess.Exec`: the statement text comes first, the values bound
to its `?` follow. -/
inductive SqlArg where
  /-- The text of the statement. -/
  | sql (text : String)
  /-- An `int64` value. -/
  | int (i : Int)
  /-- A `string` value. -/
  | str (s : String)
  deriving DecidableEq, Repr

/-- A statement as passed to `sess.Exec(args...)`. -/
abbrev Statement := List SqlArg

/-- Go `models.InstanceLabels`, a `map[string]string`. -/
abbrev InstanceLabels := List (String × String)

/-- Go `models.AlertInstanceKey`. -/
structure AlertInstanceKey where
  RuleOrgID : Int
  RuleUID : String
  LabelsHash : String
  deriving DecidableEq, Repr

/-- Go `models.AlertInstance` (the key is an embedded `AlertInstanceKey`). -/
structure AlertInstance where
  RuleOrgID : Int
  RuleUID : String
  LabelsHash : String
  Labels : InstanceLabels
  CurrentState : String
  CurrentStateSince : Time
  CurrentStateEnd : Time
  LastEvalTime : Time
  deriving DecidableEq, Repr

/-- What the store calls outside this file: the SQL dialect, the `models`
package and the database session. `Exec` is given the statements passed to it
before (the history of the session) and the statement to run: it answers with
an error or with none. -/
structure StoreEnv where
  /-- `st.SQLStore.Dialect.UpsertMultipleSQL(table, keyCols, updateCols, count)`. -/
  UpsertMultipleSQL : String → List String → List String → Int → Except String String
  /-- `InstanceLabels.StringKey`. -/
  StringKey : InstanceLabels → Except String String
  /-- `models.ValidateAlertInstance`. -/
  ValidateAlertInstance : AlertInstance → Except String Unit
  /-- `sess.Exec(args...)`. -/
  Exec : List Statement → Statement → Except String Unit

/-- The closure `values` of `SaveAlertInstances`: `len(a) - 1`. -/
def SaveAlertInstances.values (a : List SqlArg) : Int := (a.length : Int) - 1

/-- The eight values `SaveAlertInstances` appends to `args` for one instance. -/
def SaveAlertInstances.rowArgs (labelTupleJSON : String) (alertInstance : AlertInstance) :
    List SqlArg :=
  [SqlArg.int alertInstance.RuleOrgID, SqlArg.str alertInstance.RuleUID,
    SqlArg.str labelTupleJSON, SqlArg.str alertInstance.LabelsHash,
    SqlArg.str alertInstance.CurrentState, SqlArg.int (Time.Unix alertInstance.CurrentStateSince),
    SqlArg.int (Time.Unix alertInstance.CurrentStateEnd),
    SqlArg.int (Time.Unix alertInstance.LastEvalTime)]

/-- The loop `for _, alertInstance := range cmd` of `SaveAlertInstances`, with
the current `args` and the statements passed to `Exec` so far. Returns these
statements and either the error returned from inside the loop or `args` as it
is after the loop. -/
def SaveAlertInstances.loop (env : StoreEnv) (maxArgs : Int) :
    List AlertInstance → List SqlArg → List Statement →
      List Statement × Except String (List SqlArg)
  | [], args, log => (log, Except.ok args)
  | alertInstance :: rest, args, log =>
    match env.StringKey alertInstance.Labels with
    | Except.error err => (log, Except.error err)
    | Except.ok labelTupleJSON =>
      match env.ValidateAlertInstance alertInstance with
      | Except.error err => (log, Except.error err)
      | Except.ok _ =>
        let args := args ++ SaveAlertInstances.rowArgs labelTupleJSON alertInstance
        if SaveAlertInstances.values args ≥ maxArgs then
          match env.Exec log args with
          | Except.error err =>
            (log ++ [args], Except.error ("failed to save alert instances: " ++ err))
          | Except.ok _ => SaveAlertInstances.loop env maxArgs rest (args.take 1) (log ++ [args])
        else
          SaveAlertInstances.loop env maxArgs rest args log

/-- `DBstore.SaveAlertInstances`: the statements passed to `Exec`, in order, and
the error returned (`Except.ok ()` for `nil`). -/
def SaveAlertInstances (env : StoreEnv) (cmd : List AlertInstance) :
    List Statement × Except String Unit :=
  let keyNames := ["rule_org_id", "rule_uid", "labels_hash"]
  let fieldNames := ["rule_org_id", "rule_uid", "labels", "labels_hash", "current_state",
    "current_state_since", "current_state_end", "last_eval_time"]
  let fieldsPerRow : Int := (fieldNames.length : Int)
  let maxRows : Int := 20
  let maxArgs : Int := maxRows * fieldsPerRow
  match env.UpsertMultipleSQL "alert_instance" keyNames fieldNames maxRows with
  | Except.error err => ([], Except.error err)
  | Except.ok bigUpsertSQL =>
    match SaveAlertInstances.loop env maxArgs cmd [SqlArg.sql bigUpsertSQL] [] with
    | (log, Except.error err) => (log, Except.error err)
    | (log, Except.ok args) =>
      if SaveAlertInstances.values args ≠ 0 ∧
          SaveAlertInstances.values args % fieldsPerRow = 0 then
        match env.UpsertMultipleSQL "alert_instance" keyNames fieldNames
            (SaveAlertInstances.values args / fieldsPerRow) with
        | Except.error err => (log, Except.error err)
        | Except.ok upsertSQL =>
          let args := args.set 0 (SqlArg.sql upsertSQL)
          match env.Exec log args with
          | Except.error err =>
            (log ++ [args], Except.error ("failed to save alert instances: " ++ err))
          | Except.ok _ => (log ++ [args], Except.ok ())
      else if SaveAlertInstances.values args ≠ 0 then
        (log, Except.error ("failed to upsert alert instances. Last statements had " ++
          toString args.length ++ " fields, which is not a multiple of the number of fields, " ++
          toString fieldsPerRow))
      else
        (log, Except.ok ())

/-- The local type `data` of `DeleteAlertInstances`. -/
structure DeleteAlertInstances.data where
  ruleOrgID : Int
  ruleUID : String
  labelHashes : List SqlArg
  deriving DecidableEq, Repr

/-- Go `strings.TrimRight(s, ", ")` on the characters of `s`: drops the trailing
commas and blanks. -/
def trimRightCommaSpace (s : List Char) : List Char :=
  (s.reverse.dropWhile (fun c => c == ',' || c == ' ')).reverse

/-- The closure `execQuery` of `DeleteAlertInstances`; `placeholders` is the
text of the builder. -/
def DeleteAlertInstances.execQuery (env : StoreEnv) (log : List Statement)
    (rd : DeleteAlertInstances.data) (placeholders : List Char) :
    List Statement × Except String Unit :=
  if rd.labelHashes.length = 0 then
    (log, Except.ok ())
  else
    let placeholders := trimRightCommaSpace placeholders
    let placeholders := placeholders ++ [')']
    let queryString :=
      "DELETE FROM alert_instance WHERE rule_org_id = ? AND rule_uid = ? AND labels_hash IN " ++
        String.mk placeholders ++ ";"
    let execArgs := [SqlArg.sql queryString, SqlArg.int rd.ruleOrgID, SqlArg.str rd.ruleUID]
    let execArgs := execArgs ++ rd.labelHashes
    match env.Exec log execArgs with
    | Except.error err => (log ++ [execArgs], Except.error err)
    | Except.ok _ => (log ++ [execArgs], Except.ok ())

/-- The loop `for _, k := range keys` inside the transaction of
`DeleteAlertInstances` (the variable `counter` is written and never read, so
it is left out). Returns the statements passed to `Exec` and either the error
returned from inside the loop or `rowData` and the text of
`placeholdersBuilder` after the loop. -/
def DeleteAlertInstances.loop (env : StoreEnv) :
    List AlertInstanceKey → DeleteAlertInstances.data → List Char → List Statement →
      List Statement × Except String (DeleteAlertInstances.data × List Char)
  | [], rowData, placeholders, log => (log, Except.ok (rowData, placeholders))
  | k :: rest, rowData, placeholders, log =>
    if rowData.ruleOrgID ≠ k.RuleOrgID ∨ rowData.ruleUID ≠ k.RuleUID ∨
        rowData.labelHashes.length ≥ 200 then
      match DeleteAlertInstances.execQuery env log rowData placeholders with
      | (log1, Except.error err) => (log1, Except.error err)
      | (log1, Except.ok _) =>
        DeleteAlertInstances.loop env rest
          { ruleOrgID := k.RuleOrgID, ruleUID := k.RuleUID,
            labelHashes := [] ++ [SqlArg.str k.LabelsHash] }
          ("(".toList ++ "?, ".toList) log1
    else
      DeleteAlertInstances.loop env rest
        { rowData with labelHashes := rowData.labelHashes ++ [SqlArg.str k.LabelsHash] }
        (placeholders ++ "?, ".toList) log

/-- The comparison given to `sort.Slice` in `DeleteAlertInstances`. -/
def DeleteAlertInstances.less (aye jay : AlertInstanceKey) : Bool :=
  if aye.RuleOrgID < jay.RuleOrgID then true
  else if aye.RuleOrgID = jay.RuleOrgID ∧ aye.RuleUID < jay.RuleUID then true
  else false

/-- `DBstore.DeleteAlertInstances`. `sortSlice` is Go's `sort.Slice` (an unstable
sort of the standard library) applied with the comparison above. Returns the
statements passed to `Exec` inside the transaction, in order, and the error
returned. -/
def DeleteAlertInstances (env : StoreEnv)
    (sortSlice : (AlertInstanceKey → AlertInstanceKey → Bool) → List AlertInstanceKey →
      List AlertInstanceKey)
    (keys : List AlertInstanceKey) : List Statement × Except String Unit :=
  if keys.length = 0 then
    ([], Except.ok ())
  else
    let keys := sortSlice DeleteAlertInstances.less keys
    let rowData : DeleteAlertInstances.data := { ruleOrgID := 0, ruleUID := "", labelHashes := [] }
    match DeleteAlertInstances.loop env keys rowData "(".toList [] with
    | (log, Except.error err) => (log, Except.error err)
    | (log, Except.ok (rowData, placeholders)) =>
      if rowData.labelHashes.length ≠ 0 then
        match DeleteAlertInstances.execQuery env log rowData placeholders with
        | (log1, Except.error err) => (log1, Except.error err)
        | (log1, Except.ok _) => (log1, Except.ok ())
      else
        (log, Except.ok ())

/-- The rows a statement built by `SaveAlertInstances` carries: its values
after the statement text. -/
def Statement.values : Statement → List SqlArg
  | [] => []
  | _ :: vs => vs

/-- The (org, rule UID, labels hash) triples a `DELETE` statement built by
`execQuery` targets: the organisation and rule UID bound to its first two `?`,
with each of the hashes bound to its `IN` list. -/
def Statement.deleteTargets : Statement → List AlertInstanceKey
  | _ :: SqlArg.int org :: SqlArg.str uid :: hashes =>
    hashes.filterMap (fun h =>
      match h with
      | SqlArg.str hash => some { RuleOrgID := org, RuleUID := uid, LabelsHash := hash }
      | _ => none)
  | _ => []

/-- A store environment in which everything succeeds: the dialect refuses only
a row count below one, every instance is valid and every statement executes. -/
def StoreEnv.accepting : StoreEnv where
  UpsertMultipleSQL := fun _ _ _ count =>
    if count < 1 then Except.error "upsert statement must have count >= 1"
    else Except.ok ("UPSERT rows=" ++ toString count)
  StringKey := fun labels => Except.ok (toString labels)
  ValidateAlertInstance := fun _ => Except.ok ()
  Exec := fun _ _ => Except.ok ()

/-- An alert instance for examples. -/
def sampleInstance : AlertInstance :=
  { RuleOrgID := 1, RuleUID := "rule", LabelsHash := "hash", Labels := [("job", "api")],
    CurrentState := "Normal", CurrentStateSince := 0, CurrentStateEnd := 0, LastEvalTime := 0 }

/-- A sort by merging, one possible behaviour of `sort.Slice`. -/
def mergeSortSlice (less : AlertInstanceKey → AlertInstanceKey → Bool)
    (keys : List AlertInstanceKey) : List AlertInstanceKey :=
  keys.mergeSort (fun a b => !less b a)

/-! ### Evaluation results (`pkg/services/ngalert/api/logzio_alerting.go`) -/

/-- `EvaluationErrorRefIdKey`. -/
def EvaluationErrorRefIdKey : String := "REF_ID"

/-- `QueryErrorType`. -/
def QueryErrorType : String := "QUERY_ERROR"

/-- `OtherErrorType`. -/
def OtherErrorType : String := "OTHER"

/-- A Go `float64`, given by its 64 bits (IEEE 754 binary64). -/
structure Float64 where
  bits : Nat
  deriving DecidableEq, Repr

/-- Go `math.IsNaN`: all eleven exponent bits set and a non-zero fraction. -/
def math.IsNaN (f : Float64) : Bool :=
  (f.bits / 2 ^ 52) % 2 ^ 11 == 2047 && f.bits % 2 ^ 52 != 0

/-- Go `math.NaN()`, the value with bits `0x7FF8000000000001`. -/
def math.NaN : Float64 := { bits := 0x7FF8000000000001 }

/-- A non-nil Go `error`, as far as this code tells errors apart. `expr.QueryError`
is declared in `pkg/expr`: a reference ID and a cause, an `error` both as a
value and behind a pointer. -/
inductive GoError where
  /-- The error `errors.New(s)`. -/
  | errorString (s : String)
  /-- An error with text `msg` whose `Unwrap` gives `err` (`fmt.Errorf` with `%w`). -/
  | wrapError (msg : String) (err : GoError)
  /-- The value `expr.QueryError{RefID: refID, Err: err}`. -/
  | queryError (refID : String) (err : GoError)
  /-- The pointer `&expr.QueryError{RefID: refID, Err: err}`. -/
  | queryErrorPtr (refID : String) (err : GoError)
  deriving DecidableEq, Repr

/-- The method `Error()`. The text of an `expr.QueryError` is built outside
this file: `queryErrorText refID cause` stands for it. -/
def GoError.Error (queryErrorText : String → String → String) : GoError → String
  | GoError.errorString s => s
  | GoError.wrapError msg _ => msg
  | GoError.queryError refID err => queryErrorText refID (GoError.Error queryErrorText err)
  | GoError.queryErrorPtr refID err => queryErrorText refID (GoError.Error queryErrorText err)

/-- Go `errors.As(err, &queryError)` with `var queryError expr.QueryError`: the
first error of the chain whose dynamic type is `expr.QueryError`. A
`*expr.QueryError` is not assignable to an `expr.QueryError`: the search goes on
with what it wraps. -/
def errorsAsQueryError : GoError → Option (String × GoError)
  | GoError.errorString _ => none
  | GoError.wrapError _ err => errorsAsQueryError err
  | GoError.queryError refID err => some (refID, err)
  | GoError.queryErrorPtr _ err => errorsAsQueryError err

/-- Go `eval.NumberValueCapture`; `Value` is a `*float64`. -/
structure NumberValueCapture where
  Var : String
  Labels : List (String × String)
  Value : Option Float64
  deriving DecidableEq, Repr

/-- Go `apimodels.ApiNumberValueCapture`. -/
structure ApiNumberValueCapture where
  Var : String
  Labels : List (String × String)
  Value : Option Float64
  IsNan : Bool
  deriving DecidableEq, Repr

/-- Go `apimodels.ApiEvalError`; `Metadata` is a `map[string]string`. -/
structure ApiEvalError where
  /-- Field `Type` (a reserved word here). -/
  Type_ : String
  Message : String
  Metadata : List (String × String)
  deriving DecidableEq, Repr

/-- Go `eval.Result`. `State` is the integer of `eval.State`, `Values` a map
that may be nil, `Error` an `error` that may be nil. -/
structure Result where
  Instance : List (String × String)
  State : Int
  EvaluatedAt : Time
  EvaluationDuration : Duration
  EvaluationString : String
  Values : Option (List (String × NumberValueCapture))
  Error : Option GoError
  deriving DecidableEq, Repr

/-- Go `apimodels.ApiEvalResult`. -/
structure ApiEvalResult where
  Instance : List (String × String)
  State : Int
  StateName : String
  EvaluatedAt : Time
  EvaluationDuration : Duration
  EvaluationString : String
  Values : Option (List (String × ApiNumberValueCapture))
  Error : Option ApiEvalError
  deriving DecidableEq, Repr

/-- `valueNumberCaptureToApi`. -/
def valueNumberCaptureToApi (numberValueCapture : NumberValueCapture) : ApiNumberValueCapture :=
  let valueIsNaN : Bool :=
    match numberValueCapture.Value with
    | some v => math.IsNaN v
    | none => false
  let apiValue := if valueIsNaN then none else numberValueCapture.Value
  let isNan := if valueIsNaN then true else false
  { Var := numberValueCapture.Var, Labels := numberValueCapture.Labels, Value := apiValue,
    IsNan := isNan }

/-- `apiToNumberValueCapture`. -/
def apiToNumberValueCapture (api : ApiNumberValueCapture) : NumberValueCapture :=
  let evalValue : Option Float64 :=
    match api.Value with
    | some v =>
      let apiValue := if api.IsNan then math.NaN else v
      some apiValue
    | none => none
  { Var := api.Var, Labels := api.Labels, Value := evalValue }

/-- `evaluationResultsToApi`. `stateString` is `eval.State.String` and
`queryErrorText` the text of an `expr.QueryError`, both from other packages. -/
def evaluationResultsToApi (stateString : Int → String)
    (queryErrorText : String → String → String) (evalResult : Result) : ApiEvalResult :=
  { Instance := evalResult.Instance
    State := evalResult.State
    StateName := stateString evalResult.State
    EvaluatedAt := evalResult.EvaluatedAt
    EvaluationDuration := evalResult.EvaluationDuration
    EvaluationString := evalResult.EvaluationString
    Values :=
      match evalResult.Values with
      | some values => some (values.map (fun kv => (kv.1, valueNumberCaptureToApi kv.2)))
      | none => none
    Error :=
      match evalResult.Error with
      | some err =>
        match errorsAsQueryError err with
        | some (refID, cause) =>
          some { Type_ := QueryErrorType, Message := GoError.Error queryErrorText cause,
                 Metadata := [(EvaluationErrorRefIdKey, refID)] }
        | none =>
          some { Type_ := OtherErrorType, Message := GoError.Error queryErrorText err,
                 Metadata := [] }
      | none => none }

/-- Reading a `map[string]string`: the empty string for a missing key. -/
def mapIndex (m : List (String × String)) (key : String) : String :=
  match m.lookup key with
  | some v => v
  | none => ""

/-- `apiToEvaluationResult`. -/
def apiToEvaluationResult (apiEvalResult : ApiEvalResult) : Result :=
  { Instance := apiEvalResult.Instance
    State := apiEvalResult.State
    EvaluatedAt := apiEvalResult.EvaluatedAt
    EvaluationDuration := apiEvalResult.EvaluationDuration
    EvaluationString := apiEvalResult.EvaluationString
    Values :=
      match apiEvalResult.Values with
      | some values => some (values.map (fun kv => (kv.1, apiToNumberValueCapture kv.2)))
      | none => none
    Error :=
      match apiEvalResult.Error with
      | some apiError =>
        if apiError.Type_ = QueryErrorType then
          let errorMetadata := apiError.Metadata
          let refId := mapIndex errorMetadata EvaluationErrorRefIdKey
          some (GoError.queryErrorPtr refId (GoError.errorString apiError.Message))
        else
          some (GoError.errorString apiError.Message)
      | none => none }

/-! ### Migration of an organisation's alerts
(`pkg/services/sqlstore/migrations/ualert/logzio_ualert_org_migration.go`) -/

/-- `defaultContactPointReceiverName`. -/
def defaultContactPointReceiverName : String :=
  "Default autogenerated contact point (placeholder)"

/-- Go `uidOrID`, an `interface{}` holding a channel UID (`string`) or a channel
ID (`int64`). -/
inductive uidOrID where
  /-- A `string`. -/
  | uid (s : String)
  /-- An `int64`. -/
  | id (n : Int)
  deriving DecidableEq, Repr

/-- Go `notificationChannel`, a row of `alert_notification`. The settings are
kept as the text of their JSON. -/
structure notificationChannel where
  ID : Int
  OrgID : Int
  Uid : String
  Name : String
  /-- Field `Type` (a reserved word here). -/
  Type_ : String
  DisableResolveMessage : Bool
  IsDefault : Bool
  Settings : String
  SecureSettings : List (String × String)
  deriving DecidableEq, Repr

/-- Go `PostableGrafanaReceiver`. -/
structure PostableGrafanaReceiver where
  UID : String
  Name : String
  /-- Field `Type` (a reserved word here). -/
  Type_ : String
  DisableResolveMessage : Bool
  Settings : String
  SecureSettings : List (String × String)
  deriving DecidableEq, Repr

/-- Go `PostableApiReceiver`. -/
structure PostableApiReceiver where
  Name : String
  GrafanaManagedReceivers : List PostableGrafanaReceiver
  deriving DecidableEq, Repr

/-- Go `Route`: a receiver name, label matchers (name and value of equality
matchers) and child routes. -/
inductive Route where
  /-- The route with these fields. -/
  | mk (Receiver : String) (Matchers : List (String × String)) (Routes : List Route)

/-- Field `Receiver`. -/
def Route.Receiver : Route → String
  | Route.mk receiver _ _ => receiver

/-- Field `Routes`. -/
def Route.Routes : Route → List Route
  | Route.mk _ _ routes => routes

/-- An entry of `ParsedSettings.Notifications` of a legacy alert. -/
structure dashAlertNot where
  UID : String
  ID : Int
  deriving DecidableEq, Repr

/-- An entry of `ParsedSettings.EmailNotifications` of a legacy alert. -/
structure dashAlertEmailNotification where
  Address : String
  deriving DecidableEq, Repr

/-- Go `dashAlertSettings`, as far as the migration of routes reads it. -/
structure dashAlertSettings where
  NoDataState : String
  ExecutionErrorState : String
  Notifications : List dashAlertNot
  EmailNotifications : List dashAlertEmailNotification
  deriving DecidableEq, Repr

/-- Go `dashAlert`, a legacy alert, as far as the migration reads it. The fields
after `ParsedSettings` are read when the rule is made, not when routes are. -/
structure dashAlert where
  Id : Int
  OrgId : Int
  Name : String
  State : String
  ParsedSettings : dashAlertSettings
  Message : String := ""
  Frequency : Int := 0
  For : Duration := 0
  DashboardId : Int := 0
  DashboardUID : String := ""
  /-- The text of the column `settings`, which `ParsedSettings` is read from. -/
  Settings : String := ""
  deriving DecidableEq, Repr

/-- What the migration calls outside this file. -/
structure MigrationEnv where
  /-- `util.GenerateShortUID()`: the value its n-th call returns (n from 0). -/
  GenerateShortUID : Nat → String
  /-- `migrateSettingsToSecureSettings(chanType, settings, secureSettings)`. -/
  migrateSettingsToSecureSettings : String → String → List (String × String) →
    Except String (String × List (String × String))
  /-- `extractChannelIDs(da)`: the channel UIDs or IDs a legacy alert notifies. -/
  extractChannelIDs : dashAlert → List uidOrID
  /-- `createRoute(ruleUID, filteredReceiverNames)`. -/
  createRoute : String → List String → Except String Route

/-- Go `pb.Matcher_Type` of the silences. -/
inductive MatcherType where
  | EQUAL
  | REGEXP
  | NOT_EQUAL
  | NOT_REGEXP
  deriving DecidableEq, Repr

/-- Go `pb.Matcher`. -/
structure Matcher where
  /-- Field `Type` (a reserved word here). -/
  Type_ : MatcherType
  Name : String
  Pattern : String
  deriving DecidableEq, Repr

/-- Go `pb.Silence`. -/
structure Silence where
  Id : String
  Matchers : List Matcher
  StartsAt : Time
  EndsAt : Time
  CreatedBy : String
  Comment : String
  deriving DecidableEq, Repr

/-- Go `pb.MeshSilence`. -/
structure MeshSilence where
  Silence : Silence
  ExpiresAt : Time
  deriving DecidableEq, Repr

/-- The fields of `MigrateOrgAlerts` read or written when rules, receivers and
routes are built, with the numbers of calls made so far to
`util.GenerateShortUID`, to `uuid.NewV4` and to `time.Now`. `seenChannelUIDs`
is a set (`map[string]struct{}`), `channelUidByEmail` a `map[string]string` and
`silences` the map from organisation to silences. -/
structure MigrateOrgAlerts where
  seenChannelUIDs : List String
  orgId : Int
  channelUidByEmail : List (String × String)
  shortUIDCalls : Nat
  silences : List (Int × List MeshSilence) := []
  uuidCalls : Nat := 0
  nowCalls : Nat := 0
  deriving DecidableEq, Repr

/-- The loop of `generateChannelUID`, with the number of attempts left. -/
def MigrateOrgAlerts.generateChannelUID.loop (env : MigrationEnv) :
    Nat → MigrateOrgAlerts → Except String String × MigrateOrgAlerts
  | 0, m => (Except.error "failed to generate UID for notification channel", m)
  | attempts + 1, m =>
    let gen := env.GenerateShortUID m.shortUIDCalls
    let m := { m with shortUIDCalls := m.shortUIDCalls + 1 }
    if gen ∉ m.seenChannelUIDs then
      (Except.ok gen, { m with seenChannelUIDs := gen :: m.seenChannelUIDs })
    else
      MigrateOrgAlerts.generateChannelUID.loop env attempts m

/-- `MigrateOrgAlerts.generateChannelUID`: at most five attempts. -/
def MigrateOrgAlerts.generateChannelUID (env : MigrationEnv) (m : MigrateOrgAlerts) :
    Except String String × MigrateOrgAlerts :=
  MigrateOrgAlerts.generateChannelUID.loop env 5 m

/-- `MigrateOrgAlerts.createNotifier`. -/
def MigrateOrgAlerts.createNotifier (env : MigrationEnv) (m : MigrateOrgAlerts)
    (c : notificationChannel) : Except String PostableGrafanaReceiver × MigrateOrgAlerts :=
  match MigrateOrgAlerts.generateChannelUID env m with
  | (Except.error err, m1) => (Except.error err, m1)
  | (Except.ok uid, m1) =>
    match env.migrateSettingsToSecureSettings c.Type_ c.Settings c.SecureSettings with
    | Except.error err => (Except.error err, m1)
    | Except.ok (settings, secureSettings) =>
      (Except.ok
        { UID := uid, Name := c.Name, Type_ := c.Type_,
          DisableResolveMessage := c.DisableResolveMessage, Settings := settings,
          SecureSettings := secureSettings }, m1)

/-- The loop `for _, c := range defaultChannels` of
`createDefaultRouteAndReceiver`, with the notifiers of the default receiver
collected so far. -/
def MigrateOrgAlerts.createDefaultRouteAndReceiver.loop (env : MigrationEnv) :
    List notificationChannel → MigrateOrgAlerts → List PostableGrafanaReceiver →
      Except String (List PostableGrafanaReceiver) × MigrateOrgAlerts
  | [], m, notifiers => (Except.ok notifiers, m)
  | c :: rest, m, notifiers =>
    match MigrateOrgAlerts.createNotifier env m c with
    | (Except.error err, m1) => (Except.error err, m1)
    | (Except.ok defaultNotifier, m1) =>
      MigrateOrgAlerts.createDefaultRouteAndReceiver.loop env rest m1
        (notifiers ++ [defaultNotifier])

/-- `MigrateOrgAlerts.createDefaultRouteAndReceiver`: the new receiver (`none`
for nil) and the root route, or the error. -/
def MigrateOrgAlerts.createDefaultRouteAndReceiver (env : MigrationEnv) (m : MigrateOrgAlerts)
    (defaultChannels : List notificationChannel) :
    Except String (Option PostableApiReceiver × Route) × MigrateOrgAlerts :=
  let defaultReceiverName := defaultContactPointReceiverName
  if h : defaultChannels.length ≠ 1 then
    match MigrateOrgAlerts.createDefaultRouteAndReceiver.loop env defaultChannels m [] with
    | (Except.error err, m1) => (Except.error err, m1)
    | (Except.ok notifiers, m1) =>
      (Except.ok
        (some { Name := defaultReceiverName, GrafanaManagedReceivers := notifiers },
          Route.mk defaultReceiverName [] []), m1)
  else
    let defaultReceiverName := (defaultChannels.get ⟨0, by omega⟩).Name
    (Except.ok (none, Route.mk defaultReceiverName [] []), m)

/-- `extractEmailChannelIDs`. -/
def extractEmailChannelIDs (d : dashAlert) (channelUidByEmailAddress : List (String × String)) :
    List uidOrID :=
  d.ParsedSettings.EmailNotifications.foldl
    (fun channelUids emailNot =>
      if emailNot.Address ≠ "" then
        match channelUidByEmailAddress.lookup emailNot.Address with
        | some channelUid => channelUids ++ [uidOrID.uid channelUid]
        | none => channelUids
      else channelUids)
    []

/-- Setting `names[n] = struct{}{}` in a set of names. -/
def setAdd (names : List String) (n : String) : List String :=
  if n ∈ names then names else names ++ [n]

/-- The closure `coveredByDefault` of `filterReceiversForAlert`. -/
def MigrateOrgAlerts.filterReceiversForAlert.coveredByDefault (defaultReceivers : List String)
    (names : List String) : Bool :=
  names.all (fun n => decide (n ∈ defaultReceivers))

/-- The body of the loop `for _, uidOrId := range channelIDs` of
`filterReceiversForAlert`: the name of the receiver of a known channel is added
to the set, an unknown channel is skipped (with a warning in the log). -/
def MigrateOrgAlerts.filterReceiversForAlert.step
    (receivers : List (uidOrID × PostableApiReceiver)) (filteredReceiverNames : List String)
    (uidOrId : uidOrID) : List String :=
  match receivers.lookup uidOrId with
  | some recv => setAdd filteredReceiverNames recv.Name
  | none => filteredReceiverNames

/-- `MigrateOrgAlerts.filterReceiversForAlert`. `receivers` is the map from
channel UID or ID to receiver, `defaultReceivers` the set of the names of the
default receivers; the result is a set of names, empty for nil. -/
def MigrateOrgAlerts.filterReceiversForAlert (env : MigrationEnv) (m : MigrateOrgAlerts)
    (da : dashAlert) (receivers : List (uidOrID × PostableApiReceiver))
    (defaultReceivers : List String) : List String :=
  let channelIDs := env.extractChannelIDs da
  let emailNotificationChannelIDs := extractEmailChannelIDs da m.channelUidByEmail
  let channelIDs := channelIDs ++ emailNotificationChannelIDs
  if channelIDs.length = 0 then
    []
  else
    let filteredReceiverNames :=
      channelIDs.foldl (MigrateOrgAlerts.filterReceiversForAlert.step receivers) []
    if filteredReceiverNames.length = 0 ||
        MigrateOrgAlerts.filterReceiversForAlert.coveredByDefault defaultReceivers
          filteredReceiverNames then
      []
    else
      defaultReceivers.foldl setAdd filteredReceiverNames

/-- `MigrateOrgAlerts.createRouteForAlert`: the calls made to `createRoute`
(rule UID and receiver names) and what is returned, `none` for a nil route. -/
def MigrateOrgAlerts.createRouteForAlert (env : MigrationEnv) (m : MigrateOrgAlerts)
    (ruleUID : String) (da : dashAlert) (receivers : List (uidOrID × PostableApiReceiver))
    (defaultReceivers : List String) :
    List (String × List String) × Except String (Option Route) :=
  let filteredReceiverNames :=
    MigrateOrgAlerts.filterReceiversForAlert env m da receivers defaultReceivers
  if filteredReceiverNames.length ≠ 0 then
    match env.createRoute ruleUID filteredReceiverNames with
    | Except.error err => ([(ruleUID, filteredReceiverNames)], Except.error err)
    | Except.ok route => ([(ruleUID, filteredReceiverNames)], Except.ok (some route))
  else
    ([], Except.ok none)

/-- The receiver names an alert's channel references resolve to: the names of
the receivers found for the channel UIDs or IDs of the alert and for the
channel UIDs its email addresses are mapped to (references without receiver
are left out). -/
def resolvedReceiverNames (env : MigrationEnv) (m : MigrateOrgAlerts) (da : dashAlert)
    (receivers : List (uidOrID × PostableApiReceiver)) : List String :=
  (env.extractChannelIDs da ++ extractEmailChannelIDs da m.channelUidByEmail).filterMap
    (fun uidOrId => (receivers.lookup uidOrId).map (fun recv => recv.Name))

/-- An environment for examples: the n-th short UID is `n + 1` letters `u`,
settings migrate unchanged, a legacy alert notifies the channels of its
`Notifications` (by UID, by ID when the UID is empty) and `createRoute` builds
a route matching the rule UID with one child per receiver name. -/
def MigrationEnv.sample : MigrationEnv where
  GenerateShortUID := fun n => String.mk (List.replicate (n + 1) 'u')
  migrateSettingsToSecureSettings := fun _ settings secureSettings =>
    Except.ok (settings, secureSettings)
  extractChannelIDs := fun da =>
    da.ParsedSettings.Notifications.filterMap (fun ui =>
      if ui.UID ≠ "" then some (uidOrID.uid ui.UID)
      else if ui.ID > 0 then some (uidOrID.id ui.ID)
      else none)
  createRoute := fun ruleUID names =>
    Except.ok (Route.mk "" [("rule_uid", ruleUID)] (names.map (fun n => Route.mk n [] [])))

/-- A migration that has generated nothing yet, for examples. -/
def MigrateOrgAlerts.sample : MigrateOrgAlerts :=
  { seenChannelUIDs := [], orgId := 1, channelUidByEmail := [("ops@example.com", "mail-uid")],
    shortUIDCalls := 0 }

/-- A notification channel for examples. -/
def notificationChannel.sample (id : Int) (name : String) (isDefault : Bool) :
    notificationChannel :=
  { ID := id, OrgID := 1, Uid := name, Name := name, Type_ := "slack",
    DisableResolveMessage := false, IsDefault := isDefault, Settings := "", SecureSettings := [] }

/-- A legacy alert for examples, notifying the channels of the given UIDs. -/
def dashAlert.sample (uids : List String) : dashAlert :=
  { Id := 7, OrgId := 1, Name := "cpu", State := "ok",
    ParsedSettings :=
      { NoDataState := "no_data", ExecutionErrorState := "alerting",
        Notifications := uids.map (fun u => { UID := u, ID := 0 }),
        EmailNotifications := [] } }

/-- The receiver of a notification channel, for examples. -/
def PostableApiReceiver.sample (name : String) : PostableApiReceiver :=
  { Name := name, GrafanaManagedReceivers := [] }

/-- A statement carrying between 1 and 20 rows, eight values a row, after the
upsert text the dialect generates for that number of rows. -/
def SaveAlertInstances.wellBatched (env : StoreEnv) (stmt : Statement) : Prop :=
  ∃ (text : String) (rows : List (String × AlertInstance)),
    1 ≤ rows.length ∧ rows.length ≤ 20 ∧
    stmt = SqlArg.sql text :: rows.flatMap (fun r => SaveAlertInstances.rowArgs r.1 r.2) ∧
    (Statement.values stmt).length = 8 * rows.length ∧
    env.UpsertMultipleSQL "alert_instance" ["rule_org_id", "rule_uid", "labels_hash"]
      ["rule_org_id", "rule_uid", "labels", "labels_hash", "current_state",
        "current_state_since", "current_state_end", "last_eval_time"] (rows.length : Int) =
      Except.ok text

/-- How a Go function ends: with its results, with a non-nil `error`, or in a
panic (here: a nil pointer dereference). -/
inductive Outcome (ε α : Type) where
  /-- Normal return, nil error. -/
  | ok (a : α)
  /-- Return of a non-nil error. -/
  | error (err : ε)
  /-- Run-time panic. -/
  | panic
  deriving DecidableEq, Repr

/-- Writing `m[k] = v` in a Go map kept as a list of entries with distinct keys. -/
def mapSet {κ ν : Type} [BEq κ] (m : List (κ × ν)) (k : κ) (v : ν) : List (κ × ν) :=
  (k, v) :: m.filter (fun kv => !(kv.1 == k))

/-- The end of the body of the loop of `createReceivers`: the receiver of a
channel is stored under the UID of the channel when it is not empty and under
its ID when it is not zero. -/
def MigrateOrgAlerts.createReceivers.store (receiversMap : List (uidOrID × PostableApiReceiver))
    (c : notificationChannel) (recv : PostableApiReceiver) :
    List (uidOrID × PostableApiReceiver) :=
  let receiversMap :=
    if c.Uid ≠ "" then mapSet receiversMap (uidOrID.uid c.Uid) recv else receiversMap
  let receiversMap :=
    if c.ID ≠ 0 then mapSet receiversMap (uidOrID.id c.ID) recv else receiversMap
  receiversMap

/-- The loop `for _, c := range allChannels` of `createReceivers`, with the map
and the list built so far. -/
def MigrateOrgAlerts.createReceivers.loop (env : MigrationEnv) :
    List notificationChannel → MigrateOrgAlerts → List (uidOrID × PostableApiReceiver) →
      List PostableApiReceiver →
      Except String (List (uidOrID × PostableApiReceiver) × List PostableApiReceiver) ×
        MigrateOrgAlerts
  | [], m, receiversMap, receivers => (Except.ok (receiversMap, receivers), m)
  | c :: rest, m, receiversMap, receivers =>
    match MigrateOrgAlerts.createNotifier env m c with
    | (Except.error err, m1) => (Except.error err, m1)
    | (Except.ok notifier, m1) =>
      let recv : PostableApiReceiver := { Name := c.Name, GrafanaManagedReceivers := [notifier] }
      let receivers := receivers ++ [recv]
      MigrateOrgAlerts.createReceivers.loop env rest m1
        (MigrateOrgAlerts.createReceivers.store receiversMap c recv) receivers

/-- `MigrateOrgAlerts.createReceivers`: the map from channel UID or ID to
receiver and the list of receivers, or the error. -/
def MigrateOrgAlerts.createReceivers (env : MigrationEnv) (m : MigrateOrgAlerts)
    (allChannels : List notificationChannel) :
    Except String (List (uidOrID × PostableApiReceiver) × List PostableApiReceiver) ×
      MigrateOrgAlerts :=
  MigrateOrgAlerts.createReceivers.loop env allChannels m [] []

/-- Go `PostableApiAlertingConfig`: the root route (a pointer, nil at first) and
the receivers. -/
structure PostableApiAlertingConfig where
  Route : Option Route
  Receivers : List PostableApiReceiver

/-- Go `PostableUserConfig`. -/
structure PostableUserConfig where
  AlertmanagerConfig : PostableApiAlertingConfig

/-- The statement `m[orgID] = append(m[orgID], c)` on a map from organisation to
channels. -/
def channelsAppend : List (Int × List notificationChannel) → Int → notificationChannel →
    List (Int × List notificationChannel)
  | [], orgID, c => [(orgID, [c])]
  | (k, cs) :: rest, orgID, c =>
    if k = orgID then (k, cs ++ [c]) :: rest else (k, cs) :: channelsAppend rest orgID c

/-- The loop `for i, c := range allChannels` of `getNotificationChannelMap`. -/
def MigrateOrgAlerts.getNotificationChannelMap.loop :
    List notificationChannel → List (Int × List notificationChannel) →
      List (Int × List notificationChannel) →
      List (Int × List notificationChannel) × List (Int × List notificationChannel)
  | [], allChannelsMap, defaultChannelsMap => (allChannelsMap, defaultChannelsMap)
  | c :: rest, allChannelsMap, defaultChannelsMap =>
    if c.Type_ = "hipchat" ∨ c.Type_ = "sensu" then
      MigrateOrgAlerts.getNotificationChannelMap.loop rest allChannelsMap defaultChannelsMap
    else
      let allChannelsMap := channelsAppend allChannelsMap c.OrgID c
      let defaultChannelsMap :=
        if c.IsDefault then channelsAppend defaultChannelsMap c.OrgID c else defaultChannelsMap
      MigrateOrgAlerts.getNotificationChannelMap.loop rest allChannelsMap defaultChannelsMap

/-- `MigrateOrgAlerts.getNotificationChannelMap`; `found` is what the query on
`alert_notification` for the organisation returns. -/
def MigrateOrgAlerts.getNotificationChannelMap (found : Except String (List notificationChannel)) :
    Except String
      (List (Int × List notificationChannel) × List (Int × List notificationChannel)) :=
  match found with
  | Except.error err => Except.error err
  | Except.ok allChannels =>
    if allChannels.length = 0 then Except.ok ([], [])
    else Except.ok (MigrateOrgAlerts.getNotificationChannelMap.loop allChannels [] [])

/-- What `setupAlertmanagerConfigs` has built so far: the configurations per
organisation (`amConfigPerOrg`), the migration, and the calls made to
`createRoute`, each with the organisation whose configuration got the route. -/
structure SetupState where
  amConfigPerOrg : List (Int × PostableUserConfig)
  m : MigrateOrgAlerts
  routeCalls : List (Int × String × List String)

/-- The statement `amConfigPerOrg[orgId].AlertmanagerConfig.Route.Routes =
append(amConfigPerOrg[orgId].AlertmanagerConfig.Route.Routes, route)`: `none`
when the configuration or its route is nil. -/
def appendChildRoute (amConfigPerOrg : List (Int × PostableUserConfig)) (orgId : Int)
    (route : Route) : Option (List (Int × PostableUserConfig)) :=
  match amConfigPerOrg.lookup orgId with
  | none => none
  | some amConfig =>
    match amConfig.AlertmanagerConfig.Route with
    | none => none
    | some (Route.mk receiver matchers routes) =>
      some (mapSet amConfigPerOrg orgId
        { AlertmanagerConfig :=
            { amConfig.AlertmanagerConfig with
              Route := some (Route.mk receiver matchers (routes ++ [route])) } })

/-- The loop `for ruleUid, da := range rules` of `setupAlertmanagerConfigs`. -/
def MigrateOrgAlerts.setupAlertmanagerConfigs.rulesLoop (env : MigrationEnv)
    (receiversMap : List (uidOrID × PostableApiReceiver)) (defaultReceivers : List String)
    (orgID : Int) :
    List (String × dashAlert) → SetupState → Outcome String SetupState
  | [], st => Outcome.ok st
  | (ruleUid, da) :: rest, st =>
    match MigrateOrgAlerts.createRouteForAlert env st.m ruleUid da receiversMap
        defaultReceivers with
    | (_, Except.error err) =>
      Outcome.error ("failed to create route for alert " ++ da.Name ++ " in orgId " ++
        toString orgID ++ ": " ++ err)
    | (_, Except.ok none) =>
      MigrateOrgAlerts.setupAlertmanagerConfigs.rulesLoop env receiversMap defaultReceivers
        orgID rest st
    | (calls, Except.ok (some route)) =>
      match appendChildRoute st.amConfigPerOrg da.OrgId route with
      | none => Outcome.panic
      | some amConfigPerOrg =>
        MigrateOrgAlerts.setupAlertmanagerConfigs.rulesLoop env receiversMap defaultReceivers
          orgID rest
          { st with
            amConfigPerOrg := amConfigPerOrg
            routeCalls := st.routeCalls ++ calls.map (fun call => (da.OrgId, call.1, call.2)) }

/-- The body of the loop `for orgID, orgChannels := range allChannelsPerOrg` of
`setupAlertmanagerConfigs`. `validate` is `validateAlertmanagerConfig`, which
hands every notifier of the configuration to the factory of its channel type. -/
def MigrateOrgAlerts.setupAlertmanagerConfigs.orgStep (env : MigrationEnv)
    (validate : Int → PostableUserConfig → Except String Unit)
    (defaultChannelsPerOrg : List (Int × List notificationChannel))
    (rulesPerOrg : List (Int × List (String × dashAlert)))
    (orgID : Int) (orgChannels : List notificationChannel) (st : SetupState) :
    Outcome String SetupState :=
  let amConfig : PostableUserConfig := { AlertmanagerConfig := { Route := none, Receivers := [] } }
  let st := { st with amConfigPerOrg := mapSet st.amConfigPerOrg orgID amConfig }
  match MigrateOrgAlerts.createReceivers env st.m orgChannels with
  | (Except.error err, _) =>
    Outcome.error ("failed to create receiver in orgId " ++ toString orgID ++ ": " ++ err)
  | (Except.ok (receiversMap, receivers), m1) =>
    let st := { st with m := m1 }
    if receivers.length = 0 then
      Outcome.ok st
    else
      let defaultChannels : List notificationChannel :=
        match defaultChannelsPerOrg.lookup orgID with
        | some channels => channels
        | none => []
      let defaultReceivers := (defaultChannels.map (fun c => c.Name)).foldl setAdd []
      match MigrateOrgAlerts.createDefaultRouteAndReceiver env st.m defaultChannels with
      | (Except.error err, _) =>
        Outcome.error ("failed to create default route & receiver in orgId " ++
          toString orgID ++ ": " ++ err)
      | (Except.ok (defaultReceiver, defaultRoute), m2) =>
        let receivers :=
          match defaultReceiver with
          | some r => receivers ++ [r]
          | none => receivers
        let amConfig : PostableUserConfig :=
          { AlertmanagerConfig := { Route := some defaultRoute, Receivers := receivers } }
        let st := { st with m := m2, amConfigPerOrg := mapSet st.amConfigPerOrg orgID amConfig }
        let rules : List (String × dashAlert) :=
          match rulesPerOrg.lookup orgID with
          | some rules => rules
          | none => []
        match MigrateOrgAlerts.setupAlertmanagerConfigs.rulesLoop env receiversMap
            defaultReceivers orgID rules st with
        | Outcome.error err => Outcome.error err
        | Outcome.panic => Outcome.panic
        | Outcome.ok st =>
          -- `amConfig` points to the entry of `orgID` in `amConfigPerOrg`
          let amConfig :=
            match st.amConfigPerOrg.lookup orgID with
            | some current => current
            | none => amConfig
          match validate orgID amConfig with
          | Except.error err =>
            Outcome.error ("failed to validate AlertmanagerConfig in orgId " ++
              toString orgID ++ ": " ++ err)
          | Except.ok _ => Outcome.ok st

/-- The loop `for orgID, orgChannels := range allChannelsPerOrg` of
`setupAlertmanagerConfigs`, over the entries of the map in the order of the
iteration. -/
def MigrateOrgAlerts.setupAlertmanagerConfigs.orgLoop (env : MigrationEnv)
    (validate : Int → PostableUserConfig → Except String Unit)
    (defaultChannelsPerOrg : List (Int × List notificationChannel))
    (rulesPerOrg : List (Int × List (String × dashAlert))) :
    List (Int × List notificationChannel) → SetupState → Outcome String SetupState
  | [], st => Outcome.ok st
  | (orgID, orgChannels) :: rest, st =>
    match MigrateOrgAlerts.setupAlertmanagerConfigs.orgStep env validate defaultChannelsPerOrg
        rulesPerOrg orgID orgChannels st with
    | Outcome.error err => Outcome.error err
    | Outcome.panic => Outcome.panic
    | Outcome.ok st1 =>
      MigrateOrgAlerts.setupAlertmanagerConfigs.orgLoop env validate defaultChannelsPerOrg
        rulesPerOrg rest st1

/-- `MigrateOrgAlerts.setupAlertmanagerConfigs`. `found` is what the query of
`getNotificationChannelMap` returns and `rulesPerOrg` the migrated rules: per
organisation, the legacy alert of each rule UID. -/
def MigrateOrgAlerts.setupAlertmanagerConfigs (env : MigrationEnv)
    (validate : Int → PostableUserConfig → Except String Unit)
    (found : Except String (List notificationChannel)) (m : MigrateOrgAlerts)
    (rulesPerOrg : List (Int × List (String × dashAlert))) : Outcome String SetupState :=
  match MigrateOrgAlerts.getNotificationChannelMap found with
  | Except.error err => Outcome.error ("failed to load notification channels: " ++ err)
  | Except.ok (allChannelsPerOrg, defaultChannelsPerOrg) =>
    MigrateOrgAlerts.setupAlertmanagerConfigs.orgLoop env validate defaultChannelsPerOrg
      rulesPerOrg allChannelsPerOrg { amConfigPerOrg := [], m := m, routeCalls := [] }

/-- A notification channel for examples, with a UID of its own. -/
def notificationChannel.sampleWithUid (id : Int) (uid name : String) : notificationChannel :=
  { notificationChannel.sample id name false with Uid := uid }

/-- The names of the receivers listed in a configuration. -/
def PostableUserConfig.receiverNames (config : PostableUserConfig) : List String :=
  config.AlertmanagerConfig.Receivers.map (fun r => r.Name)

/-- In every configuration with a route, the receiver of the root route is the
name of a listed receiver. -/
def SetupState.rootsListed (st : SetupState) : Prop :=
  ∀ (orgID : Int) (config : PostableUserConfig) (route : Route),
    st.amConfigPerOrg.lookup orgID = some config →
    config.AlertmanagerConfig.Route = some route →
    route.Receiver ∈ config.receiverNames

/-- Every receiver name chosen for a child route is the name of a receiver
listed in the configuration the route was added to. -/
def SetupState.childrenListed (st : SetupState) : Prop :=
  ∀ call ∈ st.routeCalls, ∃ config : PostableUserConfig,
    st.amConfigPerOrg.lookup call.1 = some config ∧
    ∀ n ∈ call.2.2, n ∈ config.receiverNames

/-! ### HTTP handlers (`pkg/services/ngalert/api/api_provisioning.go`,
`pkg/services/ngalert/api/logzio_alerting.go`) -/

/-- The error values the handlers compare with `errors.Is`. -/
inductive Sentinel where
  /-- `store.ErrNoAlertmanagerConfiguration`. -/
  | ErrNoAlertmanagerConfiguration
  /-- `provisioning.ErrValidation`. -/
  | ErrValidation
  /-- `provisioning.ErrNotFound`. -/
  | ErrNotFound
  /-- `alerting_models.ErrAlertRuleNotFound`. -/
  | ErrAlertRuleNotFound
  /-- `alerting_models.ErrAlertRuleFailedValidation`. -/
  | ErrAlertRuleFailedValidation
  /-- `notifier.ErrNoAlertmanagerForOrg`. -/
  | ErrNoAlertmanagerForOrg
  deriving DecidableEq, Repr

/-- A non-nil `error` returned by a service: one of the values above, an error
wrapping another one (`fmt.Errorf` with `%w`), or any other error. -/
inductive ServiceError where
  /-- One of the error values compared with `errors.Is`. -/
  | sentinel (s : Sentinel)
  /-- An error with text `msg` whose `Unwrap` gives `err`. -/
  | wrap (msg : String) (err : ServiceError)
  /-- Any other error, with its text. -/
  | other (msg : String)
  deriving DecidableEq, Repr

/-- Go `errors.Is(err, target)` for a non-nil `err`: the chain of `err` holds
`target`. -/
def errorsIs : ServiceError → Sentinel → Bool
  | ServiceError.sentinel s, target => s == target
  | ServiceError.wrap _ err, target => errorsIs err target
  | ServiceError.other _, _ => false

/-- `http.StatusOK`. -/
def StatusOK : Int := 200
/-- `http.StatusCreated`. -/
def StatusCreated : Int := 201
/-- `http.StatusAccepted`. -/
def StatusAccepted : Int := 202
/-- `http.StatusNoContent`. -/
def StatusNoContent : Int := 204
/-- `http.StatusBadRequest`. -/
def StatusBadRequest : Int := 400
/-- `http.StatusNotFound`. -/
def StatusNotFound : Int := 404
/-- `http.StatusInternalServerError`. -/
def StatusInternalServerError : Int := 500

/-- What a response carries besides its status. -/
inductive ResponseBody (α : Type) where
  /-- The body of `response.Error(status, err.Error(), nil)`. -/
  | errorText (err : ServiceError)
  /-- The body of `response.Error(status, message, err)`. -/
  | error (message : String) (err : ServiceError)
  /-- The body of `ErrResp(status, err, "")`. -/
  | errResp (err : ServiceError)
  /-- The body `util.DynMap{"message": text}`. -/
  | message (text : String)
  /-- A value written as JSON. -/
  | json (value : α)
  /-- The empty string written as JSON. -/
  | empty

/-- Go `response.Response`: status and body. -/
structure Response (α : Type) where
  status : Int
  body : ResponseBody α

/-- Go `definitions.EmbeddedContactPoint`. -/
structure EmbeddedContactPoint where
  UID : String
  Name : String
  /-- Field `Type` (a reserved word here). -/
  Type_ : String
  Settings : String
  DisableResolveMessage : Bool
  deriving DecidableEq, Repr

/-- Go `definitions.AlertRule`, the alert rule of the provisioning API; the
fields the handlers do not touch are kept together in `Rest`. -/
structure ProvisionedAlertRule where
  ID : Int
  UID : String
  OrgID : Int
  Updated : Time
  Rest : String
  deriving DecidableEq, Repr

/-- Go `definitions.AlertRuleGroup`. -/
structure AlertRuleGroup where
  Interval : Int
  deriving DecidableEq, Repr

/-- What a provisioning handler can answer with. -/
inductive ProvisioningValue where
  /-- A contact point. -/
  | contactPoint (cp : EmbeddedContactPoint)
  /-- An alert rule. -/
  | alertRule (ar : ProvisionedAlertRule)
  /-- A rule group. -/
  | ruleGroup (ag : AlertRuleGroup)
  deriving DecidableEq, Repr

/-- The services behind `ProvisioningSrv`, as far as the mutation handlers call
them. A service answering with an error returns `some err` or `Except.error err`.
The `Bool` of the contact point services tells whether the context carries
`SkipLogzioContactPointGuardsCtxKey`; the policy tree is kept as text.
`UpstreamModel` is the method of `definitions.AlertRule`, the identity on the
fields kept here. -/
structure ProvisioningSrv where
  UpdatePolicyTree : Int → String → Option ServiceError
  CreateContactPoint : Int → EmbeddedContactPoint → Except ServiceError EmbeddedContactPoint
  UpdateContactPoint : Bool → Int → EmbeddedContactPoint → Option ServiceError
  DeleteContactPoint : Bool → Int → String → Option ServiceError
  CreateAlertRule : ProvisionedAlertRule → Except ServiceError ProvisionedAlertRule
  UpdateAlertRule : ProvisionedAlertRule → Except ServiceError ProvisionedAlertRule
  DeleteAlertRule : Int → String → Option ServiceError
  UpdateRuleGroup : Int → String → String → Int → Option ServiceError

/-- Go `models.ReqContext`, as far as the handlers read it: the organisation of
the signed-in user and the path parameter `:ID`. -/
structure ReqContext where
  OrgId : Int
  ParamID : String
  deriving DecidableEq, Repr

/-- `ProvisioningSrv.RoutePutPolicyTree`. -/
def ProvisioningSrv.RoutePutPolicyTree (srv : ProvisioningSrv) (c : ReqContext) (tree : String) :
    Response ProvisioningValue :=
  match srv.UpdatePolicyTree c.OrgId tree with
  | some err =>
    if errorsIs err Sentinel.ErrNoAlertmanagerConfiguration then
      { status := StatusNotFound, body := ResponseBody.errorText err }
    else if errorsIs err Sentinel.ErrValidation then
      { status := StatusBadRequest, body := ResponseBody.errorText err }
    else
      { status := StatusInternalServerError, body := ResponseBody.errResp err }
  | none => { status := StatusAccepted, body := ResponseBody.message "policies updated" }

/-- `ProvisioningSrv.RoutePostContactPoint`. -/
def ProvisioningSrv.RoutePostContactPoint (srv : ProvisioningSrv) (c : ReqContext)
    (cp : EmbeddedContactPoint) : Response ProvisioningValue :=
  match srv.CreateContactPoint c.OrgId cp with
  | Except.error err =>
    if errorsIs err Sentinel.ErrValidation then
      { status := StatusBadRequest, body := ResponseBody.errorText err }
    else
      { status := StatusInternalServerError, body := ResponseBody.errResp err }
  | Except.ok contactPoint =>
    { status := StatusAccepted,
      body := ResponseBody.json (ProvisioningValue.contactPoint contactPoint) }

/-- The part `RoutePutContactPoint` and `RouteInternalPutContactPoint` share:
what follows the call of `UpdateContactPoint`, whose result is `err`. -/
def ProvisioningSrv.putContactPointResponse (err : Option ServiceError) :
    Response ProvisioningValue :=
  match err with
  | some err =>
    if errorsIs err Sentinel.ErrValidation then
      { status := StatusBadRequest, body := ResponseBody.errorText err }
    else if errorsIs err Sentinel.ErrNotFound then
      { status := StatusNotFound, body := ResponseBody.errorText err }
    else
      { status := StatusInternalServerError, body := ResponseBody.errResp err }
  | none => { status := StatusAccepted, body := ResponseBody.message "contactpoint updated" }

/-- `ProvisioningSrv.RoutePutContactPoint`. -/
def ProvisioningSrv.RoutePutContactPoint (srv : ProvisioningSrv) (c : ReqContext)
    (cp : EmbeddedContactPoint) (UID : String) : Response ProvisioningValue :=
  let cp := { cp with UID := UID }
  ProvisioningSrv.putContactPointResponse (srv.UpdateContactPoint false c.OrgId cp)

/-- `ProvisioningSrv.RouteInternalPutContactPoint`. -/
def ProvisioningSrv.RouteInternalPutContactPoint (srv : ProvisioningSrv) (c : ReqContext)
    (cp : EmbeddedContactPoint) (UID : String) : Response ProvisioningValue :=
  let cp := { cp with UID := UID }
  ProvisioningSrv.putContactPointResponse (srv.UpdateContactPoint true c.OrgId cp)

/-- The part `RouteDeleteContactPoint` and `RouteInternalDeleteContactPoint`
share: what follows the call of `DeleteContactPoint`, whose result is `err`. -/
def ProvisioningSrv.deleteContactPointResponse (err : Option ServiceError) :
    Response ProvisioningValue :=
  match err with
  | some err =>
    if errorsIs err Sentinel.ErrValidation then
      { status := StatusBadRequest, body := ResponseBody.errorText err }
    else
      { status := StatusInternalServerError, body := ResponseBody.errResp err }
  | none => { status := StatusAccepted, body := ResponseBody.message "contactpoint deleted" }

/-- `ProvisioningSrv.RouteDeleteContactPoint`. -/
def ProvisioningSrv.RouteDeleteContactPoint (srv : ProvisioningSrv) (c : ReqContext) :
    Response ProvisioningValue :=
  let cpID := c.ParamID
  ProvisioningSrv.deleteContactPointResponse (srv.DeleteContactPoint false c.OrgId cpID)

/-- `ProvisioningSrv.RouteInternalDeleteContactPoint`. -/
def ProvisioningSrv.RouteInternalDeleteContactPoint (srv : ProvisioningSrv) (c : ReqContext) :
    Response ProvisioningValue :=
  let cpID := c.ParamID
  ProvisioningSrv.deleteContactPointResponse (srv.DeleteContactPoint true c.OrgId cpID)

/-- `ProvisioningSrv.RoutePostAlertRule`. -/
def ProvisioningSrv.RoutePostAlertRule (srv : ProvisioningSrv) (c : ReqContext)
    (ar : ProvisionedAlertRule) : Response ProvisioningValue :=
  let ar := { ar with OrgID := c.OrgId }
  match srv.CreateAlertRule ar with
  | Except.error err =>
    if errorsIs err Sentinel.ErrAlertRuleFailedValidation then
      { status := StatusBadRequest, body := ResponseBody.errorText err }
    else
      { status := StatusInternalServerError, body := ResponseBody.errResp err }
  | Except.ok createdAlertRule =>
    let ar := { ar with ID := createdAlertRule.ID }
    let ar := { ar with UID := createdAlertRule.UID }
    let ar := { ar with Updated := createdAlertRule.Updated }
    { status := StatusCreated, body := ResponseBody.json (ProvisioningValue.alertRule ar) }

/-- `ProvisioningSrv.RoutePutAlertRule`. -/
def ProvisioningSrv.RoutePutAlertRule (srv : ProvisioningSrv) (c : ReqContext)
    (ar : ProvisionedAlertRule) (UID : String) : Response ProvisioningValue :=
  let ar := { ar with UID := UID }
  let ar := { ar with OrgID := c.OrgId }
  match srv.UpdateAlertRule ar with
  | Except.error err =>
    if errorsIs err Sentinel.ErrAlertRuleNotFound then
      { status := StatusNotFound, body := ResponseBody.errorText err }
    else if errorsIs err Sentinel.ErrAlertRuleFailedValidation then
      { status := StatusBadRequest, body := ResponseBody.errorText err }
    else
      { status := StatusInternalServerError, body := ResponseBody.errResp err }
  | Except.ok updatedAlertRule =>
    let ar := { ar with Updated := updatedAlertRule.Updated }
    let ar := { ar with ID := updatedAlertRule.ID }
    { status := StatusOK, body := ResponseBody.json (ProvisioningValue.alertRule ar) }

/-- `ProvisioningSrv.RouteDeleteAlertRule`. -/
def ProvisioningSrv.RouteDeleteAlertRule (srv : ProvisioningSrv) (c : ReqContext)
    (UID : String) : Response ProvisioningValue :=
  match srv.DeleteAlertRule c.OrgId UID with
  | some err => { status := StatusInternalServerError, body := ResponseBody.errResp err }
  | none => { status := StatusNoContent, body := ResponseBody.empty }

/-- `ProvisioningSrv.RoutePutAlertRuleGroup`. -/
def ProvisioningSrv.RoutePutAlertRuleGroup (srv : ProvisioningSrv) (c : ReqContext)
    (ag : AlertRuleGroup) (folderUID : String) (group : String) : Response ProvisioningValue :=
  match srv.UpdateRuleGroup c.OrgId folderUID group ag.Interval with
  | some err => { status := StatusInternalServerError, body := ResponseBody.errResp err }
  | none => { status := StatusOK, body := ResponseBody.json (ProvisioningValue.ruleGroup ag) }

/-- Services that all answer with the error `err`, for examples. -/
def ProvisioningSrv.failing (err : ServiceError) : ProvisioningSrv where
  UpdatePolicyTree := fun _ _ => some err
  CreateContactPoint := fun _ _ => Except.error err
  UpdateContactPoint := fun _ _ _ => some err
  DeleteContactPoint := fun _ _ _ => some err
  CreateAlertRule := fun _ => Except.error err
  UpdateAlertRule := fun _ => Except.error err
  DeleteAlertRule := fun _ _ => some err
  UpdateRuleGroup := fun _ _ _ _ => some err

/-- Go `apimodels.ApiAlertRule`; the queries of `Data` are kept as text. -/
structure ApiAlertRule where
  ID : Int
  OrgID : Int
  Title : String
  Condition : String
  Data : List String
  Updated : Time
  IntervalSeconds : Int
  Version : Int
  UID : String
  NamespaceUID : String
  DashboardUID : Option String
  PanelID : Option Int
  RuleGroup : String
  NoDataState : String
  ExecErrState : String
  For : Duration
  Annotations : List (String × String)
  Labels : List (String × String)
  deriving DecidableEq, Repr

/-- Go `ngmodels.AlertRule`, with the fields `apiRuleToDbAlertRule` sets. -/
structure AlertRule where
  ID : Int
  OrgID : Int
  Title : String
  Condition : String
  Data : List String
  Updated : Time
  IntervalSeconds : Int
  Version : Int
  UID : String
  NamespaceUID : String
  DashboardUID : Option String
  PanelID : Option Int
  RuleGroup : String
  NoDataState : String
  ExecErrState : String
  For : Duration
  Annotations : List (String × String)
  Labels : List (String × String)
  deriving DecidableEq, Repr

/-- `apiRuleToDbAlertRule`. -/
def apiRuleToDbAlertRule (api : ApiAlertRule) : AlertRule :=
  { ID := api.ID
    OrgID := api.OrgID
    Title := api.Title
    Condition := api.Condition
    Data := api.Data
    Updated := api.Updated
    IntervalSeconds := api.IntervalSeconds
    Version := api.Version
    UID := api.UID
    NamespaceUID := api.NamespaceUID
    DashboardUID := api.DashboardUID
    PanelID := api.PanelID
    RuleGroup := api.RuleGroup
    NoDataState := api.NoDataState
    ExecErrState := api.ExecErrState
    For := api.For
    Annotations := api.Annotations
    Labels := api.Labels }

/-- Go `state.State`, as far as `saveAlertStates` reads it; the field `State` is
the integer of `eval.State`. -/
structure AlertState where
  OrgID : Int
  AlertRuleUID : String
  Labels : List (String × String)
  State : Int
  LastEvaluationTime : Time
  StartsAt : Time
  EndsAt : Time
  deriving DecidableEq, Repr

/-- Go `ngmodels.SaveAlertInstanceCommand`. -/
structure SaveAlertInstanceCommand where
  RuleOrgID : Int
  RuleUID : String
  Labels : InstanceLabels
  State : String
  LastEvalTime : Time
  CurrentStateSince : Time
  CurrentStateEnd : Time
  deriving DecidableEq, Repr

/-- A postable alert: labels, annotations, start and end. -/
structure PostableAlert where
  Labels : List (String × String)
  Annotations : List (String × String)
  StartsAt : Time
  EndsAt : Time
  deriving DecidableEq, Repr

/-- Go `apimodels.AlertProcessRequest`. -/
structure AlertProcessRequest where
  AlertRule : ApiAlertRule
  EvaluationResults : List ApiEvalResult
  deriving DecidableEq, Repr

/-- What `LogzioAlertingService` calls in `RouteProcessAlert`: the state manager
(`ProcessEvalResults`, which applies the results to the states of the rule and
returns the states), `schedule.FromAlertStateToPostableAlerts`, the instance
store, the lookup of the Alertmanager of an organisation (a handle or an
error) and `PutAlerts` of an Alertmanager; `stateString` is
`eval.State.String`. -/
structure LogzioAlertingService where
  stateString : Int → String
  ProcessEvalResults : AlertRule → List Result → List AlertState
  FromAlertStateToPostableAlerts : List AlertState → List PostableAlert
  SaveAlertInstance : SaveAlertInstanceCommand → Option String
  AlertmanagerFor : Int → Except ServiceError Nat
  PutAlerts : Nat → List PostableAlert → Option ServiceError

/-- A call made by `RouteProcessAlert` to the services around it. -/
inductive ServiceCall where
  /-- `srv.StateManager.ProcessEvalResults(ctx, &alertRule, evalResults)`. -/
  | ProcessEvalResults (alertRule : AlertRule) (evalResults : List Result)
  /-- `srv.InstanceStore.SaveAlertInstance(ctx, &cmd)`. -/
  | SaveAlertInstance (cmd : SaveAlertInstanceCommand)
  /-- `srv.MultiOrgAlertmanager.AlertmanagerFor(orgID)`. -/
  | AlertmanagerFor (orgID : Int)
  /-- `n.PutAlerts(alerts)`. -/
  | PutAlerts (n : Nat) (alerts : List PostableAlert)
  deriving DecidableEq, Repr

/-- `LogzioAlertingService.saveAlertStates`: the calls made; an error of
`SaveAlertInstance` is logged and the loop goes on. -/
def LogzioAlertingService.saveAlertStates (srv : LogzioAlertingService) :
    List AlertState → List ServiceCall
  | [] => []
  | s :: rest =>
    let cmd : SaveAlertInstanceCommand :=
      { RuleOrgID := s.OrgID
        RuleUID := s.AlertRuleUID
        Labels := s.Labels
        State := srv.stateString s.State
        LastEvalTime := s.LastEvaluationTime
        CurrentStateSince := s.StartsAt
        CurrentStateEnd := s.EndsAt }
    match srv.SaveAlertInstance cmd with
    | some _ => ServiceCall.SaveAlertInstance cmd :: LogzioAlertingService.saveAlertStates srv rest
    | none => ServiceCall.SaveAlertInstance cmd :: LogzioAlertingService.saveAlertStates srv rest

/-- `LogzioAlertingService.notify` for the rule of key `(orgID, uid)`: the
error returned (`none` for nil) and the calls made. -/
def LogzioAlertingService.notify (srv : LogzioAlertingService) (orgID : Int)
    (alerts : List PostableAlert) : Option ServiceError × List ServiceCall :=
  match srv.AlertmanagerFor orgID with
  | Except.ok n =>
    match srv.PutAlerts n alerts with
    | some err => (some err, [ServiceCall.AlertmanagerFor orgID, ServiceCall.PutAlerts n alerts])
    | none => (none, [ServiceCall.AlertmanagerFor orgID, ServiceCall.PutAlerts n alerts])
  | Except.error err => (some err, [ServiceCall.AlertmanagerFor orgID])

/-- `LogzioAlertingService.RouteProcessAlert`: the response and the calls made,
in order. -/
def LogzioAlertingService.RouteProcessAlert (srv : LogzioAlertingService)
    (request : AlertProcessRequest) : Response (List PostableAlert) × List ServiceCall :=
  let alertRule := apiRuleToDbAlertRule request.AlertRule
  let evalResults := request.EvaluationResults.map apiToEvaluationResult
  let processedStates := srv.ProcessEvalResults alertRule evalResults
  let saved := srv.saveAlertStates processedStates
  let alerts := srv.FromAlertStateToPostableAlerts processedStates
  let notified := srv.notify alertRule.OrgID alerts
  let calls := ServiceCall.ProcessEvalResults alertRule evalResults :: saved ++ notified.2
  match notified.1 with
  | some err =>
    if errorsIs err Sentinel.ErrNoAlertmanagerForOrg then
      ({ status := StatusBadRequest,
         body := ResponseBody.error "Alert manager for organization not found" err }, calls)
    else
      ({ status := StatusInternalServerError,
         body := ResponseBody.error "Failed to process alert" err }, calls)
  | none => ({ status := StatusOK, body := ResponseBody.json alerts }, calls)

/-- An alert rule of the API, for examples. -/
def ApiAlertRule.sample : ApiAlertRule :=
  { ID := 3, OrgID := 1, Title := "cpu", Condition := "B", Data := ["A", "B"], Updated := 0,
    IntervalSeconds := 60, Version := 1, UID := "rule-1", NamespaceUID := "folder",
    DashboardUID := none, PanelID := none, RuleGroup := "cpu", NoDataState := "NoData",
    ExecErrState := "Alerting", For := 0, Annotations := [], Labels := [] }

/-- Services for examples: the state manager returns two alerting states of the
rule, the first save fails, the lookup of the Alertmanager answers `lookup` and
`PutAlerts` answers `put`. -/
def LogzioAlertingService.sample (lookup : Except ServiceError Nat) (put : Option ServiceError) :
    LogzioAlertingService where
  stateString := fun s => if s = 1 then "Alerting" else "Normal"
  ProcessEvalResults := fun rule _ =>
    [{ OrgID := rule.OrgID, AlertRuleUID := rule.UID, Labels := [("host", "a")], State := 1,
       LastEvaluationTime := 50, StartsAt := 40, EndsAt := 90 },
     { OrgID := rule.OrgID, AlertRuleUID := rule.UID, Labels := [("host", "b")], State := 1,
       LastEvaluationTime := 50, StartsAt := 45, EndsAt := 95 }]
  FromAlertStateToPostableAlerts := fun states =>
    states.map (fun s =>
      { Labels := s.Labels, Annotations := [], StartsAt := s.StartsAt, EndsAt := s.EndsAt })
  SaveAlertInstance := fun cmd => if cmd.Labels = [("host", "a")] then some "locked" else none
  AlertmanagerFor := fun _ => lookup
  PutAlerts := fun _ _ => put

/-! ### Rules and silences of the migration
(`pkg/services/sqlstore/migrations/ualert/logzio_ualert_org_migration.go`) -/

/-- Go `time.Hour`, in nanoseconds. -/
def Hour : Duration := 3600000000000

/-- Go `condition`, the result of `transConditions`; a query is kept as text. -/
structure condition where
  Condition : String
  Data : List String
  deriving DecidableEq, Repr

/-- Go `alertRule`, the row of a migrated rule; a query is kept as text. -/
structure alertRule where
  OrgID : Int
  Title : String
  UID : String
  Condition : String
  Data : List String
  IntervalSeconds : Int
  Version : Int
  NamespaceUID : String
  RuleGroup : String
  For : Duration
  Updated : Time
  Annotations : List (String × String)
  Labels : List (String × String)
  NoDataState : String
  ExecErrState : String
  deriving DecidableEq, Repr

/-- What `makeAlertRule` and the silences call outside this file, added to what
receivers and routes call. -/
structure RuleEnv extends MigrationEnv where
  /-- `addMigrationInfo(&da)`: the labels and the annotations of the rule. -/
  addMigrationInfo : dashAlert → List (String × String) × List (String × String)
  /-- `migrateAlertRuleQueries(cond.Data)`. -/
  migrateAlertRuleQueries : List String → Except String (List String)
  /-- `ruleAdjustInterval(da.Frequency)`. -/
  ruleAdjustInterval : Int → Int
  /-- `transNoData(s)`. -/
  transNoData : String → Except String String
  /-- `transExecErr(s)`. -/
  transExecErr : String → Except String String
  /-- `getLabelForRouteMatching(ruleUID)`: the name and the value of the label. -/
  getLabelForRouteMatching : String → String × String
  /-- `uuid.NewV4()`: the text of the identifier its n-th call returns (n from
  0), or its error. -/
  NewV4 : Nat → Except String String
  /-- `time.Now()`: the value its n-th call returns (n from 0). -/
  Now : Nat → Time
  /-- `t.AddDate(years, months, days)`. -/
  AddDate : Time → Int → Int → Int → Time
  /-- `model.AlertNameLabel`. -/
  AlertNameLabel : String
  /-- `ErrorAlertName`. -/
  ErrorAlertName : String
  /-- `NoDataAlertName`. -/
  NoDataAlertName : String

/-- The statement `m[k] = append(m[k], v)` on a map to slices; an absent key
reads as the empty slice. -/
def mapAppend {ν : Type} : List (Int × List ν) → Int → ν → List (Int × List ν)
  | [], k, v => [(k, [v])]
  | (j, vs) :: rest, k, v =>
    if j = k then (j, vs ++ [v]) :: rest else (j, vs) :: mapAppend rest k v

/-- The silences registered for an organisation: `m.silences[orgID]`. -/
def MigrateOrgAlerts.silencesOf (m : MigrateOrgAlerts) (orgID : Int) : List MeshSilence :=
  (m.silences.lookup orgID).getD []

/-- The silence built by `addSilence` from the identifier `uid`; `n0` is the
number of calls made to `time.Now` before. -/
def MigrateOrgAlerts.addSilence.silence (env : RuleEnv) (rule : alertRule) (uid : String)
    (n0 : Nat) : MeshSilence :=
  let nv := env.getLabelForRouteMatching rule.UID
  { Silence :=
      { Id := uid
        Matchers := [{ Type_ := MatcherType.EQUAL, Name := nv.1, Pattern := nv.2 }]
        StartsAt := env.Now n0
        EndsAt := (env.Now (n0 + 1)).Add (365 * 20 * Hour)
        CreatedBy := "Grafana Migration"
        Comment := "Created during auto migration to unified alerting" }
    ExpiresAt := (env.Now (n0 + 2)).Add (365 * 20 * Hour) }

/-- Go `(m *MigrateOrgAlerts) addSilence(da, rule)`. -/
def MigrateOrgAlerts.addSilence (env : RuleEnv) (m : MigrateOrgAlerts) (da : dashAlert)
    (rule : alertRule) : Except String Unit × MigrateOrgAlerts :=
  if da.State ≠ "paused" then (Except.ok (), m)
  else
    match env.NewV4 m.uuidCalls with
    | Except.error _ =>
      (Except.error "failed to create uuid for silence", { m with uuidCalls := m.uuidCalls + 1 })
    | Except.ok uid =>
      let s := MigrateOrgAlerts.addSilence.silence env rule uid m.nowCalls
      (Except.ok (),
        { m with
          uuidCalls := m.uuidCalls + 1
          nowCalls := m.nowCalls + 3
          silences := mapAppend m.silences da.OrgId s })

/-- The silence built by `addErrorSilence` (`alertName` is `ErrorAlertName`,
`state` is "Error") and by `addNoDataSilence` (`NoDataAlertName`, "NoData"). -/
def MigrateOrgAlerts.keepStateSilence (env : RuleEnv) (alertName state : String)
    (rule : alertRule) (uid : String) (n0 : Nat) : MeshSilence :=
  { Silence :=
      { Id := uid
        Matchers :=
          [{ Type_ := MatcherType.EQUAL, Name := env.AlertNameLabel, Pattern := alertName },
           { Type_ := MatcherType.EQUAL, Name := "rule_uid", Pattern := rule.UID }]
        StartsAt := env.Now n0
        EndsAt := env.AddDate (env.Now (n0 + 1)) 1 0 0
        CreatedBy := "Grafana Migration"
        Comment := "Created during migration to unified alerting to silence " ++ state ++
          " state for alert rule ID '" ++ rule.UID ++ "' and Title '" ++ rule.Title ++
          "' because the option 'Keep Last State' was selected for " ++ state ++ " state" }
    ExpiresAt := env.AddDate (env.Now (n0 + 2)) 1 0 0 }

/-- The common body of `addErrorSilence` and `addNoDataSilence` once the setting
is known to be "keep_state". -/
def MigrateOrgAlerts.addKeepStateSilence (env : RuleEnv) (alertName state : String)
    (m : MigrateOrgAlerts) (da : dashAlert) (rule : alertRule) :
    Except String Unit × MigrateOrgAlerts :=
  match env.NewV4 m.uuidCalls with
  | Except.error _ =>
    (Except.error "failed to create uuid for silence", { m with uuidCalls := m.uuidCalls + 1 })
  | Except.ok uid =>
    let s := MigrateOrgAlerts.keepStateSilence env alertName state rule uid m.nowCalls
    (Except.ok (),
      { m with
        uuidCalls := m.uuidCalls + 1
        nowCalls := m.nowCalls + 3
        silences := mapAppend m.silences da.OrgId s })

/-- Go `(m *MigrateOrgAlerts) addErrorSilence(da, rule)`. -/
def MigrateOrgAlerts.addErrorSilence (env : RuleEnv) (m : MigrateOrgAlerts) (da : dashAlert)
    (rule : alertRule) : Except String Unit × MigrateOrgAlerts :=
  if da.ParsedSettings.ExecutionErrorState ≠ "keep_state" then (Except.ok (), m)
  else MigrateOrgAlerts.addKeepStateSilence env env.ErrorAlertName "Error" m da rule

/-- Go `(m *MigrateOrgAlerts) addNoDataSilence(da, rule)`. -/
def MigrateOrgAlerts.addNoDataSilence (env : RuleEnv) (m : MigrateOrgAlerts) (da : dashAlert)
    (rule : alertRule) : Except String Unit × MigrateOrgAlerts :=
  if da.ParsedSettings.NoDataState ≠ "keep_state" then (Except.ok (), m)
  else MigrateOrgAlerts.addKeepStateSilence env env.NoDataAlertName "NoData" m da rule

/-- The end of `makeAlertRule`, from the label for routing on: the three
silences are asked for in turn and an error of theirs is only logged. -/
def MigrateOrgAlerts.makeAlertRule.finish (env : RuleEnv) (m : MigrateOrgAlerts)
    (da : dashAlert) (ar : alertRule) : alertRule × MigrateOrgAlerts :=
  let nv := env.getLabelForRouteMatching ar.UID
  let ar := { ar with Labels := mapSet ar.Labels nv.1 nv.2 }
  let m := (m.addSilence env da ar).2
  let m := (m.addErrorSilence env da ar).2
  let m := (m.addNoDataSilence env da ar).2
  (ar, m)

/-- Go `(m *MigrateOrgAlerts) makeAlertRule(cond, da, folderUID)`. -/
def MigrateOrgAlerts.makeAlertRule (env : RuleEnv) (m : MigrateOrgAlerts) (cond : condition)
    (da : dashAlert) (folderUID : String) : Except String alertRule × MigrateOrgAlerts :=
  let la := env.addMigrationInfo da
  let lbls := mapSet la.1 "alertname" da.Name
  let annotations := mapSet la.2 "message" da.Message
  match env.migrateAlertRuleQueries cond.Data with
  | Except.error err => (Except.error ("failed to migrate alert rule queries: " ++ err), m)
  | Except.ok data =>
    let ar : alertRule :=
      { OrgID := da.OrgId
        Title := da.Name
        UID := env.GenerateShortUID m.shortUIDCalls
        Condition := cond.Condition
        Data := data
        IntervalSeconds := env.ruleAdjustInterval da.Frequency
        Version := 1
        NamespaceUID := folderUID
        RuleGroup := da.Name
        For := da.For
        Updated := env.Now m.nowCalls
        Annotations := annotations
        Labels := lbls
        NoDataState := ""
        ExecErrState := "" }
    let m := { m with shortUIDCalls := m.shortUIDCalls + 1, nowCalls := m.nowCalls + 1 }
    match env.transNoData da.ParsedSettings.NoDataState with
    | Except.error err => (Except.error err, m)
    | Except.ok noData =>
      let ar := { ar with NoDataState := noData }
      match env.transExecErr da.ParsedSettings.ExecutionErrorState with
      | Except.error err => (Except.error err, m)
      | Except.ok execErr =>
        let ar := { ar with ExecErrState := execErr }
        let r := MigrateOrgAlerts.makeAlertRule.finish env m da ar
        (Except.ok r.1, r.2)

/-- Whether a silence is a pause silence of the rule `ruleUID`: its only matcher
is an equality matcher on the label `getLabelForRouteMatching(ruleUID)`. -/
def isPauseSilence (env : RuleEnv) (ruleUID : String) (s : MeshSilence) : Bool :=
  decide (s.Silence.Matchers =
    [{ Type_ := MatcherType.EQUAL, Name := (env.getLabelForRouteMatching ruleUID).1,
       Pattern := (env.getLabelForRouteMatching ruleUID).2 }])

/-- An environment for examples: `uuid.NewV4` succeeds when `uuidOk` is true. -/
def RuleEnv.sample (uuidOk : Bool) : RuleEnv :=
  { MigrationEnv.sample with
    addMigrationInfo := fun da => ([("rule_id", toString da.Id)], [])
    migrateAlertRuleQueries := fun data => Except.ok data
    ruleAdjustInterval := fun f => f
    transNoData := fun s => Except.ok s
    transExecErr := fun s => Except.ok s
    getLabelForRouteMatching := fun uid => ("rule_uid", uid)
    NewV4 := fun n =>
      if uuidOk then Except.ok (String.mk (List.replicate (n + 1) 'i'))
      else Except.error "no entropy"
    Now := fun n => 1000 + n
    AddDate := fun t y _ _ => t + y * 365 * 24 * Hour
    AlertNameLabel := "alertname"
    ErrorAlertName := "DatasourceError"
    NoDataAlertName := "DatasourceNoData" }

/-- A paused legacy alert for examples. -/
def dashAlert.samplePaused : dashAlert :=
  { dashAlert.sample [] with State := "paused" }

/-! ### The migration of an organisation: `MigrateOrgAlerts.Exec`
(`pkg/services/sqlstore/migrations/ualert/logzio_ualert_org_migration.go`) -/

/-- Go `dashboard`, the row of a dashboard or of a folder. -/
structure dashboard where
  Id : Int
  Uid : String
  OrgId : Int
  FolderId : Int
  IsFolder : Bool
  HasAcl : Bool
  Title : String
  Version : Int
  Created : Time
  Updated : Time
  CreatedBy : Int
  UpdatedBy : Int
  deriving DecidableEq, Repr

/-- The zero value `dashboard{}`. -/
def dashboard.zero : dashboard :=
  { Id := 0, Uid := "", OrgId := 0, FolderId := 0, IsFolder := false, HasAcl := false,
    Title := "", Version := 0, Created := 0, Updated := 0, CreatedBy := 0, UpdatedBy := 0 }

/-- Go `dashboardAcl`, a permission of a dashboard or of a folder. `Role` is a
pointer, nil when the permission names no role. -/
structure dashboardAcl where
  Id : Int
  OrgID : Int
  DashboardID : Int
  UserID : Int
  TeamID : Int
  Role : Option String
  Permission : Int
  Created : Time
  Updated : Time
  deriving DecidableEq, Repr

/-- Go `MigrationError`: the error of the migration of one legacy alert. -/
structure MigrationError where
  Err : String
  AlertId : Int
  deriving DecidableEq, Repr

/-- The dynamic type of the error `Exec` returns: a `MigrationError`, or any
other error, kept as its text. -/
inductive ExecError where
  /-- A value of type `MigrationError`. -/
  | migration (e : MigrationError)
  /-- An error of another type. -/
  | other (err : String)
  deriving DecidableEq, Repr

/-- Go `dsUIDLookup` and the type of `dashIDMap`: `map[[2]int64]string`. -/
abbrev dsUIDLookup := List ((Int × Int) × String)

/-- What `Exec` and its methods call outside this file: the session of the
database, the file of the silences, and functions of other files. -/
structure ExecEnv extends RuleEnv where
  /-- The rows `slurpDashAlerts` finds for an organisation. -/
  findDashAlerts : Int → Except String (List dashAlert)
  /-- `json.Unmarshal(settings, &parsedSettings)`. -/
  unmarshalSettings : String → Except String dashAlertSettings
  /-- The rows `(org_id, id, uid)` that `slurpDSIDs` finds. -/
  findDataSources : Int → Except String (List (Int × Int × String))
  /-- The rows `(org_id, id, uid)` that `slurpDashUIDs` finds. -/
  findDashboards : Int → Except String (List (Int × Int × String))
  /-- `transConditions(settings, orgId, dsIDMap)`. -/
  transConditions : dashAlertSettings → Int → dsUIDLookup → Except String condition
  /-- `sess.Where("org_id=? AND uid=?", orgId, uid).Get(&dash)`: the row, if any. -/
  getDashboardByUID : Int → String → Except String (Option dashboard)
  /-- `sess.Where("id=?", id).Get(&folder)`: the row, if any. -/
  getDashboardByID : Int → Except String (Option dashboard)
  /-- `sess.Get(&dashboard)` for the folder of an organisation with parent 0 and
  the title `GENERAL_FOLDER`: the row, if any. -/
  getGeneralFolder : Int → Except String (Option dashboard)
  /-- Whether a dashboard of the organisation has the UID, as
  `generateNewDashboardUid` asks the session. -/
  dashboardUIDExists : Int → String → Except String Bool
  /-- `cmd.getDashboardModel()` of the `saveFolderCommand` that `createFolder`
  builds from the organisation and the title. -/
  getDashboardModel : Int → String → dashboard
  /-- `sess.Insert(dash)`: the `Id` the row gets. -/
  insertDashboard : dashboard → Except String Int
  /-- `sess.Insert(dashVersion)`, for the dashboard and its `ParentVersion`. -/
  insertDashboardVersion : dashboard → Int → Except String Unit
  /-- `getAlertFolderNameFromDashboard(&dash)`. -/
  getAlertFolderNameFromDashboard : dashboard → String
  /-- `sess.SQL(rawSQL, orgID, dashboardID).Find(&result)` of `getACL`. -/
  findACL : Int → Int → Except String (List dashboardAcl)
  /-- `role.IsValid()`. -/
  roleIsValid : String → Bool
  /-- `sess.Insert(item)` of `setACL`: the `Id` the row gets. -/
  insertACL : dashboardAcl → Except String Int
  /-- `sess.Cols("has_acl").Where("id=?", dashboardID).Update(&dashboard)`. -/
  updateHasAcl : Int → Except String Unit
  /-- `mg.Dialect.DriverName()`. -/
  DriverName : String
  /-- `migrator.Postgres`. -/
  Postgres : String
  /-- `mg.InTransaction` around `sess.Insert(rule)`. -/
  insertRuleInTransaction : alertRule → Except String Unit
  /-- `m.sess.Insert(rule)`. -/
  insertRule : alertRule → Except String Unit
  /-- `m.sess.Insert(rule.makeVersion())`. -/
  insertRuleVersion : alertRule → Except String Unit
  /-- Writing the silences of an organisation to its file: `pbutil.WriteDelimited`
  of each, `openReplace`, `io.Copy` and `Close`. -/
  writeSilences : Int → List MeshSilence → Except String Unit
  /-- The query of `getNotificationChannelMap`. -/
  findNotificationChannels : Except String (List notificationChannel)
  /-- `validateAlertmanagerConfig(orgID, config)`. -/
  validateAlertmanagerConfig : Int → PostableUserConfig → Except String Unit
  /-- `json.Marshal(amConfig)`. -/
  jsonMarshal : PostableUserConfig → Except String String
  /-- `sess.Insert(AlertConfiguration{...})`: the text of the configuration, the
  version of the configuration, the organisation. -/
  insertAlertConfiguration : String → String → Int → Except String Unit
  /-- `GENERAL_FOLDER`. -/
  GENERAL_FOLDER : String
  /-- `FOLDER_CREATED_BY`. -/
  FOLDER_CREATED_BY : Int
  /-- The text of `models.ErrDashboardFailedGenerateUniqueUid`. -/
  ErrDashboardFailedGenerateUniqueUid : String
  /-- The text of `models.ErrDashboardAclInfoMissing`. -/
  ErrDashboardAclInfoMissing : String

/-- The loop `for i := range dashAlerts` of `slurpDashAlerts`. -/
def MigrateOrgAlerts.slurpDashAlerts.loop (env : ExecEnv) :
    List dashAlert → Except String (List dashAlert)
  | [] => Except.ok []
  | da :: rest =>
    match env.unmarshalSettings da.Settings with
    | Except.error err => Except.error err
    | Except.ok settings =>
      match MigrateOrgAlerts.slurpDashAlerts.loop env rest with
      | Except.error err => Except.error err
      | Except.ok parsed => Except.ok ({ da with ParsedSettings := settings } :: parsed)

/-- Go `(m *MigrateOrgAlerts) slurpDashAlerts()`. -/
def MigrateOrgAlerts.slurpDashAlerts (env : ExecEnv) (m : MigrateOrgAlerts) :
    Except String (List dashAlert) :=
  match env.findDashAlerts m.orgId with
  | Except.error err => Except.error err
  | Except.ok dashAlerts => MigrateOrgAlerts.slurpDashAlerts.loop env dashAlerts

/-- The loop of `slurpDSIDs` and of `slurpDashUIDs`:
`idToUID[[2]int64{ds.OrgID, ds.ID}] = ds.UID`. -/
def idToUID (rows : List (Int × Int × String)) : dsUIDLookup :=
  rows.foldl (fun idToUID ds => mapSet idToUID (ds.1, ds.2.1) ds.2.2) []

/-- Go `(m *MigrateOrgAlerts) slurpDSIDs()`. -/
def MigrateOrgAlerts.slurpDSIDs (env : ExecEnv) (m : MigrateOrgAlerts) :
    Except String dsUIDLookup :=
  match env.findDataSources m.orgId with
  | Except.error err => Except.error err
  | Except.ok dsIDs => Except.ok (idToUID dsIDs)

/-- Go `(m *MigrateOrgAlerts) slurpDashUIDs()`. -/
def MigrateOrgAlerts.slurpDashUIDs (env : ExecEnv) (m : MigrateOrgAlerts) :
    Except String dsUIDLookup :=
  match env.findDashboards m.orgId with
  | Except.error err => Except.error err
  | Except.ok dashIDs => Except.ok (idToUID dashIDs)

/-- Go `(m *MigrateOrgAlerts) getFolder(dash)`, as far as its error and, without
one, its folder go. -/
def MigrateOrgAlerts.getFolder (env : ExecEnv) (dash : dashboard) : Except String dashboard :=
  if dash.FolderId > 0 then
    match env.getDashboardByID dash.FolderId with
    | Except.error err =>
      Except.error ("failed to get folder " ++ toString dash.FolderId ++ ": " ++ err)
    | Except.ok none =>
      Except.error ("folder with id " ++ toString dash.FolderId ++ " not found")
    | Except.ok (some folder) =>
      if !folder.IsFolder then
        Except.error ("id " ++ toString dash.FolderId ++ " is a dashboard not a folder")
      else Except.ok folder
  else Except.ok dashboard.zero

/-- The loop `for i := 0; i < 3; i++` of `generateNewDashboardUid`, with the
number of rounds left. -/
def MigrateOrgAlerts.generateNewDashboardUid.loop (env : ExecEnv) (orgId : Int) :
    Nat → MigrateOrgAlerts → Except String String × MigrateOrgAlerts
  | 0, m => (Except.error env.ErrDashboardFailedGenerateUniqueUid, m)
  | n + 1, m =>
    let uid := env.GenerateShortUID m.shortUIDCalls
    let m := { m with shortUIDCalls := m.shortUIDCalls + 1 }
    match env.dashboardUIDExists orgId uid with
    | Except.error err => (Except.error err, m)
    | Except.ok false => (Except.ok uid, m)
    | Except.ok true => MigrateOrgAlerts.generateNewDashboardUid.loop env orgId n m

/-- Go `(m *MigrateOrgAlerts) generateNewDashboardUid(orgId)`. -/
def MigrateOrgAlerts.generateNewDashboardUid (env : ExecEnv) (m : MigrateOrgAlerts)
    (orgId : Int) : Except String String × MigrateOrgAlerts :=
  MigrateOrgAlerts.generateNewDashboardUid.loop env orgId 3 m

/-- Go `(m *MigrateOrgAlerts) createFolder(orgID, title)`; `setUid` and
`setVersion` are kept as the writes of the fields `Uid` and `Version`. -/
def MigrateOrgAlerts.createFolder (env : ExecEnv) (m : MigrateOrgAlerts) (orgID : Int)
    (title : String) : Except String dashboard × MigrateOrgAlerts :=
  let dash := env.getDashboardModel orgID title
  match m.generateNewDashboardUid env dash.OrgId with
  | (Except.error err, m) => (Except.error err, m)
  | (Except.ok uid, m) =>
    let parentVersion := dash.Version
    let dash :=
      { dash with
        Uid := uid
        Version := 1
        Created := env.Now m.nowCalls
        CreatedBy := env.FOLDER_CREATED_BY
        Updated := env.Now (m.nowCalls + 1)
        UpdatedBy := env.FOLDER_CREATED_BY }
    let m := { m with nowCalls := m.nowCalls + 2 }
    match env.insertDashboard dash with
    | Except.error err => (Except.error err, m)
    | Except.ok id =>
      let dash := { dash with Id := id }
      let m := { m with nowCalls := m.nowCalls + 1 }
      match env.insertDashboardVersion dash parentVersion with
      | Except.error err => (Except.error err, m)
      | Except.ok _ => (Except.ok dash, m)

/-- Go `(m *MigrateOrgAlerts) getACL(orgID, dashboardID)`. -/
def MigrateOrgAlerts.getACL (env : ExecEnv) (orgID dashboardID : Int) :
    Except String (List dashboardAcl) :=
  env.findACL orgID dashboardID

/-- The body of the first loop of `setACL`, for the item at index `i`: the maps
`userPermissionsMap` and `teamPermissionsMap` keep, per user and per team, the
index of the item they point to. -/
def MigrateOrgAlerts.setACL.highest (items : List dashboardAcl)
    (maps : List (Int × Nat) × List (Int × Nat)) (i : Nat) :
    List (Int × Nat) × List (Int × Nat) :=
  match items[i]? with
  | none => maps
  | some item =>
    let users :=
      if item.UserID ≠ 0 then
        match maps.1.lookup item.UserID with
        | none => mapSet maps.1 item.UserID i
        | some j =>
          match items[j]? with
          | none => maps.1
          | some acl =>
            if item.Permission > acl.Permission then mapSet maps.1 item.UserID i else maps.1
      else maps.1
    let teams :=
      if item.TeamID ≠ 0 then
        match maps.2.lookup item.TeamID with
        | none => mapSet maps.2 item.TeamID i
        | some j =>
          match items[j]? with
          | none => maps.2
          | some acl =>
            if item.Permission > acl.Permission then mapSet maps.2 item.TeamID i else maps.2
      else maps.2
    (users, teams)

/-- What the second loop of `setACL` has done so far: the items behind the
pointers as they are now, the set `seen`, the items handed to `Insert`, and the
migration. -/
structure SetACLState where
  items : List dashboardAcl
  seen : List (Int × Int × String × Int)
  inserted : List dashboardAcl
  m : MigrateOrgAlerts
  deriving DecidableEq, Repr

/-- Whether the item the map points to for the key `k` has another `Id` than
`item`: the test of a duplicate permission of a user or of a team. -/
def MigrateOrgAlerts.setACL.isDuplicate (items : List dashboardAcl) (map : List (Int × Nat))
    (k : Int) (item : dashboardAcl) : Bool :=
  if k ≠ 0 then
    match map.lookup k with
    | none => false
    | some j =>
      match items[j]? with
      | none => false
      | some acl => acl.Id ≠ item.Id
  else false

/-- The test `item.Role == nil || !item.Role.IsValid()`. -/
def MigrateOrgAlerts.setACL.roleMissing (env : ExecEnv) (item : dashboardAcl) : Bool :=
  match item.Role with
  | none => true
  | some role => !env.roleIsValid role

/-- The second loop of `setACL`, over the indices of the items left. -/
def MigrateOrgAlerts.setACL.insertLoop (env : ExecEnv) (orgID dashboardID : Int)
    (maps : List (Int × Nat) × List (Int × Nat)) :
    List Nat → SetACLState → Except String Unit × SetACLState
  | [], st => (Except.ok (), st)
  | i :: rest, st =>
    match st.items[i]? with
    | none => MigrateOrgAlerts.setACL.insertLoop env orgID dashboardID maps rest st
    | some item =>
      if item.UserID = 0 ∧ item.TeamID = 0 ∧
          MigrateOrgAlerts.setACL.roleMissing env item = true then
        (Except.error env.ErrDashboardAclInfoMissing, st)
      else if MigrateOrgAlerts.setACL.isDuplicate st.items maps.1 item.UserID item then
        MigrateOrgAlerts.setACL.insertLoop env orgID dashboardID maps rest st
      else if MigrateOrgAlerts.setACL.isDuplicate st.items maps.2 item.TeamID item then
        MigrateOrgAlerts.setACL.insertLoop env orgID dashboardID maps rest st
      else
        let key := (item.UserID, item.TeamID, item.Role.getD "", item.Permission)
        if key ∈ st.seen then
          MigrateOrgAlerts.setACL.insertLoop env orgID dashboardID maps rest st
        else
          let item :=
            { item with
              Id := 0
              OrgID := orgID
              DashboardID := dashboardID
              Created := env.Now st.m.nowCalls
              Updated := env.Now (st.m.nowCalls + 1) }
          let st :=
            { st with
              items := st.items.set i item
              inserted := st.inserted ++ [item]
              m := { st.m with nowCalls := st.m.nowCalls + 2 } }
          match env.insertACL item with
          | Except.error err => (Except.error err, st)
          | Except.ok id =>
            MigrateOrgAlerts.setACL.insertLoop env orgID dashboardID maps rest
              { st with
                items := st.items.set i { item with Id := id }
                seen := key :: st.seen }

/-- Go `(m *MigrateOrgAlerts) setACL(orgID, dashboardID, items)`: the items
handed to `Insert`, the error, and the migration. -/
def MigrateOrgAlerts.setACL (env : ExecEnv) (m : MigrateOrgAlerts) (orgID dashboardID : Int)
    (items : List dashboardAcl) : List dashboardAcl × Except String Unit × MigrateOrgAlerts :=
  if dashboardID ≤ 0 then
    ([], Except.error "folder id must be greater than zero for a folder permission", m)
  else
    let maps := (List.range items.length).foldl (MigrateOrgAlerts.setACL.highest items) ([], [])
    match MigrateOrgAlerts.setACL.insertLoop env orgID dashboardID maps (List.range items.length)
        { items := items, seen := [], inserted := [], m := m } with
    | (Except.error err, st) => (st.inserted, Except.error err, st.m)
    | (Except.ok _, st) => (st.inserted, env.updateHasAcl dashboardID, st.m)

/-- Go `(m *MigrateOrgAlerts) getOrCreateGeneralFolder(orgID)`. -/
def MigrateOrgAlerts.getOrCreateGeneralFolder (env : ExecEnv) (m : MigrateOrgAlerts)
    (orgID : Int) : Except String dashboard × MigrateOrgAlerts :=
  match env.getGeneralFolder orgID with
  | Except.error err => (Except.error err, m)
  | Except.ok none => m.createFolder env orgID env.GENERAL_FOLDER
  | Except.ok (some dashboard) => (Except.ok dashboard, m)

/-- Go `(m *MigrateOrgAlerts) writeAlertmanagerConfig(orgID, amConfig)`. -/
def MigrateOrgAlerts.writeAlertmanagerConfig (env : ExecEnv) (orgID : Int)
    (amConfig : PostableUserConfig) : Except String Unit :=
  match env.jsonMarshal amConfig with
  | Except.error err => Except.error err
  | Except.ok rawAmConfig => env.insertAlertConfiguration rawAmConfig "v1" orgID

/-- Go `(m *MigrateOrgAlerts) writeSilencesFile(orgID)`. -/
def MigrateOrgAlerts.writeSilencesFile (env : ExecEnv) (m : MigrateOrgAlerts) (orgID : Int) :
    Except String Unit :=
  match m.silences.lookup orgID with
  | none => Except.ok ()
  | some orgSilences => env.writeSilences orgID orgSilences

/-- A call `Exec` makes, while it migrates the alerts and writes what it has
built, to a function that reads the settings of an alert or writes to the
database or to a file. -/
inductive ExecCall where
  /-- `transConditions(*da.ParsedSettings, da.OrgId, dsIDMap)`. -/
  | transConditions (settings : dashAlertSettings) (orgId : Int)
  /-- `m.createFolder(orgID, title)`. -/
  | createFolder (orgID : Int) (title : String)
  /-- `m.setACL(orgID, dashboardID, permissions)`. -/
  | setACL (orgID dashboardID : Int) (permissions : List dashboardAcl)
  /-- `m.getOrCreateGeneralFolder(orgID)`. -/
  | getOrCreateGeneralFolder (orgID : Int)
  /-- `sess.Insert(rule)`, in a transaction or not. -/
  | insertRule (rule : alertRule)
  /-- `m.sess.Insert(rule.makeVersion())`. -/
  | insertRuleVersion (rule : alertRule)
  /-- `m.writeSilencesFile(orgID)`. -/
  | writeSilencesFile (orgID : Int)
  /-- `m.writeAlertmanagerConfig(orgID, amConfig)`. -/
  | writeAlertmanagerConfig (orgID : Int)
  deriving DecidableEq, Repr

/-- The variables of `Exec`: the migration, `folderCache`, `rulesPerOrg`, and
the calls made so far. -/
structure ExecState where
  m : MigrateOrgAlerts
  folderCache : List (String × dashboard)
  rulesPerOrg : List (Int × List (String × dashAlert))
  calls : List ExecCall
  deriving DecidableEq, Repr

/-- The `switch` of the loop of `Exec`, which finds the folder of the rule of
the alert `da` on the dashboard `dash`. When `setACL` fails, the error is built
from `folder.Id` and `folder.OrgId` while `folder` is still nil. -/
def MigrateOrgAlerts.Exec.folder (env : ExecEnv) (st : ExecState) (da : dashAlert)
    (dash : dashboard) : Outcome ExecError dashboard × ExecState :=
  if dash.HasAcl then
    let folderName := env.getAlertFolderNameFromDashboard dash
    match st.folderCache.lookup folderName with
    | some f => (Outcome.ok f, st)
    | none =>
      let st := { st with calls := st.calls ++ [ExecCall.createFolder dash.OrgId folderName] }
      match st.m.createFolder env dash.OrgId folderName with
      | (Except.error err, m) =>
        (Outcome.error (ExecError.migration
          { Err := "failed to create folder: " ++ err, AlertId := da.Id }), { st with m := m })
      | (Except.ok f, m) =>
        let st := { st with m := m }
        match MigrateOrgAlerts.getACL env dash.OrgId dash.Id with
        | Except.error err =>
          (Outcome.error (ExecError.migration
            { Err := "failed to get dashboard " ++ toString dash.Id ++ " under organisation " ++
                toString dash.OrgId ++ " permissions: " ++ err
              AlertId := da.Id }), st)
        | Except.ok permissions =>
          let st := { st with calls := st.calls ++ [ExecCall.setACL f.OrgId f.Id permissions] }
          match st.m.setACL env f.OrgId f.Id permissions with
          | (_, Except.error _, m) => (Outcome.panic, { st with m := m })
          | (_, Except.ok _, m) =>
            (Outcome.ok f, { st with m := m, folderCache := mapSet st.folderCache folderName f })
  else if dash.FolderId > 0 then
    match MigrateOrgAlerts.getFolder env dash with
    | Except.error err =>
      (Outcome.error (ExecError.migration { Err := err, AlertId := da.Id }), st)
    | Except.ok f => (Outcome.ok f, st)
  else
    match st.folderCache.lookup env.GENERAL_FOLDER with
    | some f => (Outcome.ok f, st)
    | none =>
      let st := { st with calls := st.calls ++ [ExecCall.getOrCreateGeneralFolder dash.OrgId] }
      match st.m.getOrCreateGeneralFolder env dash.OrgId with
      | (Except.error err, m) =>
        (Outcome.error (ExecError.migration
          { Err := "failed to get or create general folder under organisation " ++
              toString dash.OrgId ++ ": " ++ err
            AlertId := da.Id }), { st with m := m })
      | (Except.ok f, m) =>
        (Outcome.ok f,
          { st with m := m, folderCache := mapSet st.folderCache env.GENERAL_FOLDER f })

/-- The end of the body of the loop of `Exec`: the rule is inserted, under a
longer title at the second attempt, and then its version. -/
def MigrateOrgAlerts.Exec.insert (env : ExecEnv) (st : ExecState) (rule : alertRule) :
    Outcome ExecError Unit × ExecState :=
  let st := { st with calls := st.calls ++ [ExecCall.insertRule rule] }
  let first :=
    if env.Postgres.isPrefixOf env.DriverName then env.insertRuleInTransaction rule
    else env.insertRule rule
  let second : Except String alertRule × ExecState :=
    match first with
    | Except.ok _ => (Except.ok rule, st)
    | Except.error _ =>
      let rule :=
        { rule with
          Title := rule.Title ++ " " ++ rule.UID
          RuleGroup := rule.RuleGroup ++ " " ++ rule.UID }
      let st := { st with calls := st.calls ++ [ExecCall.insertRule rule] }
      match env.insertRule rule with
      | Except.error err => (Except.error err, st)
      | Except.ok _ => (Except.ok rule, st)
  match second with
  | (Except.error err, st) => (Outcome.error (ExecError.other err), st)
  | (Except.ok rule, st) =>
    let st := { st with calls := st.calls ++ [ExecCall.insertRuleVersion rule] }
    match env.insertRuleVersion rule with
    | Except.error err => (Outcome.error (ExecError.other err), st)
    | Except.ok _ => (Outcome.ok (), st)

/-- The body of the loop `for _, da := range dashAlerts` of `Exec`. -/
def MigrateOrgAlerts.Exec.alert (env : ExecEnv) (dsIDMap dashIDMap : dsUIDLookup)
    (st : ExecState) (da : dashAlert) : Outcome ExecError Unit × ExecState :=
  let st :=
    { st with calls := st.calls ++ [ExecCall.transConditions da.ParsedSettings da.OrgId] }
  match env.transConditions da.ParsedSettings da.OrgId dsIDMap with
  | Except.error err => (Outcome.error (ExecError.other err), st)
  | Except.ok newCond =>
    let da := { da with DashboardUID := (dashIDMap.lookup (da.OrgId, da.DashboardId)).getD "" }
    match env.getDashboardByUID da.OrgId da.DashboardUID with
    | Except.error err =>
      (Outcome.error (ExecError.migration
        { Err := "failed to get dashboard " ++ da.DashboardUID ++ " under organisation " ++
            toString da.OrgId ++ ": " ++ err
          AlertId := da.Id }), st)
    | Except.ok none =>
      (Outcome.error (ExecError.migration
        { Err := "dashboard with UID " ++ da.DashboardUID ++ " under organisation " ++
            toString da.OrgId ++ " not found: %!w(<nil>)"
          AlertId := da.Id }), st)
    | Except.ok (some dash) =>
      match MigrateOrgAlerts.Exec.folder env st da dash with
      | (Outcome.panic, st) => (Outcome.panic, st)
      | (Outcome.error err, st) => (Outcome.error err, st)
      | (Outcome.ok folder, st) =>
        if folder.Uid = "" then
          (Outcome.error (ExecError.migration
            { Err := "empty folder identifier", AlertId := da.Id }), st)
        else
          match st.m.makeAlertRule env.toRuleEnv newCond da folder.Uid with
          | (Except.error err, m) => (Outcome.error (ExecError.other err), { st with m := m })
          | (Except.ok rule, m) =>
            let st := { st with m := m }
            let rules := (st.rulesPerOrg.lookup rule.OrgID).getD []
            match rules.lookup rule.UID with
            | some _ =>
              (Outcome.error (ExecError.migration
                { Err := "duplicate generated rule UID", AlertId := da.Id }), st)
            | none =>
              MigrateOrgAlerts.Exec.insert env
                { st with
                  rulesPerOrg := mapSet st.rulesPerOrg rule.OrgID (mapSet rules rule.UID da) }
                rule

/-- The loop `for _, da := range dashAlerts` of `Exec`. -/
def MigrateOrgAlerts.Exec.loop (env : ExecEnv) (dsIDMap dashIDMap : dsUIDLookup) :
    List dashAlert → ExecState → Outcome ExecError Unit × ExecState
  | [], st => (Outcome.ok (), st)
  | da :: rest, st =>
    match MigrateOrgAlerts.Exec.alert env dsIDMap dashIDMap st da with
    | (Outcome.ok _, st) => MigrateOrgAlerts.Exec.loop env dsIDMap dashIDMap rest st
    | (Outcome.error err, st) => (Outcome.error err, st)
    | (Outcome.panic, st) => (Outcome.panic, st)

/-- The loop `for orgID, amConfig := range amConfigPerOrg` of `Exec`. -/
def MigrateOrgAlerts.Exec.writeLoop (env : ExecEnv) :
    List (Int × PostableUserConfig) → ExecState → Outcome ExecError Unit × ExecState
  | [], st => (Outcome.ok (), st)
  | (orgID, amConfig) :: rest, st =>
    let st := { st with calls := st.calls ++ [ExecCall.writeAlertmanagerConfig orgID] }
    match MigrateOrgAlerts.writeAlertmanagerConfig env orgID amConfig with
    | Except.error err => (Outcome.error (ExecError.other err), st)
    | Except.ok _ => MigrateOrgAlerts.Exec.writeLoop env rest st

/-- What `Exec` does after the loop over the alerts: the files of the silences,
whose errors are only logged, then the configurations. -/
def MigrateOrgAlerts.Exec.finish (env : ExecEnv) (st : ExecState) :
    Outcome ExecError Unit × ExecState :=
  let st :=
    { st with
      calls := st.calls ++ (st.rulesPerOrg.map Prod.fst).map ExecCall.writeSilencesFile }
  match st.m.setupAlertmanagerConfigs env.toMigrationEnv env.validateAlertmanagerConfig
      env.findNotificationChannels st.rulesPerOrg with
  | Outcome.panic => (Outcome.panic, st)
  | Outcome.error err => (Outcome.error (ExecError.other err), st)
  | Outcome.ok setup =>
    MigrateOrgAlerts.Exec.writeLoop env setup.amConfigPerOrg { st with m := setup.m }

/-- Go `(m *MigrateOrgAlerts) Exec(sess, mg)`: how it ends, and its variables
then. -/
def MigrateOrgAlerts.Exec (env : ExecEnv) (m : MigrateOrgAlerts) :
    Outcome ExecError Unit × ExecState :=
  let st : ExecState := { m := m, folderCache := [], rulesPerOrg := [], calls := [] }
  match m.slurpDashAlerts env with
  | Except.error err => (Outcome.error (ExecError.other err), st)
  | Except.ok dashAlerts =>
    match m.slurpDSIDs env with
    | Except.error err => (Outcome.error (ExecError.other err), st)
    | Except.ok dsIDMap =>
      match m.slurpDashUIDs env with
      | Except.error err => (Outcome.error (ExecError.other err), st)
      | Except.ok dashIDMap =>
        match MigrateOrgAlerts.Exec.loop env dsIDMap dashIDMap dashAlerts st with
        | (Outcome.ok _, st) => MigrateOrgAlerts.Exec.finish env st
        | (Outcome.error err, st) => (Outcome.error err, st)
        | (Outcome.panic, st) => (Outcome.panic, st)

/-- A row of the table of the legacy alerts for examples, on the dashboard 3 of
the organisation 1. -/
def dashAlert.sampleRow (id : Int) : dashAlert :=
  { dashAlert.sample [] with Id := id, DashboardId := 3, Settings := "settings" }

/-- An environment for examples, with two legacy alerts, 7 and 8, on a
dashboard without permissions of its own and outside any folder. The queries
of a rule can be migrated when `queriesOk` is true, and the dashboard is found
when `dashboardFound` is true. -/
def ExecEnv.sample (queriesOk dashboardFound : Bool) : ExecEnv :=
  { toRuleEnv :=
      { RuleEnv.sample true with
        migrateAlertRuleQueries := fun data =>
          if queriesOk then Except.ok data else Except.error "bad query" }
    findDashAlerts := fun _ => Except.ok [dashAlert.sampleRow 7, dashAlert.sampleRow 8]
    unmarshalSettings := fun _ => Except.ok (dashAlert.sample []).ParsedSettings
    findDataSources := fun _ => Except.ok []
    findDashboards := fun orgId => Except.ok [(orgId, 3, "dash-uid")]
    transConditions := fun _ _ _ => Except.ok { Condition := "A", Data := ["query"] }
    getDashboardByUID := fun orgId uid =>
      if dashboardFound then
        Except.ok (some { dashboard.zero with Id := 3, Uid := uid, OrgId := orgId })
      else Except.ok none
    getDashboardByID := fun _ => Except.ok none
    getGeneralFolder := fun orgId =>
      Except.ok (some { dashboard.zero with
        Id := 1, Uid := "general", OrgId := orgId, IsFolder := true, Title := "General Alerting" })
    dashboardUIDExists := fun _ _ => Except.ok false
    getDashboardModel := fun orgId title =>
      { dashboard.zero with OrgId := orgId, IsFolder := true, Title := title }
    insertDashboard := fun _ => Except.ok 10
    insertDashboardVersion := fun _ _ => Except.ok ()
    getAlertFolderNameFromDashboard := fun dash => dash.Title ++ " Alerts"
    findACL := fun _ _ => Except.ok []
    roleIsValid := fun _ => true
    insertACL := fun _ => Except.ok 20
    updateHasAcl := fun _ => Except.ok ()
    DriverName := "mysql"
    Postgres := "postgres"
    insertRuleInTransaction := fun _ => Except.ok ()
    insertRule := fun _ => Except.ok ()
    insertRuleVersion := fun _ => Except.ok ()
    writeSilences := fun _ _ => Except.ok ()
    findNotificationChannels := Except.ok [notificationChannel.sample 1 "slack" true]
    validateAlertmanagerConfig := fun _ _ => Except.ok ()
    jsonMarshal := fun _ => Except.ok "config"
    insertAlertConfiguration := fun _ _ _ => Except.ok ()
    GENERAL_FOLDER := "General Alerting"
    FOLDER_CREATED_BY := -8
    ErrDashboardFailedGenerateUniqueUid := "failed to generate unique dashboard id"
    ErrDashboardAclInfoMissing := "user id and team id cannot both be empty for a dashboard permission" }

/-- A rule environment for examples whose clock stands still: every call of
`time.Now` returns `t`. -/
def RuleEnv.sampleClock (t : Time) : RuleEnv :=
  { RuleEnv.sample true with Now := fun _ => t }

/-- A migrated rule for examples. -/
def alertRule.sample : alertRule :=
  { OrgID := 1, Title := "cpu", UID := "u", Condition := "A", Data := [], IntervalSeconds := 60,
    Version := 1, NamespaceUID := "folder", RuleGroup := "cpu", For := 0, Updated := 0,
    Annotations := [], Labels := [], NoDataState := "NoData", ExecErrState := "Alerting" }

/-- A permission of the user 5 for examples. -/
def dashboardAcl.sample : dashboardAcl :=
  { Id := 4, OrgID := 1, DashboardID := 3, UserID := 5, TeamID := 0, Role := none,
    Permission := 2, Created := 0, Updated := 0 }

/-- An environment for examples whose dashboard has permissions of its own, so
that a folder is created for its alerts: the session accepts the permissions
of the folder when `aclOk` is true and refuses them otherwise. -/
def ExecEnv.sampleWithAcl (aclOk : Bool) : ExecEnv :=
  { ExecEnv.sample true true with
    getDashboardByUID := fun orgId uid =>
      Except.ok (some { dashboard.zero with
        Id := 3, Uid := uid, OrgId := orgId, HasAcl := true, Title := "Board" })
    findACL := fun _ _ => Except.ok [dashboardAcl.sample]
    insertACL := fun _ => if aclOk then Except.ok 20 else Except.error "database is locked" }

/-- Alert rule services for examples: a rule is created or updated, and gets the
ID 9, when `org` is `none` or holds the organisation of the rule; a rule of
another organisation is refused. -/
def ProvisioningSrv.sampleFor (org : Option Int) : ProvisioningSrv :=
  { ProvisioningSrv.failing (ServiceError.other "not used") with
    CreateAlertRule := fun rule =>
      if org = none ∨ org = some rule.OrgID then Except.ok { rule with ID := 9 }
      else Except.error (ServiceError.other "rule of another organisation")
    UpdateAlertRule := fun rule =>
      if org = none ∨ org = some rule.OrgID then Except.ok { rule with ID := 9 }
      else Except.error (ServiceError.other "rule of another organisation") }

/-! ### CloudWatch time series queries (`pkg/tsdb/cloudwatch`) -/

/-- Go `backend.TimeRange`. -/
structure TimeRange where
  From : Time
  To : Time
  deriving DecidableEq, Repr

/-- Go `backend.DataQuery`, as far as its time range goes; the rest of the query
is kept as text. -/
structure DataQuery where
  TimeRange : TimeRange
  JSON : String
  deriving DecidableEq, Repr

/-- Go `backend.QueryDataRequest`. -/
structure QueryDataRequest where
  Queries : List DataQuery
  deriving DecidableEq, Repr

/-- Modelled from the spec: `executeTimeSeriesQuery` of the CloudWatch executor,
which is not among the sources; only its test `TestTimeSeriesQuery` is, and the
specification leaves the data sources out. A request whose first query has a
time range that does not start before it ends is refused with the error of the
test; `run` stands for what the executor does with every other request, with
its response kept as text. -/
def executeTimeSeriesQuery (run : QueryDataRequest → Except String String)
    (req : QueryDataRequest) : Except String String :=
  match req.Queries with
  | [] => run req
  | q :: _ =>
    if q.TimeRange.From < q.TimeRange.To then run req
    else Except.error "invalid time range: start time must be before end time"

/-! ### Dashboard UID and panel ID of the rules
(`UpdateOrgDashboardUIDPanelIDMigration`) -/

/-- A row of the query of `UpdateOrgDashboardUIDPanelIDMigration.Exec`: the ID
and the annotations of an alert rule. -/
structure RuleAnnotations where
  ID : Int
  Annotations : List (String × String)
  deriving DecidableEq, Repr

/-- The values bound to the `UPDATE alert_rule SET dashboard_uid = ?, panel_id = ?
WHERE id = ?` of the migration: two pointers, `none` for nil, and the ID. -/
structure DashboardPanelUpdate where
  dashboardUID : Option String
  panelID : Option Int
  ID : Int
  deriving DecidableEq, Repr

/-- What `UpdateOrgDashboardUIDPanelIDMigration.Exec` calls outside this file:
the query of the rules of an organisation, `strconv.ParseInt(s, 10, 64)`, the
`UPDATE` (given the updates made before), and the names of the two annotations
in `ngmodels`. -/
structure PanelMigrationEnv where
  find : Int → Except String (List RuleAnnotations)
  ParseInt : String → Except String Int
  Exec : List DashboardPanelUpdate → DashboardPanelUpdate → Except String Unit
  DashboardUIDAnnotation : String
  PanelIDAnnotation : String

/-- The pointer `panelID` of the body of the loop of
`UpdateOrgDashboardUIDPanelIDMigration.Exec`: nil without the annotation of the
panel ID, the number read from it otherwise, or the error returned. -/
def UpdateOrgDashboardUIDPanelIDMigration.Exec.panelID (env : PanelMigrationEnv)
    (next : RuleAnnotations) : Except String (Option Int) :=
  match next.Annotations.lookup env.PanelIDAnnotation with
  | some s =>
    match env.ParseInt s with
    | Except.error err =>
      Except.error ("the " ++ env.PanelIDAnnotation ++
        " annotation does not contain a valid Panel ID: " ++ err)
    | Except.ok i => Except.ok (some i)
  | none => Except.ok none

/-- The loop `for _, next := range results` of
`UpdateOrgDashboardUIDPanelIDMigration.Exec`, with the updates issued so far. -/
def UpdateOrgDashboardUIDPanelIDMigration.Exec.loop (env : PanelMigrationEnv) :
    List RuleAnnotations → List DashboardPanelUpdate →
      List DashboardPanelUpdate × Except String Unit
  | [], log => (log, Except.ok ())
  | next :: rest, log =>
    let dashboardUID : Option String := next.Annotations.lookup env.DashboardUIDAnnotation
    match UpdateOrgDashboardUIDPanelIDMigration.Exec.panelID env next with
    | Except.error err => (log, Except.error err)
    | Except.ok panelID =>
      match dashboardUID with
      | some uid =>
        let update : DashboardPanelUpdate :=
          { dashboardUID := some uid, panelID := panelID, ID := next.ID }
        match env.Exec log update with
        | Except.error err =>
          (log ++ [update],
            Except.error ("failed to set dashboard_uid and panel_id for alert rule: " ++ err))
        | Except.ok _ =>
          UpdateOrgDashboardUIDPanelIDMigration.Exec.loop env rest (log ++ [update])
      | none => UpdateOrgDashboardUIDPanelIDMigration.Exec.loop env rest log

/-- Go `(m *UpdateOrgDashboardUIDPanelIDMigration) Exec(sess, mg)` for the
organisation `OrgId`: the updates issued, in order, and the error returned. -/
def UpdateOrgDashboardUIDPanelIDMigration.Exec (env : PanelMigrationEnv) (OrgId : Int) :
    List DashboardPanelUpdate × Except String Unit :=
  match env.find OrgId with
  | Except.error err =>
    ([], Except.error ("failed to get annotations for all alert rules: " ++ err))
  | Except.ok results => UpdateOrgDashboardUIDPanelIDMigration.Exec.loop env results []

/-- The update the claim expects for a row: none without the annotation of the
dashboard UID, and otherwise the dashboard UID, the number read from the
annotation of the panel ID (nil without that annotation), and the ID. -/
def UpdateOrgDashboardUIDPanelIDMigration.expected (env : PanelMigrationEnv)
    (row : RuleAnnotations) : Option DashboardPanelUpdate :=
  match row.Annotations.lookup env.DashboardUIDAnnotation with
  | none => none
  | some uid =>
    some
      { dashboardUID := some uid
        panelID :=
          match row.Annotations.lookup env.PanelIDAnnotation with
          | none => none
          | some s => (env.ParseInt s).toOption
        ID := row.ID }

/-- Whether the annotation of the panel ID of a row, if there is one, holds a
number. -/
def UpdateOrgDashboardUIDPanelIDMigration.panelParses (env : PanelMigrationEnv)
    (row : RuleAnnotations) : Bool :=
  match row.Annotations.lookup env.PanelIDAnnotation with
  | none => true
  | some s => (env.ParseInt s).toOption.isSome

/-- An environment for examples: three rules, of which the second has kept the
annotation of a panel but lost the one of its dashboard. -/
def PanelMigrationEnv.sample : PanelMigrationEnv where
  find := fun _ =>
    Except.ok
      [{ ID := 1, Annotations := [("__dashboardUid__", "dash"), ("__panelId__", "12")] },
       { ID := 2, Annotations := [("__panelId__", "12")] },
       { ID := 3, Annotations := [("__dashboardUid__", "dash")] }]
  ParseInt := fun s => if s = "12" then Except.ok 12 else Except.error "invalid syntax"
  Exec := fun _ _ => Except.ok ()
  DashboardUIDAnnotation := "__dashboardUid__"
  PanelIDAnnotation := "__panelId__"

/-- The UIDs of the notifiers of a list of receivers. -/
def notifierUIDs (receivers : List PostableApiReceiver) : List String :=
  receivers.flatMap (fun r => r.GrafanaManagedReceivers.map (fun n => n.UID))

/-- The text of an `IN` list with `n` placeholders, `n` at least one:
`(?, ?, ..., ?)`. -/
def DeleteAlertInstances.inList (n : Nat) : List Char :=
  '(' :: (List.replicate (n - 1) ['?', ',', ' ']).flatten ++ ['?', ')']

/-- A statement of `DeleteAlertInstances` as the claim describes it: a `DELETE`
bound to one organisation and one rule UID, with between 1 and 200 hashes that
all come from keys of that organisation and rule, and an `IN` list of as many
placeholders. -/
def DeleteAlertInstances.wellFormed (keys : List AlertInstanceKey) (stmt : Statement) : Prop :=
  ∃ (org : Int) (uid : String) (hashes : List String),
    1 ≤ hashes.length ∧ hashes.length ≤ 200 ∧
    (∀ h ∈ hashes, ({ RuleOrgID := org, RuleUID := uid, LabelsHash := h } : AlertInstanceKey) ∈ keys) ∧
    (DeleteAlertInstances.inList hashes.length).count '?' = hashes.length ∧
    stmt =
      [SqlArg.sql
          ("DELETE FROM alert_instance WHERE rule_org_id = ? AND rule_uid = ? AND labels_hash IN " ++
            String.mk (DeleteAlertInstances.inList hashes.length) ++ ";"),
        SqlArg.int org, SqlArg.str uid] ++ hashes.map SqlArg.str

/-- What a function of the store asks of the session. -/
inductive SessionEvent where
  /-- `WithTransactionalDbSession`: a transaction is opened. -/
  | transaction
  /-- `sess.Exec(args...)` inside the transaction. -/
  | exec (stmt : Statement)
  deriving DecidableEq, Repr

/-- What `DeleteAlertInstances` asks of the session: nothing when there are no
keys, because of the `return nil` that comes before
`WithTransactionalDbSession`, and otherwise the transaction and, inside it, the
statements. -/
def DeleteAlertInstances.events (env : StoreEnv)
    (sortSlice : (AlertInstanceKey → AlertInstanceKey → Bool) → List AlertInstanceKey →
      List AlertInstanceKey)
    (keys : List AlertInstanceKey) : List SessionEvent :=
  if keys.length = 0 then []
  else SessionEvent.transaction ::
    (DeleteAlertInstances env sortSlice keys).1.map SessionEvent.exec

/-- The state of the loop of `DeleteAlertInstances` is as it should be: the
hashes gathered are at most 200 hashes of keys of the organisation and rule of
`rowData`, and the builder holds `(` and one `?, ` for each. -/
def DeleteAlertInstances.stateOk (keys : List AlertInstanceKey)
    (rd : DeleteAlertInstances.data) (placeholders : List Char) : Prop :=
  ∃ hashes : List String, rd.labelHashes = hashes.map SqlArg.str ∧ hashes.length ≤ 200 ∧
    (∀ h ∈ hashes,
      ({ RuleOrgID := rd.ruleOrgID, RuleUID := rd.ruleUID, LabelsHash := h } :
        AlertInstanceKey) ∈ keys) ∧
    placeholders = '(' :: (List.replicate hashes.length ['?', ',', ' ']).flatten

/-- The organisation and the rule UID of a key: what a `DELETE` is bound to. -/
def AlertInstanceKey.rule (k : AlertInstanceKey) : Int × String :=
  (k.RuleOrgID, k.RuleUID)

/-- The number of statements that the loop of `DeleteAlertInstances` and the
flush after it issue when no statement fails: `rules` are the organisation and
rule of the keys left, `cur` those of `rowData`, and `n` the number of hashes
gathered. -/
def DeleteAlertInstances.flushes {α : Type} [DecidableEq α] : α → Nat → List α → Nat
  | _, n, [] => if n = 0 then 0 else 1
  | cur, n, p :: rest =>
    if p ≠ cur ∨ n ≥ 200 then
      (if n = 0 then 0 else 1) + DeleteAlertInstances.flushes p 1 rest
    else DeleteAlertInstances.flushes cur (n + 1) rest

/-- One map of the first loop of `setACL` on its own: `key` is the user or the
team of an item, and the map keeps, per user or per team, the index of the item
it points to. -/
def MigrateOrgAlerts.setACL.highestFor (key : dashboardAcl → Int) (items : List dashboardAcl)
    (map : List (Int × Nat)) (i : Nat) : List (Int × Nat) :=
  match items[i]? with
  | none => map
  | some item =>
    if key item ≠ 0 then
      match map.lookup (key item) with
      | none => mapSet map (key item) i
      | some j =>
        match items[j]? with
        | none => map
        | some acl => if item.Permission > acl.Permission then mapSet map (key item) i else map
    else map

/-- What a map of the first loop of `setACL` holds for the user or team `u`
after the items before index `k`: nothing when none of them names `u`, and
otherwise the index of the first of those with the highest permission. -/
def MigrateOrgAlerts.setACL.isBest (key : dashboardAcl → Int) (items : List dashboardAcl)
    (k : Nat) (u : Int) : Option Nat → Prop
  | none => ∀ j other, j < k → items[j]? = some other → key other ≠ u
  | some i => i < k ∧ ∃ best, items[i]? = some best ∧ key best = u ∧
      ∀ j other, j < k → items[j]? = some other → key other = u →
        other.Permission < best.Permission ∨ (other.Permission = best.Permission ∧ i ≤ j)

/-- A map of the first loop of `setACL` after the loop: every entry leads to an
item with that user or team, which is not 0, and every user or team of an item
has an entry. -/
def MigrateOrgAlerts.setACL.mapOk (key : dashboardAcl → Int) (items : List dashboardAcl)
    (map : List (Int × Nat)) : Prop :=
  (∀ u w, map.lookup u = some w → u ≠ 0 ∧ ∃ best, items[w]? = some best ∧ key best = u) ∧
  (∀ (k : Nat) (item : dashboardAcl), items[k]? = some item → key item ≠ 0 →
    ∃ w, map.lookup (key item) = some w)

/-- The item at index `j` is the one a map of `setACL` points to for its user
or for its team. -/
def MigrateOrgAlerts.setACL.isWinner (maps : List (Int × Nat) × List (Int × Nat)) (j : Nat)
    (it : dashboardAcl) : Prop :=
  (it.UserID ≠ 0 ∧ maps.1.lookup it.UserID = some j) ∨
    (it.TeamID ≠ 0 ∧ maps.2.lookup it.TeamID = some j)

/-- What the second loop of `setACL` has inserted for each user (or team) of a
map once the items before index `k` are done: the item the map points to, as it
is handed to `Insert`, when its index is before `k`, and nothing yet
otherwise. -/
def MigrateOrgAlerts.setACL.keyInv (orgID dashboardID : Int) (key : dashboardAcl → Int)
    (items : List dashboardAcl) (map : List (Int × Nat)) (inserted : List dashboardAcl)
    (k : Nat) : Prop :=
  ∀ u w best, map.lookup u = some w → items[w]? = some best →
    (w < k → ∃ c c2, inserted.filter (fun it => decide (key it = u)) =
      [dashboardAcl.mk 0 orgID dashboardID best.UserID best.TeamID best.Role best.Permission
        c c2]) ∧
    (k ≤ w → inserted.filter (fun it => decide (key it = u)) = [])

/-- The state of the second loop of `setACL` once the items before index `k`
are done, when every insert succeeds: the items from `k` on are untouched, an
item inserted before has the `Id` the session gave it, which no item had, the
keys seen are those of the items inserted, and each map has its inserts. -/
def MigrateOrgAlerts.setACL.loopInv (orgID dashboardID : Int) (items : List dashboardAcl)
    (maps : List (Int × Nat) × List (Int × Nat)) (st : SetACLState) (k : Nat) : Prop :=
  (∀ j, k ≤ j → st.items[j]? = items[j]?) ∧
  st.items.length = items.length ∧
  (∀ j it cur, j < k → items[j]? = some it → st.items[j]? = some cur →
    MigrateOrgAlerts.setACL.isWinner maps j it → cur.Id ∉ items.map (fun x => x.Id)) ∧
  (∀ key ∈ st.seen, ∃ j it, j < k ∧ items[j]? = some it ∧ key.1 = it.UserID ∧
    key.2.1 = it.TeamID ∧ MigrateOrgAlerts.setACL.isWinner maps j it) ∧
  MigrateOrgAlerts.setACL.keyInv orgID dashboardID (fun it => it.UserID) items maps.1
    st.inserted k ∧
  MigrateOrgAlerts.setACL.keyInv orgID dashboardID (fun it => it.TeamID) items maps.2
    st.inserted k

/-- What the comment `the higher permission wins` of `setACL` promises for one
kind of key (`key` gives the user of an item, or its team): for each key other
than 0 that an item of the list has, exactly one of the items handed to
`Insert` has the key, and it is, but for the fields `setACL` sets itself, the
first item of the list among those of the key whose permission is the
highest. -/
def MigrateOrgAlerts.setACL.highestWins (key : dashboardAcl → Int) (orgID dashboardID : Int)
    (items inserted : List dashboardAcl) : Prop :=
  ∀ u, u ≠ 0 → (∃ item ∈ items, key item = u) →
    ∃ (i : Nat) (best : dashboardAcl), items[i]? = some best ∧ key best = u ∧
      (∀ (j : Nat) (other : dashboardAcl), items[j]? = some other → key other = u →
        other.Permission < best.Permission ∨ (other.Permission = best.Permission ∧ i ≤ j)) ∧
      ∃ c c2, inserted.filter (fun it => decide (key it = u)) =
        [dashboardAcl.mk 0 orgID dashboardID best.UserID best.TeamID best.Role
          best.Permission c c2]

/-- Permissions for examples: three of the user 5, of which the second is the
first with the highest permission, and one of the team 9. -/
def dashboardAcl.sampleItems : List dashboardAcl :=
  [{ dashboardAcl.sample with Id := 4, Permission := 1 },
    { dashboardAcl.sample with Id := 6, Permission := 2 },
    { dashboardAcl.sample with Id := 7, Permission := 2 },
    { dashboardAcl.sample with Id := 8, UserID := 0, TeamID := 9, Permission := 4 }]

/-! ## Theorems -/

/-! ### Ticker -/

theorem Time.Sub_nonneg_iff (t u : Int) : (0 : Int) ≤ Time.Sub t u ↔ u ≤ t := by
  have hmax : maxDuration = (9223372036854775807 : Int) := by norm_num [maxDuration]
  have hmin : minDuration = (-9223372036854775808 : Int) := by norm_num [minDuration]
  unfold Time.Sub
  rw [hmax, hmin]
  by_cases h1 : (9223372036854775807 : Int) < t - u
  · rw [if_pos h1]
    constructor <;> intro _ <;> omega
  · rw [if_neg h1]
    by_cases h2 : t - u < (-9223372036854775808 : Int)
    · rw [if_pos h2]
      constructor <;> intro _ <;> omega
    · rw [if_neg h2]
      constructor <;> intro _ <;> omega

theorem Ticker.iteration_send (t : Ticker) (now : Time) (h : t.last + t.interval ≤ now) :
    t.iteration now =
      ({ t with last := t.last + t.interval }, Event.send (t.last + t.interval)) := by
  have h' : Time.Sub now (Time.Add t.last t.interval) ≥ 0 :=
    (Time.Sub_nonneg_iff _ _).2 h
  simp only [Ticker.iteration, if_pos h']
  rfl

theorem Ticker.iteration_wait (t : Ticker) (now : Time) (h : now < t.last + t.interval) :
    t.iteration now =
      (t, Event.after (Duration.neg (Time.Sub now (t.last + t.interval)))) := by
  have h' : ¬ Time.Sub now (Time.Add t.last t.interval) ≥ 0 := by
    rw [ge_iff_le, Time.Sub_nonneg_iff]
    exact not_le.2 h
  simp only [Ticker.iteration, if_neg h']
  rfl

theorem Ticker.run_cons (t : Ticker) (now : Time) (rest : List Time) :
    t.run (now :: rest) =
      (((t.iteration now).1.run rest).1, (t.iteration now).2 :: ((t.iteration now).1.run rest).2) :=
  rfl

/-- The sequence of marks `last + interval, ..., last + n * interval`. -/
theorem marks_succ (last interval : Int) (n : Nat) :
    (List.range (n + 1)).map (fun k : Nat => last + ((k : Int) + 1) * interval) =
      (last + interval) ::
        (List.range n).map (fun k : Nat => (last + interval) + ((k : Int) + 1) * interval) := by
  rw [List.range_succ_eq_map, List.map_cons, List.map_map]
  congr 1
  · simp
  · apply List.map_congr_left
    intro k _
    simp only [Function.comp, Nat.succ_eq_add_one]
    push_cast
    ring

/-- Whatever the clock does, what `run` has sent is an initial segment of the
sequence of marks. -/
theorem Ticker.ticks_run (nows : List Time) : ∀ t : Ticker,
    ticks (t.run nows).2 =
      (List.range (ticks (t.run nows).2).length).map
        (fun k : Nat => t.last + ((k : Int) + 1) * t.interval) := by
  induction nows with
  | nil => intro t; simp [Ticker.run, ticks]
  | cons now rest ih =>
    intro t
    rw [Ticker.run_cons]
    by_cases h : t.last + t.interval ≤ now
    · rw [Ticker.iteration_send t now h]
      simp only [ticks, List.length_cons]
      rw [marks_succ]
      congr 1
      exact ih { t with last := t.last + t.interval }
    · rw [Ticker.iteration_wait t now (not_le.1 h)]
      simp only [ticks]
      exact ih t

theorem strictMono_marks (last interval : Int) (hpos : 0 < interval) (n : Nat) :
    ((List.range n).map (fun k : Nat => last + ((k : Int) + 1) * interval)).Pairwise
      (fun a b => a < b) := by
  rw [List.pairwise_map]
  refine (List.pairwise_lt_range n).imp ?_
  intro a b hab
  have h1 : ((a : Int) + 1) ≤ (b : Int) := by exact_mod_cast hab
  nlinarith

theorem chain_marks (last interval : Int) (n : Nat) :
    ((List.range n).map (fun k : Nat => last + ((k : Int) + 1) * interval)).Chain'
      (fun a b => b - a = interval) := by
  rw [List.chain'_map]
  cases n with
  | zero => simp
  | succ m =>
    rw [List.chain'_range_succ]
    intro k _
    push_cast
    ring

/-- C1. For every start time `last`, every positive interval and every
behaviour of the clock (the readings `nows` of the successive iterations), the
k-th value the Ticker sends is `last + k * interval` (k counted from 1): the
first tick is `last + interval`, every tick is later than `last`, consecutive
ticks differ by exactly `interval` and the stream is strictly increasing. -/
theorem ticker_kth_tick (last : Time) (interval : Duration) (hpos : 0 < interval)
    (nows : List Time) :
    ∃ t : Ticker, NewTicker last interval = some t ∧
      ticks (t.run nows).2 =
        (List.range (ticks (t.run nows).2).length).map
          (fun k : Nat => last + ((k : Int) + 1) * interval) ∧
      (∀ x, (ticks (t.run nows).2).head? = some x → x = last + interval) ∧
      (∀ x ∈ ticks (t.run nows).2, last < x) ∧
      (ticks (t.run nows).2).Chain' (fun a b => b - a = interval) ∧
      (ticks (t.run nows).2).Pairwise (fun a b => a < b) := by
  refine ⟨{ last := last, interval := interval }, ?_, ?_⟩
  · simp [NewTicker, not_le.2 hpos]
  · have key := Ticker.ticks_run nows { last := last, interval := interval }
    simp only at key
    generalize (ticks (Ticker.run { last := last, interval := interval } nows).2).length = n
      at key
    rw [key]
    refine ⟨by simp, ?_, ?_, chain_marks last interval n, strictMono_marks last interval hpos n⟩
    · intro x hx
      cases n with
      | zero => simp at hx
      | succ m =>
        rw [marks_succ] at hx
        simp only [List.head?_cons, Option.some.injEq] at hx
        exact hx.symm
    · intro x hx
      rw [List.mem_map] at hx
      obtain ⟨k, _, rfl⟩ := hx
      have : (0 : Int) ≤ (k : Int) := Int.natCast_nonneg k
      nlinarith

theorem ticker_kth_tick_witness :
    ∃ t : Ticker, NewTicker 100 10 = some t ∧
      ticks (t.run [105, 110, 111, 200, 130, 0]).2 =
        (List.range (ticks (t.run [105, 110, 111, 200, 130, 0]).2).length).map
          (fun k : Nat => (100 : Int) + ((k : Int) + 1) * 10) ∧
      (∀ x, (ticks (t.run [105, 110, 111, 200, 130, 0]).2).head? = some x → x = 100 + 10) ∧
      (∀ x ∈ ticks (t.run [105, 110, 111, 200, 130, 0]).2, (100 : Int) < x) ∧
      (ticks (t.run [105, 110, 111, 200, 130, 0]).2).Chain' (fun a b => b - a = (10 : Int)) ∧
      (ticks (t.run [105, 110, 111, 200, 130, 0]).2).Pairwise (fun a b => a < b) :=
  ticker_kth_tick 100 10 (by decide) [105, 110, 111, 200, 130, 0]

/-- With every reading at or past the n-th mark, n iterations send the n marks
and nothing else. -/
theorem Ticker.run_all_due (nows : List Time) : ∀ t : Ticker, 0 ≤ t.interval →
    (∀ now ∈ nows, t.last + (nows.length : Int) * t.interval ≤ now) →
    t.run nows =
      ({ t with last := t.last + (nows.length : Int) * t.interval },
        (List.range nows.length).map
          (fun k : Nat => Event.send (t.last + ((k : Int) + 1) * t.interval))) := by
  induction nows with
  | nil => intro t _ _; simp [Ticker.run]
  | cons now rest ih =>
    intro t hi hall
    have hlen : (((now :: rest).length : Nat) : Int) = (rest.length : Int) + 1 := by
      simp
    have hnn : (0 : Int) ≤ (rest.length : Int) * t.interval :=
      mul_nonneg (Int.natCast_nonneg _) hi
    have hdue : t.last + t.interval ≤ now := by
      have := hall now (List.mem_cons_self _ _)
      rw [hlen] at this
      nlinarith
    rw [Ticker.run_cons, Ticker.iteration_send t now hdue]
    have hrest := ih { t with last := t.last + t.interval } hi (by
      intro x hx
      have := hall x (List.mem_cons_of_mem _ hx)
      rw [hlen] at this
      simp only
      linarith)
    rw [hrest]
    simp only [List.length_cons]
    refine Prod.ext ?_ ?_
    · simp only
      congr 1
      push_cast
      ring
    · simp only
      rw [List.range_succ_eq_map, List.map_cons, List.map_map]
      congr 1
      · simp
      · apply List.map_congr_left
        intro k _
        simp only [Function.comp, Nat.succ_eq_add_one]
        push_cast
        congr 1
        ring

/-- C2. If the clock reads at least `last + n * interval` for some `n ≥ 1` and
never goes backwards, the next `n` iterations of the Ticker loop all send (none
waits) and deliver `last + interval`, ..., `last + n * interval` in that order,
leaving `last` at the n-th mark. -/
theorem ticker_backlog_delivered (last : Time) (interval : Duration) (hpos : 0 < interval)
    (n : Nat) (_hn : 1 ≤ n) (now0 : Time) (later : List Time)
    (hlen : (now0 :: later).length = n)
    (hdue : last + (n : Int) * interval ≤ now0)
    (hmono : (now0 :: later).Pairwise (fun a b => a ≤ b)) :
    ∃ t : Ticker, NewTicker last interval = some t ∧
      (t.run (now0 :: later)).2 =
        (List.range n).map (fun k : Nat => Event.send (last + ((k : Int) + 1) * interval)) ∧
      ticks (t.run (now0 :: later)).2 =
        (List.range n).map (fun k : Nat => last + ((k : Int) + 1) * interval) ∧
      (t.run (now0 :: later)).1.last = last + (n : Int) * interval := by
  refine ⟨{ last := last, interval := interval }, ?_, ?_⟩
  · simp [NewTicker, not_le.2 hpos]
  · have hall : ∀ now ∈ now0 :: later,
        last + (((now0 :: later).length : Nat) : Int) * interval ≤ now := by
      intro now hnow
      rw [hlen]
      rcases List.mem_cons.1 hnow with rfl | hmem
      · exact hdue
      · exact le_trans hdue ((List.pairwise_cons.1 hmono).1 now hmem)
    have key := Ticker.run_all_due (now0 :: later) { last := last, interval := interval }
      (le_of_lt hpos) hall
    rw [hlen] at key
    rw [key]
    refine ⟨rfl, ?_, rfl⟩
    simp only
    clear key hall hlen hdue _hn
    induction n with
    | zero => simp [ticks]
    | succ m ih =>
      rw [List.range_succ, List.map_append, List.map_append]
      have happ : ∀ (xs ys : List Event), ticks (xs ++ ys) = ticks xs ++ ticks ys := by
        intro xs ys
        induction xs with
        | nil => rfl
        | cons e es ihe => cases e <;> simp [ticks, ihe]
      rw [happ, ih]
      simp [ticks]

theorem ticker_backlog_delivered_witness :
    ∃ t : Ticker, NewTicker 100 10 = some t ∧
      (t.run [130, 130, 134]).2 =
        (List.range 3).map (fun k : Nat => Event.send ((100 : Int) + ((k : Int) + 1) * 10)) ∧
      ticks (t.run [130, 130, 134]).2 =
        (List.range 3).map (fun k : Nat => (100 : Int) + ((k : Int) + 1) * 10) ∧
      (t.run [130, 130, 134]).1.last = (100 : Int) + ((3 : Nat) : Int) * 10 :=
  ticker_backlog_delivered 100 10 (by decide) 3 (by decide) 130 [130, 134] rfl (by decide)
    (by decide)

theorem Ticker.sends_not_early (nows : List Time) : ∀ t : Ticker,
    ∀ p ∈ List.zip nows (t.run nows).2, ∀ x, p.2 = Event.send x → x ≤ p.1 := by
  induction nows with
  | nil => intro t p hp; simp [Ticker.run] at hp
  | cons now rest ih =>
    intro t p hp x hx
    rw [Ticker.run_cons, List.zip_cons_cons, List.mem_cons] at hp
    rcases hp with rfl | hp
    · by_cases h : t.last + t.interval ≤ now
      · rw [Ticker.iteration_send t now h] at hx
        simp only [Event.send.injEq] at hx
        rw [← hx]
        exact h
      · rw [Ticker.iteration_wait t now (not_le.1 h)] at hx
        simp at hx
    · exact ih _ p hp x hx

theorem Duration.neg_sub_of_fits (now next : Int) (hlt : now < next)
    (hfit : next - now ≤ maxDuration) :
    Duration.neg (Time.Sub now next) = next - now := by
  have hmax : maxDuration = (9223372036854775807 : Int) := by norm_num [maxDuration]
  have hmin : minDuration = (-9223372036854775808 : Int) := by norm_num [minDuration]
  rw [hmax] at hfit
  unfold Duration.neg wrapInt64 Time.Sub
  rw [hmax, hmin]
  have h1 : ¬ (9223372036854775807 : Int) < now - next := by omega
  have h2 : ¬ now - next < (-9223372036854775808 : Int) := by omega
  rw [if_neg h1, if_neg h2]
  have e63 : (2 : Int) ^ 63 = 9223372036854775808 := by norm_num
  have e64 : (2 : Int) ^ 64 = 18446744073709551616 := by norm_num
  rw [e63, e64]
  show ((-(now - next) + 9223372036854775808) % 18446744073709551616 - 9223372036854775808 : Int)
    = next - now
  omega

/-- C3, as stated, fails: with `last` 2^63 ns ahead of the clock and an interval
of 1 ns the next mark is in the future, yet the wait asked of the clock is not
`last + interval - now` (a positive time) but the negative duration `-2^63`:
`Time.Sub` saturates at the smallest duration, whose negation wraps around. -/
theorem ticker_wait_exact_counterexample :
    (0 : Int) < 9223372036854775808 + 1 ∧
      Ticker.iteration { last := 9223372036854775808, interval := 1 } 0 =
        ({ last := 9223372036854775808, interval := 1 },
          Event.after (-9223372036854775808)) ∧
      Ticker.iteration { last := 9223372036854775808, interval := 1 } 0 ≠
        ({ last := 9223372036854775808, interval := 1 },
          Event.after (9223372036854775808 + 1 - 0)) := by
  decide

/-- C3, amended. Every tick is sent in an iteration whose clock reading is at or
past the tick (no tick is emitted before its own mark); when the next mark
`last + interval` is still in the future, the iteration sends nothing and leaves
the ticker (so `last`) unchanged, and, provided the gap `last + interval - now`
fits in a `Duration` (it is at most 2^63 - 1 ns), it waits exactly that gap on
the clock before re-checking. -/
theorem ticker_no_early_tick (t : Ticker) (nows : List Time) (now : Time) :
    (∀ p ∈ List.zip nows (t.run nows).2, ∀ x, p.2 = Event.send x → x ≤ p.1) ∧
      (now < t.last + t.interval →
        (t.iteration now).1 = t ∧
        (∀ x, (t.iteration now).2 ≠ Event.send x) ∧
        (t.last + t.interval - now ≤ maxDuration →
          t.iteration now = (t, Event.after (t.last + t.interval - now)))) := by
  refine ⟨Ticker.sends_not_early nows t, fun hfuture => ⟨?_, ?_, ?_⟩⟩
  · rw [Ticker.iteration_wait t now hfuture]
  · intro x
    rw [Ticker.iteration_wait t now hfuture]
    simp
  · intro hfit
    rw [Ticker.iteration_wait t now hfuture,
      Duration.neg_sub_of_fits now (t.last + t.interval) hfuture hfit]

theorem ticker_no_early_tick_witness :
    (∀ p ∈ List.zip [105, 110, 111] (Ticker.run { last := 100, interval := 10 } [105, 110, 111]).2,
        ∀ x, p.2 = Event.send x → x ≤ p.1) ∧
      Ticker.iteration { last := 100, interval := 10 } 105 =
        ({ last := 100, interval := 10 }, Event.after 5) :=
  ⟨(ticker_no_early_tick { last := 100, interval := 10 } [105, 110, 111] 105).1,
    ((ticker_no_early_tick { last := 100, interval := 10 } [105, 110, 111] 105).2
      (by decide)).2.2 (by decide)⟩

/-! ### Instance store -/

/-- The values `SaveAlertInstances` binds for a list of instances, row after row. -/
theorem SaveAlertInstances.length_rows (key : InstanceLabels → String) (acc : List AlertInstance) :
    (acc.flatMap (fun a => SaveAlertInstances.rowArgs (key a.Labels) a)).length = 8 * acc.length := by
  induction acc with
  | nil => rfl
  | cons a as ih =>
    rw [List.flatMap_cons, List.length_append, ih]
    simp only [SaveAlertInstances.rowArgs, List.length_cons, List.length_nil]
    omega

theorem SaveAlertInstances.values_rows (key : InstanceLabels → String) (s : SqlArg)
    (acc : List AlertInstance) :
    SaveAlertInstances.values
      (s :: acc.flatMap (fun a => SaveAlertInstances.rowArgs (key a.Labels) a)) =
      8 * (acc.length : Int) := by
  unfold SaveAlertInstances.values
  rw [List.length_cons, SaveAlertInstances.length_rows]
  push_cast
  ring

theorem SaveAlertInstances.loop_step (env : StoreEnv) (key : InstanceLabels → String)
    (s : SqlArg) (x : AlertInstance) (rest acc : List AlertInstance) (log : List Statement)
    (hkey : env.StringKey x.Labels = Except.ok (key x.Labels))
    (hvalid : env.ValidateAlertInstance x = Except.ok ())
    (hexec : ∀ l st, env.Exec l st = Except.ok ()) :
    SaveAlertInstances.loop env 160 (x :: rest)
        (s :: acc.flatMap (fun a => SaveAlertInstances.rowArgs (key a.Labels) a)) log =
      if 20 ≤ acc.length + 1 then
        SaveAlertInstances.loop env 160 rest [s]
          (log ++ [s :: (acc ++ [x]).flatMap
            (fun a => SaveAlertInstances.rowArgs (key a.Labels) a)])
      else
        SaveAlertInstances.loop env 160 rest
          (s :: (acc ++ [x]).flatMap (fun a => SaveAlertInstances.rowArgs (key a.Labels) a))
          log := by
  have happ : (s :: acc.flatMap (fun a => SaveAlertInstances.rowArgs (key a.Labels) a)) ++
      SaveAlertInstances.rowArgs (key x.Labels) x =
      s :: (acc ++ [x]).flatMap (fun a => SaveAlertInstances.rowArgs (key a.Labels) a) := by
    simp [List.flatMap_append]
  have hval := SaveAlertInstances.values_rows key s (acc ++ [x])
  rw [List.length_append, List.length_singleton] at hval
  simp only [SaveAlertInstances.loop, hkey, hvalid, happ, hexec]
  rw [hval]
  by_cases h : 20 ≤ acc.length + 1
  · have h' : (8 * (((acc.length + 1 : Nat)) : Int)) ≥ 160 := by omega
    rw [if_pos h', if_pos h]
    rfl
  · have h' : ¬ (8 * (((acc.length + 1 : Nat)) : Int)) ≥ 160 := by omega
    rw [if_neg h', if_neg h]

theorem SaveAlertInstances.loop_fill (env : StoreEnv) (key : InstanceLabels → String)
    (s : SqlArg) (hexec : ∀ l st, env.Exec l st = Except.ok ()) (rest : List AlertInstance) :
    ∀ (acc : List AlertInstance) (log : List Statement),
    (∀ a ∈ rest, env.StringKey a.Labels = Except.ok (key a.Labels)) →
    (∀ a ∈ rest, env.ValidateAlertInstance a = Except.ok ()) →
    acc.length + rest.length < 20 →
    SaveAlertInstances.loop env 160 rest
        (s :: acc.flatMap (fun a => SaveAlertInstances.rowArgs (key a.Labels) a)) log =
      (log, Except.ok
        (s :: (acc ++ rest).flatMap (fun a => SaveAlertInstances.rowArgs (key a.Labels) a))) := by
  induction rest with
  | nil => intro acc log _ _ _; simp [SaveAlertInstances.loop]
  | cons x r ih =>
    intro acc log hkey hvalid hlen
    rw [List.length_cons] at hlen
    rw [SaveAlertInstances.loop_step env key s x r acc log
      (hkey x (List.mem_cons_self _ _)) (hvalid x (List.mem_cons_self _ _)) hexec]
    rw [if_neg (by omega)]
    rw [ih (acc ++ [x]) log (fun a ha => hkey a (List.mem_cons_of_mem _ ha))
      (fun a ha => hvalid a (List.mem_cons_of_mem _ ha))
      (by rw [List.length_append, List.length_singleton]; omega)]
    simp

theorem SaveAlertInstances.loop_flush (env : StoreEnv) (key : InstanceLabels → String)
    (s : SqlArg) (hexec : ∀ l st, env.Exec l st = Except.ok ()) (rest : List AlertInstance)
    (pre : List AlertInstance) :
    ∀ (acc : List AlertInstance) (log : List Statement),
    (∀ a ∈ pre, env.StringKey a.Labels = Except.ok (key a.Labels)) →
    (∀ a ∈ pre, env.ValidateAlertInstance a = Except.ok ()) →
    pre ≠ [] → acc.length + pre.length = 20 →
    SaveAlertInstances.loop env 160 (pre ++ rest)
        (s :: acc.flatMap (fun a => SaveAlertInstances.rowArgs (key a.Labels) a)) log =
      SaveAlertInstances.loop env 160 rest [s]
        (log ++ [s :: (acc ++ pre).flatMap
          (fun a => SaveAlertInstances.rowArgs (key a.Labels) a)]) := by
  induction pre with
  | nil => intro acc log _ _ hne; exact absurd rfl hne
  | cons x p ih =>
    intro acc log hkey hvalid _ hlen
    rw [List.length_cons] at hlen
    rw [List.cons_append, SaveAlertInstances.loop_step env key s x (p ++ rest) acc log
      (hkey x (List.mem_cons_self _ _)) (hvalid x (List.mem_cons_self _ _)) hexec]
    cases p with
    | nil =>
      rw [if_pos (by simp at hlen; omega)]
      simp
    | cons y q =>
      rw [if_neg (by simp at hlen; omega)]
      rw [ih (acc ++ [x]) log (fun a ha => hkey a (List.mem_cons_of_mem _ ha))
        (fun a ha => hvalid a (List.mem_cons_of_mem _ ha)) (by simp)
        (by rw [List.length_append, List.length_singleton]; omega)]
      simp

/-- The loop of `SaveAlertInstances` executes the full batches of 20 and leaves
the remainder in `args`. -/
theorem SaveAlertInstances.loop_chunks (env : StoreEnv) (key : InstanceLabels → String)
    (s : SqlArg) (hexec : ∀ l st, env.Exec l st = Except.ok ()) :
    ∀ (n : Nat) (cmd : List AlertInstance), cmd.length = n →
    (∀ a ∈ cmd, env.StringKey a.Labels = Except.ok (key a.Labels)) →
    (∀ a ∈ cmd, env.ValidateAlertInstance a = Except.ok ()) →
    ∀ log : List Statement, ∃ (fulls : List (List AlertInstance)) (rem : List AlertInstance),
      SaveAlertInstances.loop env 160 cmd [s] log =
        (log ++ fulls.map
            (fun c => s :: c.flatMap (fun a => SaveAlertInstances.rowArgs (key a.Labels) a)),
          Except.ok (s :: rem.flatMap (fun a => SaveAlertInstances.rowArgs (key a.Labels) a))) ∧
      fulls.flatten ++ rem = cmd ∧
      fulls.map List.length = List.replicate (n / 20) 20 ∧
      rem.length = n % 20 := by
  intro n
  induction n using Nat.strong_induction_on with
  | _ n ih =>
    intro cmd hlen hkey hvalid log
    by_cases hsmall : n < 20
    · refine ⟨[], cmd, ?_, by simp, ?_, ?_⟩
      · have := SaveAlertInstances.loop_fill env key s hexec cmd [] log hkey hvalid
          (by simp; omega)
        simpa using this
      · have : n / 20 = 0 := by omega
        simp [this]
      · rw [hlen]; omega
    · have hsplit : cmd.take 20 ++ cmd.drop 20 = cmd := List.take_append_drop 20 cmd
      have htake : (cmd.take 20).length = 20 := by
        rw [List.length_take]; omega
      have hdrop : (cmd.drop 20).length = n - 20 := by
        rw [List.length_drop]; omega
      have hflush := SaveAlertInstances.loop_flush env key s hexec (cmd.drop 20) (cmd.take 20)
        [] log (fun a ha => hkey a (List.mem_of_mem_take ha))
        (fun a ha => hvalid a (List.mem_of_mem_take ha))
        (by intro h; rw [h] at htake; simp at htake) (by simp [htake])
      rw [hsplit] at hflush
      obtain ⟨fulls, rem, hrun, hjoin, hlens, hrem⟩ := ih (n - 20) (by omega) (cmd.drop 20) hdrop
        (fun a ha => hkey a (List.mem_of_mem_drop ha))
        (fun a ha => hvalid a (List.mem_of_mem_drop ha))
        (log ++ [s :: ([] ++ cmd.take 20).flatMap
          (fun a => SaveAlertInstances.rowArgs (key a.Labels) a)])
      refine ⟨cmd.take 20 :: fulls, rem, ?_, ?_, ?_, ?_⟩
      · have hnil : ([] : List AlertInstance).flatMap
            (fun a => SaveAlertInstances.rowArgs (key a.Labels) a) = [] := rfl
        rw [hnil] at hflush
        rw [hflush, hrun]
        simp
      · rw [List.flatten_cons, List.append_assoc, hjoin, hsplit]
      · rw [List.map_cons, hlens, htake]
        have : n / 20 = (n - 20) / 20 + 1 := by omega
        rw [this, List.replicate_succ]
      · rw [hrem]; omega

/-- C4. For every list of n alert instances that all pass validation (their
label key is computed and `ValidateAlertInstance` accepts them), when the
dialect generates the upsert statement for 1 to 20 rows and every statement
executes successfully, `SaveAlertInstances` returns no error, and the
statements it executed carry, in order, the chunks of a split of the input:
the chunks concatenated are the n instances in input order, there are
`n / 20` chunks of 20 rows followed, when `n % 20 ≠ 0`, by one chunk of
`n % 20` rows (none for n = 0), and each statement is the upsert text for its
number of rows followed by the values of its rows. -/
theorem saveAlertInstances_writes_each_once (env : StoreEnv) (cmd : List AlertInstance)
    (sqlText : Int → String) (key : InstanceLabels → String)
    (hsql : ∀ n : Int, 1 ≤ n → n ≤ 20 →
      env.UpsertMultipleSQL "alert_instance" ["rule_org_id", "rule_uid", "labels_hash"]
        ["rule_org_id", "rule_uid", "labels", "labels_hash", "current_state",
          "current_state_since", "current_state_end", "last_eval_time"] n =
        Except.ok (sqlText n))
    (hkey : ∀ a ∈ cmd, env.StringKey a.Labels = Except.ok (key a.Labels))
    (hvalid : ∀ a ∈ cmd, env.ValidateAlertInstance a = Except.ok ())
    (hexec : ∀ l st, env.Exec l st = Except.ok ()) :
    ∃ chunks : List (List AlertInstance),
      SaveAlertInstances env cmd =
        (chunks.map (fun c => SqlArg.sql (sqlText (c.length : Int)) ::
            c.flatMap (fun a => SaveAlertInstances.rowArgs (key a.Labels) a)),
          Except.ok ()) ∧
      chunks.flatten = cmd ∧
      chunks.map List.length =
        List.replicate (cmd.length / 20) 20 ++
          (if cmd.length % 20 = 0 then [] else [cmd.length % 20]) ∧
      (SaveAlertInstances env cmd).1.flatMap Statement.values =
        cmd.flatMap (fun a => SaveAlertInstances.rowArgs (key a.Labels) a) := by
  have hex : ∃ chunks : List (List AlertInstance),
      SaveAlertInstances env cmd =
        (chunks.map (fun c => SqlArg.sql (sqlText (c.length : Int)) ::
            c.flatMap (fun a => SaveAlertInstances.rowArgs (key a.Labels) a)),
          Except.ok ()) ∧
      chunks.flatten = cmd ∧
      chunks.map List.length =
        List.replicate (cmd.length / 20) 20 ++
          (if cmd.length % 20 = 0 then [] else [cmd.length % 20]) := by
    obtain ⟨fulls, rem, hrun, hjoin, hlens, hrem⟩ :=
      SaveAlertInstances.loop_chunks env key (SqlArg.sql (sqlText 20)) hexec cmd.length cmd rfl
        hkey hvalid []
    have hfull : ∀ c ∈ fulls, c.length = 20 := by
      intro c hc
      have : c.length ∈ fulls.map List.length := List.mem_map_of_mem _ hc
      rw [hlens] at this
      exact (List.mem_replicate.1 this).2
    have hmap : fulls.map (fun c => SqlArg.sql (sqlText 20) ::
          c.flatMap (fun a => SaveAlertInstances.rowArgs (key a.Labels) a)) =
        fulls.map (fun c => SqlArg.sql (sqlText (c.length : Int)) ::
          c.flatMap (fun a => SaveAlertInstances.rowArgs (key a.Labels) a)) := by
      apply List.map_congr_left
      intro c hc
      rw [hfull c hc]
      rfl
    have hval := SaveAlertInstances.values_rows key (SqlArg.sql (sqlText 20)) rem
    have h160 : ((20 : Int) * ((8 : Nat) : Int)) = 160 := by norm_num
    by_cases hzero : cmd.length % 20 = 0
    · rw [hzero] at hrem
      have hnil : rem = [] := List.length_eq_zero.1 hrem
      subst hnil
      refine ⟨fulls, ?_, by simpa using hjoin, by simp [hlens, hzero]⟩
      simp only [SaveAlertInstances, hsql 20 (by norm_num) (by norm_num), List.length_cons,
        List.length_nil, h160, hrun, Nat.reduceAdd, hval, List.nil_append, hmap]
      simp
    · have hpos : 1 ≤ (rem.length : Int) := by omega
      have hle : (rem.length : Int) ≤ 20 := by omega
      have hdiv : (8 * (rem.length : Int)) / ((8 : Nat) : Int) = (rem.length : Int) := by
        norm_num
      have hmod : (8 * (rem.length : Int)) % ((8 : Nat) : Int) = 0 := by
        norm_num
      have hne : (8 * (rem.length : Int)) ≠ 0 := by omega
      refine ⟨fulls ++ [rem], ?_, by simpa using hjoin, by simp [hlens, hzero, hrem]⟩
      simp only [SaveAlertInstances, hsql 20 (by norm_num) (by norm_num), List.length_cons,
        List.length_nil, h160, hrun, Nat.reduceAdd, hval, List.nil_append, hmap, hdiv, hmod,
        hsql _ hpos hle, hexec]
      simp [hne]
  obtain ⟨chunks, hrun, hjoin, hlens⟩ := hex
  refine ⟨chunks, hrun, hjoin, hlens, ?_⟩
  rw [hrun]
  simp only
  rw [← hjoin]
  clear hrun hjoin hlens hkey hvalid
  induction chunks with
  | nil => rfl
  | cons c cs ih =>
    rw [List.map_cons, List.flatMap_cons, List.flatten_cons, List.flatMap_append, ih]
    rfl

theorem saveAlertInstances_writes_each_once_witness :
    ∃ chunks : List (List AlertInstance),
      SaveAlertInstances StoreEnv.accepting (List.replicate 21 sampleInstance) =
        (chunks.map (fun c => SqlArg.sql ("UPSERT rows=" ++ toString (c.length : Int)) ::
            c.flatMap (fun a => SaveAlertInstances.rowArgs (toString a.Labels) a)),
          Except.ok ()) ∧
      chunks.flatten = List.replicate 21 sampleInstance ∧
      chunks.map List.length =
        List.replicate ((List.replicate 21 sampleInstance).length / 20) 20 ++
          (if (List.replicate 21 sampleInstance).length % 20 = 0 then []
            else [(List.replicate 21 sampleInstance).length % 20]) ∧
      (SaveAlertInstances StoreEnv.accepting
          (List.replicate 21 sampleInstance)).1.flatMap Statement.values =
        (List.replicate 21 sampleInstance).flatMap
          (fun a => SaveAlertInstances.rowArgs (toString a.Labels) a) :=
  saveAlertInstances_writes_each_once StoreEnv.accepting (List.replicate 21 sampleInstance)
    (fun n => "UPSERT rows=" ++ toString n) (fun labels => toString labels)
    (by
      intro n h1 _
      have h : ¬ n < 1 := not_lt.2 h1
      simp only [StoreEnv.accepting, if_neg h])
    (fun _ _ => rfl) (fun _ _ => rfl) (fun _ _ => rfl)

/-- The triples the statement under construction in `rowData` will target. -/
theorem DeleteAlertInstances.targets_stmt (q : String) (rd : DeleteAlertInstances.data) :
    Statement.deleteTargets
        ([SqlArg.sql q, SqlArg.int rd.ruleOrgID, SqlArg.str rd.ruleUID] ++ rd.labelHashes) =
      Statement.deleteTargets
        (SqlArg.sql "" :: SqlArg.int rd.ruleOrgID :: SqlArg.str rd.ruleUID :: rd.labelHashes) :=
  rfl

theorem DeleteAlertInstances.execQuery_ok (env : StoreEnv)
    (hexec : ∀ l st, env.Exec l st = Except.ok ()) (log : List Statement)
    (rd : DeleteAlertInstances.data) (ph : List Char) :
    ∃ log1, DeleteAlertInstances.execQuery env log rd ph = (log1, Except.ok ()) ∧
      log1.flatMap Statement.deleteTargets =
        log.flatMap Statement.deleteTargets ++
          Statement.deleteTargets
            (SqlArg.sql "" :: SqlArg.int rd.ruleOrgID :: SqlArg.str rd.ruleUID ::
              rd.labelHashes) := by
  unfold DeleteAlertInstances.execQuery
  by_cases h : rd.labelHashes.length = 0
  · rw [if_pos h]
    refine ⟨log, rfl, ?_⟩
    rw [List.length_eq_zero.1 h]
    simp [Statement.deleteTargets]
  · rw [if_neg h]
    simp only [hexec]
    refine ⟨_, rfl, ?_⟩
    rw [List.flatMap_append]
    simp [Statement.deleteTargets]

theorem DeleteAlertInstances.loop_targets (env : StoreEnv)
    (hexec : ∀ l st, env.Exec l st = Except.ok ()) (ks : List AlertInstanceKey) :
    ∀ (rd : DeleteAlertInstances.data) (ph : List Char) (log : List Statement),
    ∃ log1 rd1 ph1, DeleteAlertInstances.loop env ks rd ph log = (log1, Except.ok (rd1, ph1)) ∧
      log1.flatMap Statement.deleteTargets ++
          Statement.deleteTargets
            (SqlArg.sql "" :: SqlArg.int rd1.ruleOrgID :: SqlArg.str rd1.ruleUID ::
              rd1.labelHashes) =
        log.flatMap Statement.deleteTargets ++
          Statement.deleteTargets
            (SqlArg.sql "" :: SqlArg.int rd.ruleOrgID :: SqlArg.str rd.ruleUID ::
              rd.labelHashes) ++ ks := by
  induction ks with
  | nil =>
    intro rd ph log
    exact ⟨log, rd, ph, rfl, by simp⟩
  | cons k rest ih =>
    intro rd ph log
    unfold DeleteAlertInstances.loop
    by_cases hc : rd.ruleOrgID ≠ k.RuleOrgID ∨ rd.ruleUID ≠ k.RuleUID ∨
        rd.labelHashes.length ≥ 200
    · rw [if_pos hc]
      obtain ⟨log1, hq, ht⟩ := DeleteAlertInstances.execQuery_ok env hexec log rd ph
      rw [hq]
      simp only
      obtain ⟨log2, rd2, ph2, hrun, hinv⟩ := ih
        { ruleOrgID := k.RuleOrgID, ruleUID := k.RuleUID,
          labelHashes := [] ++ [SqlArg.str k.LabelsHash] }
        ("(".toList ++ "?, ".toList) log1
      refine ⟨log2, rd2, ph2, hrun, ?_⟩
      rw [hinv, ht]
      simp [Statement.deleteTargets]
    · rw [if_neg hc]
      obtain ⟨log2, rd2, ph2, hrun, hinv⟩ := ih
        { rd with labelHashes := rd.labelHashes ++ [SqlArg.str k.LabelsHash] }
        (ph ++ "?, ".toList) log
      refine ⟨log2, rd2, ph2, hrun, ?_⟩
      rw [hinv]
      have horg : rd.ruleOrgID = k.RuleOrgID := by
        by_contra h
        exact hc (Or.inl h)
      have huid : rd.ruleUID = k.RuleUID := by
        by_contra h
        exact hc (Or.inr (Or.inl h))
      simp [Statement.deleteTargets, List.filterMap_append, horg, huid]

/-- With every statement succeeding, the statements of `DeleteAlertInstances`
target the sorted keys, one after the other. -/
theorem DeleteAlertInstances.targets_eq_sorted (env : StoreEnv)
    (sortSlice : (AlertInstanceKey → AlertInstanceKey → Bool) → List AlertInstanceKey →
      List AlertInstanceKey)
    (keys : List AlertInstanceKey) (hne : keys ≠ [])
    (hexec : ∀ l st, env.Exec l st = Except.ok ()) :
    (DeleteAlertInstances env sortSlice keys).2 = Except.ok () ∧
      (DeleteAlertInstances env sortSlice keys).1.flatMap Statement.deleteTargets =
        sortSlice DeleteAlertInstances.less keys := by
  have hlen : ¬ keys.length = 0 := fun h => hne (List.length_eq_zero.1 h)
  unfold DeleteAlertInstances
  rw [if_neg hlen]
  obtain ⟨log1, rd1, ph1, hrun, hinv⟩ := DeleteAlertInstances.loop_targets env hexec
    (sortSlice DeleteAlertInstances.less keys)
    { ruleOrgID := 0, ruleUID := "", labelHashes := [] } "(".toList []
  simp only [hrun]
  have hinv2 : log1.flatMap Statement.deleteTargets ++
      Statement.deleteTargets
        (SqlArg.sql "" :: SqlArg.int rd1.ruleOrgID :: SqlArg.str rd1.ruleUID ::
          rd1.labelHashes) = sortSlice DeleteAlertInstances.less keys := by
    rw [hinv]
    simp [Statement.deleteTargets]
  by_cases hrest : rd1.labelHashes.length ≠ 0
  · rw [if_pos hrest]
    obtain ⟨log2, hq, ht⟩ := DeleteAlertInstances.execQuery_ok env hexec log1 rd1 ph1
    rw [hq]
    exact ⟨rfl, by simp only; rw [ht, hinv2]⟩
  · rw [if_neg hrest]
    refine ⟨rfl, ?_⟩
    have hnil : rd1.labelHashes = [] := List.length_eq_zero.1 (not_not.1 hrest)
    rw [hnil] at hinv2
    simpa [Statement.deleteTargets] using hinv2

/-- C5. For every non-empty list of keys, when all statements succeed (and
`sort.Slice` returns a permutation of the keys), `DeleteAlertInstances` returns
no error and the (org, rule UID, labels hash) triples targeted by the `DELETE`
statements it issues are, as a multiset, exactly the input keys: every key is
targeted as many times as it is given, and nothing else is targeted. -/
theorem deleteAlertInstances_targets_exactly (env : StoreEnv)
    (sortSlice : (AlertInstanceKey → AlertInstanceKey → Bool) → List AlertInstanceKey →
      List AlertInstanceKey)
    (keys : List AlertInstanceKey) (hne : keys ≠ [])
    (hsort : (sortSlice DeleteAlertInstances.less keys).Perm keys)
    (hexec : ∀ l st, env.Exec l st = Except.ok ()) :
    (DeleteAlertInstances env sortSlice keys).2 = Except.ok () ∧
      ((DeleteAlertInstances env sortSlice keys).1.flatMap Statement.deleteTargets).Perm keys ∧
      ∀ k : AlertInstanceKey,
        ((DeleteAlertInstances env sortSlice keys).1.flatMap Statement.deleteTargets).count k =
          keys.count k := by
  obtain ⟨hok, htargets⟩ := DeleteAlertInstances.targets_eq_sorted env sortSlice keys hne hexec
  refine ⟨hok, ?_, ?_⟩
  · rw [htargets]
    exact hsort
  · intro k
    rw [htargets]
    exact hsort.count_eq k

theorem deleteAlertInstances_targets_exactly_witness :
    (DeleteAlertInstances StoreEnv.accepting mergeSortSlice
        [{ RuleOrgID := 1, RuleUID := "b", LabelsHash := "h1" },
          { RuleOrgID := 1, RuleUID := "a", LabelsHash := "h2" },
          { RuleOrgID := 1, RuleUID := "b", LabelsHash := "h3" }]).2 = Except.ok () ∧
      ((DeleteAlertInstances StoreEnv.accepting mergeSortSlice
        [{ RuleOrgID := 1, RuleUID := "b", LabelsHash := "h1" },
          { RuleOrgID := 1, RuleUID := "a", LabelsHash := "h2" },
          { RuleOrgID := 1, RuleUID := "b", LabelsHash := "h3" }]).1.flatMap
            Statement.deleteTargets).Perm
        [{ RuleOrgID := 1, RuleUID := "b", LabelsHash := "h1" },
          { RuleOrgID := 1, RuleUID := "a", LabelsHash := "h2" },
          { RuleOrgID := 1, RuleUID := "b", LabelsHash := "h3" }] ∧
      ∀ k : AlertInstanceKey,
        ((DeleteAlertInstances StoreEnv.accepting mergeSortSlice
          [{ RuleOrgID := 1, RuleUID := "b", LabelsHash := "h1" },
            { RuleOrgID := 1, RuleUID := "a", LabelsHash := "h2" },
            { RuleOrgID := 1, RuleUID := "b", LabelsHash := "h3" }]).1.flatMap
              Statement.deleteTargets).count k =
          List.count k
            [{ RuleOrgID := 1, RuleUID := "b", LabelsHash := "h1" },
              { RuleOrgID := 1, RuleUID := "a", LabelsHash := "h2" },
              { RuleOrgID := 1, RuleUID := "b", LabelsHash := "h3" }] :=
  deleteAlertInstances_targets_exactly StoreEnv.accepting mergeSortSlice _ (by simp)
    (List.mergeSort_perm _ _) (fun _ _ => rfl)

/-! ### Evaluation results -/

/-- What the round trip does to the error of a result: a nil error stays nil, a
chain holding an `expr.QueryError` value comes back as a pointer to an
`expr.QueryError` with its reference ID and the text of its cause, any other
error comes back as an `errors.New` of its text. -/
theorem roundTrip_error (stateString : Int → String) (queryErrorText : String → String → String)
    (r : Result) :
    (apiToEvaluationResult (evaluationResultsToApi stateString queryErrorText r)).Error =
      match r.Error with
      | none => none
      | some err =>
        match errorsAsQueryError err with
        | some (refID, cause) =>
          some (GoError.queryErrorPtr refID
            (GoError.errorString (GoError.Error queryErrorText cause)))
        | none => some (GoError.errorString (GoError.Error queryErrorText err)) := by
  cases hr : r.Error with
  | none => simp [apiToEvaluationResult, evaluationResultsToApi, hr]
  | some err =>
    cases hq : errorsAsQueryError err with
    | none =>
      simp [apiToEvaluationResult, evaluationResultsToApi, hr, hq, OtherErrorType, QueryErrorType]
    | some p =>
      obtain ⟨refID, cause⟩ := p
      simp [apiToEvaluationResult, evaluationResultsToApi, hr, hq, QueryErrorType, mapIndex,
        EvaluationErrorRefIdKey, List.lookup]

/-- C6 fails on the result whose error is `expr.QueryError{RefID: "A", Err:
errors.New("boom")}`. Its API form has type `QUERY_ERROR` with `REF_ID` = `A`;
`apiToEvaluationResult` turns that into a pointer `&expr.QueryError{...}`, in
which `errors.As` into an `expr.QueryError`, the test `evaluationResultsToApi`
applies, finds no query error: converted once more, the result has type
`OTHER`. The round trip has changed the kind of the error. -/
theorem evalResult_roundTrip_changes_query_error :
    (evaluationResultsToApi toString (fun refID cause => refID ++ ": " ++ cause)
        { Instance := [], State := 4, EvaluatedAt := 0, EvaluationDuration := 0,
          EvaluationString := "", Values := none,
          Error := some (GoError.queryError "A" (GoError.errorString "boom")) }).Error =
      some { Type_ := "QUERY_ERROR", Message := "boom", Metadata := [("REF_ID", "A")] } ∧
    (apiToEvaluationResult
        (evaluationResultsToApi toString (fun refID cause => refID ++ ": " ++ cause)
          { Instance := [], State := 4, EvaluatedAt := 0, EvaluationDuration := 0,
            EvaluationString := "", Values := none,
            Error := some (GoError.queryError "A" (GoError.errorString "boom")) })).Error =
      some (GoError.queryErrorPtr "A" (GoError.errorString "boom")) ∧
    errorsAsQueryError (GoError.queryError "A" (GoError.errorString "boom")) =
      some ("A", GoError.errorString "boom") ∧
    errorsAsQueryError (GoError.queryErrorPtr "A" (GoError.errorString "boom")) = none ∧
    (evaluationResultsToApi toString (fun refID cause => refID ++ ": " ++ cause)
        (apiToEvaluationResult
          (evaluationResultsToApi toString (fun refID cause => refID ++ ": " ++ cause)
            { Instance := [], State := 4, EvaluatedAt := 0, EvaluationDuration := 0,
              EvaluationString := "", Values := none,
              Error := some (GoError.queryError "A" (GoError.errorString "boom")) }))).Error =
      some { Type_ := "OTHER", Message := "A: boom", Metadata := [] } := by
  refine ⟨?_, ?_, ?_, ?_, ?_⟩ <;> decide

/-- C7. For every number value capture `c`, `valueNumberCaptureToApi c` has
`IsNan = true` exactly when the value of `c` is present and NaN, and then its
`Value` is absent; in every other case `IsNan` is false and `Value` is the
value of `c` unchanged. `Var` and `Labels` are copied. So a NaN value never
becomes a number, and a capture of NaN and a capture without value, equal
otherwise or not, map to different API values. -/
theorem valueNumberCaptureToApi_nan_flag (c : NumberValueCapture) :
    ((valueNumberCaptureToApi c).IsNan = true ↔
        ∃ v, c.Value = some v ∧ math.IsNaN v = true) ∧
      ((valueNumberCaptureToApi c).IsNan = true → (valueNumberCaptureToApi c).Value = none) ∧
      ((valueNumberCaptureToApi c).IsNan = false →
        (valueNumberCaptureToApi c).Value = c.Value) ∧
      (valueNumberCaptureToApi c).Var = c.Var ∧
      (valueNumberCaptureToApi c).Labels = c.Labels ∧
      (∀ (missing : NumberValueCapture) (v : Float64), c.Value = some v → math.IsNaN v = true →
        missing.Value = none → valueNumberCaptureToApi c ≠ valueNumberCaptureToApi missing) := by
  cases hv : c.Value with
  | none =>
    simp [valueNumberCaptureToApi, hv]
  | some v =>
    cases hn : math.IsNaN v with
    | false =>
      simp [valueNumberCaptureToApi, hv, hn]
    | true =>
      refine ⟨by simp [valueNumberCaptureToApi, hv, hn],
        by simp [valueNumberCaptureToApi, hv, hn], by simp [valueNumberCaptureToApi, hv, hn],
        rfl, rfl, ?_⟩
      intro missing w _ _ hmiss h
      have := congrArg ApiNumberValueCapture.IsNan h
      simp [valueNumberCaptureToApi, hv, hn, hmiss] at this

theorem valueNumberCaptureToApi_nan_flag_witness :
    valueNumberCaptureToApi { Var := "B", Labels := [], Value := some math.NaN } =
        { Var := "B", Labels := [], Value := none, IsNan := true } ∧
      valueNumberCaptureToApi { Var := "B", Labels := [], Value := none } =
        { Var := "B", Labels := [], Value := none, IsNan := false } ∧
      valueNumberCaptureToApi { Var := "B", Labels := [], Value := some math.NaN } ≠
        valueNumberCaptureToApi { Var := "B", Labels := [], Value := none } :=
  ⟨by decide, by decide,
    (valueNumberCaptureToApi_nan_flag
      { Var := "B", Labels := [], Value := some math.NaN }).2.2.2.2.2
      { Var := "B", Labels := [], Value := none } math.NaN rfl (by decide) rfl⟩

/-! ### Migration: routes and receivers -/

theorem setAdd_mem (names : List String) (n x : String) :
    x ∈ setAdd names n ↔ x ∈ names ∨ x = n := by
  unfold setAdd
  by_cases h : n ∈ names
  · rw [if_pos h]
    constructor
    · exact Or.inl
    · rintro (hx | rfl)
      · exact hx
      · exact h
  · rw [if_neg h]
    simp

theorem setAdd_nodup (names : List String) (n : String) (hn : names.Nodup) :
    (setAdd names n).Nodup := by
  unfold setAdd
  by_cases h : n ∈ names
  · rw [if_pos h]; exact hn
  · rw [if_neg h]
    rw [List.nodup_append]
    refine ⟨hn, List.nodup_singleton n, ?_⟩
    intro a ha hb
    rw [List.mem_singleton] at hb
    exact h (hb ▸ ha)

theorem foldl_setAdd_mem (ns : List String) : ∀ (acc : List String) (x : String),
    x ∈ ns.foldl setAdd acc ↔ x ∈ acc ∨ x ∈ ns := by
  induction ns with
  | nil => intro acc x; simp
  | cons n rest ih =>
    intro acc x
    rw [List.foldl_cons, ih, setAdd_mem, List.mem_cons]
    tauto

theorem foldl_setAdd_nodup (ns : List String) : ∀ (acc : List String), acc.Nodup →
    (ns.foldl setAdd acc).Nodup := by
  induction ns with
  | nil => intro acc h; exact h
  | cons n rest ih =>
    intro acc h
    rw [List.foldl_cons]
    exact ih _ (setAdd_nodup acc n h)

theorem foldl_lookup_mem (receivers : List (uidOrID × PostableApiReceiver))
    (ids : List uidOrID) : ∀ (acc : List String) (x : String),
    x ∈ ids.foldl (MigrateOrgAlerts.filterReceiversForAlert.step receivers) acc ↔
      x ∈ acc ∨ x ∈ ids.filterMap
        (fun uidOrId => (receivers.lookup uidOrId).map (fun recv => recv.Name)) := by
  induction ids with
  | nil => intro acc x; simp
  | cons i rest ih =>
    intro acc x
    rw [List.foldl_cons, ih]
    unfold MigrateOrgAlerts.filterReceiversForAlert.step
    cases hl : receivers.lookup i with
    | none => simp [List.filterMap_cons, hl]
    | some recv =>
      simp only [List.filterMap_cons, hl, Option.map_some', setAdd_mem, List.mem_cons]
      tauto

theorem foldl_lookup_nodup (receivers : List (uidOrID × PostableApiReceiver))
    (ids : List uidOrID) : ∀ (acc : List String), acc.Nodup →
    (ids.foldl (MigrateOrgAlerts.filterReceiversForAlert.step receivers) acc).Nodup := by
  induction ids with
  | nil => intro acc h; exact h
  | cons i rest ih =>
    intro acc h
    rw [List.foldl_cons]
    apply ih
    unfold MigrateOrgAlerts.filterReceiversForAlert.step
    cases receivers.lookup i with
    | none => exact h
    | some recv => exact setAdd_nodup acc recv.Name h

/-- What `filterReceiversForAlert` returns, in terms of the resolved names. -/
theorem MigrateOrgAlerts.filterReceiversForAlert_spec (env : MigrationEnv)
    (m : MigrateOrgAlerts) (da : dashAlert) (receivers : List (uidOrID × PostableApiReceiver))
    (defaultReceivers : List String) :
    ((∀ n ∈ resolvedReceiverNames env m da receivers, n ∈ defaultReceivers) →
        MigrateOrgAlerts.filterReceiversForAlert env m da receivers defaultReceivers = []) ∧
      ((∃ n ∈ resolvedReceiverNames env m da receivers, n ∉ defaultReceivers) →
        (MigrateOrgAlerts.filterReceiversForAlert env m da receivers defaultReceivers).Nodup ∧
        ∀ x, x ∈ MigrateOrgAlerts.filterReceiversForAlert env m da receivers defaultReceivers ↔
          x ∈ resolvedReceiverNames env m da receivers ∨ x ∈ defaultReceivers) := by
  unfold MigrateOrgAlerts.filterReceiversForAlert resolvedReceiverNames
  simp only
  generalize env.extractChannelIDs da ++ extractEmailChannelIDs da m.channelUidByEmail = ids
  have hmem := foldl_lookup_mem receivers ids []
  have hnd := foldl_lookup_nodup receivers ids [] List.nodup_nil
  generalize ids.foldl (MigrateOrgAlerts.filterReceiversForAlert.step receivers) [] = filtered at hmem hnd ⊢
  simp only [List.not_mem_nil, false_or] at hmem
  by_cases hlen : ids.length = 0
  · rw [if_pos hlen]
    have : ids = [] := List.length_eq_zero.1 hlen
    subst this
    refine ⟨fun _ => rfl, ?_⟩
    rintro ⟨n, hn, _⟩
    simp at hn
  · rw [if_neg hlen]
    constructor
    · intro hall
      have hcov : (filtered.length = 0 ||
          MigrateOrgAlerts.filterReceiversForAlert.coveredByDefault defaultReceivers
            filtered) = true := by
        rw [Bool.or_eq_true]
        right
        unfold MigrateOrgAlerts.filterReceiversForAlert.coveredByDefault
        rw [List.all_eq_true]
        intro x hx
        exact decide_eq_true (hall x ((hmem x).1 hx))
      rw [if_pos hcov]
    · rintro ⟨n, hn, hnd'⟩
      have hnf : n ∈ filtered := (hmem n).2 hn
      have hcov : ¬ (filtered.length = 0 ||
          MigrateOrgAlerts.filterReceiversForAlert.coveredByDefault defaultReceivers
            filtered) = true := by
        rw [Bool.or_eq_true]
        rintro (h0 | hc)
        · have h0' : filtered.length = 0 := of_decide_eq_true h0
          rw [List.length_eq_zero.1 h0'] at hnf
          simp at hnf
        · unfold MigrateOrgAlerts.filterReceiversForAlert.coveredByDefault at hc
          rw [List.all_eq_true] at hc
          exact hnd' (of_decide_eq_true (hc n hnf))
      rw [if_neg hcov]
      refine ⟨foldl_setAdd_nodup _ _ hnd, ?_⟩
      intro x
      rw [foldl_setAdd_mem, hmem]

theorem eq_singleton_of_nodup (l : List String) (n : String) (hnd : l.Nodup)
    (hmem : ∀ x, x ∈ l ↔ x = n) : l = [n] := by
  cases l with
  | nil =>
    have := (hmem n).2 rfl
    simp at this
  | cons a rest =>
    have ha : a = n := (hmem a).1 (List.mem_cons_self _ _)
    subst ha
    cases rest with
    | nil => rfl
    | cons b rest2 =>
      have hb : b = a := (hmem b).1 (List.mem_cons_of_mem _ (List.mem_cons_self _ _))
      subst hb
      simp at hnd

/-- C8. `createDefaultRouteAndReceiver` returns a root route with one receiver
name and no child routes. With exactly one default channel it succeeds without
creating a notifier, the root receiver name is that channel's name and no
new receiver is returned. With zero or more than one, whenever the creation of
the notifiers succeeds it returns a new receiver named
"Default autogenerated contact point (placeholder)" holding them, and the root
route names it. Whatever it returns without error has one of these two forms. -/
theorem createDefaultRouteAndReceiver_root (env : MigrationEnv) (m : MigrateOrgAlerts)
    (defaultChannels : List notificationChannel) :
    (∀ c, defaultChannels = [c] →
        MigrateOrgAlerts.createDefaultRouteAndReceiver env m defaultChannels =
          (Except.ok (none, Route.mk c.Name [] []), m)) ∧
      (defaultChannels.length ≠ 1 → ∀ notifiers m1,
        MigrateOrgAlerts.createDefaultRouteAndReceiver.loop env defaultChannels m [] =
          (Except.ok notifiers, m1) →
        MigrateOrgAlerts.createDefaultRouteAndReceiver env m defaultChannels =
          (Except.ok
            (some { Name := "Default autogenerated contact point (placeholder)",
                    GrafanaManagedReceivers := notifiers },
              Route.mk "Default autogenerated contact point (placeholder)" [] []), m1)) ∧
      (∀ recv route m1,
        MigrateOrgAlerts.createDefaultRouteAndReceiver env m defaultChannels =
          (Except.ok (recv, route), m1) →
        route.Routes = [] ∧
          (defaultChannels.length = 1 → recv = none ∧
            ∃ c, defaultChannels = [c] ∧ route.Receiver = c.Name) ∧
          (defaultChannels.length ≠ 1 →
            route.Receiver = "Default autogenerated contact point (placeholder)" ∧
            ∃ r, recv = some r ∧
              r.Name = "Default autogenerated contact point (placeholder)")) := by
  refine ⟨?_, ?_, ?_⟩
  · intro c hc
    subst hc
    simp [MigrateOrgAlerts.createDefaultRouteAndReceiver]
  · intro hlen notifiers m1 hloop
    simp only [MigrateOrgAlerts.createDefaultRouteAndReceiver, dif_pos hlen, hloop,
      defaultContactPointReceiverName]
  · intro recv route m1 hok
    by_cases hlen : defaultChannels.length ≠ 1
    · simp only [MigrateOrgAlerts.createDefaultRouteAndReceiver, dif_pos hlen,
        defaultContactPointReceiverName] at hok
      cases hloop : MigrateOrgAlerts.createDefaultRouteAndReceiver.loop env defaultChannels m []
        with
      | mk res m2 =>
        rw [hloop] at hok
        cases res with
        | error e => simp at hok
        | ok notifiers =>
          simp only [Prod.mk.injEq, Except.ok.injEq] at hok
          obtain ⟨⟨hrecv, hroute⟩, _⟩ := hok
          subst hrecv hroute
          refine ⟨rfl, fun h => absurd h hlen, fun _ => ⟨rfl, _, rfl, rfl⟩⟩
    · have hone : defaultChannels.length = 1 := not_not.1 hlen
      obtain ⟨c, hc⟩ := List.length_eq_one.1 hone
      subst hc
      simp only [MigrateOrgAlerts.createDefaultRouteAndReceiver] at hok
      simp only [List.length_singleton, ne_eq, not_true_eq_false, dite_false, List.get,
        Prod.mk.injEq, Except.ok.injEq] at hok
      obtain ⟨⟨hrecv, hroute⟩, _⟩ := hok
      subst hrecv hroute
      exact ⟨rfl, fun _ => ⟨rfl, c, rfl, rfl⟩, fun h => absurd rfl h⟩

theorem createDefaultRouteAndReceiver_root_witness :
    MigrateOrgAlerts.createDefaultRouteAndReceiver MigrationEnv.sample MigrateOrgAlerts.sample
        [notificationChannel.sample 1 "slack-a" true] =
      (Except.ok (none, Route.mk "slack-a" [] []), MigrateOrgAlerts.sample) ∧
    MigrateOrgAlerts.createDefaultRouteAndReceiver MigrationEnv.sample MigrateOrgAlerts.sample
        [notificationChannel.sample 1 "slack-a" true,
          notificationChannel.sample 2 "slack-b" true] =
      (Except.ok
        (some { Name := "Default autogenerated contact point (placeholder)",
                GrafanaManagedReceivers :=
                  [{ UID := "u", Name := "slack-a", Type_ := "slack",
                     DisableResolveMessage := false, Settings := "", SecureSettings := [] },
                   { UID := "uu", Name := "slack-b", Type_ := "slack",
                     DisableResolveMessage := false, Settings := "", SecureSettings := [] }] },
          Route.mk "Default autogenerated contact point (placeholder)" [] []),
        { seenChannelUIDs := ["uu", "u"], orgId := 1,
          channelUidByEmail := [("ops@example.com", "mail-uid")], shortUIDCalls := 2 }) :=
  ⟨(createDefaultRouteAndReceiver_root MigrationEnv.sample MigrateOrgAlerts.sample
      [notificationChannel.sample 1 "slack-a" true]).1 _ rfl,
    (createDefaultRouteAndReceiver_root MigrationEnv.sample MigrateOrgAlerts.sample
      [notificationChannel.sample 1 "slack-a" true,
        notificationChannel.sample 2 "slack-b" true]).2.1 (by decide) _ _ rfl⟩

/-- C9. `filterReceiversForAlert` returns no receiver names exactly when every
receiver name resolved from the alert's channel references (notification UIDs or
IDs and the channel UIDs of its email addresses, unknown references ignored) is
a default receiver, which includes the case of no resolved name at all; then
`createRouteForAlert` calls `createRoute` not at all and returns a nil route
and a nil error. In every other case it calls `createRoute` once, for the
rule's UID, with a non-empty set of names. -/
theorem filterReceiversForAlert_empty_iff (env : MigrationEnv) (m : MigrateOrgAlerts)
    (ruleUID : String) (da : dashAlert) (receivers : List (uidOrID × PostableApiReceiver))
    (defaultReceivers : List String) :
    (MigrateOrgAlerts.filterReceiversForAlert env m da receivers defaultReceivers = [] ↔
        ∀ n ∈ resolvedReceiverNames env m da receivers, n ∈ defaultReceivers) ∧
      ((∀ n ∈ resolvedReceiverNames env m da receivers, n ∈ defaultReceivers) →
        MigrateOrgAlerts.createRouteForAlert env m ruleUID da receivers defaultReceivers =
          ([], Except.ok none)) ∧
      ((∃ n ∈ resolvedReceiverNames env m da receivers, n ∉ defaultReceivers) →
        MigrateOrgAlerts.filterReceiversForAlert env m da receivers defaultReceivers ≠ [] ∧
        (MigrateOrgAlerts.createRouteForAlert env m ruleUID da receivers defaultReceivers).1 =
          [(ruleUID,
            MigrateOrgAlerts.filterReceiversForAlert env m da receivers defaultReceivers)]) := by
  obtain ⟨hdef, hspec⟩ :=
    MigrateOrgAlerts.filterReceiversForAlert_spec env m da receivers defaultReceivers
  have hne : (∃ n ∈ resolvedReceiverNames env m da receivers, n ∉ defaultReceivers) →
      MigrateOrgAlerts.filterReceiversForAlert env m da receivers defaultReceivers ≠ [] := by
    rintro ⟨n, hn, hnd⟩ hnil
    have := ((hspec ⟨n, hn, hnd⟩).2 n).2 (Or.inl hn)
    rw [hnil] at this
    simp at this
  refine ⟨⟨?_, hdef⟩, ?_, ?_⟩
  · intro hnil n hn
    by_contra hnd
    exact hne ⟨n, hn, hnd⟩ hnil
  · intro hall
    simp [MigrateOrgAlerts.createRouteForAlert, hdef hall]
  · intro hex
    refine ⟨hne hex, ?_⟩
    have hlen : (MigrateOrgAlerts.filterReceiversForAlert env m da receivers
        defaultReceivers).length ≠ 0 := fun h => hne hex (List.length_eq_zero.1 h)
    simp only [MigrateOrgAlerts.createRouteForAlert, if_pos hlen]
    cases env.createRoute ruleUID
      (MigrateOrgAlerts.filterReceiversForAlert env m da receivers defaultReceivers) <;> rfl

theorem filterReceiversForAlert_empty_iff_witness :
    MigrateOrgAlerts.filterReceiversForAlert MigrationEnv.sample MigrateOrgAlerts.sample
        (dashAlert.sample ["slack-a", "gone"])
        [(uidOrID.uid "slack-a", PostableApiReceiver.sample "slack-a"),
          (uidOrID.uid "slack-b", PostableApiReceiver.sample "slack-b")] ["slack-a"] = [] ∧
      MigrateOrgAlerts.createRouteForAlert MigrationEnv.sample MigrateOrgAlerts.sample "rule-1"
          (dashAlert.sample ["slack-a", "gone"])
          [(uidOrID.uid "slack-a", PostableApiReceiver.sample "slack-a"),
            (uidOrID.uid "slack-b", PostableApiReceiver.sample "slack-b")] ["slack-a"] =
        ([], Except.ok none) :=
  ⟨(filterReceiversForAlert_empty_iff MigrationEnv.sample MigrateOrgAlerts.sample "rule-1"
      (dashAlert.sample ["slack-a", "gone"])
      [(uidOrID.uid "slack-a", PostableApiReceiver.sample "slack-a"),
        (uidOrID.uid "slack-b", PostableApiReceiver.sample "slack-b")] ["slack-a"]).1.2
      (by decide),
    (filterReceiversForAlert_empty_iff MigrationEnv.sample MigrateOrgAlerts.sample "rule-1"
      (dashAlert.sample ["slack-a", "gone"])
      [(uidOrID.uid "slack-a", PostableApiReceiver.sample "slack-a"),
        (uidOrID.uid "slack-b", PostableApiReceiver.sample "slack-b")] ["slack-a"]).2.1
      (by decide)⟩

/-- C10. Whenever the names resolved from an alert's channel references hold a
receiver that is not a default one, `createRouteForAlert` calls `createRoute`
exactly once, with the rule's UID, and returns its route or its error; the set
of receiver names passed has no duplicate and holds exactly the resolved names
and all default receiver names. When the organisation has no default receiver
and the alert resolves to the single name `n`, the set passed is that one
receiver. -/
theorem createRouteForAlert_specific (env : MigrationEnv) (m : MigrateOrgAlerts)
    (ruleUID : String) (da : dashAlert) (receivers : List (uidOrID × PostableApiReceiver))
    (defaultReceivers : List String)
    (hspecific : ∃ n ∈ resolvedReceiverNames env m da receivers, n ∉ defaultReceivers) :
    (MigrateOrgAlerts.createRouteForAlert env m ruleUID da receivers defaultReceivers).1 =
        [(ruleUID,
          MigrateOrgAlerts.filterReceiversForAlert env m da receivers defaultReceivers)] ∧
      (MigrateOrgAlerts.createRouteForAlert env m ruleUID da receivers defaultReceivers).2 =
        (match env.createRoute ruleUID
            (MigrateOrgAlerts.filterReceiversForAlert env m da receivers defaultReceivers) with
          | Except.error err => Except.error err
          | Except.ok route => Except.ok (some route)) ∧
      (MigrateOrgAlerts.filterReceiversForAlert env m da receivers defaultReceivers).Nodup ∧
      (∀ x, x ∈ MigrateOrgAlerts.filterReceiversForAlert env m da receivers defaultReceivers ↔
        x ∈ resolvedReceiverNames env m da receivers ∨ x ∈ defaultReceivers) ∧
      (defaultReceivers = [] → ∀ n, (∀ x ∈ resolvedReceiverNames env m da receivers, x = n) →
        MigrateOrgAlerts.filterReceiversForAlert env m da receivers defaultReceivers = [n]) := by
  obtain ⟨hnd, hmem⟩ :=
    (MigrateOrgAlerts.filterReceiversForAlert_spec env m da receivers defaultReceivers).2
      hspecific
  have hlen : (MigrateOrgAlerts.filterReceiversForAlert env m da receivers
      defaultReceivers).length ≠ 0 := by
    intro h
    obtain ⟨n, hn, _⟩ := hspecific
    have := (hmem n).2 (Or.inl hn)
    rw [List.length_eq_zero.1 h] at this
    simp at this
  refine ⟨?_, ?_, hnd, hmem, ?_⟩
  · simp only [MigrateOrgAlerts.createRouteForAlert, if_pos hlen]
    cases env.createRoute ruleUID
      (MigrateOrgAlerts.filterReceiversForAlert env m da receivers defaultReceivers) <;> rfl
  · simp only [MigrateOrgAlerts.createRouteForAlert, if_pos hlen]
    cases env.createRoute ruleUID
      (MigrateOrgAlerts.filterReceiversForAlert env m da receivers defaultReceivers) <;> rfl
  · intro hnodef n hall
    apply eq_singleton_of_nodup _ n hnd
    intro x
    rw [hmem, hnodef]
    constructor
    · rintro (hx | hx)
      · exact hall x hx
      · simp at hx
    · rintro rfl
      obtain ⟨y, hy, _⟩ := hspecific
      exact Or.inl (hall y hy ▸ hy)

theorem createRouteForAlert_specific_witness :
    (MigrateOrgAlerts.createRouteForAlert MigrationEnv.sample MigrateOrgAlerts.sample "rule-1"
        (dashAlert.sample ["slack-b"])
        [(uidOrID.uid "slack-a", PostableApiReceiver.sample "slack-a"),
          (uidOrID.uid "slack-b", PostableApiReceiver.sample "slack-b")] ["slack-a"]).1 =
      [("rule-1", ["slack-b", "slack-a"])] ∧
    MigrateOrgAlerts.filterReceiversForAlert MigrationEnv.sample MigrateOrgAlerts.sample
        (dashAlert.sample ["slack-b"])
        [(uidOrID.uid "slack-a", PostableApiReceiver.sample "slack-a"),
          (uidOrID.uid "slack-b", PostableApiReceiver.sample "slack-b")] [] = ["slack-b"] :=
  ⟨(createRouteForAlert_specific MigrationEnv.sample MigrateOrgAlerts.sample "rule-1"
      (dashAlert.sample ["slack-b"])
      [(uidOrID.uid "slack-a", PostableApiReceiver.sample "slack-a"),
        (uidOrID.uid "slack-b", PostableApiReceiver.sample "slack-b")] ["slack-a"]
      ⟨"slack-b", by decide, by decide⟩).1,
    (createRouteForAlert_specific MigrationEnv.sample MigrateOrgAlerts.sample "rule-1"
      (dashAlert.sample ["slack-b"])
      [(uidOrID.uid "slack-a", PostableApiReceiver.sample "slack-a"),
        (uidOrID.uid "slack-b", PostableApiReceiver.sample "slack-b")] []
      ⟨"slack-b", by decide, by decide⟩).2.2.2.2 rfl "slack-b" (by decide)⟩

/-! ### Ticker construction and statement bounds -/

/-- C19. `NewTicker` panics, starting no ticker, exactly when `interval ≤ 0`; for
every positive interval it returns a ticker whose `last` and `interval` are the
given ones. -/
theorem newTicker_panics_iff (last : Time) (interval : Duration) :
    (NewTicker last interval = none ↔ interval ≤ 0) ∧
      (0 < interval → NewTicker last interval = some { last := last, interval := interval }) := by
  unfold NewTicker
  by_cases h : interval ≤ 0
  · rw [if_pos h]
    exact ⟨⟨fun _ => h, fun _ => rfl⟩, fun hpos => absurd h (not_le.2 hpos)⟩
  · rw [if_neg h]
    exact ⟨⟨fun hn => by simp at hn, fun hle => absurd hle h⟩, fun _ => rfl⟩

theorem newTicker_panics_iff_witness :
    NewTicker 100 0 = none ∧ NewTicker 100 (-5) = none ∧
      NewTicker 100 10 = some { last := 100, interval := 10 } :=
  ⟨(newTicker_panics_iff 100 0).1.2 (by decide), (newTicker_panics_iff 100 (-5)).1.2 (by decide),
    (newTicker_panics_iff 100 10).2 (by decide)⟩

theorem SaveAlertInstances.length_rowPairs (rows : List (String × AlertInstance)) :
    (rows.flatMap (fun r => SaveAlertInstances.rowArgs r.1 r.2)).length = 8 * rows.length := by
  induction rows with
  | nil => rfl
  | cons a as ih =>
    rw [List.flatMap_cons, List.length_append, ih]
    simp only [SaveAlertInstances.rowArgs, List.length_cons, List.length_nil]
    omega

theorem SaveAlertInstances.values_rowPairs (s : SqlArg) (rows : List (String × AlertInstance)) :
    SaveAlertInstances.values (s :: rows.flatMap (fun r => SaveAlertInstances.rowArgs r.1 r.2)) =
      8 * (rows.length : Int) := by
  unfold SaveAlertInstances.values
  rw [List.length_cons, SaveAlertInstances.length_rowPairs]
  push_cast
  ring

/-- Whatever the environment answers, the loop of `SaveAlertInstances` only
executes full batches of 20 rows with the text generated for 20 rows, and
leaves fewer than 20 rows in `args`. -/
theorem SaveAlertInstances.loop_wellBatched (env : StoreEnv) (big : String)
    (hbig : env.UpsertMultipleSQL "alert_instance" ["rule_org_id", "rule_uid", "labels_hash"]
      ["rule_org_id", "rule_uid", "labels", "labels_hash", "current_state",
        "current_state_since", "current_state_end", "last_eval_time"] 20 = Except.ok big)
    (cmd : List AlertInstance) :
    ∀ (acc : List (String × AlertInstance)) (log : List Statement),
    acc.length < 20 → (∀ s ∈ log, SaveAlertInstances.wellBatched env s) →
    (∀ s ∈ (SaveAlertInstances.loop env 160 cmd
        (SqlArg.sql big :: acc.flatMap (fun r => SaveAlertInstances.rowArgs r.1 r.2)) log).1,
      SaveAlertInstances.wellBatched env s) ∧
    (∀ args, (SaveAlertInstances.loop env 160 cmd
        (SqlArg.sql big :: acc.flatMap (fun r => SaveAlertInstances.rowArgs r.1 r.2)) log).2 =
        Except.ok args →
      ∃ rest : List (String × AlertInstance), rest.length < 20 ∧
        args = SqlArg.sql big :: rest.flatMap (fun r => SaveAlertInstances.rowArgs r.1 r.2)) := by
  induction cmd with
  | nil =>
    intro acc log hacc hlog
    refine ⟨hlog, ?_⟩
    intro args hargs
    simp only [SaveAlertInstances.loop, Except.ok.injEq] at hargs
    exact ⟨acc, hacc, hargs.symm⟩
  | cons x rest ih =>
    intro acc log hacc hlog
    unfold SaveAlertInstances.loop
    cases hk : env.StringKey x.Labels with
    | error e => exact ⟨hlog, fun args h => by simp at h⟩
    | ok json =>
      cases hv : env.ValidateAlertInstance x with
      | error e => exact ⟨hlog, fun args h => by simp at h⟩
      | ok u =>
        have happ : (SqlArg.sql big :: acc.flatMap
            (fun r => SaveAlertInstances.rowArgs r.1 r.2)) ++
            SaveAlertInstances.rowArgs json x =
            SqlArg.sql big :: (acc ++ [(json, x)]).flatMap
              (fun r => SaveAlertInstances.rowArgs r.1 r.2) := by
          simp [List.flatMap_append]
        have hval := SaveAlertInstances.values_rowPairs (SqlArg.sql big) (acc ++ [(json, x)])
        rw [List.length_append, List.length_singleton] at hval
        simp only [happ, hval]
        by_cases hfull : (8 * (((acc.length + 1 : Nat)) : Int)) ≥ 160
        · rw [if_pos hfull]
          have hlen : (acc ++ [(json, x)]).length = 20 := by
            rw [List.length_append, List.length_singleton]; omega
          have hstmt : SaveAlertInstances.wellBatched env
              (SqlArg.sql big :: (acc ++ [(json, x)]).flatMap
                (fun r => SaveAlertInstances.rowArgs r.1 r.2)) := by
            refine ⟨big, acc ++ [(json, x)], by omega, by omega, rfl, ?_, ?_⟩
            · simp only [Statement.values]
              exact SaveAlertInstances.length_rowPairs _
            · rw [hlen]; exact hbig
          have hlog' : ∀ s ∈ log ++ [SqlArg.sql big :: (acc ++ [(json, x)]).flatMap
              (fun r => SaveAlertInstances.rowArgs r.1 r.2)],
              SaveAlertInstances.wellBatched env s := by
            intro s hs
            rcases List.mem_append.1 hs with h | h
            · exact hlog s h
            · rw [List.mem_singleton.1 h]; exact hstmt
          cases he : env.Exec log (SqlArg.sql big :: (acc ++ [(json, x)]).flatMap
              (fun r => SaveAlertInstances.rowArgs r.1 r.2)) with
          | error e => exact ⟨hlog', fun args h => by simp at h⟩
          | ok u2 =>
            have := ih [] (log ++ [SqlArg.sql big :: (acc ++ [(json, x)]).flatMap
              (fun r => SaveAlertInstances.rowArgs r.1 r.2)]) (by simp) hlog'
            simpa using this
        · rw [if_neg hfull]
          exact ih (acc ++ [(json, x)]) log
            (by rw [List.length_append, List.length_singleton]; omega) hlog

/-- C20. Whatever the dialect, the validation and the database answer, every
statement `SaveAlertInstances` executes carries between 1 and 20 rows of eight
values each (so at most 160 bound values), after the upsert text the dialect
generated for exactly that number of rows. -/
theorem saveAlertInstances_statements_bounded (env : StoreEnv) (cmd : List AlertInstance) :
    ∀ stmt ∈ (SaveAlertInstances env cmd).1,
      SaveAlertInstances.wellBatched env stmt ∧ (Statement.values stmt).length ≤ 160 := by
  have hall : ∀ stmt ∈ (SaveAlertInstances env cmd).1, SaveAlertInstances.wellBatched env stmt := by
    unfold SaveAlertInstances
    simp only
    cases hbig : env.UpsertMultipleSQL "alert_instance" ["rule_org_id", "rule_uid", "labels_hash"]
        ["rule_org_id", "rule_uid", "labels", "labels_hash", "current_state",
          "current_state_since", "current_state_end", "last_eval_time"] 20 with
    | error e => intro stmt hs; simp at hs
    | ok big =>
      have h160 : ((20 : Int) * ((([ "rule_org_id", "rule_uid", "labels", "labels_hash",
          "current_state", "current_state_since", "current_state_end",
          "last_eval_time"] : List String).length : Nat) : Int)) = 160 := by
        norm_num
      obtain ⟨hlog, hargs⟩ := SaveAlertInstances.loop_wellBatched env big hbig cmd [] []
        (by simp) (by simp)
      simp only [h160]
      simp only [List.flatMap_nil] at hlog hargs
      cases hrun : SaveAlertInstances.loop env 160 cmd [SqlArg.sql big] [] with
      | mk log res =>
        rw [hrun] at hlog hargs
        cases res with
        | error e => exact hlog
        | ok args =>
          obtain ⟨rest, hrest, rfl⟩ := hargs args rfl
          simp only [SaveAlertInstances.values_rowPairs, List.length_cons, List.length_nil,
            Nat.reduceAdd]
          by_cases hz : rest.length = 0
          · have h1 : ¬ ((8 * (rest.length : Int) ≠ 0) ∧
                (8 * (rest.length : Int)) % ((8 : Nat) : Int) = 0) := by
              rw [hz]; simp
            have h2 : ¬ (8 * (rest.length : Int) ≠ 0) := by rw [hz]; simp
            rw [if_neg h1, if_neg h2]
            exact hlog
          · have h1 : (8 * (rest.length : Int) ≠ 0) ∧
                (8 * (rest.length : Int)) % ((8 : Nat) : Int) = 0 := by
              constructor
              · omega
              · norm_num
            have hdiv : (8 * (rest.length : Int)) / ((8 : Nat) : Int) = (rest.length : Int) := by
              norm_num
            rw [if_pos h1, hdiv]
            cases hsql : env.UpsertMultipleSQL "alert_instance"
                ["rule_org_id", "rule_uid", "labels_hash"]
                ["rule_org_id", "rule_uid", "labels", "labels_hash", "current_state",
                  "current_state_since", "current_state_end", "last_eval_time"]
                (rest.length : Int) with
            | error e => exact hlog
            | ok text =>
              have hstmt : SaveAlertInstances.wellBatched env
                  ((SqlArg.sql big :: rest.flatMap
                    (fun r => SaveAlertInstances.rowArgs r.1 r.2)).set 0 (SqlArg.sql text)) := by
                refine ⟨text, rest, by omega, by omega, rfl, ?_, hsql⟩
                simp only [List.set_cons_zero, Statement.values]
                exact SaveAlertInstances.length_rowPairs _
              have hlog' : ∀ s ∈ log ++ [(SqlArg.sql big :: rest.flatMap
                  (fun r => SaveAlertInstances.rowArgs r.1 r.2)).set 0 (SqlArg.sql text)],
                  SaveAlertInstances.wellBatched env s := by
                intro s hs
                rcases List.mem_append.1 hs with h | h
                · exact hlog s h
                · rw [List.mem_singleton.1 h]; exact hstmt
              simp only
              cases env.Exec log ((SqlArg.sql big :: rest.flatMap
                  (fun r => SaveAlertInstances.rowArgs r.1 r.2)).set 0 (SqlArg.sql text)) with
              | error e => exact hlog'
              | ok u => exact hlog'
  intro stmt hs
  refine ⟨hall stmt hs, ?_⟩
  obtain ⟨text, rows, _, hle, _, hvals, _⟩ := hall stmt hs
  rw [hvals]
  omega

theorem saveAlertInstances_statements_bounded_witness :
    (SaveAlertInstances StoreEnv.accepting [sampleInstance]).1 =
        [SqlArg.sql "UPSERT rows=1" ::
          SaveAlertInstances.rowArgs (toString sampleInstance.Labels) sampleInstance] ∧
      SaveAlertInstances.wellBatched StoreEnv.accepting
        (SqlArg.sql "UPSERT rows=1" ::
          SaveAlertInstances.rowArgs (toString sampleInstance.Labels) sampleInstance) ∧
      (Statement.values (SqlArg.sql "UPSERT rows=1" ::
          SaveAlertInstances.rowArgs (toString sampleInstance.Labels) sampleInstance)).length ≤
        160 :=
  ⟨by decide,
    saveAlertInstances_statements_bounded StoreEnv.accepting [sampleInstance] _
      (by decide)⟩

/-! ### Migration: receivers and Alertmanager configurations -/

theorem MigrateOrgAlerts.createNotifier_fields (env : MigrationEnv) (m m1 : MigrateOrgAlerts)
    (c : notificationChannel) (n : PostableGrafanaReceiver)
    (h : MigrateOrgAlerts.createNotifier env m c = (Except.ok n, m1)) :
    n.Name = c.Name ∧ n.Type_ = c.Type_ ∧ n.DisableResolveMessage = c.DisableResolveMessage := by
  unfold MigrateOrgAlerts.createNotifier at h
  cases hg : MigrateOrgAlerts.generateChannelUID env m with
  | mk res m2 =>
    rw [hg] at h
    cases res with
    | error e => simp at h
    | ok uid =>
      simp only at h
      cases hs : env.migrateSettingsToSecureSettings c.Type_ c.Settings c.SecureSettings with
      | error e => rw [hs] at h; simp at h
      | ok p =>
        rw [hs] at h
        simp only [Prod.mk.injEq, Except.ok.injEq] at h
        obtain ⟨hn, _⟩ := h
        subst hn
        exact ⟨rfl, rfl, rfl⟩

/-- The notifiers the loop of `createDefaultRouteAndReceiver` adds follow the
channels, one for one. -/
theorem MigrateOrgAlerts.createDefaultRouteAndReceiver.loop_fields (env : MigrationEnv)
    (channels : List notificationChannel) :
    ∀ (m m1 : MigrateOrgAlerts) (acc notifiers : List PostableGrafanaReceiver),
    MigrateOrgAlerts.createDefaultRouteAndReceiver.loop env channels m acc =
      (Except.ok notifiers, m1) →
    ∃ added : List PostableGrafanaReceiver, notifiers = acc ++ added ∧
      added.map (fun n => (n.Name, n.Type_, n.DisableResolveMessage)) =
        channels.map (fun c => (c.Name, c.Type_, c.DisableResolveMessage)) := by
  induction channels with
  | nil =>
    intro m m1 acc notifiers h
    simp only [MigrateOrgAlerts.createDefaultRouteAndReceiver.loop, Prod.mk.injEq,
      Except.ok.injEq] at h
    exact ⟨[], by simp [h.1], rfl⟩
  | cons c rest ih =>
    intro m m1 acc notifiers h
    unfold MigrateOrgAlerts.createDefaultRouteAndReceiver.loop at h
    cases hn : MigrateOrgAlerts.createNotifier env m c with
    | mk res m2 =>
      rw [hn] at h
      cases res with
      | error e => simp at h
      | ok n =>
        simp only at h
        obtain ⟨added, hadd, hmap⟩ := ih m2 m1 (acc ++ [n]) notifiers h
        obtain ⟨h1, h2, h3⟩ := MigrateOrgAlerts.createNotifier_fields env m m2 c n hn
        refine ⟨n :: added, by simp [hadd], ?_⟩
        simp [hmap, h1, h2, h3]

/-- C11. When the number of default channels is not one and
`createDefaultRouteAndReceiver` returns without error, the receiver it returns
is the placeholder and holds exactly one notifier per default channel, in the
channels' order, each with that channel's name, type and
disable-resolve-message flag: as many notifiers as default channels, none for
zero. -/
theorem createDefaultRouteAndReceiver_wraps_defaults (env : MigrationEnv)
    (m m1 : MigrateOrgAlerts) (defaultChannels : List notificationChannel)
    (recv : Option PostableApiReceiver) (route : Route)
    (hlen : defaultChannels.length ≠ 1)
    (hok : MigrateOrgAlerts.createDefaultRouteAndReceiver env m defaultChannels =
      (Except.ok (recv, route), m1)) :
    ∃ r : PostableApiReceiver, recv = some r ∧
      r.Name = "Default autogenerated contact point (placeholder)" ∧
      r.GrafanaManagedReceivers.map (fun n => (n.Name, n.Type_, n.DisableResolveMessage)) =
        defaultChannels.map (fun c => (c.Name, c.Type_, c.DisableResolveMessage)) ∧
      r.GrafanaManagedReceivers.length = defaultChannels.length := by
  simp only [MigrateOrgAlerts.createDefaultRouteAndReceiver, dif_pos hlen,
    defaultContactPointReceiverName] at hok
  cases hloop : MigrateOrgAlerts.createDefaultRouteAndReceiver.loop env defaultChannels m [] with
  | mk res m2 =>
    rw [hloop] at hok
    cases res with
    | error e => simp at hok
    | ok notifiers =>
      simp only [Prod.mk.injEq, Except.ok.injEq] at hok
      obtain ⟨⟨hrecv, _⟩, _⟩ := hok
      obtain ⟨added, hadd, hmap⟩ :=
        MigrateOrgAlerts.createDefaultRouteAndReceiver.loop_fields env defaultChannels m m2 []
          notifiers hloop
      rw [List.nil_append] at hadd
      subst hadd
      refine ⟨_, hrecv.symm, rfl, hmap, ?_⟩
      have := congrArg List.length hmap
      simpa using this

theorem createDefaultRouteAndReceiver_wraps_defaults_witness :
    ∃ r : PostableApiReceiver,
      some ({ Name := "Default autogenerated contact point (placeholder)",
              GrafanaManagedReceivers :=
                [{ UID := "u", Name := "slack-a", Type_ := "slack",
                   DisableResolveMessage := false, Settings := "", SecureSettings := [] },
                 { UID := "uu", Name := "slack-b", Type_ := "slack",
                   DisableResolveMessage := false, Settings := "", SecureSettings := [] }] } :
          PostableApiReceiver) = some r ∧
      r.Name = "Default autogenerated contact point (placeholder)" ∧
      r.GrafanaManagedReceivers.map (fun n => (n.Name, n.Type_, n.DisableResolveMessage)) =
        [notificationChannel.sample 1 "slack-a" true,
          notificationChannel.sample 2 "slack-b" true].map
          (fun c => (c.Name, c.Type_, c.DisableResolveMessage)) ∧
      r.GrafanaManagedReceivers.length =
        [notificationChannel.sample 1 "slack-a" true,
          notificationChannel.sample 2 "slack-b" true].length :=
  createDefaultRouteAndReceiver_wraps_defaults MigrationEnv.sample MigrateOrgAlerts.sample
    { seenChannelUIDs := ["uu", "u"], orgId := 1,
      channelUidByEmail := [("ops@example.com", "mail-uid")], shortUIDCalls := 2 }
    [notificationChannel.sample 1 "slack-a" true, notificationChannel.sample 2 "slack-b" true]
    _ (Route.mk "Default autogenerated contact point (placeholder)" [] []) (by decide) rfl


theorem lookup_mapSet_self {κ ν : Type} [BEq κ] [LawfulBEq κ] (m : List (κ × ν)) (k : κ)
    (v : ν) : (mapSet m k v).lookup k = some v := by
  simp [mapSet, List.lookup]

theorem lookup_filter_ne {κ ν : Type} [BEq κ] [LawfulBEq κ] (m : List (κ × ν)) (k k1 : κ)
    (h : k1 ≠ k) : (m.filter (fun kv => !(kv.1 == k))).lookup k1 = m.lookup k1 := by
  induction m with
  | nil => rfl
  | cons e rest ih =>
    obtain ⟨a, b⟩ := e
    by_cases hak : a = k
    · subst hak
      have h1 : (k1 == a) = false := by simpa using h
      simp [List.filter, List.lookup, h1, ih]
    · have h1 : (a == k) = false := by simpa using hak
      simp only [List.filter, h1, Bool.not_false, List.lookup]
      cases k1 == a with
      | true => rfl
      | false => exact ih

theorem lookup_mapSet_of_ne {κ ν : Type} [BEq κ] [LawfulBEq κ] (m : List (κ × ν)) (k k1 : κ)
    (v : ν) (h : k1 ≠ k) : (mapSet m k v).lookup k1 = m.lookup k1 := by
  have h1 : (k1 == k) = false := by simpa using h
  simp only [mapSet, List.lookup, h1]
  exact lookup_filter_ne m k k1 h

/-- Reading the map after `store`: the new receiver under the keys of the
channel, the former entry under every other key. -/
theorem MigrateOrgAlerts.createReceivers.lookup_store
    (receiversMap : List (uidOrID × PostableApiReceiver)) (c : notificationChannel)
    (recv : PostableApiReceiver) (k : uidOrID) :
    (MigrateOrgAlerts.createReceivers.store receiversMap c recv).lookup k =
      if (c.Uid ≠ "" ∧ k = uidOrID.uid c.Uid) ∨ (c.ID ≠ 0 ∧ k = uidOrID.id c.ID) then some recv
      else receiversMap.lookup k := by
  simp only [MigrateOrgAlerts.createReceivers.store]
  by_cases hid : c.ID ≠ 0
  · by_cases hkid : k = uidOrID.id c.ID
    · subst hkid
      simp [hid, lookup_mapSet_self]
    · rw [if_pos hid, lookup_mapSet_of_ne _ _ _ _ hkid]
      by_cases huid : c.Uid ≠ ""
      · by_cases hkuid : k = uidOrID.uid c.Uid
        · subst hkuid
          simp [huid, lookup_mapSet_self]
        · rw [if_pos huid, lookup_mapSet_of_ne _ _ _ _ hkuid]
          simp [hkid, hkuid]
      · rw [if_neg huid]
        simp [hkid, huid]
  · rw [if_neg hid]
    by_cases huid : c.Uid ≠ ""
    · by_cases hkuid : k = uidOrID.uid c.Uid
      · subst hkuid
        simp [huid, lookup_mapSet_self]
      · rw [if_pos huid, lookup_mapSet_of_ne _ _ _ _ hkuid]
        simp [hid, hkuid]
    · rw [if_neg huid]
      simp [hid, huid]

theorem MigrateOrgAlerts.createReceivers.loop_cons (env : MigrationEnv) (c : notificationChannel)
    (rest : List notificationChannel) (m m1 : MigrateOrgAlerts)
    (receiversMap out : List (uidOrID × PostableApiReceiver))
    (receivers outList : List PostableApiReceiver)
    (h : MigrateOrgAlerts.createReceivers.loop env (c :: rest) m receiversMap receivers =
      (Except.ok (out, outList), m1)) :
    ∃ (notifier : PostableGrafanaReceiver) (m2 : MigrateOrgAlerts),
      MigrateOrgAlerts.createNotifier env m c = (Except.ok notifier, m2) ∧
      MigrateOrgAlerts.createReceivers.loop env rest m2
          (MigrateOrgAlerts.createReceivers.store receiversMap c
            { Name := c.Name, GrafanaManagedReceivers := [notifier] })
          (receivers ++ [{ Name := c.Name, GrafanaManagedReceivers := [notifier] }]) =
        (Except.ok (out, outList), m1) := by
  unfold MigrateOrgAlerts.createReceivers.loop at h
  cases hn : MigrateOrgAlerts.createNotifier env m c with
  | mk res m2 =>
    rw [hn] at h
    cases res with
    | error e => simp at h
    | ok n => exact ⟨n, m2, rfl, h⟩

/-- The receivers the loop of `createReceivers` adds follow the channels, one
for one, and every receiver of the map is in the list. -/
theorem MigrateOrgAlerts.createReceivers.loop_list (env : MigrationEnv)
    (channels : List notificationChannel) :
    ∀ (m m1 : MigrateOrgAlerts) (receiversMap out : List (uidOrID × PostableApiReceiver))
      (receivers outList : List PostableApiReceiver),
    MigrateOrgAlerts.createReceivers.loop env channels m receiversMap receivers =
      (Except.ok (out, outList), m1) →
    (∃ added : List PostableApiReceiver, outList = receivers ++ added ∧
      added.map (fun r => (r.Name,
          r.GrafanaManagedReceivers.map (fun n => (n.Name, n.Type_, n.DisableResolveMessage)))) =
        channels.map (fun c => (c.Name, [(c.Name, c.Type_, c.DisableResolveMessage)]))) ∧
    ((∀ k r, receiversMap.lookup k = some r → r ∈ receivers) →
      ∀ k r, out.lookup k = some r → r ∈ outList) := by
  induction channels with
  | nil =>
    intro m m1 receiversMap out receivers outList h
    simp only [MigrateOrgAlerts.createReceivers.loop, Prod.mk.injEq, Except.ok.injEq] at h
    obtain ⟨⟨h1, h2⟩, _⟩ := h
    subst h1 h2
    exact ⟨⟨[], by simp, rfl⟩, fun hinv => hinv⟩
  | cons c rest ih =>
    intro m m1 receiversMap out receivers outList h
    obtain ⟨n, m2, hn, hrest⟩ :=
      MigrateOrgAlerts.createReceivers.loop_cons env c rest m m1 receiversMap out receivers
        outList h
    obtain ⟨⟨added, hadd, hmap⟩, hinv⟩ := ih m2 m1 _ out _ outList hrest
    obtain ⟨h1, h2, h3⟩ := MigrateOrgAlerts.createNotifier_fields env m m2 c n hn
    refine ⟨⟨{ Name := c.Name, GrafanaManagedReceivers := [n] } :: added, by simp [hadd], ?_⟩, ?_⟩
    · simp [hmap, h1, h2, h3]
    · intro hmapinv
      apply hinv
      intro k r hk
      rw [MigrateOrgAlerts.createReceivers.lookup_store] at hk
      split_ifs at hk with hcase
      · simp only [Option.some.injEq] at hk
        subst hk
        simp
      · exact List.mem_append_left _ (hmapinv k r hk)

theorem MigrateOrgAlerts.createReceivers.loop_frame (env : MigrationEnv)
    (channels : List notificationChannel) :
    ∀ (m m1 : MigrateOrgAlerts) (receiversMap out : List (uidOrID × PostableApiReceiver))
      (receivers outList : List PostableApiReceiver),
    MigrateOrgAlerts.createReceivers.loop env channels m receiversMap receivers =
      (Except.ok (out, outList), m1) →
    ∀ k, (∀ c ∈ channels,
        ¬ ((c.Uid ≠ "" ∧ k = uidOrID.uid c.Uid) ∨ (c.ID ≠ 0 ∧ k = uidOrID.id c.ID))) →
      out.lookup k = receiversMap.lookup k := by
  induction channels with
  | nil =>
    intro m m1 receiversMap out receivers outList h k _
    simp only [MigrateOrgAlerts.createReceivers.loop, Prod.mk.injEq, Except.ok.injEq] at h
    rw [h.1.1]
  | cons c rest ih =>
    intro m m1 receiversMap out receivers outList h k hk
    obtain ⟨n, m2, _, hrest⟩ :=
      MigrateOrgAlerts.createReceivers.loop_cons env c rest m m1 receiversMap out receivers
        outList h
    rw [ih m2 m1 _ out _ outList hrest k (fun c1 hc1 => hk c1 (List.mem_cons_of_mem _ hc1)),
      MigrateOrgAlerts.createReceivers.lookup_store, if_neg (hk c (List.mem_cons_self _ _))]

/-- With pairwise distinct UIDs and IDs, the map of `createReceivers` leads from
the keys of a channel to the receiver named after it. -/
theorem MigrateOrgAlerts.createReceivers.loop_hit (env : MigrationEnv)
    (channels : List notificationChannel) :
    ∀ (m m1 : MigrateOrgAlerts) (receiversMap out : List (uidOrID × PostableApiReceiver))
      (receivers outList : List PostableApiReceiver),
    channels.Pairwise (fun a b => a.Uid ≠ b.Uid ∧ a.ID ≠ b.ID) →
    MigrateOrgAlerts.createReceivers.loop env channels m receiversMap receivers =
      (Except.ok (out, outList), m1) →
    ∀ c ∈ channels, ∀ k,
      ((c.Uid ≠ "" ∧ k = uidOrID.uid c.Uid) ∨ (c.ID ≠ 0 ∧ k = uidOrID.id c.ID)) →
      ∃ r, out.lookup k = some r ∧ r.Name = c.Name := by
  induction channels with
  | nil => intro _ _ _ _ _ _ _ _ c hc; simp at hc
  | cons c0 rest ih =>
    intro m m1 receiversMap out receivers outList hpw h c hc k hk
    obtain ⟨n, m2, _, hrest⟩ :=
      MigrateOrgAlerts.createReceivers.loop_cons env c0 rest m m1 receiversMap out receivers
        outList h
    rw [List.pairwise_cons] at hpw
    rcases List.mem_cons.1 hc with rfl | hmem
    · have hframe := MigrateOrgAlerts.createReceivers.loop_frame env rest m2 m1 _ out _ outList
        hrest k (by
          intro c1 hc1 hkey
          obtain ⟨hu, hi⟩ := hpw.1 c1 hc1
          rcases hk with ⟨_, rfl⟩ | ⟨_, rfl⟩
          · rcases hkey with ⟨_, h2⟩ | ⟨_, h2⟩
            · exact hu (uidOrID.uid.inj h2)
            · exact uidOrID.noConfusion h2
          · rcases hkey with ⟨_, h2⟩ | ⟨_, h2⟩
            · exact uidOrID.noConfusion h2
            · exact hi (uidOrID.id.inj h2))
      rw [hframe, MigrateOrgAlerts.createReceivers.lookup_store, if_pos hk]
      exact ⟨_, rfl, rfl⟩
    · exact ih m2 m1 _ out _ outList hpw.2 hrest c hmem k hk

/-- C12 fails on two channels sharing the UID `dup`: `createReceivers` returns
two receivers, `a` and `b`, for the one distinct UID, and looking `dup` up in
the returned map yields the receiver `b`, not the one named after the first
channel. Nothing is deduplicated. -/
theorem createReceivers_keeps_duplicates :
    (([notificationChannel.sampleWithUid 1 "dup" "a",
        notificationChannel.sampleWithUid 2 "dup" "b"].map (fun c => c.Uid)).dedup).length = 1 ∧
      (MigrateOrgAlerts.createReceivers MigrationEnv.sample MigrateOrgAlerts.sample
          [notificationChannel.sampleWithUid 1 "dup" "a",
            notificationChannel.sampleWithUid 2 "dup" "b"]).1.toOption.map
          (fun p => p.2.map (fun r => r.Name)) = some ["a", "b"] ∧
      (MigrateOrgAlerts.createReceivers MigrationEnv.sample MigrateOrgAlerts.sample
          [notificationChannel.sampleWithUid 1 "dup" "a",
            notificationChannel.sampleWithUid 2 "dup" "b"]).1.toOption.bind
          (fun p => (p.1.lookup (uidOrID.uid "dup")).map (fun r => r.Name)) = some "b" := by
  decide

/-- C12, amended. `createReceivers` does not deduplicate: whenever it returns
without error, the list holds exactly one receiver per channel of the input, in
order, each named after its channel and holding exactly one notifier, with the
channel's name, type and disable-resolve-message flag. When the UIDs and the
IDs of the channels are pairwise distinct (so there is one receiver per
distinct UID), looking up the non-empty UID or the non-zero ID of a channel in
the returned map yields a receiver of the list named after that channel. -/
theorem createReceivers_one_per_channel (env : MigrationEnv) (m m1 : MigrateOrgAlerts)
    (allChannels : List notificationChannel)
    (receiversMap : List (uidOrID × PostableApiReceiver)) (receivers : List PostableApiReceiver)
    (hok : MigrateOrgAlerts.createReceivers env m allChannels =
      (Except.ok (receiversMap, receivers), m1)) :
    receivers.map (fun r => (r.Name,
          r.GrafanaManagedReceivers.map (fun n => (n.Name, n.Type_, n.DisableResolveMessage)))) =
        allChannels.map (fun c => (c.Name, [(c.Name, c.Type_, c.DisableResolveMessage)])) ∧
      receivers.length = allChannels.length ∧
      (allChannels.Pairwise (fun a b => a.Uid ≠ b.Uid ∧ a.ID ≠ b.ID) →
        ∀ c ∈ allChannels,
          (c.Uid ≠ "" → ∃ r ∈ receivers,
            receiversMap.lookup (uidOrID.uid c.Uid) = some r ∧ r.Name = c.Name) ∧
          (c.ID ≠ 0 → ∃ r ∈ receivers,
            receiversMap.lookup (uidOrID.id c.ID) = some r ∧ r.Name = c.Name)) := by
  unfold MigrateOrgAlerts.createReceivers at hok
  obtain ⟨⟨added, hadd, hmap⟩, hinv⟩ :=
    MigrateOrgAlerts.createReceivers.loop_list env allChannels m m1 [] receiversMap []
      receivers hok
  rw [List.nil_append] at hadd
  subst hadd
  have hin : ∀ k r, receiversMap.lookup k = some r → r ∈ receivers :=
    hinv (fun k r hk => by simp at hk)
  refine ⟨hmap, ?_, ?_⟩
  · have := congrArg List.length hmap
    simpa using this
  · intro hpw c hc
    have hhit := MigrateOrgAlerts.createReceivers.loop_hit env allChannels m m1 [] receiversMap
      [] receivers hpw hok c hc
    constructor
    · intro hu
      obtain ⟨r, hr, hname⟩ := hhit (uidOrID.uid c.Uid) (Or.inl ⟨hu, rfl⟩)
      exact ⟨r, hin _ r hr, hr, hname⟩
    · intro hi
      obtain ⟨r, hr, hname⟩ := hhit (uidOrID.id c.ID) (Or.inr ⟨hi, rfl⟩)
      exact ⟨r, hin _ r hr, hr, hname⟩

theorem createReceivers_one_per_channel_witness :
    ∃ r ∈ [PostableApiReceiver.mk "slack-a"
              [{ UID := "u", Name := "slack-a", Type_ := "slack", DisableResolveMessage := false,
                 Settings := "", SecureSettings := [] }],
            PostableApiReceiver.mk "slack-b"
              [{ UID := "uu", Name := "slack-b", Type_ := "slack", DisableResolveMessage := false,
                 Settings := "", SecureSettings := [] }]],
      List.lookup (uidOrID.uid "slack-b")
          [(uidOrID.id 2, PostableApiReceiver.mk "slack-b"
              [{ UID := "uu", Name := "slack-b", Type_ := "slack", DisableResolveMessage := false,
                 Settings := "", SecureSettings := [] }]),
            (uidOrID.uid "slack-b", PostableApiReceiver.mk "slack-b"
              [{ UID := "uu", Name := "slack-b", Type_ := "slack", DisableResolveMessage := false,
                 Settings := "", SecureSettings := [] }]),
            (uidOrID.id 1, PostableApiReceiver.mk "slack-a"
              [{ UID := "u", Name := "slack-a", Type_ := "slack", DisableResolveMessage := false,
                 Settings := "", SecureSettings := [] }]),
            (uidOrID.uid "slack-a", PostableApiReceiver.mk "slack-a"
              [{ UID := "u", Name := "slack-a", Type_ := "slack", DisableResolveMessage := false,
                 Settings := "", SecureSettings := [] }])] = some r ∧
        r.Name = (notificationChannel.sample 2 "slack-b" false).Name :=
  ((createReceivers_one_per_channel MigrationEnv.sample MigrateOrgAlerts.sample
      { seenChannelUIDs := ["uu", "u"], orgId := 1,
        channelUidByEmail := [("ops@example.com", "mail-uid")], shortUIDCalls := 2 }
      [notificationChannel.sample 1 "slack-a" true, notificationChannel.sample 2 "slack-b" false]
      _ _ rfl).2.2 (by decide) (notificationChannel.sample 2 "slack-b" false) (by decide)).1
    (by decide)

theorem appendChildRoute_some (amConfigPerOrg out : List (Int × PostableUserConfig))
    (orgId : Int) (route : Route) (h : appendChildRoute amConfigPerOrg orgId route = some out) :
    ∃ (config : PostableUserConfig) (receiver : String) (matchers : List (String × String))
      (routes : List Route),
      amConfigPerOrg.lookup orgId = some config ∧
      config.AlertmanagerConfig.Route = some (Route.mk receiver matchers routes) ∧
      out = mapSet amConfigPerOrg orgId
        { AlertmanagerConfig :=
            { config.AlertmanagerConfig with
              Route := some (Route.mk receiver matchers (routes ++ [route])) } } := by
  unfold appendChildRoute at h
  cases hl : amConfigPerOrg.lookup orgId with
  | none => rw [hl] at h; simp at h
  | some config =>
    rw [hl] at h
    simp only at h
    cases hr : config.AlertmanagerConfig.Route with
    | none => rw [hr] at h; simp at h
    | some r =>
      cases r with
      | mk receiver matchers routes =>
        rw [hr] at h
        simp only [Option.some.injEq] at h
        exact ⟨config, receiver, matchers, routes, rfl, hr, h.symm⟩

theorem MigrateOrgAlerts.createRouteForAlert_some (env : MigrationEnv) (m : MigrateOrgAlerts)
    (ruleUID : String) (da : dashAlert) (receivers : List (uidOrID × PostableApiReceiver))
    (defaultReceivers : List String) (calls : List (String × List String)) (route : Route)
    (h : MigrateOrgAlerts.createRouteForAlert env m ruleUID da receivers defaultReceivers =
      (calls, Except.ok (some route))) :
    calls = [(ruleUID,
        MigrateOrgAlerts.filterReceiversForAlert env m da receivers defaultReceivers)] ∧
      ∀ x ∈ MigrateOrgAlerts.filterReceiversForAlert env m da receivers defaultReceivers,
        x ∈ resolvedReceiverNames env m da receivers ∨ x ∈ defaultReceivers := by
  unfold MigrateOrgAlerts.createRouteForAlert at h
  simp only at h
  by_cases hlen : (MigrateOrgAlerts.filterReceiversForAlert env m da receivers
      defaultReceivers).length ≠ 0
  · rw [if_pos hlen] at h
    constructor
    · cases hc : env.createRoute ruleUID
          (MigrateOrgAlerts.filterReceiversForAlert env m da receivers defaultReceivers) with
      | error e => rw [hc] at h; simp at h
      | ok r =>
        rw [hc] at h
        simp only [Prod.mk.injEq] at h
        exact h.1.symm
    · obtain ⟨hdef, hspec⟩ :=
        MigrateOrgAlerts.filterReceiversForAlert_spec env m da receivers defaultReceivers
      by_cases hex : ∃ n ∈ resolvedReceiverNames env m da receivers, n ∉ defaultReceivers
      · intro x hx
        exact ((hspec hex).2 x).1 hx
      · exfalso
        apply hlen
        rw [hdef (by
          intro n hn
          by_contra hnd
          exact hex ⟨n, hn, hnd⟩)]
        rfl
  · rw [if_neg hlen] at h
    simp at h

theorem resolvedReceiverNames_mem (env : MigrationEnv) (m : MigrateOrgAlerts) (da : dashAlert)
    (receivers : List (uidOrID × PostableApiReceiver)) (x : String)
    (hx : x ∈ resolvedReceiverNames env m da receivers) :
    ∃ k r, receivers.lookup k = some r ∧ r.Name = x := by
  unfold resolvedReceiverNames at hx
  rw [List.mem_filterMap] at hx
  obtain ⟨k, _, hk⟩ := hx
  cases hl : receivers.lookup k with
  | none => rw [hl] at hk; simp at hk
  | some r =>
    rw [hl] at hk
    simp only [Option.map_some', Option.some.injEq] at hk
    exact ⟨k, r, hl, hk⟩

/-- The loop over the rules of an organisation keeps the receivers and the
root receiver of its configuration, and only chooses listed names. -/
theorem MigrateOrgAlerts.setupAlertmanagerConfigs.rulesLoop_listed (env : MigrationEnv)
    (receiversMap : List (uidOrID × PostableApiReceiver)) (defaultReceivers : List String)
    (orgID : Int) (names : List String)
    (hmap : ∀ k r, receiversMap.lookup k = some r → r.Name ∈ names)
    (hdef : ∀ n ∈ defaultReceivers, n ∈ names)
    (rules : List (String × dashAlert)) :
    ∀ (st st1 : SetupState),
    (∀ rule ∈ rules, rule.2.OrgId = orgID) →
    st.rootsListed → st.childrenListed →
    (∃ config route, st.amConfigPerOrg.lookup orgID = some config ∧
      config.receiverNames = names ∧ config.AlertmanagerConfig.Route = some route) →
    MigrateOrgAlerts.setupAlertmanagerConfigs.rulesLoop env receiversMap defaultReceivers orgID
      rules st = Outcome.ok st1 →
    st1.rootsListed ∧ st1.childrenListed ∧
      (∀ call ∈ st1.routeCalls, call ∈ st.routeCalls ∨ call.1 = orgID) := by
  induction rules with
  | nil =>
    intro st st1 _ h1 h2 _ h
    simp only [MigrateOrgAlerts.setupAlertmanagerConfigs.rulesLoop, Outcome.ok.injEq] at h
    subst h
    exact ⟨h1, h2, fun call hc => Or.inl hc⟩
  | cons rule rest ih =>
    obtain ⟨ruleUid, da⟩ := rule
    intro st st1 horg h1 h2 hcfg h
    have hda : da.OrgId = orgID := horg (ruleUid, da) (List.mem_cons_self _ _)
    have hrest : ∀ rule ∈ rest, rule.2.OrgId = orgID :=
      fun rule hr => horg rule (List.mem_cons_of_mem _ hr)
    unfold MigrateOrgAlerts.setupAlertmanagerConfigs.rulesLoop at h
    cases hc : MigrateOrgAlerts.createRouteForAlert env st.m ruleUid da receiversMap
        defaultReceivers with
    | mk calls res =>
      rw [hc] at h
      cases res with
      | error e => simp at h
      | ok optRoute =>
        cases optRoute with
        | none =>
          simp only at h
          exact ih st st1 hrest h1 h2 hcfg h
        | some route =>
          simp only at h
          cases happ : appendChildRoute st.amConfigPerOrg da.OrgId route with
          | none => rw [happ] at h; simp at h
          | some cfgs =>
            rw [happ] at h
            simp only at h
            obtain ⟨config, receiver, matchers, routes, hlook, hroute, hout⟩ :=
              appendChildRoute_some _ _ _ _ happ
            rw [hda] at hlook hout
            obtain ⟨config0, route0, hlook0, hnames0, _⟩ := hcfg
            rw [hlook] at hlook0
            simp only [Option.some.injEq] at hlook0
            subst hlook0
            obtain ⟨hcalls, hchosen⟩ :=
              MigrateOrgAlerts.createRouteForAlert_some env st.m ruleUid da receiversMap
                defaultReceivers calls route hc
            have hlisted : ∀ x ∈ MigrateOrgAlerts.filterReceiversForAlert env st.m da
                receiversMap defaultReceivers, x ∈ names := by
              intro x hx
              rcases hchosen x hx with hres | hd
              · obtain ⟨k, r, hk, hr⟩ := resolvedReceiverNames_mem env st.m da receiversMap x hres
                rw [← hr]
                exact hmap k r hk
              · exact hdef x hd
            have hlookNew : ∀ org, cfgs.lookup org =
                if org = orgID then
                  some { AlertmanagerConfig :=
                    { config.AlertmanagerConfig with
                      Route := some (Route.mk receiver matchers (routes ++ [route])) } }
                else st.amConfigPerOrg.lookup org := by
              intro org
              rw [hout]
              by_cases ho : org = orgID
              · subst ho
                rw [if_pos rfl, lookup_mapSet_self]
              · rw [if_neg ho, lookup_mapSet_of_ne _ _ _ _ ho]
            have hroot : receiver ∈ names := by
              have := h1 orgID config _ hlook hroute
              rw [hnames0] at this
              exact this
            obtain ⟨r1, r2, r3⟩ := ih
              { st with
                amConfigPerOrg := cfgs
                routeCalls := st.routeCalls ++
                  calls.map (fun call => (da.OrgId, call.1, call.2)) } st1 hrest
              (by
                intro org cfg rt hl hr
                simp only at hl
                rw [hlookNew] at hl
                by_cases ho : org = orgID
                · rw [if_pos ho] at hl
                  simp only [Option.some.injEq] at hl
                  subst hl
                  simp only [Option.some.injEq] at hr
                  subst hr
                  show receiver ∈ _
                  rw [← hnames0] at hroot
                  exact hroot
                · rw [if_neg ho] at hl
                  exact h1 org cfg rt hl hr)
              (by
                intro call hcall
                simp only at hcall ⊢
                rw [hlookNew]
                rcases List.mem_append.1 hcall with hold | hnew
                · obtain ⟨cfg, hl, hn⟩ := h2 call hold
                  by_cases ho : call.1 = orgID
                  · rw [if_pos ho]
                    rw [ho, hlook] at hl
                    simp only [Option.some.injEq] at hl
                    subst hl
                    exact ⟨_, rfl, hn⟩
                  · rw [if_neg ho]
                    exact ⟨cfg, hl, hn⟩
                · rw [hcalls] at hnew
                  simp only [List.map_cons, List.map_nil, List.mem_singleton] at hnew
                  subst hnew
                  simp only [hda, if_true]
                  refine ⟨_, rfl, ?_⟩
                  intro n hn
                  show n ∈ config.receiverNames
                  rw [hnames0]
                  exact hlisted n hn)
              (by
                simp only
                rw [hlookNew, if_pos rfl]
                exact ⟨_, _, rfl, hnames0, rfl⟩) h
            refine ⟨r1, r2, ?_⟩
            intro call hcall
            rcases r3 call hcall with hin | ho
            · simp only at hin
              rcases List.mem_append.1 hin with hold | hnew
              · exact Or.inl hold
              · rw [hcalls] at hnew
                simp only [List.map_cons, List.map_nil, List.mem_singleton] at hnew
                subst hnew
                exact Or.inr hda
            · exact Or.inr ho

theorem MigrateOrgAlerts.createDefaultRouteAndReceiver_cases (env : MigrationEnv)
    (m m1 : MigrateOrgAlerts) (defaultChannels : List notificationChannel)
    (recv : Option PostableApiReceiver) (route : Route)
    (hok : MigrateOrgAlerts.createDefaultRouteAndReceiver env m defaultChannels =
      (Except.ok (recv, route), m1)) :
    (recv = none ∧ ∃ c, defaultChannels = [c] ∧ route.Receiver = c.Name) ∨
      (∃ r, recv = some r ∧ r.Name = route.Receiver) := by
  by_cases hlen : defaultChannels.length ≠ 1
  · right
    simp only [MigrateOrgAlerts.createDefaultRouteAndReceiver, dif_pos hlen,
      defaultContactPointReceiverName] at hok
    cases hloop : MigrateOrgAlerts.createDefaultRouteAndReceiver.loop env defaultChannels m []
      with
    | mk res m2 =>
      rw [hloop] at hok
      cases res with
      | error e => simp at hok
      | ok notifiers =>
        simp only [Prod.mk.injEq, Except.ok.injEq] at hok
        obtain ⟨⟨hrecv, hroute⟩, _⟩ := hok
        subst hrecv hroute
        exact ⟨_, rfl, rfl⟩
  · left
    have hone : defaultChannels.length = 1 := not_not.1 hlen
    obtain ⟨c, hc⟩ := List.length_eq_one.1 hone
    subst hc
    simp only [MigrateOrgAlerts.createDefaultRouteAndReceiver] at hok
    simp only [List.length_singleton, ne_eq, not_true_eq_false, dite_false, List.get,
      Prod.mk.injEq, Except.ok.injEq] at hok
    obtain ⟨⟨hrecv, hroute⟩, _⟩ := hok
    subst hrecv hroute
    exact ⟨rfl, c, rfl, rfl⟩

/-- One organisation more: the configuration built for it names listed
receivers only, and the configurations of the others are left as they are. -/
theorem MigrateOrgAlerts.setupAlertmanagerConfigs.orgStep_listed (env : MigrationEnv)
    (validate : Int → PostableUserConfig → Except String Unit)
    (defaultChannelsPerOrg : List (Int × List notificationChannel))
    (rulesPerOrg : List (Int × List (String × dashAlert)))
    (orgID : Int) (orgChannels : List notificationChannel) (st st1 : SetupState)
    (h1 : st.rootsListed) (h2 : st.childrenListed)
    (hfresh : ∀ call ∈ st.routeCalls, call.1 ≠ orgID)
    (hsub : ∀ ds, defaultChannelsPerOrg.lookup orgID = some ds → ∀ c ∈ ds, c ∈ orgChannels)
    (hrules : ∀ rules, rulesPerOrg.lookup orgID = some rules →
      ∀ rule ∈ rules, rule.2.OrgId = orgID)
    (h : MigrateOrgAlerts.setupAlertmanagerConfigs.orgStep env validate defaultChannelsPerOrg
      rulesPerOrg orgID orgChannels st = Outcome.ok st1) :
    st1.rootsListed ∧ st1.childrenListed ∧
      (∀ call ∈ st1.routeCalls, call ∈ st.routeCalls ∨ call.1 = orgID) := by
  unfold MigrateOrgAlerts.setupAlertmanagerConfigs.orgStep at h
  simp only at h
  cases hcr : MigrateOrgAlerts.createReceivers env st.m orgChannels with
  | mk res m1 =>
    rw [hcr] at h
    cases res with
    | error e => simp at h
    | ok p =>
      obtain ⟨receiversMap, receivers⟩ := p
      simp only at h
      -- the other organisations keep their configuration
      have hother : ∀ (config : PostableUserConfig) (org : Int), org ≠ orgID →
          (mapSet st.amConfigPerOrg orgID config).lookup org = st.amConfigPerOrg.lookup org :=
        fun config org ho => lookup_mapSet_of_ne _ _ _ _ ho
      by_cases hzero : receivers.length = 0
      · rw [if_pos hzero] at h
        simp only [Outcome.ok.injEq] at h
        subst h
        refine ⟨?_, ?_, fun call hc => Or.inl hc⟩
        · intro org cfg rt hl hr
          simp only at hl
          by_cases ho : org = orgID
          · subst ho
            rw [lookup_mapSet_self] at hl
            simp only [Option.some.injEq] at hl
            subst hl
            simp at hr
          · rw [hother _ org ho] at hl
            exact h1 org cfg rt hl hr
        · intro call hc
          obtain ⟨cfg, hl, hn⟩ := h2 call hc
          refine ⟨cfg, ?_, hn⟩
          simp only
          rw [hother _ call.1 (hfresh call hc)]
          exact hl
      · rw [if_neg hzero] at h
        unfold MigrateOrgAlerts.createReceivers at hcr
        obtain ⟨⟨added, hadd, hshape⟩, hinv⟩ :=
          MigrateOrgAlerts.createReceivers.loop_list env orgChannels st.m m1 [] receiversMap []
            receivers hcr
        rw [List.nil_append] at hadd
        subst hadd
        have hin : ∀ k r, receiversMap.lookup k = some r → r ∈ receivers :=
          hinv (fun k r hk => by simp at hk)
        have hnames : receivers.map (fun r => r.Name) = orgChannels.map (fun c => c.Name) := by
          have := congrArg (List.map Prod.fst) hshape
          simpa [List.map_map, Function.comp] using this
        generalize hdc : (match defaultChannelsPerOrg.lookup orgID with
          | some channels => channels
          | none => ([] : List notificationChannel)) = defaultChannels at h
        have hdsub : ∀ c ∈ defaultChannels, c ∈ orgChannels := by
          intro c hc
          cases hl : defaultChannelsPerOrg.lookup orgID with
          | none => rw [hl] at hdc; subst hdc; simp at hc
          | some ds => rw [hl] at hdc; subst hdc; exact hsub _ hl c hc
        cases hd : MigrateOrgAlerts.createDefaultRouteAndReceiver env m1 defaultChannels with
        | mk res2 m2 =>
          rw [hd] at h
          cases res2 with
          | error e => simp at h
          | ok q =>
            obtain ⟨defaultReceiver, defaultRoute⟩ := q
            simp only at h
            generalize hrecs : (match defaultReceiver with
              | some r => receivers ++ [r]
              | none => receivers) = receivers2 at h
            have hsubset : ∀ r ∈ receivers, r ∈ receivers2 := by
              intro r hr
              cases defaultReceiver with
              | none => simp only at hrecs; subst hrecs; exact hr
              | some r0 => simp only at hrecs; subst hrecs; exact List.mem_append_left _ hr
            have hchan : ∀ c ∈ orgChannels, c.Name ∈ receivers2.map (fun r => r.Name) := by
              intro c hc
              have : c.Name ∈ receivers.map (fun r => r.Name) := by
                rw [hnames]
                exact List.mem_map_of_mem _ hc
              obtain ⟨r, hr, hrn⟩ := List.mem_map.1 this
              exact List.mem_map.2 ⟨r, hsubset r hr, hrn⟩
            have hroot : defaultRoute.Receiver ∈ receivers2.map (fun r => r.Name) := by
              rcases MigrateOrgAlerts.createDefaultRouteAndReceiver_cases env m1 m2
                  defaultChannels defaultReceiver defaultRoute hd with
                ⟨_, c, hc, hname⟩ | ⟨r, hr, hname⟩
              · rw [hname]
                exact hchan c (hdsub c (by rw [hc]; exact List.mem_cons_self _ _))
              · subst hr
                simp only at hrecs
                subst hrecs
                rw [← hname]
                exact List.mem_map.2 ⟨r, by simp, rfl⟩
            generalize hrl : (match rulesPerOrg.lookup orgID with
              | some rules => rules
              | none => ([] : List (String × dashAlert))) = rules at h
            have hrorg : ∀ rule ∈ rules, rule.2.OrgId = orgID := by
              intro rule hr
              cases hl : rulesPerOrg.lookup orgID with
              | none => rw [hl] at hrl; subst hrl; simp at hr
              | some rs => rw [hl] at hrl; subst hrl; exact hrules _ hl rule hr
            cases hloop : MigrateOrgAlerts.setupAlertmanagerConfigs.rulesLoop env receiversMap
                ((defaultChannels.map (fun c => c.Name)).foldl setAdd []) orgID rules
                { st with
                  m := m2
                  amConfigPerOrg :=
                    mapSet (mapSet st.amConfigPerOrg orgID
                        { AlertmanagerConfig := { Route := none, Receivers := [] } }) orgID
                      { AlertmanagerConfig :=
                          { Route := some defaultRoute, Receivers := receivers2 } } } with
            | error e => rw [hloop] at h; simp at h
            | panic => rw [hloop] at h; simp at h
            | ok st2 =>
              rw [hloop] at h
              simp only at h
              have hst : st2 = st1 := by
                cases hv : validate orgID
                    (match st2.amConfigPerOrg.lookup orgID with
                      | some current => current
                      | none =>
                        { AlertmanagerConfig :=
                            { Route := some defaultRoute, Receivers := receivers2 } }) with
                | error e => rw [hv] at h; simp at h
                | ok u => rw [hv] at h; simpa using h
              subst hst
              have hlook : ∀ org, (mapSet (mapSet st.amConfigPerOrg orgID
                    { AlertmanagerConfig := { Route := none, Receivers := [] } }) orgID
                  { AlertmanagerConfig :=
                      { Route := some defaultRoute, Receivers := receivers2 } }).lookup org =
                  if org = orgID then
                    some { AlertmanagerConfig :=
                      { Route := some defaultRoute, Receivers := receivers2 } }
                  else st.amConfigPerOrg.lookup org := by
                intro org
                by_cases ho : org = orgID
                · subst ho
                  rw [if_pos rfl, lookup_mapSet_self]
                · rw [if_neg ho, lookup_mapSet_of_ne _ _ _ _ ho, lookup_mapSet_of_ne _ _ _ _ ho]
              obtain ⟨r1, r2, r3⟩ :=
                MigrateOrgAlerts.setupAlertmanagerConfigs.rulesLoop_listed env receiversMap
                  ((defaultChannels.map (fun c => c.Name)).foldl setAdd []) orgID
                  (receivers2.map (fun r => r.Name))
                  (by
                    intro k r hk
                    exact List.mem_map.2 ⟨r, hsubset r (hin k r hk), rfl⟩)
                  (by
                    intro n hn
                    rw [foldl_setAdd_mem] at hn
                    rcases hn with hn | hn
                    · simp at hn
                    · obtain ⟨c, hc, hcn⟩ := List.mem_map.1 hn
                      rw [← hcn]
                      exact hchan c (hdsub c hc))
                  rules _ st2 hrorg
                  (by
                    intro org cfg rt hl hr
                    simp only at hl
                    rw [hlook] at hl
                    by_cases ho : org = orgID
                    · rw [if_pos ho] at hl
                      simp only [Option.some.injEq] at hl
                      subst hl
                      simp only [Option.some.injEq] at hr
                      subst hr
                      exact hroot
                    · rw [if_neg ho] at hl
                      exact h1 org cfg rt hl hr)
                  (by
                    intro call hc
                    simp only at hc ⊢
                    obtain ⟨cfg, hl, hn⟩ := h2 call hc
                    refine ⟨cfg, ?_, hn⟩
                    rw [hlook, if_neg (hfresh call hc)]
                    exact hl)
                  (by
                    simp only
                    rw [hlook, if_pos rfl]
                    exact ⟨_, _, rfl, rfl, rfl⟩)
                  hloop
              exact ⟨r1, r2, r3⟩

theorem channelsAppend_lookup_self (chans : List (Int × List notificationChannel)) (orgID : Int)
    (c : notificationChannel) :
    (channelsAppend chans orgID c).lookup orgID =
      some (match chans.lookup orgID with
        | some cs => cs ++ [c]
        | none => [c]) := by
  induction chans with
  | nil => simp [channelsAppend, List.lookup]
  | cons e rest ih =>
    obtain ⟨k, cs⟩ := e
    unfold channelsAppend
    by_cases hk : k = orgID
    · subst hk
      simp [List.lookup]
    · have h1 : (orgID == k) = false := by simpa using fun h : orgID = k => hk h.symm
      rw [if_neg hk]
      simp only [List.lookup, h1]
      exact ih

theorem channelsAppend_lookup_of_ne (chans : List (Int × List notificationChannel))
    (orgID org : Int) (c : notificationChannel) (h : org ≠ orgID) :
    (channelsAppend chans orgID c).lookup org = chans.lookup org := by
  induction chans with
  | nil =>
    have h1 : (org == orgID) = false := by simpa using h
    simp [channelsAppend, List.lookup, h1]
  | cons e rest ih =>
    obtain ⟨k, cs⟩ := e
    unfold channelsAppend
    by_cases hk : k = orgID
    · subst hk
      have h1 : (org == k) = false := by simpa using h
      simp [List.lookup, h1]
    · rw [if_neg hk]
      simp only [List.lookup]
      cases org == k with
      | true => rfl
      | false => exact ih

theorem channelsAppend_keys (chans : List (Int × List notificationChannel)) (orgID : Int)
    (c : notificationChannel) (x : Int) :
    x ∈ (channelsAppend chans orgID c).map Prod.fst ↔ x ∈ chans.map Prod.fst ∨ x = orgID := by
  induction chans with
  | nil => simp [channelsAppend]
  | cons e rest ih =>
    obtain ⟨k, cs⟩ := e
    unfold channelsAppend
    by_cases hk : k = orgID
    · subst hk
      simp
      tauto
    · rw [if_neg hk]
      simp only [List.map_cons, List.mem_cons, ih]
      tauto

theorem channelsAppend_nodup (chans : List (Int × List notificationChannel)) (orgID : Int)
    (c : notificationChannel) (h : (chans.map Prod.fst).Nodup) :
    ((channelsAppend chans orgID c).map Prod.fst).Nodup := by
  induction chans with
  | nil => simp [channelsAppend]
  | cons e rest ih =>
    obtain ⟨k, cs⟩ := e
    unfold channelsAppend
    simp only [List.map_cons, List.nodup_cons] at h
    by_cases hk : k = orgID
    · subst hk
      simpa using h
    · rw [if_neg hk]
      simp only [List.map_cons, List.nodup_cons]
      refine ⟨?_, ih h.2⟩
      rw [channelsAppend_keys]
      rintro (hin | heq)
      · exact h.1 hin
      · exact hk heq

theorem lookup_of_mem_nodup {ν : Type} (l : List (Int × ν)) (k : Int) (v : ν)
    (hnd : (l.map Prod.fst).Nodup) (hmem : (k, v) ∈ l) : l.lookup k = some v := by
  induction l with
  | nil => simp at hmem
  | cons e rest ih =>
    obtain ⟨a, b⟩ := e
    simp only [List.map_cons, List.nodup_cons] at hnd
    rcases List.mem_cons.1 hmem with heq | hin
    · simp only [Prod.mk.injEq] at heq
      obtain ⟨rfl, rfl⟩ := heq
      simp [List.lookup]
    · have hne : k ≠ a := by
        rintro rfl
        exact hnd.1 (List.mem_map.2 ⟨(k, v), hin, rfl⟩)
      have h1 : (k == a) = false := by simpa using hne
      simp only [List.lookup, h1]
      exact ih hnd.2 hin

/-- The maps of `getNotificationChannelMap`: one entry per organisation, and
the default channels of an organisation are among its channels. -/
theorem MigrateOrgAlerts.getNotificationChannelMap.loop_inv (rows : List notificationChannel) :
    ∀ (all defaults : List (Int × List notificationChannel)),
    (all.map Prod.fst).Nodup →
    (∀ org ds, defaults.lookup org = some ds →
      ∃ cs, all.lookup org = some cs ∧ ∀ c ∈ ds, c ∈ cs) →
    ((MigrateOrgAlerts.getNotificationChannelMap.loop rows all defaults).1.map Prod.fst).Nodup ∧
    (∀ org ds,
      (MigrateOrgAlerts.getNotificationChannelMap.loop rows all defaults).2.lookup org = some ds →
      ∃ cs, (MigrateOrgAlerts.getNotificationChannelMap.loop rows all defaults).1.lookup org =
          some cs ∧ ∀ c ∈ ds, c ∈ cs) := by
  induction rows with
  | nil => intro all defaults h1 h2; exact ⟨h1, h2⟩
  | cons c rest ih =>
    intro all defaults h1 h2
    unfold MigrateOrgAlerts.getNotificationChannelMap.loop
    by_cases hdisc : c.Type_ = "hipchat" ∨ c.Type_ = "sensu"
    · rw [if_pos hdisc]
      exact ih all defaults h1 h2
    · rw [if_neg hdisc]
      simp only
      apply ih _ _ (channelsAppend_nodup all c.OrgID c h1)
      intro org ds hds
      by_cases ho : org = c.OrgID
      · subst ho
        rw [channelsAppend_lookup_self]
        refine ⟨_, rfl, ?_⟩
        by_cases hdef : c.IsDefault = true
        · rw [if_pos hdef, channelsAppend_lookup_self] at hds
          simp only [Option.some.injEq] at hds
          subst hds
          intro x hx
          cases hd : defaults.lookup c.OrgID with
          | none =>
            rw [hd] at hx
            simp only [List.mem_singleton] at hx
            subst hx
            cases all.lookup x.OrgID <;> simp
          | some ds0 =>
            rw [hd] at hx
            obtain ⟨cs, hcs, hsub⟩ := h2 _ _ hd
            rw [hcs]
            rcases List.mem_append.1 hx with hx | hx
            · exact List.mem_append_left _ (hsub x hx)
            · exact List.mem_append_right _ hx
        · rw [if_neg hdef] at hds
          obtain ⟨cs, hcs, hsub⟩ := h2 _ _ hds
          rw [hcs]
          intro x hx
          exact List.mem_append_left _ (hsub x hx)
      · rw [channelsAppend_lookup_of_ne _ _ _ _ ho]
        by_cases hdef : c.IsDefault = true
        · rw [if_pos hdef, channelsAppend_lookup_of_ne _ _ _ _ ho] at hds
          exact h2 org ds hds
        · rw [if_neg hdef] at hds
          exact h2 org ds hds

theorem MigrateOrgAlerts.setupAlertmanagerConfigs.orgLoop_listed (env : MigrationEnv)
    (validate : Int → PostableUserConfig → Except String Unit)
    (defaultChannelsPerOrg : List (Int × List notificationChannel))
    (rulesPerOrg : List (Int × List (String × dashAlert)))
    (hrules : ∀ orgID rules, rulesPerOrg.lookup orgID = some rules →
      ∀ rule ∈ rules, rule.2.OrgId = orgID)
    (entries : List (Int × List notificationChannel)) :
    ∀ (st st1 : SetupState),
    (entries.map Prod.fst).Nodup →
    (∀ e ∈ entries, ∀ ds, defaultChannelsPerOrg.lookup e.1 = some ds → ∀ c ∈ ds, c ∈ e.2) →
    st.rootsListed → st.childrenListed →
    (∀ call ∈ st.routeCalls, call.1 ∉ entries.map Prod.fst) →
    MigrateOrgAlerts.setupAlertmanagerConfigs.orgLoop env validate defaultChannelsPerOrg
      rulesPerOrg entries st = Outcome.ok st1 →
    st1.rootsListed ∧ st1.childrenListed := by
  induction entries with
  | nil =>
    intro st st1 _ _ h1 h2 _ h
    simp only [MigrateOrgAlerts.setupAlertmanagerConfigs.orgLoop, Outcome.ok.injEq] at h
    subst h
    exact ⟨h1, h2⟩
  | cons e rest ih =>
    obtain ⟨orgID, orgChannels⟩ := e
    intro st st1 hnd hsub h1 h2 hfresh h
    simp only [List.map_cons, List.nodup_cons] at hnd
    unfold MigrateOrgAlerts.setupAlertmanagerConfigs.orgLoop at h
    cases hstep : MigrateOrgAlerts.setupAlertmanagerConfigs.orgStep env validate
        defaultChannelsPerOrg rulesPerOrg orgID orgChannels st with
    | error err => rw [hstep] at h; simp at h
    | panic => rw [hstep] at h; simp at h
    | ok st2 =>
      rw [hstep] at h
      simp only at h
      obtain ⟨r1, r2, r3⟩ :=
        MigrateOrgAlerts.setupAlertmanagerConfigs.orgStep_listed env validate
          defaultChannelsPerOrg rulesPerOrg orgID orgChannels st st2 h1 h2
          (fun call hc heq => hfresh call hc (by simp [heq]))
          (hsub (orgID, orgChannels) (List.mem_cons_self _ _)) (hrules orgID) hstep
      refine ih st2 st1 hnd.2 (fun e he => hsub e (List.mem_cons_of_mem _ he)) r1 r2 ?_ h
      intro call hc hin
      rcases r3 call hc with hold | heq
      · exact hfresh call hold (by simp [hin])
      · rw [heq] at hin
        exact hnd.1 hin

/-- C13. Whenever `setupAlertmanagerConfigs` returns configurations (the rules
being filed, as `Exec` files them, under the organisation of their alert), in
every configuration with a route the receiver of the root route is the name of
a receiver listed in that configuration, and every name in the receiver-name
set chosen for a rule's child route is the name of a receiver listed in the
configuration the route was added to. -/
theorem setupAlertmanagerConfigs_receivers_listed (env : MigrationEnv)
    (validate : Int → PostableUserConfig → Except String Unit)
    (found : Except String (List notificationChannel)) (m : MigrateOrgAlerts)
    (rulesPerOrg : List (Int × List (String × dashAlert))) (st : SetupState)
    (hrules : ∀ orgID rules, rulesPerOrg.lookup orgID = some rules →
      ∀ rule ∈ rules, rule.2.OrgId = orgID)
    (hok : MigrateOrgAlerts.setupAlertmanagerConfigs env validate found m rulesPerOrg =
      Outcome.ok st) :
    (∀ (orgID : Int) (config : PostableUserConfig) (route : Route),
        st.amConfigPerOrg.lookup orgID = some config →
        config.AlertmanagerConfig.Route = some route →
        route.Receiver ∈ config.AlertmanagerConfig.Receivers.map (fun r => r.Name)) ∧
      (∀ call ∈ st.routeCalls, ∃ config : PostableUserConfig,
        st.amConfigPerOrg.lookup call.1 = some config ∧
        ∀ n ∈ call.2.2, n ∈ config.AlertmanagerConfig.Receivers.map (fun r => r.Name)) := by
  unfold MigrateOrgAlerts.setupAlertmanagerConfigs at hok
  cases hmap : MigrateOrgAlerts.getNotificationChannelMap found with
  | error e => rw [hmap] at hok; simp at hok
  | ok p =>
    obtain ⟨all, defaults⟩ := p
    rw [hmap] at hok
    simp only at hok
    have hinv : (all.map Prod.fst).Nodup ∧
        ∀ org ds, defaults.lookup org = some ds →
          ∃ cs, all.lookup org = some cs ∧ ∀ c ∈ ds, c ∈ cs := by
      unfold MigrateOrgAlerts.getNotificationChannelMap at hmap
      cases found with
      | error e => simp at hmap
      | ok rows =>
        simp only at hmap
        by_cases hz : rows.length = 0
        · rw [if_pos hz] at hmap
          simp only [Except.ok.injEq, Prod.mk.injEq] at hmap
          obtain ⟨h1, h2⟩ := hmap
          subst h1 h2
          exact ⟨by simp, fun org ds h => by simp at h⟩
        · rw [if_neg hz] at hmap
          simp only [Except.ok.injEq] at hmap
          have := MigrateOrgAlerts.getNotificationChannelMap.loop_inv rows [] [] (by simp)
            (fun org ds h => by simp at h)
          rw [hmap] at this
          exact this
    exact MigrateOrgAlerts.setupAlertmanagerConfigs.orgLoop_listed env validate defaults
      rulesPerOrg hrules all _ st hinv.1
      (by
        intro e he ds hds c hc
        obtain ⟨cs, hcs, hsub⟩ := hinv.2 e.1 ds hds
        have := lookup_of_mem_nodup all e.1 e.2 hinv.1 he
        rw [hcs] at this
        simp only [Option.some.injEq] at this
        rw [← this]
        exact hsub c hc)
      (fun org cfg rt h _ => by simp at h) (fun call hc => by simp at hc)
      (fun call hc => by simp at hc) hok

theorem setupAlertmanagerConfigs_receivers_listed_witness :
    ∃ st : SetupState,
      MigrateOrgAlerts.setupAlertmanagerConfigs MigrationEnv.sample (fun _ _ => Except.ok ())
          (Except.ok [notificationChannel.sample 1 "slack-a" true,
            notificationChannel.sample 2 "slack-b" false])
          MigrateOrgAlerts.sample [(1, [("rule-1", dashAlert.sample ["slack-b"])])] =
        Outcome.ok st ∧
      st.routeCalls = [(1, "rule-1", ["slack-b", "slack-a"])] ∧
      (∀ (orgID : Int) (config : PostableUserConfig) (route : Route),
        st.amConfigPerOrg.lookup orgID = some config →
        config.AlertmanagerConfig.Route = some route →
        route.Receiver ∈ config.AlertmanagerConfig.Receivers.map (fun r => r.Name)) ∧
      (∀ call ∈ st.routeCalls, ∃ config : PostableUserConfig,
        st.amConfigPerOrg.lookup call.1 = some config ∧
        ∀ n ∈ call.2.2, n ∈ config.AlertmanagerConfig.Receivers.map (fun r => r.Name)) :=
  ⟨_, rfl, rfl,
    setupAlertmanagerConfigs_receivers_listed MigrationEnv.sample (fun _ _ => Except.ok ())
      (Except.ok [notificationChannel.sample 1 "slack-a" true,
        notificationChannel.sample 2 "slack-b" false])
      MigrateOrgAlerts.sample [(1, [("rule-1", dashAlert.sample ["slack-b"])])] _
      (by
        intro orgID rules h rule hr
        by_cases ho : orgID = 1
        · subst ho
          simp only [List.lookup, beq_self_eq_true, Option.some.injEq] at h
          subst h
          simp only [List.mem_singleton] at hr
          subst hr
          rfl
        · have h1 : (orgID == 1) = false := by simpa using ho
          simp [List.lookup, h1] at h)
      rfl⟩

/-! ### HTTP handlers -/

/-- The handlers that tell all three kinds of error apart: updating a contact
point (public and internal) and updating an alert rule answer 400 to a
validation error, 404 to a not-found error and 500 to any other error. -/
theorem provisioning_put_statuses (srv : ProvisioningSrv) (c : ReqContext)
    (cp : EmbeddedContactPoint) (ar : ProvisionedAlertRule) (UID : String)
    (err : ServiceError) :
    (srv.UpdateContactPoint false c.OrgId { cp with UID := UID } = some err →
      (srv.RoutePutContactPoint c cp UID).status =
        if errorsIs err Sentinel.ErrValidation then 400
        else if errorsIs err Sentinel.ErrNotFound then 404 else 500) ∧
    (srv.UpdateContactPoint true c.OrgId { cp with UID := UID } = some err →
      (srv.RouteInternalPutContactPoint c cp UID).status =
        if errorsIs err Sentinel.ErrValidation then 400
        else if errorsIs err Sentinel.ErrNotFound then 404 else 500) ∧
    (srv.UpdateAlertRule { ar with UID := UID, OrgID := c.OrgId } = Except.error err →
      (srv.RoutePutAlertRule c ar UID).status =
        if errorsIs err Sentinel.ErrAlertRuleNotFound then 404
        else if errorsIs err Sentinel.ErrAlertRuleFailedValidation then 400 else 500) := by
  refine ⟨?_, ?_, ?_⟩
  · intro h
    simp only [ProvisioningSrv.RoutePutContactPoint, h, ProvisioningSrv.putContactPointResponse]
    split_ifs <;> rfl
  · intro h
    simp only [ProvisioningSrv.RouteInternalPutContactPoint, h,
      ProvisioningSrv.putContactPointResponse]
    split_ifs <;> rfl
  · intro h
    simp only [ProvisioningSrv.RoutePutAlertRule, h]
    split_ifs <;> rfl

/-- C16 fails on `RouteDeleteAlertRule` and `RoutePutAlertRuleGroup`, which
answer 500 to every error, a validation error and a not-found error included,
and on the handlers that test for a validation error only: creating or
deleting a contact point and creating an alert rule answer 500 to a not-found
error. Updating a contact point answers 404 to the same not-found error. -/
theorem provisioning_statuses_not_uniform :
    ((ProvisioningSrv.failing (ServiceError.sentinel Sentinel.ErrAlertRuleNotFound)).RouteDeleteAlertRule
        { OrgId := 1, ParamID := "" } "rule-1").status = 500 ∧
    ((ProvisioningSrv.failing
        (ServiceError.sentinel Sentinel.ErrAlertRuleFailedValidation)).RouteDeleteAlertRule
        { OrgId := 1, ParamID := "" } "rule-1").status = 500 ∧
    ((ProvisioningSrv.failing
        (ServiceError.sentinel Sentinel.ErrAlertRuleFailedValidation)).RoutePutAlertRuleGroup
        { OrgId := 1, ParamID := "" } { Interval := 60 } "folder" "group").status = 500 ∧
    ((ProvisioningSrv.failing (ServiceError.sentinel Sentinel.ErrAlertRuleNotFound)).RoutePutAlertRuleGroup
        { OrgId := 1, ParamID := "" } { Interval := 60 } "folder" "group").status = 500 ∧
    ((ProvisioningSrv.failing (ServiceError.sentinel Sentinel.ErrNotFound)).RouteDeleteContactPoint
        { OrgId := 1, ParamID := "cp-1" }).status = 500 ∧
    ((ProvisioningSrv.failing (ServiceError.sentinel Sentinel.ErrNotFound)).RouteInternalDeleteContactPoint
        { OrgId := 1, ParamID := "cp-1" }).status = 500 ∧
    ((ProvisioningSrv.failing (ServiceError.sentinel Sentinel.ErrNotFound)).RoutePostContactPoint
        { OrgId := 1, ParamID := "" }
        { UID := "", Name := "ops", Type_ := "email", Settings := "",
          DisableResolveMessage := false }).status = 500 ∧
    ((ProvisioningSrv.failing (ServiceError.sentinel Sentinel.ErrAlertRuleNotFound)).RoutePostAlertRule
        { OrgId := 1, ParamID := "" }
        { ID := 0, UID := "", OrgID := 1, Updated := 0, Rest := "" }).status = 500 ∧
    ((ProvisioningSrv.failing (ServiceError.sentinel Sentinel.ErrNotFound)).RoutePutContactPoint
        { OrgId := 1, ParamID := "" }
        { UID := "", Name := "ops", Type_ := "email", Settings := "",
          DisableResolveMessage := false } "cp-1").status = 404 := by
  decide

/-- The calls of `saveAlertStates`: one per state, in order, whatever the
store answers. -/
theorem LogzioAlertingService.saveAlertStates_eq (srv : LogzioAlertingService)
    (states : List AlertState) :
    srv.saveAlertStates states =
      states.map (fun s => ServiceCall.SaveAlertInstance
        { RuleOrgID := s.OrgID
          RuleUID := s.AlertRuleUID
          Labels := s.Labels
          State := srv.stateString s.State
          LastEvalTime := s.LastEvaluationTime
          CurrentStateSince := s.StartsAt
          CurrentStateEnd := s.EndsAt }) := by
  induction states with
  | nil => rfl
  | cons s rest ih =>
    simp only [LogzioAlertingService.saveAlertStates, List.map_cons]
    cases srv.SaveAlertInstance
      { RuleOrgID := s.OrgID, RuleUID := s.AlertRuleUID, Labels := s.Labels,
        State := srv.stateString s.State, LastEvalTime := s.LastEvaluationTime,
        CurrentStateSince := s.StartsAt, CurrentStateEnd := s.EndsAt } <;>
      simp only [ih]

/-- C17. `RouteProcessAlert` answers 200 with the postable alerts when the
notification succeeds, 400 when the lookup of the notifier fails with (an error
wrapping) `ErrNoAlertmanagerForOrg`, and 500 for every other failure of the
lookup and for every failure of `PutAlerts`, an Alertmanager never reporting
`ErrNoAlertmanagerForOrg` itself: the answer is 400 exactly when no notifier is
configured. `PutAlerts` is called only when a notifier was found. -/
theorem routeProcessAlert_statuses (srv : LogzioAlertingService) (request : AlertProcessRequest)
    (hput : ∀ n alerts err, srv.PutAlerts n alerts = some err →
      errorsIs err Sentinel.ErrNoAlertmanagerForOrg = false) :
    (∀ n, srv.AlertmanagerFor request.AlertRule.OrgID = Except.ok n →
        srv.PutAlerts n (srv.FromAlertStateToPostableAlerts
          (srv.ProcessEvalResults (apiRuleToDbAlertRule request.AlertRule)
            (request.EvaluationResults.map apiToEvaluationResult))) = none →
        (srv.RouteProcessAlert request).1.status = 200 ∧
        (srv.RouteProcessAlert request).1.body =
          ResponseBody.json (srv.FromAlertStateToPostableAlerts
            (srv.ProcessEvalResults (apiRuleToDbAlertRule request.AlertRule)
              (request.EvaluationResults.map apiToEvaluationResult)))) ∧
      ((srv.RouteProcessAlert request).1.status = 400 ↔
        ∃ err, srv.AlertmanagerFor request.AlertRule.OrgID = Except.error err ∧
          errorsIs err Sentinel.ErrNoAlertmanagerForOrg = true) ∧
      (∀ err, srv.AlertmanagerFor request.AlertRule.OrgID = Except.error err →
        errorsIs err Sentinel.ErrNoAlertmanagerForOrg = false →
        (srv.RouteProcessAlert request).1.status = 500) ∧
      (∀ n err, srv.AlertmanagerFor request.AlertRule.OrgID = Except.ok n →
        srv.PutAlerts n (srv.FromAlertStateToPostableAlerts
          (srv.ProcessEvalResults (apiRuleToDbAlertRule request.AlertRule)
            (request.EvaluationResults.map apiToEvaluationResult))) = some err →
        (srv.RouteProcessAlert request).1.status = 500) ∧
      ((∃ n alerts, ServiceCall.PutAlerts n alerts ∈ (srv.RouteProcessAlert request).2) →
        ∃ n, srv.AlertmanagerFor request.AlertRule.OrgID = Except.ok n) := by
  have horg : (apiRuleToDbAlertRule request.AlertRule).OrgID = request.AlertRule.OrgID := rfl
  cases hl : srv.AlertmanagerFor request.AlertRule.OrgID with
  | error e =>
    cases he : errorsIs e Sentinel.ErrNoAlertmanagerForOrg with
    | true =>
      refine ⟨fun n h => by simp at h, ?_, ?_, fun n err h => by simp at h, ?_⟩
      · simp [LogzioAlertingService.RouteProcessAlert, LogzioAlertingService.notify, horg, hl,
          he, StatusBadRequest]
      · intro err h hf
        simp only [Except.error.injEq] at h
        subst h
        rw [he] at hf
        simp at hf
      · rintro ⟨n, alerts, hmem⟩
        simp [LogzioAlertingService.RouteProcessAlert, LogzioAlertingService.notify, horg, hl,
          he, LogzioAlertingService.saveAlertStates_eq] at hmem
    | false =>
      refine ⟨fun n h => by simp at h, ?_, ?_, fun n err h => by simp at h, ?_⟩
      · simp [LogzioAlertingService.RouteProcessAlert, LogzioAlertingService.notify, horg, hl,
          he, StatusInternalServerError]
      · intro err _ _
        simp [LogzioAlertingService.RouteProcessAlert, LogzioAlertingService.notify, horg, hl,
          he, StatusInternalServerError]
      · rintro ⟨n, alerts, hmem⟩
        simp [LogzioAlertingService.RouteProcessAlert, LogzioAlertingService.notify, horg, hl,
          he, LogzioAlertingService.saveAlertStates_eq] at hmem
  | ok n =>
    cases hp : srv.PutAlerts n (srv.FromAlertStateToPostableAlerts
        (srv.ProcessEvalResults (apiRuleToDbAlertRule request.AlertRule)
          (request.EvaluationResults.map apiToEvaluationResult))) with
    | none =>
      refine ⟨?_, ?_, fun err h => by simp at h, ?_, fun _ => ⟨n, rfl⟩⟩
      · intro n1 h1 _
        simp [LogzioAlertingService.RouteProcessAlert, LogzioAlertingService.notify, horg, hl,
          hp, StatusOK]
      · simp [LogzioAlertingService.RouteProcessAlert, LogzioAlertingService.notify, horg, hl,
          hp, StatusOK]
      · intro n1 err h1 h2
        simp only [Except.ok.injEq] at h1
        subst h1
        rw [hp] at h2
        simp at h2
    | some e =>
      have he := hput n _ e hp
      refine ⟨?_, ?_, fun err h => by simp at h, ?_, fun _ => ⟨n, rfl⟩⟩
      · intro n1 h1 h2
        simp only [Except.ok.injEq] at h1
        subst h1
        rw [hp] at h2
        simp at h2
      · simp [LogzioAlertingService.RouteProcessAlert, LogzioAlertingService.notify, horg, hl,
          hp, he, StatusInternalServerError]
      · intro n1 err _ _
        simp [LogzioAlertingService.RouteProcessAlert, LogzioAlertingService.notify, horg, hl,
          hp, he, StatusInternalServerError]

/-- C18. `RouteProcessAlert` calls `ProcessEvalResults` once, then
`SaveAlertInstance` exactly once per state returned, in order and with that
state's organisation, rule UID, labels, state name, last evaluation and start
and end times, and only then notifies, whatever the saves and the notification
answer: a failed save does not prevent the saves of the others, and a failed
notification is followed by no further call. -/
theorem routeProcessAlert_saves_each_state (srv : LogzioAlertingService)
    (request : AlertProcessRequest) :
    (srv.RouteProcessAlert request).2 =
      ServiceCall.ProcessEvalResults (apiRuleToDbAlertRule request.AlertRule)
          (request.EvaluationResults.map apiToEvaluationResult) ::
        (srv.ProcessEvalResults (apiRuleToDbAlertRule request.AlertRule)
          (request.EvaluationResults.map apiToEvaluationResult)).map
          (fun s => ServiceCall.SaveAlertInstance
            { RuleOrgID := s.OrgID
              RuleUID := s.AlertRuleUID
              Labels := s.Labels
              State := srv.stateString s.State
              LastEvalTime := s.LastEvaluationTime
              CurrentStateSince := s.StartsAt
              CurrentStateEnd := s.EndsAt }) ++
        (srv.notify request.AlertRule.OrgID (srv.FromAlertStateToPostableAlerts
          (srv.ProcessEvalResults (apiRuleToDbAlertRule request.AlertRule)
            (request.EvaluationResults.map apiToEvaluationResult)))).2 ∧
      (∀ call ∈ (srv.notify request.AlertRule.OrgID (srv.FromAlertStateToPostableAlerts
          (srv.ProcessEvalResults (apiRuleToDbAlertRule request.AlertRule)
            (request.EvaluationResults.map apiToEvaluationResult)))).2,
        call = ServiceCall.AlertmanagerFor request.AlertRule.OrgID ∨
          ∃ n alerts, call = ServiceCall.PutAlerts n alerts) := by
  constructor
  · have horg : (apiRuleToDbAlertRule request.AlertRule).OrgID = request.AlertRule.OrgID := rfl
    simp only [LogzioAlertingService.RouteProcessAlert, horg,
      LogzioAlertingService.saveAlertStates_eq]
    split <;> try split
    all_goals rfl
  · intro call hcall
    unfold LogzioAlertingService.notify at hcall
    cases hl : srv.AlertmanagerFor request.AlertRule.OrgID with
    | error e =>
      rw [hl] at hcall
      simp only [List.mem_singleton] at hcall
      exact Or.inl hcall
    | ok n =>
      rw [hl] at hcall
      simp only at hcall
      cases hp : srv.PutAlerts n (srv.FromAlertStateToPostableAlerts
          (srv.ProcessEvalResults (apiRuleToDbAlertRule request.AlertRule)
            (request.EvaluationResults.map apiToEvaluationResult))) with
      | none =>
        rw [hp] at hcall
        simp only [List.mem_cons, List.mem_singleton, List.not_mem_nil, or_false] at hcall
        rcases hcall with h | h
        · exact Or.inl h
        · exact Or.inr ⟨_, _, h⟩
      | some e =>
        rw [hp] at hcall
        simp only [List.mem_cons, List.mem_singleton, List.not_mem_nil, or_false] at hcall
        rcases hcall with h | h
        · exact Or.inl h
        · exact Or.inr ⟨_, _, h⟩

theorem routeProcessAlert_statuses_witness :
    ((LogzioAlertingService.sample
        (Except.error (ServiceError.sentinel Sentinel.ErrNoAlertmanagerForOrg))
        none).RouteProcessAlert
        { AlertRule := ApiAlertRule.sample, EvaluationResults := [] }).1.status = 400 ∧
      ((LogzioAlertingService.sample
        (Except.error (ServiceError.other "not ready")) none).RouteProcessAlert
        { AlertRule := ApiAlertRule.sample, EvaluationResults := [] }).1.status = 500 ∧
      ((LogzioAlertingService.sample (Except.ok 7) none).RouteProcessAlert
        { AlertRule := ApiAlertRule.sample, EvaluationResults := [] }).1.status = 200 :=
  ⟨((routeProcessAlert_statuses
        (LogzioAlertingService.sample
          (Except.error (ServiceError.sentinel Sentinel.ErrNoAlertmanagerForOrg)) none)
        { AlertRule := ApiAlertRule.sample, EvaluationResults := [] }
        (fun _ _ _ h => by simp [LogzioAlertingService.sample] at h)).2.1).2
      ⟨_, rfl, by decide⟩,
    (routeProcessAlert_statuses
        (LogzioAlertingService.sample (Except.error (ServiceError.other "not ready")) none)
        { AlertRule := ApiAlertRule.sample, EvaluationResults := [] }
        (fun _ _ _ h => by simp [LogzioAlertingService.sample] at h)).2.2.1 _ rfl (by decide),
    ((routeProcessAlert_statuses (LogzioAlertingService.sample (Except.ok 7) none)
        { AlertRule := ApiAlertRule.sample, EvaluationResults := [] }
        (fun _ _ _ h => by simp [LogzioAlertingService.sample] at h)).1 7 rfl rfl).1⟩

theorem routeProcessAlert_saves_each_state_witness :
    ((LogzioAlertingService.sample (Except.error (ServiceError.other "not ready"))
        none).RouteProcessAlert
        { AlertRule := ApiAlertRule.sample, EvaluationResults := [] }).2 =
      [ServiceCall.ProcessEvalResults (apiRuleToDbAlertRule ApiAlertRule.sample) [],
        ServiceCall.SaveAlertInstance
          { RuleOrgID := 1, RuleUID := "rule-1", Labels := [("host", "a")], State := "Alerting",
            LastEvalTime := 50, CurrentStateSince := 40, CurrentStateEnd := 90 },
        ServiceCall.SaveAlertInstance
          { RuleOrgID := 1, RuleUID := "rule-1", Labels := [("host", "b")], State := "Alerting",
            LastEvalTime := 50, CurrentStateSince := 45, CurrentStateEnd := 95 },
        ServiceCall.AlertmanagerFor 1] :=
  (routeProcessAlert_saves_each_state
    (LogzioAlertingService.sample (Except.error (ServiceError.other "not ready")) none)
    { AlertRule := ApiAlertRule.sample, EvaluationResults := [] }).1

/-! ### Migration: rules and silences -/

theorem lookup_mapAppend_self {ν : Type} (m : List (Int × List ν)) (k : Int) (v : ν) :
    ((mapAppend m k v).lookup k).getD [] = (m.lookup k).getD [] ++ [v] := by
  induction m with
  | nil => simp [mapAppend, List.lookup]
  | cons p rest ih =>
    obtain ⟨j, vs⟩ := p
    by_cases hj : j = k
    · subst hj
      simp [mapAppend, List.lookup]
    · have hb : (k == j) = false := by
        simpa using fun h : k = j => hj h.symm
      simp only [mapAppend, if_neg hj, List.lookup, hb]
      exact ih

theorem lookup_mapAppend_of_ne {ν : Type} (m : List (Int × List ν)) (k k2 : Int) (v : ν)
    (h : k2 ≠ k) : (mapAppend m k v).lookup k2 = m.lookup k2 := by
  induction m with
  | nil =>
    have hb : (k2 == k) = false := by simpa using h
    simp [mapAppend, List.lookup, hb]
  | cons p rest ih =>
    obtain ⟨j, vs⟩ := p
    by_cases hj : j = k
    · subst hj
      have hb : (k2 == j) = false := by simpa using h
      simp [mapAppend, List.lookup, hb]
    · simp only [mapAppend, if_neg hj, List.lookup]
      cases hkj : k2 == j with
      | true => rfl
      | false => exact ih

theorem MigrateOrgAlerts.addSilence_silences (env : RuleEnv) (m : MigrateOrgAlerts)
    (da : dashAlert) (rule : alertRule) :
    (∀ org, org ≠ da.OrgId →
      (m.addSilence env da rule).2.silences.lookup org = m.silences.lookup org) ∧
    ∃ added, (m.addSilence env da rule).2.silencesOf da.OrgId =
        m.silencesOf da.OrgId ++ added ∧
      (added.filter (isPauseSilence env rule.UID)).length =
        if da.State = "paused" ∧ (env.NewV4 m.uuidCalls).toOption.isSome = true then 1 else 0 := by
  unfold MigrateOrgAlerts.addSilence
  by_cases hp : da.State = "paused"
  · rw [if_neg (by simpa using hp)]
    cases hu : env.NewV4 m.uuidCalls with
    | error e =>
      refine ⟨fun _ _ => rfl, [], ?_, ?_⟩
      · simp [MigrateOrgAlerts.silencesOf]
      · simp [hp, Except.toOption]
    | ok uid =>
      refine ⟨fun org ho => lookup_mapAppend_of_ne _ _ _ _ ho,
        [MigrateOrgAlerts.addSilence.silence env rule uid m.nowCalls], ?_, ?_⟩
      · exact lookup_mapAppend_self _ _ _
      · simp [hp, Except.toOption, isPauseSilence, MigrateOrgAlerts.addSilence.silence]
  · rw [if_pos (by simpa using hp)]
    refine ⟨fun _ _ => rfl, [], ?_, ?_⟩
    · simp
    · simp [hp]

theorem MigrateOrgAlerts.addKeepStateSilence_silences (env : RuleEnv) (alertName state : String)
    (m : MigrateOrgAlerts) (da : dashAlert) (rule : alertRule) :
    (∀ org, org ≠ da.OrgId →
      (MigrateOrgAlerts.addKeepStateSilence env alertName state m da rule).2.silences.lookup org =
        m.silences.lookup org) ∧
    ∃ added, (MigrateOrgAlerts.addKeepStateSilence env alertName state m da rule).2.silencesOf
        da.OrgId = m.silencesOf da.OrgId ++ added ∧
      added.filter (isPauseSilence env rule.UID) = [] := by
  unfold MigrateOrgAlerts.addKeepStateSilence
  cases hu : env.NewV4 m.uuidCalls with
  | error e =>
    refine ⟨fun _ _ => rfl, [], ?_, rfl⟩
    simp [MigrateOrgAlerts.silencesOf]
  | ok uid =>
    refine ⟨fun org ho => lookup_mapAppend_of_ne _ _ _ _ ho,
      [MigrateOrgAlerts.keepStateSilence env alertName state rule uid m.nowCalls], ?_, ?_⟩
    · exact lookup_mapAppend_self _ _ _
    · simp [isPauseSilence, MigrateOrgAlerts.keepStateSilence]

theorem MigrateOrgAlerts.addErrorSilence_silences (env : RuleEnv) (m : MigrateOrgAlerts)
    (da : dashAlert) (rule : alertRule) :
    (∀ org, org ≠ da.OrgId →
      (m.addErrorSilence env da rule).2.silences.lookup org = m.silences.lookup org) ∧
    ∃ added, (m.addErrorSilence env da rule).2.silencesOf da.OrgId =
        m.silencesOf da.OrgId ++ added ∧
      added.filter (isPauseSilence env rule.UID) = [] := by
  unfold MigrateOrgAlerts.addErrorSilence
  split
  · exact ⟨fun _ _ => rfl, [], by simp, rfl⟩
  · exact MigrateOrgAlerts.addKeepStateSilence_silences env _ _ m da rule

theorem MigrateOrgAlerts.addNoDataSilence_silences (env : RuleEnv) (m : MigrateOrgAlerts)
    (da : dashAlert) (rule : alertRule) :
    (∀ org, org ≠ da.OrgId →
      (m.addNoDataSilence env da rule).2.silences.lookup org = m.silences.lookup org) ∧
    ∃ added, (m.addNoDataSilence env da rule).2.silencesOf da.OrgId =
        m.silencesOf da.OrgId ++ added ∧
      added.filter (isPauseSilence env rule.UID) = [] := by
  unfold MigrateOrgAlerts.addNoDataSilence
  split
  · exact ⟨fun _ _ => rfl, [], by simp, rfl⟩
  · exact MigrateOrgAlerts.addKeepStateSilence_silences env _ _ m da rule

theorem MigrateOrgAlerts.addSilences_silences (env : RuleEnv) (m : MigrateOrgAlerts)
    (da : dashAlert) (r : alertRule) :
    (∀ org, org ≠ da.OrgId →
      (((m.addSilence env da r).2.addErrorSilence env da r).2.addNoDataSilence env da
        r).2.silences.lookup org = m.silences.lookup org) ∧
    ∃ added, (((m.addSilence env da r).2.addErrorSilence env da r).2.addNoDataSilence env da
        r).2.silencesOf da.OrgId = m.silencesOf da.OrgId ++ added ∧
      (added.filter (isPauseSilence env r.UID)).length =
        if da.State = "paused" ∧ (env.NewV4 m.uuidCalls).toOption.isSome = true then 1 else 0 := by
  refine ⟨?_, ?_⟩
  · intro org ho
    rw [(MigrateOrgAlerts.addNoDataSilence_silences env _ da _).1 org ho,
      (MigrateOrgAlerts.addErrorSilence_silences env _ da _).1 org ho,
      (MigrateOrgAlerts.addSilence_silences env _ da _).1 org ho]
  · obtain ⟨a3, h3, f3⟩ := (MigrateOrgAlerts.addNoDataSilence_silences env
      ((m.addSilence env da r).2.addErrorSilence env da r).2 da r).2
    obtain ⟨a2, h2, f2⟩ := (MigrateOrgAlerts.addErrorSilence_silences env
      (m.addSilence env da r).2 da r).2
    obtain ⟨a1, h1, f1⟩ := (MigrateOrgAlerts.addSilence_silences env m da r).2
    refine ⟨a1 ++ (a2 ++ a3), ?_, ?_⟩
    · rw [h3, h2, h1, List.append_assoc, List.append_assoc]
    · simp only [List.filter_append, List.length_append]
      rw [f2, f3, f1]
      simp

theorem MigrateOrgAlerts.makeAlertRule.finish_spec (env : RuleEnv) (m : MigrateOrgAlerts)
    (da : dashAlert) (ar : alertRule) :
    (MigrateOrgAlerts.makeAlertRule.finish env m da ar).1.UID = ar.UID ∧
    (MigrateOrgAlerts.makeAlertRule.finish env m da ar).1.Labels =
      mapSet ar.Labels (env.getLabelForRouteMatching ar.UID).1
        (env.getLabelForRouteMatching ar.UID).2 ∧
    (∀ org, org ≠ da.OrgId →
      (MigrateOrgAlerts.makeAlertRule.finish env m da ar).2.silences.lookup org =
        m.silences.lookup org) ∧
    ∃ added, (MigrateOrgAlerts.makeAlertRule.finish env m da ar).2.silencesOf da.OrgId =
        m.silencesOf da.OrgId ++ added ∧
      (added.filter (isPauseSilence env ar.UID)).length =
        if da.State = "paused" ∧ (env.NewV4 m.uuidCalls).toOption.isSome = true then 1 else 0 := by
  refine ⟨rfl, rfl, ?_⟩
  exact MigrateOrgAlerts.addSilences_silences env m da _

/-- Claim C15, as stated, does not hold: a paused legacy alert whose silence
identifier cannot be generated (`uuid.NewV4` fails) still gets its rule from
`makeAlertRule`, the failure being only logged, and no silence is registered. -/
theorem makeAlertRule_paused_without_silence :
    dashAlert.samplePaused.State = "paused" ∧
    (MigrateOrgAlerts.sample.makeAlertRule (RuleEnv.sample false) ⟨"A", []⟩
      dashAlert.samplePaused "folder").1.toOption.map (fun ar => ar.UID) = some "u" ∧
    (MigrateOrgAlerts.sample.makeAlertRule (RuleEnv.sample false) ⟨"A", []⟩
      dashAlert.samplePaused "folder").2.silences = [] := by
  decide

/-- Claim C15, amended: when `makeAlertRule` returns a rule, the rule carries
the label `getLabelForRouteMatching(rule UID)`, the silences of the other
organisations are untouched, and among the silences added for the organisation
of the alert there is exactly one pause silence (a single equality matcher on
that label) when the alert is "paused" and `uuid.NewV4` gives an identifier,
and none otherwise. -/
theorem makeAlertRule_pause_silence (env : RuleEnv) (m m1 : MigrateOrgAlerts)
    (cond : condition) (da : dashAlert) (folderUID : String) (ar : alertRule)
    (h : m.makeAlertRule env cond da folderUID = (Except.ok ar, m1)) :
    ar.Labels.lookup (env.getLabelForRouteMatching ar.UID).1 =
      some (env.getLabelForRouteMatching ar.UID).2 ∧
    (∀ org, org ≠ da.OrgId → m1.silences.lookup org = m.silences.lookup org) ∧
    ∃ added, m1.silencesOf da.OrgId = m.silencesOf da.OrgId ++ added ∧
      (added.filter (isPauseSilence env ar.UID)).length =
        if da.State = "paused" ∧ (env.NewV4 m.uuidCalls).toOption.isSome = true then 1 else 0 := by
  unfold MigrateOrgAlerts.makeAlertRule at h
  simp only [] at h
  split at h
  · simp at h
  · split at h
    · simp at h
    · split at h
      · simp at h
      · simp only [Prod.mk.injEq, Except.ok.injEq] at h
        obtain ⟨h1, h2⟩ := h
        subst h1 h2
        obtain ⟨hu, hl, hf, hs⟩ := MigrateOrgAlerts.makeAlertRule.finish_spec env _ da _
        refine ⟨?_, hf, ?_⟩
        · rw [hl, hu]
          exact lookup_mapSet_self _ _ _
        · rw [hu]
          exact hs

theorem makeAlertRule_pause_silence_witness :
    ∃ ar m1, MigrateOrgAlerts.sample.makeAlertRule (RuleEnv.sample true) ⟨"A", []⟩
        dashAlert.samplePaused "folder" = (Except.ok ar, m1) ∧
      ar.Labels.lookup "rule_uid" = some "u" ∧
      ∃ added, m1.silencesOf 1 = [] ++ added ∧
        (added.filter (isPauseSilence (RuleEnv.sample true) "u")).length = 1 :=
  ⟨_, _, rfl,
    (makeAlertRule_pause_silence (RuleEnv.sample true) MigrateOrgAlerts.sample _ ⟨"A", []⟩
      dashAlert.samplePaused "folder" _ rfl).1,
    (makeAlertRule_pause_silence (RuleEnv.sample true) MigrateOrgAlerts.sample _ ⟨"A", []⟩
      dashAlert.samplePaused "folder" _ rfl).2.2⟩

/-! ### Migration: Exec -/

theorem MigrateOrgAlerts.Exec.loop_abort (env : ExecEnv) (dsIDMap dashIDMap : dsUIDLookup)
    (da : dashAlert) (rest : List dashAlert) (st : ExecState)
    (h : (MigrateOrgAlerts.Exec.alert env dsIDMap dashIDMap st da).1 ≠ Outcome.ok ()) :
    MigrateOrgAlerts.Exec.loop env dsIDMap dashIDMap (da :: rest) st =
      MigrateOrgAlerts.Exec.alert env dsIDMap dashIDMap st da := by
  rw [MigrateOrgAlerts.Exec.loop]
  rcases hr : MigrateOrgAlerts.Exec.alert env dsIDMap dashIDMap st da with ⟨r, st1⟩
  rw [hr] at h
  cases r with
  | ok u => exact absurd rfl h
  | error err => rfl
  | panic => rfl

/-- Claim C14 does not hold of every failure. With the legacy alerts 7 and 8,
when the queries of the rule of alert 7 cannot be migrated, `Exec` stops at
alert 7 (one call to `transConditions`, no insert, no configuration written),
but the error it returns is the one of `makeAlertRule`, not a `MigrationError`
with the alert 7. The run without failure migrates both alerts and writes the
configuration, and a dashboard that is not found does give a `MigrationError`
with the alert 7. -/
theorem exec_rule_failure_is_not_a_migrationError :
    (MigrateOrgAlerts.sample.Exec (ExecEnv.sample false true)).1 =
      Outcome.error (ExecError.other "failed to migrate alert rule queries: bad query") ∧
    (MigrateOrgAlerts.sample.Exec (ExecEnv.sample false true)).2.calls =
      [ExecCall.transConditions (dashAlert.sample []).ParsedSettings 1,
        ExecCall.getOrCreateGeneralFolder 1] ∧
    (MigrateOrgAlerts.sample.Exec (ExecEnv.sample true true)).1 = Outcome.ok () ∧
    ((MigrateOrgAlerts.sample.Exec (ExecEnv.sample true true)).2.calls.filter
      (fun call => decide (call = ExecCall.writeAlertmanagerConfig 1))).length = 1 ∧
    ((MigrateOrgAlerts.sample.Exec (ExecEnv.sample true true)).2.rulesPerOrg.lookup 1).map
      (fun rules => rules.map (fun rule => rule.2.Id)) = some [8, 7] ∧
    (MigrateOrgAlerts.sample.Exec (ExecEnv.sample true false)).1 =
      Outcome.error (ExecError.migration
        { Err := "dashboard with UID dash-uid under organisation 1 not found: %!w(<nil>)"
          AlertId := 7 }) := by
  refine ⟨?_, ?_, ?_, ?_, ?_, ?_⟩ <;> decide

/-! ### Round trip of values, handlers, and further migrations -/

/-- Claim C30 fails on a NaN value: the round trip through
`valueNumberCaptureToApi` and `apiToNumberValueCapture` copies `Var` and
`Labels` and gives the value back when it is missing or a number, but a NaN
value comes back missing. `valueNumberCaptureToApi` sends a NaN as no value
with `IsNan` set, and `apiToNumberValueCapture` reads `IsNan` only when there
is a value. -/
theorem numberValueCapture_roundTrip_loses_nan :
    (∀ c : NumberValueCapture,
      (apiToNumberValueCapture (valueNumberCaptureToApi c)).Var = c.Var ∧
      (apiToNumberValueCapture (valueNumberCaptureToApi c)).Labels = c.Labels ∧
      (apiToNumberValueCapture (valueNumberCaptureToApi c)).Value =
        match c.Value with
        | none => none
        | some v => if math.IsNaN v = true then none else some v) ∧
    math.IsNaN math.NaN = true ∧
    apiToNumberValueCapture
        (valueNumberCaptureToApi { Var := "B", Labels := [], Value := some math.NaN }) =
      { Var := "B", Labels := [], Value := none } := by
  refine ⟨?_, by decide, by decide⟩
  intro c
  refine ⟨rfl, rfl, ?_⟩
  cases hv : c.Value with
  | none => simp [apiToNumberValueCapture, valueNumberCaptureToApi, hv]
  | some v =>
    cases hn : math.IsNaN v with
    | false => simp [apiToNumberValueCapture, valueNumberCaptureToApi, hv, hn]
    | true => simp [apiToNumberValueCapture, valueNumberCaptureToApi, hv, hn]

/-- Claim C26 fails: the silence of `addSilence` ends and expires
`365 * 20` hours, which is 7300 hours, after the reading of the clock, not the
8760 hours of a year. With a clock that stands still, the silence of a paused
alert starts at that time and ends and expires 7300 hours later. -/
theorem addSilence_ends_after_7300_hours :
    (∀ (env : RuleEnv) (rule : alertRule) (uid : String) (n0 : Nat),
      (MigrateOrgAlerts.addSilence.silence env rule uid n0).Silence.StartsAt = env.Now n0 ∧
      (MigrateOrgAlerts.addSilence.silence env rule uid n0).Silence.EndsAt =
        (env.Now (n0 + 1)).Add (7300 * Hour) ∧
      (MigrateOrgAlerts.addSilence.silence env rule uid n0).ExpiresAt =
        (env.Now (n0 + 2)).Add (7300 * Hour)) ∧
    ((MigrateOrgAlerts.sample.addSilence (RuleEnv.sampleClock 1000) dashAlert.samplePaused
        alertRule.sample).2.silencesOf 1).map
      (fun s => (s.Silence.StartsAt, s.Silence.EndsAt, s.ExpiresAt)) =
      [(1000, Time.Add 1000 (7300 * Hour), Time.Add 1000 (7300 * Hour))] ∧
    Time.Add 1000 (7300 * Hour) < Time.Add 1000 (8760 * Hour) := by
  refine ⟨?_, by decide, by decide⟩
  intro env rule uid n0
  exact ⟨rfl, rfl, rfl⟩

/-- Claim C25 fails: when the dashboard of alert 7 has permissions of its own, a
folder is created for it and the session refuses the permissions of the
folder, `Exec` ends in a panic (the error is built from the nil `folder`)
after the calls of `createFolder` and `setACL`; it returns no error at all.
When the session accepts the permissions the same run succeeds. -/
theorem exec_panics_when_setACL_fails :
    (MigrateOrgAlerts.sample.Exec (ExecEnv.sampleWithAcl false)).1 = Outcome.panic ∧
    (MigrateOrgAlerts.sample.Exec (ExecEnv.sampleWithAcl false)).2.calls =
      [ExecCall.transConditions (dashAlert.sample []).ParsedSettings 1,
        ExecCall.createFolder 1 "Board Alerts",
        ExecCall.setACL 1 10 [dashboardAcl.sample]] ∧
    (MigrateOrgAlerts.sample.setACL (ExecEnv.sampleWithAcl false) 1 10 [dashboardAcl.sample]).2.1 =
      Except.error "database is locked" ∧
    (MigrateOrgAlerts.sample.Exec (ExecEnv.sampleWithAcl true)).1 = Outcome.ok () := by
  refine ⟨?_, ?_, ?_, ?_⟩
  · decide
  · decide
  · rfl
  · decide

/-- Claim C23. `RoutePostAlertRule` and `RoutePutAlertRule` take the
organisation of the rule from the request context: two bodies that differ only
in `OrgID` (and in `UID` for the put) get the same answer, and the answer
depends on the service only through what it does with a rule whose `OrgID` is
the organisation of the context and, for the put, whose `UID` is the path
parameter, so that is the rule handed to the service. -/
theorem alertRule_routes_take_org_of_context (srv srv2 : ProvisioningSrv) (c : ReqContext)
    (ar1 ar2 : ProvisionedAlertRule) (UID : String)
    (hid : ar1.ID = ar2.ID) (hupdated : ar1.Updated = ar2.Updated) (hrest : ar1.Rest = ar2.Rest)
    (hcreate : ∀ rule : ProvisionedAlertRule, rule.OrgID = c.OrgId →
      srv.CreateAlertRule rule = srv2.CreateAlertRule rule)
    (hupdate : ∀ rule : ProvisionedAlertRule, rule.OrgID = c.OrgId → rule.UID = UID →
      srv.UpdateAlertRule rule = srv2.UpdateAlertRule rule) :
    (ar1.UID = ar2.UID → srv.RoutePostAlertRule c ar1 = srv2.RoutePostAlertRule c ar2) ∧
    srv.RoutePutAlertRule c ar1 UID = srv2.RoutePutAlertRule c ar2 UID := by
  obtain ⟨id1, uid1, org1, upd1, rest1⟩ := ar1
  obtain ⟨id2, uid2, org2, upd2, rest2⟩ := ar2
  simp only at hid hupdated hrest
  subst hid hupdated hrest
  constructor
  · intro huid
    simp only at huid
    subst huid
    simp only [ProvisioningSrv.RoutePostAlertRule]
    rw [hcreate _ rfl]
  · simp only [ProvisioningSrv.RoutePutAlertRule]
    rw [hupdate _ rfl rfl]

theorem alertRule_routes_take_org_of_context_witness :
    (ProvisioningSrv.sampleFor (some 1)).RoutePostAlertRule { OrgId := 1, ParamID := "" }
        { ID := 0, UID := "", OrgID := 2, Updated := 0, Rest := "rule" } =
      (ProvisioningSrv.sampleFor none).RoutePostAlertRule { OrgId := 1, ParamID := "" }
        { ID := 0, UID := "", OrgID := 1, Updated := 0, Rest := "rule" } ∧
    (ProvisioningSrv.sampleFor (some 1)).RoutePutAlertRule { OrgId := 1, ParamID := "" }
        { ID := 0, UID := "forged", OrgID := 2, Updated := 0, Rest := "rule" } "u" =
      (ProvisioningSrv.sampleFor none).RoutePutAlertRule { OrgId := 1, ParamID := "" }
        { ID := 0, UID := "", OrgID := 1, Updated := 0, Rest := "rule" } "u" :=
  ⟨(alertRule_routes_take_org_of_context (ProvisioningSrv.sampleFor (some 1))
      (ProvisioningSrv.sampleFor none) { OrgId := 1, ParamID := "" }
      { ID := 0, UID := "", OrgID := 2, Updated := 0, Rest := "rule" }
      { ID := 0, UID := "", OrgID := 1, Updated := 0, Rest := "rule" } "u" rfl rfl rfl
      (fun rule h => by simp [ProvisioningSrv.sampleFor, h])
      (fun rule h _ => by simp [ProvisioningSrv.sampleFor, h])).1 rfl,
    (alertRule_routes_take_org_of_context (ProvisioningSrv.sampleFor (some 1))
      (ProvisioningSrv.sampleFor none) { OrgId := 1, ParamID := "" }
      { ID := 0, UID := "forged", OrgID := 2, Updated := 0, Rest := "rule" }
      { ID := 0, UID := "", OrgID := 1, Updated := 0, Rest := "rule" } "u" rfl rfl rfl
      (fun rule h => by simp [ProvisioningSrv.sampleFor, h])
      (fun rule h _ => by simp [ProvisioningSrv.sampleFor, h])).2⟩

/-- Claim C24. `executeTimeSeriesQuery` refuses every request whose first query
has a time range that does not start strictly before it ends, whether it ends
before it starts or at the same time, with the error "invalid time range:
start time must be before end time". -/
theorem executeTimeSeriesQuery_rejects_bad_time_range
    (run : QueryDataRequest → Except String String) (req : QueryDataRequest)
    (q : DataQuery) (rest : List DataQuery) (hq : req.Queries = q :: rest)
    (hrange : q.TimeRange.To ≤ q.TimeRange.From) :
    executeTimeSeriesQuery run req =
      Except.error "invalid time range: start time must be before end time" := by
  unfold executeTimeSeriesQuery
  rw [hq]
  simp only
  rw [if_neg (not_lt.mpr hrange)]

theorem executeTimeSeriesQuery_rejects_bad_time_range_witness :
    executeTimeSeriesQuery (fun _ => Except.ok "frames")
        { Queries := [{ TimeRange := { From := 10 * Hour - Hour, To := 10 * Hour - 2 * Hour },
                        JSON := "" }] } =
      Except.error "invalid time range: start time must be before end time" ∧
    executeTimeSeriesQuery (fun _ => Except.ok "frames")
        { Queries := [{ TimeRange := { From := 10 * Hour - Hour, To := 10 * Hour - Hour },
                        JSON := "" }] } =
      Except.error "invalid time range: start time must be before end time" :=
  ⟨executeTimeSeriesQuery_rejects_bad_time_range _ _ _ [] rfl (by decide),
    executeTimeSeriesQuery_rejects_bad_time_range _ _ _ [] rfl (by decide)⟩

theorem UpdateOrgDashboardUIDPanelIDMigration.Exec.panelID_ok (env : PanelMigrationEnv)
    (next : RuleAnnotations) (panelID : Option Int)
    (h : UpdateOrgDashboardUIDPanelIDMigration.Exec.panelID env next = Except.ok panelID) :
    UpdateOrgDashboardUIDPanelIDMigration.panelParses env next = true ∧
    ∀ uid, next.Annotations.lookup env.DashboardUIDAnnotation = some uid →
      UpdateOrgDashboardUIDPanelIDMigration.expected env next =
        some (DashboardPanelUpdate.mk (some uid) panelID next.ID) := by
  unfold UpdateOrgDashboardUIDPanelIDMigration.Exec.panelID at h
  cases hpanel : next.Annotations.lookup env.PanelIDAnnotation with
  | none =>
    rw [hpanel] at h
    simp only [Except.ok.injEq] at h
    subst h
    exact ⟨by simp [UpdateOrgDashboardUIDPanelIDMigration.panelParses, hpanel],
      fun uid hu => by simp [UpdateOrgDashboardUIDPanelIDMigration.expected, hu, hpanel]⟩
  | some s =>
    rw [hpanel] at h
    cases hparse : env.ParseInt s with
    | error err =>
      simp [hparse] at h
    | ok i =>
      simp only [hparse, Except.ok.injEq] at h
      subst h
      exact ⟨by simp [UpdateOrgDashboardUIDPanelIDMigration.panelParses, hpanel, hparse,
          Except.toOption],
        fun uid hu => by
          simp [UpdateOrgDashboardUIDPanelIDMigration.expected, hu, hpanel, hparse,
            Except.toOption]⟩

theorem UpdateOrgDashboardUIDPanelIDMigration.Exec.loop_spec (env : PanelMigrationEnv)
    (rows : List RuleAnnotations) : ∀ log : List DashboardPanelUpdate,
    ∃ k, k ≤ rows.length ∧
      (UpdateOrgDashboardUIDPanelIDMigration.Exec.loop env rows log).1 =
        log ++ (rows.take k).filterMap (UpdateOrgDashboardUIDPanelIDMigration.expected env) ∧
      (∀ row ∈ rows.take k, UpdateOrgDashboardUIDPanelIDMigration.panelParses env row = true) ∧
      ((UpdateOrgDashboardUIDPanelIDMigration.Exec.loop env rows log).2 = Except.ok () →
        k = rows.length) := by
  induction rows with
  | nil =>
    intro log
    exact ⟨0, le_refl _, by simp [UpdateOrgDashboardUIDPanelIDMigration.Exec.loop],
      by simp, fun _ => rfl⟩
  | cons next rest ih =>
    intro log
    unfold UpdateOrgDashboardUIDPanelIDMigration.Exec.loop
    simp only
    cases hpid : UpdateOrgDashboardUIDPanelIDMigration.Exec.panelID env next with
    | error err =>
      exact ⟨0, by simp, by simp, by simp, fun h => by simp at h⟩
    | ok panelID =>
      obtain ⟨hparses, hexp⟩ :=
        UpdateOrgDashboardUIDPanelIDMigration.Exec.panelID_ok env next panelID hpid
      have hmem : ∀ (k : Nat), (∀ row ∈ rest.take k,
          UpdateOrgDashboardUIDPanelIDMigration.panelParses env row = true) →
          ∀ row ∈ (next :: rest).take (k + 1),
            UpdateOrgDashboardUIDPanelIDMigration.panelParses env row = true := by
        intro k hp row hrow
        rw [List.take_succ_cons, List.mem_cons] at hrow
        rcases hrow with rfl | hrow
        · exact hparses
        · exact hp row hrow
      cases hd : next.Annotations.lookup env.DashboardUIDAnnotation with
      | none =>
        obtain ⟨k, hk, hlog, hp, hok⟩ := ih log
        have hnone : UpdateOrgDashboardUIDPanelIDMigration.expected env next = none := by
          simp [UpdateOrgDashboardUIDPanelIDMigration.expected, hd]
        refine ⟨k + 1, by simpa using hk, ?_, hmem k hp, ?_⟩
        · simp only [List.take_succ_cons, List.filterMap_cons, hnone]
          exact hlog
        · intro h
          simp only [List.length_cons, hok h]
      | some uid =>
        have hsome := hexp uid hd
        simp only
        cases he : env.Exec log (DashboardPanelUpdate.mk (some uid) panelID next.ID) with
        | error err =>
          refine ⟨1, by simp, ?_, hmem 0 (by simp), ?_⟩
          · simp [hsome]
          · intro h
            simp at h
        | ok u =>
          obtain ⟨k, hk, hlog, hp, hok⟩ :=
            ih (log ++ [DashboardPanelUpdate.mk (some uid) panelID next.ID])
          refine ⟨k + 1, by simpa using hk, ?_, hmem k hp, ?_⟩
          · simp only [List.take_succ_cons, List.filterMap_cons, hsome]
            rw [hlog, List.append_assoc]
            rfl
          · intro h
            simp only [List.length_cons, hok h]

/-- Claim C22. Every `UPDATE` that `UpdateOrgDashboardUIDPanelIDMigration.Exec`
issues carries a dashboard UID, so `panel_id` is never set while
`dashboard_uid` is nil. The updates issued are, in the order of the rows and
for the rows reached, one per row that has the annotation of the dashboard UID,
with that UID and the number read from the annotation of the panel ID (nil
without it), and none for a row without the annotation of the dashboard UID,
whether it has one of a panel or not; when `Exec` returns without error every
row was reached. -/
theorem updateDashboardUIDPanelID_updates (env : PanelMigrationEnv) (OrgId : Int) :
    (∀ u ∈ (UpdateOrgDashboardUIDPanelIDMigration.Exec env OrgId).1, u.dashboardUID ≠ none) ∧
    (∀ results, env.find OrgId = Except.ok results →
      ∃ k, k ≤ results.length ∧
        (UpdateOrgDashboardUIDPanelIDMigration.Exec env OrgId).1 =
          (results.take k).filterMap (UpdateOrgDashboardUIDPanelIDMigration.expected env) ∧
        (∀ row ∈ results.take k,
          UpdateOrgDashboardUIDPanelIDMigration.panelParses env row = true) ∧
        ((UpdateOrgDashboardUIDPanelIDMigration.Exec env OrgId).2 = Except.ok () →
          k = results.length)) ∧
    (∀ err, env.find OrgId = Except.error err →
      (UpdateOrgDashboardUIDPanelIDMigration.Exec env OrgId).1 = []) := by
  have hsecond : ∀ results, env.find OrgId = Except.ok results →
      ∃ k, k ≤ results.length ∧
        (UpdateOrgDashboardUIDPanelIDMigration.Exec env OrgId).1 =
          (results.take k).filterMap (UpdateOrgDashboardUIDPanelIDMigration.expected env) ∧
        (∀ row ∈ results.take k,
          UpdateOrgDashboardUIDPanelIDMigration.panelParses env row = true) ∧
        ((UpdateOrgDashboardUIDPanelIDMigration.Exec env OrgId).2 = Except.ok () →
          k = results.length) := by
    intro results hfind
    obtain ⟨k, hk, hlog, hp, hok⟩ :=
      UpdateOrgDashboardUIDPanelIDMigration.Exec.loop_spec env results []
    refine ⟨k, hk, ?_, hp, ?_⟩
    · simp only [UpdateOrgDashboardUIDPanelIDMigration.Exec, hfind]
      simpa using hlog
    · simp only [UpdateOrgDashboardUIDPanelIDMigration.Exec, hfind]
      exact hok
  have hthird : ∀ err, env.find OrgId = Except.error err →
      (UpdateOrgDashboardUIDPanelIDMigration.Exec env OrgId).1 = [] := by
    intro err hfind
    simp only [UpdateOrgDashboardUIDPanelIDMigration.Exec, hfind]
  refine ⟨?_, hsecond, hthird⟩
  intro u hu
  cases hfind : env.find OrgId with
  | error err =>
    rw [hthird err hfind] at hu
    simp at hu
  | ok results =>
    obtain ⟨k, _, hlog, _, _⟩ := hsecond results hfind
    rw [hlog, List.mem_filterMap] at hu
    obtain ⟨row, _, hrow⟩ := hu
    unfold UpdateOrgDashboardUIDPanelIDMigration.expected at hrow
    split at hrow
    · simp at hrow
    · simp only [Option.some.injEq] at hrow
      subst hrow
      simp

theorem updateDashboardUIDPanelID_updates_witness :
    PanelMigrationEnv.sample.find 1 =
      Except.ok
        [{ ID := 1, Annotations := [("__dashboardUid__", "dash"), ("__panelId__", "12")] },
         { ID := 2, Annotations := [("__panelId__", "12")] },
         { ID := 3, Annotations := [("__dashboardUid__", "dash")] }] ∧
    (UpdateOrgDashboardUIDPanelIDMigration.Exec PanelMigrationEnv.sample 1).1 =
      [{ dashboardUID := some "dash", panelID := some 12, ID := 1 },
       { dashboardUID := some "dash", panelID := none, ID := 3 }] ∧
    ∀ u ∈ (UpdateOrgDashboardUIDPanelIDMigration.Exec PanelMigrationEnv.sample 1).1,
      u.dashboardUID ≠ none :=
  ⟨rfl, by decide, (updateDashboardUIDPanelID_updates PanelMigrationEnv.sample 1).1⟩

/-! ### Migration: UIDs of the notifiers -/

theorem MigrateOrgAlerts.generateChannelUID.loop_ok (env : MigrationEnv) :
    ∀ (n : Nat) (m m1 : MigrateOrgAlerts) (gen : String),
    MigrateOrgAlerts.generateChannelUID.loop env n m = (Except.ok gen, m1) →
    gen ∉ m.seenChannelUIDs ∧ m1.seenChannelUIDs = gen :: m.seenChannelUIDs := by
  intro n
  induction n with
  | zero =>
    intro m m1 gen h
    simp [MigrateOrgAlerts.generateChannelUID.loop] at h
  | succ n ih =>
    intro m m1 gen h
    unfold MigrateOrgAlerts.generateChannelUID.loop at h
    simp only at h
    by_cases hseen : env.GenerateShortUID m.shortUIDCalls ∈ m.seenChannelUIDs
    · rw [if_neg (not_not.mpr hseen)] at h
      have hrec := ih _ m1 gen h
      exact hrec
    · rw [if_pos hseen] at h
      simp only [Prod.mk.injEq, Except.ok.injEq] at h
      obtain ⟨hg, hm⟩ := h
      subst hg hm
      exact ⟨hseen, rfl⟩

theorem MigrateOrgAlerts.generateChannelUID.loop_error (env : MigrationEnv) :
    ∀ (n : Nat) (m m1 : MigrateOrgAlerts) (err : String),
    MigrateOrgAlerts.generateChannelUID.loop env n m = (Except.error err, m1) →
    m1 = { m with shortUIDCalls := m.shortUIDCalls + n } ∧
      ∀ i, i < n → env.GenerateShortUID (m.shortUIDCalls + i) ∈ m.seenChannelUIDs := by
  intro n
  induction n with
  | zero =>
    intro m m1 err h
    simp only [MigrateOrgAlerts.generateChannelUID.loop, Prod.mk.injEq] at h
    exact ⟨h.2.symm, fun i hi => absurd hi (Nat.not_lt_zero i)⟩
  | succ n ih =>
    intro m m1 err h
    unfold MigrateOrgAlerts.generateChannelUID.loop at h
    simp only at h
    by_cases hseen : env.GenerateShortUID m.shortUIDCalls ∈ m.seenChannelUIDs
    · rw [if_neg (not_not.mpr hseen)] at h
      obtain ⟨hm, hall⟩ := ih _ m1 err h
      refine ⟨?_, ?_⟩
      · rw [hm]
        simp only [MigrateOrgAlerts.mk.injEq, true_and, and_true]
        omega
      · intro i hi
        cases i with
        | zero => simpa using hseen
        | succ j =>
          have := hall j (by omega)
          simp only at this
          rw [show m.shortUIDCalls + (j + 1) = m.shortUIDCalls + 1 + j by omega]
          exact this
    · rw [if_pos hseen] at h
      simp at h

theorem MigrateOrgAlerts.generateChannelUID.loop_error_of_seen (env : MigrationEnv) :
    ∀ (n : Nat) (m : MigrateOrgAlerts),
    (∀ i, i < n → env.GenerateShortUID (m.shortUIDCalls + i) ∈ m.seenChannelUIDs) →
    ∃ err m1, MigrateOrgAlerts.generateChannelUID.loop env n m = (Except.error err, m1) := by
  intro n
  induction n with
  | zero =>
    intro m _
    exact ⟨_, _, rfl⟩
  | succ n ih =>
    intro m hall
    unfold MigrateOrgAlerts.generateChannelUID.loop
    simp only
    have h0 : env.GenerateShortUID m.shortUIDCalls ∈ m.seenChannelUIDs := by
      simpa using hall 0 (by omega)
    rw [if_neg (not_not.mpr h0)]
    apply ih
    intro i hi
    have := hall (i + 1) (by omega)
    simp only
    rw [show m.shortUIDCalls + 1 + i = m.shortUIDCalls + (i + 1) by omega]
    exact this

theorem MigrateOrgAlerts.createNotifier_fresh (env : MigrationEnv) (m m1 : MigrateOrgAlerts)
    (c : notificationChannel) (n : PostableGrafanaReceiver)
    (h : MigrateOrgAlerts.createNotifier env m c = (Except.ok n, m1)) :
    n.UID ∉ m.seenChannelUIDs ∧ m1.seenChannelUIDs = n.UID :: m.seenChannelUIDs := by
  unfold MigrateOrgAlerts.createNotifier at h
  cases hg : MigrateOrgAlerts.generateChannelUID env m with
  | mk res m2 =>
    rw [hg] at h
    cases res with
    | error e => simp at h
    | ok uid =>
      simp only at h
      cases hs : env.migrateSettingsToSecureSettings c.Type_ c.Settings c.SecureSettings with
      | error e => rw [hs] at h; simp at h
      | ok p =>
        rw [hs] at h
        simp only [Prod.mk.injEq, Except.ok.injEq] at h
        obtain ⟨hn, hm⟩ := h
        subst hn hm
        exact MigrateOrgAlerts.generateChannelUID.loop_ok env 5 m m2 uid hg

theorem notifierUIDs_cons (r : PostableApiReceiver) (rs : List PostableApiReceiver) :
    notifierUIDs (r :: rs) = r.GrafanaManagedReceivers.map (fun n => n.UID) ++ notifierUIDs rs := by
  simp [notifierUIDs]

theorem notifierUIDs_append (rs ts : List PostableApiReceiver) :
    notifierUIDs (rs ++ ts) = notifierUIDs rs ++ notifierUIDs ts := by
  simp [notifierUIDs]

theorem MigrateOrgAlerts.createReceivers.loop_fresh (env : MigrationEnv)
    (channels : List notificationChannel) :
    ∀ (m m1 : MigrateOrgAlerts) (receiversMap map1 : List (uidOrID × PostableApiReceiver))
      (receivers receivers1 : List PostableApiReceiver),
    MigrateOrgAlerts.createReceivers.loop env channels m receiversMap receivers =
      (Except.ok (map1, receivers1), m1) →
    ∃ added, receivers1 = receivers ++ added ∧ (notifierUIDs added).Nodup ∧
      (∀ u ∈ notifierUIDs added, u ∉ m.seenChannelUIDs) ∧
      (∀ u, u ∈ m1.seenChannelUIDs ↔ u ∈ m.seenChannelUIDs ∨ u ∈ notifierUIDs added) := by
  induction channels with
  | nil =>
    intro m m1 receiversMap map1 receivers receivers1 h
    simp only [MigrateOrgAlerts.createReceivers.loop, Prod.mk.injEq, Except.ok.injEq] at h
    obtain ⟨⟨_, hr⟩, hm⟩ := h
    subst hr hm
    exact ⟨[], by simp, by simp [notifierUIDs], by simp [notifierUIDs], by simp [notifierUIDs]⟩
  | cons c rest ih =>
    intro m m1 receiversMap map1 receivers receivers1 h
    unfold MigrateOrgAlerts.createReceivers.loop at h
    cases hn : MigrateOrgAlerts.createNotifier env m c with
    | mk res m2 =>
      rw [hn] at h
      cases res with
      | error e => simp at h
      | ok notifier =>
        simp only at h
        obtain ⟨hfresh, hseen⟩ := MigrateOrgAlerts.createNotifier_fresh env m m2 c notifier hn
        obtain ⟨added, hadd, hnodup, hnew, hmem⟩ := ih _ _ _ _ _ _ h
        refine ⟨{ Name := c.Name, GrafanaManagedReceivers := [notifier] } :: added, ?_, ?_, ?_, ?_⟩
        · rw [hadd, List.append_assoc]
          rfl
        · rw [notifierUIDs_cons]
          simp only [List.map_cons, List.map_nil, List.singleton_append, List.nodup_cons]
          refine ⟨?_, hnodup⟩
          intro hin
          exact hnew _ hin (by rw [hseen]; exact List.mem_cons_self _ _)
        · intro u hu
          rw [notifierUIDs_cons] at hu
          simp only [List.map_cons, List.map_nil, List.singleton_append, List.mem_cons] at hu
          rcases hu with rfl | hu
          · exact hfresh
          · intro hin
            exact hnew u hu (by rw [hseen]; exact List.mem_cons_of_mem _ hin)
        · intro u
          rw [hmem u, hseen, notifierUIDs_cons]
          simp only [List.mem_cons, List.map_cons, List.map_nil, List.singleton_append]
          tauto

theorem MigrateOrgAlerts.createDefaultRouteAndReceiver.defaultLoop_fresh (env : MigrationEnv)
    (channels : List notificationChannel) :
    ∀ (m m1 : MigrateOrgAlerts) (notifiers notifiers1 : List PostableGrafanaReceiver),
    MigrateOrgAlerts.createDefaultRouteAndReceiver.loop env channels m notifiers =
      (Except.ok notifiers1, m1) →
    ∃ added, notifiers1 = notifiers ++ added ∧ (added.map (fun n => n.UID)).Nodup ∧
      (∀ u ∈ added.map (fun n => n.UID), u ∉ m.seenChannelUIDs) ∧
      (∀ u, u ∈ m1.seenChannelUIDs ↔
        u ∈ m.seenChannelUIDs ∨ u ∈ added.map (fun n => n.UID)) := by
  induction channels with
  | nil =>
    intro m m1 notifiers notifiers1 h
    simp only [MigrateOrgAlerts.createDefaultRouteAndReceiver.loop, Prod.mk.injEq,
      Except.ok.injEq] at h
    obtain ⟨hr, hm⟩ := h
    subst hr hm
    exact ⟨[], by simp, by simp, by simp, by simp⟩
  | cons c rest ih =>
    intro m m1 notifiers notifiers1 h
    unfold MigrateOrgAlerts.createDefaultRouteAndReceiver.loop at h
    cases hn : MigrateOrgAlerts.createNotifier env m c with
    | mk res m2 =>
      rw [hn] at h
      cases res with
      | error e => simp at h
      | ok notifier =>
        simp only at h
        obtain ⟨hfresh, hseen⟩ := MigrateOrgAlerts.createNotifier_fresh env m m2 c notifier hn
        obtain ⟨added, hadd, hnodup, hnew, hmem⟩ := ih _ _ _ _ h
        refine ⟨notifier :: added, ?_, ?_, ?_, ?_⟩
        · rw [hadd, List.append_assoc]
          rfl
        · simp only [List.map_cons, List.nodup_cons]
          refine ⟨?_, hnodup⟩
          intro hin
          exact hnew _ hin (by rw [hseen]; exact List.mem_cons_self _ _)
        · intro u hu
          simp only [List.map_cons, List.mem_cons] at hu
          rcases hu with rfl | hu
          · exact hfresh
          · intro hin
            exact hnew u hu (by rw [hseen]; exact List.mem_cons_of_mem _ hin)
        · intro u
          rw [hmem u, hseen]
          simp only [List.mem_cons, List.map_cons]
          tauto

theorem MigrateOrgAlerts.createDefaultRouteAndReceiver_fresh (env : MigrationEnv)
    (m m1 : MigrateOrgAlerts) (defaultChannels : List notificationChannel)
    (defaultReceiver : Option PostableApiReceiver) (defaultRoute : Route)
    (h : m.createDefaultRouteAndReceiver env defaultChannels =
      (Except.ok (defaultReceiver, defaultRoute), m1)) :
    (notifierUIDs defaultReceiver.toList).Nodup ∧
      ∀ u ∈ notifierUIDs defaultReceiver.toList, u ∉ m.seenChannelUIDs := by
  unfold MigrateOrgAlerts.createDefaultRouteAndReceiver at h
  simp only at h
  split at h
  · cases hl : MigrateOrgAlerts.createDefaultRouteAndReceiver.loop env defaultChannels m [] with
    | mk res m2 =>
      rw [hl] at h
      cases res with
      | error e => simp at h
      | ok notifiers =>
        simp only [Prod.mk.injEq, Except.ok.injEq] at h
        obtain ⟨⟨hr, _⟩, _⟩ := h
        subst hr
        obtain ⟨added, hadd, hnodup, hnew, _⟩ :=
          MigrateOrgAlerts.createDefaultRouteAndReceiver.defaultLoop_fresh env defaultChannels
            m m2 [] notifiers hl
        rw [List.nil_append] at hadd
        subst hadd
        have huids : notifierUIDs (Option.toList (some
            ({ Name := defaultContactPointReceiverName, GrafanaManagedReceivers := notifiers } :
              PostableApiReceiver))) = notifiers.map (fun n => n.UID) := by
          simp [notifierUIDs]
        rw [huids]
        exact ⟨hnodup, hnew⟩
  · simp only [Prod.mk.injEq, Except.ok.injEq] at h
    obtain ⟨⟨hr, _⟩, _⟩ := h
    subst hr
    simp [notifierUIDs]

/-- Claim C28. `generateChannelUID` returns only a UID that is not yet in
`seenChannelUIDs` and adds the UID it returns to that set. It returns an error
exactly when the five UIDs generated next are all in the set already, and then
nothing is changed but the number of UIDs generated. So the UIDs of the
notifiers of the receivers of the channels and of the default receiver made
after them are pairwise distinct and were not in the set before. -/
theorem generateChannelUID_fresh (env : MigrationEnv) (m : MigrateOrgAlerts) :
    (∀ gen m1, m.generateChannelUID env = (Except.ok gen, m1) →
      gen ∉ m.seenChannelUIDs ∧ m1.seenChannelUIDs = gen :: m.seenChannelUIDs) ∧
    ((∃ err m1, m.generateChannelUID env = (Except.error err, m1)) ↔
      ∀ i, i < 5 → env.GenerateShortUID (m.shortUIDCalls + i) ∈ m.seenChannelUIDs) ∧
    (∀ err m1, m.generateChannelUID env = (Except.error err, m1) →
      m1 = { m with shortUIDCalls := m.shortUIDCalls + 5 }) ∧
    (∀ allChannels defaultChannels receiversMap receivers m1 defaultReceiver defaultRoute m2,
      m.createReceivers env allChannels = (Except.ok (receiversMap, receivers), m1) →
      m1.createDefaultRouteAndReceiver env defaultChannels =
        (Except.ok (defaultReceiver, defaultRoute), m2) →
      (notifierUIDs (receivers ++ defaultReceiver.toList)).Nodup ∧
        ∀ u ∈ notifierUIDs (receivers ++ defaultReceiver.toList), u ∉ m.seenChannelUIDs) := by
  refine ⟨?_, ⟨?_, ?_⟩, ?_, ?_⟩
  · intro gen m1 h
    exact MigrateOrgAlerts.generateChannelUID.loop_ok env 5 m m1 gen h
  · rintro ⟨err, m1, h⟩
    exact (MigrateOrgAlerts.generateChannelUID.loop_error env 5 m m1 err h).2
  · intro h
    exact MigrateOrgAlerts.generateChannelUID.loop_error_of_seen env 5 m h
  · intro err m1 h
    exact (MigrateOrgAlerts.generateChannelUID.loop_error env 5 m m1 err h).1
  · intro allChannels defaultChannels receiversMap receivers m1 defaultReceiver defaultRoute m2
      hrecv hdef
    obtain ⟨added, hadd, hnodup, hnew, hmem⟩ :=
      MigrateOrgAlerts.createReceivers.loop_fresh env allChannels m m1 [] receiversMap []
        receivers hrecv
    rw [List.nil_append] at hadd
    subst hadd
    obtain ⟨hdnodup, hdnew⟩ :=
      MigrateOrgAlerts.createDefaultRouteAndReceiver_fresh env m1 m2 defaultChannels
        defaultReceiver defaultRoute hdef
    rw [notifierUIDs_append]
    refine ⟨?_, ?_⟩
    · rw [List.nodup_append]
      refine ⟨hnodup, hdnodup, ?_⟩
      intro u hu hd
      exact hdnew u hd ((hmem u).mpr (Or.inr hu))
    · intro u hu
      rw [List.mem_append] at hu
      rcases hu with hu | hu
      · exact hnew u hu
      · intro hin
        exact hdnew u hu ((hmem u).mpr (Or.inl hin))

theorem generateChannelUID_fresh_witness :
    ({ MigrateOrgAlerts.sample with seenChannelUIDs := ["u"] }.generateChannelUID
        MigrationEnv.sample).1 = Except.ok "uu" ∧
    "uu" ∉ ["u"] ∧
    (∀ m1, { MigrateOrgAlerts.sample with seenChannelUIDs := ["u"] }.generateChannelUID
        MigrationEnv.sample = (Except.ok "uu", m1) → m1.seenChannelUIDs = ["uu", "u"]) ∧
    (∃ err m1,
      { MigrateOrgAlerts.sample with
          seenChannelUIDs := ["u", "uu", "uuu", "uuuu", "uuuuu"] }.generateChannelUID
        MigrationEnv.sample = (Except.error err, m1)) ∧
    (notifierUIDs
      ([PostableApiReceiver.mk "a" [PostableGrafanaReceiver.mk "u" "a" "slack" false "" []],
        PostableApiReceiver.mk "b" [PostableGrafanaReceiver.mk "uu" "b" "slack" false "" []]] ++
        (some (PostableApiReceiver.mk defaultContactPointReceiverName
          [PostableGrafanaReceiver.mk "uuu" "a" "slack" false "" [],
            PostableGrafanaReceiver.mk "uuuu" "b" "slack" false "" []])).toList)).Nodup :=
  ⟨rfl, by decide,
    fun m1 h => ((generateChannelUID_fresh MigrationEnv.sample
      { MigrateOrgAlerts.sample with seenChannelUIDs := ["u"] }).1 "uu" m1 h).2,
    (generateChannelUID_fresh MigrationEnv.sample
      { MigrateOrgAlerts.sample with
        seenChannelUIDs := ["u", "uu", "uuu", "uuuu", "uuuuu"] }).2.1.mpr (by decide),
    ((generateChannelUID_fresh MigrationEnv.sample MigrateOrgAlerts.sample).2.2.2
      [notificationChannel.sample 1 "a" true, notificationChannel.sample 2 "b" true]
      [notificationChannel.sample 1 "a" true, notificationChannel.sample 2 "b" true]
      _ _ _ _ _ _ rfl rfl).1⟩

/-! ### Instance store: the statements of DeleteAlertInstances -/

theorem count_flatten_replicate_placeholder (n : Nat) :
    ((List.replicate n ['?', ',', ' ']).flatten).count '?' = n := by
  induction n with
  | zero => rfl
  | succ n ih =>
    rw [List.replicate_succ, List.flatten_cons, List.count_append, ih]
    have : List.count '?' ['?', ',', ' '] = 1 := by decide
    omega

theorem DeleteAlertInstances.inList_count (n : Nat) (hn : 1 ≤ n) :
    (DeleteAlertInstances.inList n).count '?' = n := by
  unfold DeleteAlertInstances.inList
  rw [List.count_append, List.count_cons, count_flatten_replicate_placeholder]
  have h1 : List.count '?' ['?', ')'] = 1 := by decide
  have h2 : (('(' : Char) == '?') = false := by decide
  rw [h1, h2]
  simp only [Bool.false_eq_true, if_false]
  omega

theorem trimRightCommaSpace_placeholders (n : Nat) (hn : 1 ≤ n) :
    trimRightCommaSpace ('(' :: (List.replicate n ['?', ',', ' ']).flatten) ++ [')'] =
      DeleteAlertInstances.inList n := by
  obtain ⟨k, rfl⟩ : ∃ k, n = k + 1 := ⟨n - 1, by omega⟩
  unfold trimRightCommaSpace DeleteAlertInstances.inList
  rw [List.replicate_succ', List.flatten_append]
  simp [List.dropWhile]

theorem DeleteAlertInstances.execQuery_wellFormed (env : StoreEnv)
    (keys : List AlertInstanceKey) (log : List Statement) (rd : DeleteAlertInstances.data)
    (ph : List Char) (hst : DeleteAlertInstances.stateOk keys rd ph)
    (hlog : ∀ stmt ∈ log, DeleteAlertInstances.wellFormed keys stmt) :
    ∀ stmt ∈ (DeleteAlertInstances.execQuery env log rd ph).1,
      DeleteAlertInstances.wellFormed keys stmt := by
  obtain ⟨hashes, hh, hle, hkeys, hph⟩ := hst
  unfold DeleteAlertInstances.execQuery
  by_cases hz : rd.labelHashes.length = 0
  · rw [if_pos hz]
    exact hlog
  · rw [if_neg hz]
    have hpos : 1 ≤ hashes.length := by
      rw [hh, List.length_map] at hz
      omega
    have hnew : DeleteAlertInstances.wellFormed keys
        ([SqlArg.sql
            ("DELETE FROM alert_instance WHERE rule_org_id = ? AND rule_uid = ? AND labels_hash IN " ++
              String.mk (trimRightCommaSpace ph ++ [')']) ++ ";"),
          SqlArg.int rd.ruleOrgID, SqlArg.str rd.ruleUID] ++ rd.labelHashes) := by
      refine ⟨rd.ruleOrgID, rd.ruleUID, hashes, hpos, hle, hkeys,
        DeleteAlertInstances.inList_count _ hpos, ?_⟩
      rw [hph, trimRightCommaSpace_placeholders _ hpos, hh]
    intro stmt hstmt
    have hmem : stmt ∈ log ++
        [[SqlArg.sql
            ("DELETE FROM alert_instance WHERE rule_org_id = ? AND rule_uid = ? AND labels_hash IN " ++
              String.mk (trimRightCommaSpace ph ++ [')']) ++ ";"),
          SqlArg.int rd.ruleOrgID, SqlArg.str rd.ruleUID] ++ rd.labelHashes] := by
      revert hstmt
      simp only
      split <;> exact id
    rw [List.mem_append, List.mem_singleton] at hmem
    rcases hmem with hmem | hmem
    · exact hlog stmt hmem
    · rw [hmem]
      exact hnew

theorem DeleteAlertInstances.loop_wellFormed (env : StoreEnv) (keys : List AlertInstanceKey)
    (ks : List AlertInstanceKey) :
    ∀ (rd : DeleteAlertInstances.data) (ph : List Char) (log : List Statement),
    (∀ k ∈ ks, k ∈ keys) → DeleteAlertInstances.stateOk keys rd ph →
    (∀ stmt ∈ log, DeleteAlertInstances.wellFormed keys stmt) →
    (∀ stmt ∈ (DeleteAlertInstances.loop env ks rd ph log).1,
      DeleteAlertInstances.wellFormed keys stmt) ∧
    ∀ rd1 ph1, (DeleteAlertInstances.loop env ks rd ph log).2 = Except.ok (rd1, ph1) →
      DeleteAlertInstances.stateOk keys rd1 ph1 := by
  induction ks with
  | nil =>
    intro rd ph log _ hst hlog
    refine ⟨hlog, ?_⟩
    intro rd1 ph1 h
    simp only [DeleteAlertInstances.loop, Except.ok.injEq, Prod.mk.injEq] at h
    obtain ⟨h1, h2⟩ := h
    subst h1 h2
    exact hst
  | cons k rest ih =>
    intro rd ph log hks hst hlog
    have hk : k ∈ keys := hks k (List.mem_cons_self _ _)
    have hrest : ∀ x ∈ rest, x ∈ keys := fun x hx => hks x (List.mem_cons_of_mem _ hx)
    unfold DeleteAlertInstances.loop
    by_cases hc : rd.ruleOrgID ≠ k.RuleOrgID ∨ rd.ruleUID ≠ k.RuleUID ∨
        rd.labelHashes.length ≥ 200
    · rw [if_pos hc]
      have hwf := DeleteAlertInstances.execQuery_wellFormed env keys log rd ph hst hlog
      cases hq : DeleteAlertInstances.execQuery env log rd ph with
      | mk log1 res =>
        rw [hq] at hwf
        cases res with
        | error err =>
          exact ⟨hwf, fun rd1 ph1 h => by simp at h⟩
        | ok u =>
          simp only
          apply ih _ _ _ hrest _ hwf
          refine ⟨[k.LabelsHash], rfl, by simp, ?_, rfl⟩
          intro h hh
          rw [List.mem_singleton] at hh
          subst hh
          exact hk
    · rw [if_neg hc]
      have horg : rd.ruleOrgID = k.RuleOrgID := by
        by_contra h
        exact hc (Or.inl h)
      have huid : rd.ruleUID = k.RuleUID := by
        by_contra h
        exact hc (Or.inr (Or.inl h))
      have hlen : rd.labelHashes.length < 200 := by
        by_contra h
        exact hc (Or.inr (Or.inr (by omega)))
      obtain ⟨hashes, hh, hle, hkeys, hph⟩ := hst
      apply ih _ _ _ hrest _ hlog
      refine ⟨hashes ++ [k.LabelsHash], ?_, ?_, ?_, ?_⟩
      · simp [hh]
      · rw [hh, List.length_map] at hlen
        simp only [List.length_append, List.length_singleton]
        omega
      · intro h hmem
        rw [List.mem_append, List.mem_singleton] at hmem
        rcases hmem with hmem | hmem
        · exact hkeys h hmem
        · subst hmem
          simp only [horg, huid]
          exact hk
      · rw [hph, List.length_append, List.length_singleton, List.replicate_succ',
          List.flatten_append]
        rfl

/-- Claim C21. Every statement `DeleteAlertInstances` hands to the session is a
`DELETE` bound to one organisation and one rule UID, with between 1 and 200
label hashes that all come from keys of that organisation and rule, and an `IN`
list `(?, ..., ?)` with as many placeholders as hashes (`sort.Slice` is only
asked to return keys it was given). Without keys it returns nil and asks
nothing of the session: no transaction and no statement. -/
theorem deleteAlertInstances_statements_wellFormed (env : StoreEnv)
    (sortSlice : (AlertInstanceKey → AlertInstanceKey → Bool) → List AlertInstanceKey →
      List AlertInstanceKey)
    (keys : List AlertInstanceKey)
    (hsort : ∀ k ∈ sortSlice DeleteAlertInstances.less keys, k ∈ keys) :
    (∀ stmt ∈ (DeleteAlertInstances env sortSlice keys).1,
      DeleteAlertInstances.wellFormed keys stmt) ∧
    (keys = [] →
      DeleteAlertInstances env sortSlice keys = ([], Except.ok ()) ∧
      DeleteAlertInstances.events env sortSlice keys = []) := by
  constructor
  · unfold DeleteAlertInstances
    by_cases hlen : keys.length = 0
    · rw [if_pos hlen]
      intro stmt h
      simp at h
    · rw [if_neg hlen]
      simp only
      have hinit : DeleteAlertInstances.stateOk keys
          { ruleOrgID := 0, ruleUID := "", labelHashes := [] } "(".toList :=
        ⟨[], rfl, by simp, by simp, rfl⟩
      obtain ⟨hwf, hstate⟩ := DeleteAlertInstances.loop_wellFormed env keys
        (sortSlice DeleteAlertInstances.less keys) _ _ [] hsort hinit (by simp)
      cases hl : DeleteAlertInstances.loop env (sortSlice DeleteAlertInstances.less keys)
          { ruleOrgID := 0, ruleUID := "", labelHashes := [] } "(".toList [] with
      | mk log res =>
        rw [hl] at hwf hstate
        cases res with
        | error err => exact hwf
        | ok st =>
          obtain ⟨rd1, ph1⟩ := st
          simp only
          by_cases hrest : rd1.labelHashes.length ≠ 0
          · rw [if_pos hrest]
            have hq := DeleteAlertInstances.execQuery_wellFormed env keys log rd1 ph1
              (hstate rd1 ph1 rfl) hwf
            cases hq2 : DeleteAlertInstances.execQuery env log rd1 ph1 with
            | mk log1 res1 =>
              rw [hq2] at hq
              cases res1 with
              | error err => exact hq
              | ok u => exact hq
          · rw [if_neg hrest]
            exact hwf
  · intro hnil
    subst hnil
    exact ⟨rfl, rfl⟩

theorem deleteAlertInstances_statements_wellFormed_witness :
    (∀ stmt ∈ (DeleteAlertInstances StoreEnv.accepting mergeSortSlice
        [{ RuleOrgID := 1, RuleUID := "b", LabelsHash := "h1" },
          { RuleOrgID := 1, RuleUID := "a", LabelsHash := "h2" },
          { RuleOrgID := 1, RuleUID := "b", LabelsHash := "h3" }]).1,
      DeleteAlertInstances.wellFormed
        [{ RuleOrgID := 1, RuleUID := "b", LabelsHash := "h1" },
          { RuleOrgID := 1, RuleUID := "a", LabelsHash := "h2" },
          { RuleOrgID := 1, RuleUID := "b", LabelsHash := "h3" }] stmt) ∧
    DeleteAlertInstances.events StoreEnv.accepting mergeSortSlice [] = [] ∧
    String.mk (DeleteAlertInstances.inList 3) = "(?, ?, ?)" :=
  ⟨(deleteAlertInstances_statements_wellFormed StoreEnv.accepting mergeSortSlice _
      (fun k hk => (List.mergeSort_perm _ _).mem_iff.mp hk)).1,
    ((deleteAlertInstances_statements_wellFormed StoreEnv.accepting mergeSortSlice []
      (fun k hk => (List.mergeSort_perm _ _).mem_iff.mp hk)).2 rfl).2,
    by decide⟩

theorem DeleteAlertInstances.flushes_eq_sum {α : Type} [BEq α] [LawfulBEq α] [DecidableEq α]
    (R : α → α → Prop)
    (hanti : ∀ a b, R a b → R b a → a = b) (l : List α) :
    ∀ (cur : α) (n : Nat), n ≤ 200 → l.Pairwise R → (n ≠ 0 → ∀ q ∈ l, R cur q) →
    DeleteAlertInstances.flushes cur n l =
      ∑ q ∈ insert cur l.toFinset, ((if q = cur then n else 0) + l.count q + 199) / 200 := by
  induction l with
  | nil =>
    intro cur n hn _ _
    simp only [DeleteAlertInstances.flushes, List.toFinset_nil, insert_emptyc_eq,
      Finset.sum_singleton, if_true, List.count_nil]
    split <;> omega
  | cons p rest ih =>
    intro cur n hn hpair hcur
    rw [List.pairwise_cons] at hpair
    obtain ⟨hp, hrest⟩ := hpair
    unfold DeleteAlertInstances.flushes
    by_cases hpc : p = cur
    · subst hpc
      have hset : insert p (p :: rest).toFinset = insert p rest.toFinset := by
        rw [List.toFinset_cons, Finset.insert_idem]
      rw [hset]
      by_cases hfull : n ≥ 200
      · rw [if_pos (Or.inr hfull), ih p 1 (by omega) hrest (fun _ => hp)]
        have hmem : p ∈ insert p rest.toFinset := Finset.mem_insert_self _ _
        rw [← Finset.add_sum_erase _ _ hmem, ← Finset.add_sum_erase _ _ hmem]
        have herase : ∀ q ∈ (insert p rest.toFinset).erase p,
            ((if q = p then 1 else 0) + rest.count q + 199) / 200 =
              ((if q = p then n else 0) + (p :: rest).count q + 199) / 200 := by
          intro q hq
          have hne : q ≠ p := Finset.ne_of_mem_erase hq
          rw [if_neg hne, if_neg hne, List.count_cons_of_ne hne]
        rw [Finset.sum_congr rfl herase]
        simp only [if_true, List.count_cons_self]
        have : n ≠ 0 := by omega
        rw [if_neg this]
        omega
      · have hno : ¬ (p ≠ p ∨ n ≥ 200) := by
          rintro (h | h)
          · exact h rfl
          · exact hfull h
        rw [if_neg hno, ih p (n + 1) (by omega) hrest (fun _ => hp)]
        apply Finset.sum_congr rfl
        intro q _
        by_cases hq : q = p
        · subst hq
          simp only [if_true, List.count_cons_self]
          omega
        · rw [if_neg hq, if_neg hq, List.count_cons_of_ne hq]
    · rw [if_pos (Or.inl hpc), ih p 1 (by omega) hrest (fun _ => hp), List.toFinset_cons]
      by_cases hz : n = 0
      · subst hz
        rw [if_pos rfl, Nat.zero_add]
        have hdrop : ∑ q ∈ insert cur (insert p rest.toFinset),
              ((if q = cur then 0 else 0) + (p :: rest).count q + 199) / 200 =
            ∑ q ∈ insert p rest.toFinset,
              ((if q = cur then 0 else 0) + (p :: rest).count q + 199) / 200 := by
          apply Finset.sum_insert_of_eq_zero_if_not_mem
          intro hnot
          have hcnt : (p :: rest).count cur = 0 := by
            rw [List.count_eq_zero]
            intro hin
            apply hnot
            rw [Finset.mem_insert, List.mem_toFinset]
            rcases List.mem_cons.mp hin with h | h
            · exact Or.inl h
            · exact Or.inr h
          simp [hcnt]
        rw [hdrop]
        apply Finset.sum_congr rfl
        intro q _
        by_cases hq : q = p
        · subst hq
          simp only [if_true, List.count_cons_self, ite_self]
          omega
        · rw [if_neg hq, List.count_cons_of_ne hq]
          simp
      · rw [if_neg hz]
        have hnotin : cur ∉ p :: rest := by
          intro hin
          rcases List.mem_cons.mp hin with h | h
          · exact hpc h.symm
          · have h1 : R cur p := hcur hz p (List.mem_cons_self _ _)
            have h2 : R p cur := hp cur h
            exact hpc (hanti _ _ h2 h1)
        have hnotinset : cur ∉ insert p rest.toFinset := by
          rw [Finset.mem_insert, List.mem_toFinset]
          rintro (h | h)
          · exact hpc h.symm
          · exact hnotin (List.mem_cons_of_mem _ h)
        rw [Finset.sum_insert hnotinset]
        simp only [if_true, List.count_eq_zero.mpr hnotin]
        have hone : (n + 0 + 199) / 200 = 1 := by omega
        rw [hone]
        congr 1
        apply Finset.sum_congr rfl
        intro q hq
        have hqc : q ≠ cur := fun h => hnotinset (h ▸ hq)
        rw [if_neg hqc]
        by_cases hqp : q = p
        · subst hqp
          simp only [if_true, List.count_cons_self]
          omega
        · rw [if_neg hqp, List.count_cons_of_ne hqp]

theorem DeleteAlertInstances.less_eq_true_iff (a b : AlertInstanceKey) :
    DeleteAlertInstances.less a b = true ↔
      a.RuleOrgID < b.RuleOrgID ∨ (a.RuleOrgID = b.RuleOrgID ∧ a.RuleUID < b.RuleUID) := by
  unfold DeleteAlertInstances.less
  by_cases h1 : a.RuleOrgID < b.RuleOrgID
  · simp [h1]
  · by_cases h2 : a.RuleOrgID = b.RuleOrgID ∧ a.RuleUID < b.RuleUID
    · simp [h1, h2]
    · rw [if_neg h1, if_neg h2]
      simp only [Bool.false_eq_true, false_iff]
      rintro (h | h)
      · exact h1 h
      · exact h2 h

theorem DeleteAlertInstances.less_eq_false_iff (a b : AlertInstanceKey) :
    DeleteAlertInstances.less b a = false ↔
      a.RuleOrgID ≤ b.RuleOrgID ∧ (a.RuleOrgID = b.RuleOrgID → a.RuleUID ≤ b.RuleUID) := by
  rw [← Bool.not_eq_true, DeleteAlertInstances.less_eq_true_iff]
  constructor
  · intro h
    refine ⟨not_lt.mp (fun h1 => h (Or.inl h1)), fun heq => not_lt.mp (fun h2 => h (Or.inr ⟨heq.symm, h2⟩))⟩
  · rintro ⟨h1, h2⟩ (h | ⟨heq, h⟩)
    · exact absurd h (not_lt.mpr h1)
    · exact absurd h (not_lt.mpr (h2 heq.symm))

theorem mergeSortSlice_sorted (keys : List AlertInstanceKey) :
    (mergeSortSlice DeleteAlertInstances.less keys).Pairwise
      (fun a b => DeleteAlertInstances.less b a = false) := by
  have hs := @List.sorted_mergeSort AlertInstanceKey
    (fun (a b : AlertInstanceKey) => !DeleteAlertInstances.less b a)
    (fun a b c hab hbc => by
      simp only [Bool.not_eq_true', DeleteAlertInstances.less_eq_false_iff] at hab hbc ⊢
      obtain ⟨h1, h2⟩ := hab
      obtain ⟨h3, h4⟩ := hbc
      refine ⟨le_trans h1 h3, fun heq => ?_⟩
      have hab : a.RuleOrgID = b.RuleOrgID := le_antisymm h1 (heq ▸ h3)
      have hbc : b.RuleOrgID = c.RuleOrgID := hab ▸ heq
      exact le_trans (h2 hab) (h4 hbc))
    (fun a b => by
      simp only [Bool.or_eq_true, Bool.not_eq_true', DeleteAlertInstances.less_eq_false_iff]
      rcases lt_trichotomy a.RuleOrgID b.RuleOrgID with h | h | h
      · exact Or.inl ⟨le_of_lt h, fun heq => absurd heq (ne_of_lt h)⟩
      · rcases le_total a.RuleUID b.RuleUID with hu | hu
        · exact Or.inl ⟨le_of_eq h, fun _ => hu⟩
        · exact Or.inr ⟨le_of_eq h.symm, fun _ => hu⟩
      · exact Or.inr ⟨le_of_lt h, fun heq => absurd heq (ne_of_lt h)⟩)
    keys
  unfold mergeSortSlice
  exact hs.imp (fun h => by simpa using h)

theorem DeleteAlertInstances.execQuery_length (env : StoreEnv)
    (hexec : ∀ l st, env.Exec l st = Except.ok ()) (log : List Statement)
    (rd : DeleteAlertInstances.data) (ph : List Char) :
    ∃ log1, DeleteAlertInstances.execQuery env log rd ph = (log1, Except.ok ()) ∧
      log1.length = log.length + (if rd.labelHashes.length = 0 then 0 else 1) := by
  unfold DeleteAlertInstances.execQuery
  by_cases h : rd.labelHashes.length = 0
  · rw [if_pos h, if_pos h]
    exact ⟨log, rfl, rfl⟩
  · rw [if_neg h, if_neg h]
    simp only [hexec]
    exact ⟨_, rfl, by simp⟩

theorem DeleteAlertInstances.loop_length (env : StoreEnv)
    (hexec : ∀ l st, env.Exec l st = Except.ok ()) (ks : List AlertInstanceKey) :
    ∀ (rd : DeleteAlertInstances.data) (ph : List Char) (log : List Statement),
    ∃ log1 rd1 ph1, DeleteAlertInstances.loop env ks rd ph log = (log1, Except.ok (rd1, ph1)) ∧
      log1.length + (if rd1.labelHashes.length = 0 then 0 else 1) =
        log.length + DeleteAlertInstances.flushes (rd.ruleOrgID, rd.ruleUID)
          rd.labelHashes.length (ks.map AlertInstanceKey.rule) := by
  induction ks with
  | nil =>
    intro rd ph log
    exact ⟨log, rd, ph, rfl, by simp [DeleteAlertInstances.flushes]⟩
  | cons k rest ih =>
    intro rd ph log
    have hiff : (k.rule ≠ (rd.ruleOrgID, rd.ruleUID) ∨ rd.labelHashes.length ≥ 200) ↔
        (rd.ruleOrgID ≠ k.RuleOrgID ∨ rd.ruleUID ≠ k.RuleUID ∨
          rd.labelHashes.length ≥ 200) := by
      simp only [AlertInstanceKey.rule, ne_eq, Prod.mk.injEq, not_and_or]
      constructor
      · rintro ((h | h) | h)
        · exact Or.inl (fun e => h e.symm)
        · exact Or.inr (Or.inl (fun e => h e.symm))
        · exact Or.inr (Or.inr h)
      · rintro (h | h | h)
        · exact Or.inl (Or.inl (fun e => h e.symm))
        · exact Or.inl (Or.inr (fun e => h e.symm))
        · exact Or.inr h
    unfold DeleteAlertInstances.loop
    rw [List.map_cons, DeleteAlertInstances.flushes]
    by_cases hc : rd.ruleOrgID ≠ k.RuleOrgID ∨ rd.ruleUID ≠ k.RuleUID ∨
        rd.labelHashes.length ≥ 200
    · rw [if_pos hc, if_pos (hiff.mpr hc)]
      obtain ⟨log1, hq, hl⟩ := DeleteAlertInstances.execQuery_length env hexec log rd ph
      rw [hq]
      simp only
      obtain ⟨log2, rd2, ph2, hrun, hinv⟩ := ih
        { ruleOrgID := k.RuleOrgID, ruleUID := k.RuleUID,
          labelHashes := [] ++ [SqlArg.str k.LabelsHash] }
        ("(".toList ++ "?, ".toList) log1
      refine ⟨log2, rd2, ph2, hrun, ?_⟩
      rw [hinv, hl]
      simp only [List.nil_append, List.length_singleton, AlertInstanceKey.rule]
      omega
    · rw [if_neg hc, if_neg (fun h => hc (hiff.mp h))]
      obtain ⟨log2, rd2, ph2, hrun, hinv⟩ := ih
        { rd with labelHashes := rd.labelHashes ++ [SqlArg.str k.LabelsHash] }
        (ph ++ "?, ".toList) log
      refine ⟨log2, rd2, ph2, hrun, ?_⟩
      rw [hinv]
      simp

/-- Claim C29. When no statement fails and `sort.Slice` sorts (it returns the
keys in an order in which no key comes before a smaller one), the number of
statements `DeleteAlertInstances` issues is the sum, over the distinct
(organisation, rule UID) pairs of the keys, of the number `g` of keys of the
pair divided by 200 and rounded up. The sum is in terms of the keys as given,
so it is the same for every order they are given in. -/
theorem deleteAlertInstances_statement_count (env : StoreEnv)
    (sortSlice : (AlertInstanceKey → AlertInstanceKey → Bool) → List AlertInstanceKey →
      List AlertInstanceKey)
    (keys : List AlertInstanceKey)
    (hexec : ∀ l st, env.Exec l st = Except.ok ())
    (hperm : (sortSlice DeleteAlertInstances.less keys).Perm keys)
    (hsorted : (sortSlice DeleteAlertInstances.less keys).Pairwise
      (fun a b => DeleteAlertInstances.less b a = false)) :
    (DeleteAlertInstances env sortSlice keys).1.length =
      ∑ p ∈ (keys.map AlertInstanceKey.rule).toFinset,
        ((keys.map AlertInstanceKey.rule).count p + 199) / 200 := by
  unfold DeleteAlertInstances
  by_cases hlen : keys.length = 0
  · rw [if_pos hlen, List.length_eq_zero.mp hlen]
    simp
  · rw [if_neg hlen]
    simp only
    obtain ⟨log1, rd1, ph1, hrun, hinv⟩ := DeleteAlertInstances.loop_length env hexec
      (sortSlice DeleteAlertInstances.less keys)
      { ruleOrgID := 0, ruleUID := "", labelHashes := [] } "(".toList []
    rw [hrun]
    simp only
    have hpairs : ((sortSlice DeleteAlertInstances.less keys).map AlertInstanceKey.rule).Pairwise
        (fun p q => p.1 ≤ q.1 ∧ (p.1 = q.1 → p.2 ≤ q.2)) := by
      rw [List.pairwise_map]
      exact hsorted.imp (fun h => (DeleteAlertInstances.less_eq_false_iff _ _).mp h)
    have hsum := DeleteAlertInstances.flushes_eq_sum
      (fun (p q : Int × String) => p.1 ≤ q.1 ∧ (p.1 = q.1 → p.2 ≤ q.2))
      (fun a b hab hba => by
        have h1 : a.1 = b.1 := le_antisymm hab.1 hba.1
        exact Prod.ext h1 (le_antisymm (hab.2 h1) (hba.2 h1.symm)))
      ((sortSlice DeleteAlertInstances.less keys).map AlertInstanceKey.rule)
      ((0 : Int), "") 0 (by omega) hpairs (fun h => absurd rfl h)
    have hpm : ((sortSlice DeleteAlertInstances.less keys).map AlertInstanceKey.rule).Perm
        (keys.map AlertInstanceKey.rule) := hperm.map _
    have hkey : log1.length + (if rd1.labelHashes.length = 0 then 0 else 1) =
        ∑ p ∈ (keys.map AlertInstanceKey.rule).toFinset,
          ((keys.map AlertInstanceKey.rule).count p + 199) / 200 := by
      simp only [List.length_nil, Nat.zero_add] at hinv
      rw [hinv, hsum]
      simp only [Nat.zero_add, ite_self]
      rw [Finset.sum_insert_of_eq_zero_if_not_mem]
      · rw [List.toFinset_eq_of_perm _ _ hpm]
        apply Finset.sum_congr rfl
        intro q _
        have hcount : ((sortSlice DeleteAlertInstances.less keys).map
            AlertInstanceKey.rule).count q = (keys.map AlertInstanceKey.rule).count q :=
          hpm.countP_eq _
        rw [hcount]
      · intro hnot
        have hcnt : ((sortSlice DeleteAlertInstances.less keys).map
            AlertInstanceKey.rule).count ((0 : Int), "") = 0 := by
          rw [List.count_eq_zero]
          intro hin
          exact hnot (List.mem_toFinset.mpr hin)
        rw [hcnt]
        rfl
    by_cases hz : rd1.labelHashes.length ≠ 0
    · rw [if_pos hz]
      obtain ⟨log2, hq, hl⟩ := DeleteAlertInstances.execQuery_length env hexec log1 rd1 ph1
      rw [hq]
      simp only
      rw [hl, ← hkey]
    · rw [if_neg hz]
      simp only
      rw [← hkey, if_pos (not_not.mp hz)]
      rfl

theorem deleteAlertInstances_statement_count_witness :
    (DeleteAlertInstances StoreEnv.accepting mergeSortSlice
        [{ RuleOrgID := 1, RuleUID := "b", LabelsHash := "h1" },
          { RuleOrgID := 1, RuleUID := "a", LabelsHash := "h2" },
          { RuleOrgID := 1, RuleUID := "b", LabelsHash := "h3" }]).1.length =
      ∑ p ∈ ([((1 : Int), "b"), (1, "a"), (1, "b")] : List (Int × String)).toFinset,
        (([((1 : Int), "b"), (1, "a"), (1, "b")] : List (Int × String)).count p + 199) / 200 ∧
    ∑ p ∈ ([((1 : Int), "b"), (1, "a"), (1, "b")] : List (Int × String)).toFinset,
        (([((1 : Int), "b"), (1, "a"), (1, "b")] : List (Int × String)).count p + 199) / 200 = 2 :=
  ⟨deleteAlertInstances_statement_count StoreEnv.accepting mergeSortSlice
      [{ RuleOrgID := 1, RuleUID := "b", LabelsHash := "h1" },
        { RuleOrgID := 1, RuleUID := "a", LabelsHash := "h2" },
        { RuleOrgID := 1, RuleUID := "b", LabelsHash := "h3" }]
      (fun _ _ => rfl) (List.mergeSort_perm _ _) (mergeSortSlice_sorted _),
    by decide⟩

/-! ### Migration: permissions of a folder -/

theorem MigrateOrgAlerts.setACL.highest_fst (items : List dashboardAcl)
    (maps : List (Int × Nat) × List (Int × Nat)) (i : Nat) :
    (MigrateOrgAlerts.setACL.highest items maps i).1 =
      MigrateOrgAlerts.setACL.highestFor (fun item => item.UserID) items maps.1 i := by
  unfold MigrateOrgAlerts.setACL.highest MigrateOrgAlerts.setACL.highestFor
  cases items[i]? with
  | none => rfl
  | some item => rfl

theorem MigrateOrgAlerts.setACL.highest_snd (items : List dashboardAcl)
    (maps : List (Int × Nat) × List (Int × Nat)) (i : Nat) :
    (MigrateOrgAlerts.setACL.highest items maps i).2 =
      MigrateOrgAlerts.setACL.highestFor (fun item => item.TeamID) items maps.2 i := by
  unfold MigrateOrgAlerts.setACL.highest MigrateOrgAlerts.setACL.highestFor
  cases items[i]? with
  | none => rfl
  | some item => rfl

theorem MigrateOrgAlerts.setACL.foldl_highest (items : List dashboardAcl) (idxs : List Nat) :
    ∀ maps : List (Int × Nat) × List (Int × Nat),
    idxs.foldl (MigrateOrgAlerts.setACL.highest items) maps =
      (idxs.foldl (MigrateOrgAlerts.setACL.highestFor (fun item => item.UserID) items) maps.1,
        idxs.foldl (MigrateOrgAlerts.setACL.highestFor (fun item => item.TeamID) items) maps.2) := by
  induction idxs with
  | nil => intro maps; rfl
  | cons i rest ih =>
    intro maps
    rw [List.foldl_cons, ih, List.foldl_cons, List.foldl_cons,
      MigrateOrgAlerts.setACL.highest_fst, MigrateOrgAlerts.setACL.highest_snd]

theorem MigrateOrgAlerts.setACL.highestFor_isBest (key : dashboardAcl → Int)
    (items : List dashboardAcl) (k : Nat) :
    ((List.range k).foldl (MigrateOrgAlerts.setACL.highestFor key items) []).lookup 0 = none ∧
    ∀ u, u ≠ 0 → MigrateOrgAlerts.setACL.isBest key items k u
      (((List.range k).foldl (MigrateOrgAlerts.setACL.highestFor key items) []).lookup u) := by
  induction k with
  | zero =>
    refine ⟨rfl, ?_⟩
    intro u _
    simp only [List.range_zero, List.foldl_nil, List.lookup]
    intro j other hj
    exact absurd hj (Nat.not_lt_zero j)
  | succ k ih =>
    obtain ⟨hzero, hbest⟩ := ih
    rw [List.range_succ, List.foldl_append, List.foldl_cons, List.foldl_nil]
    generalize (List.range k).foldl (MigrateOrgAlerts.setACL.highestFor key items) [] = map
      at hzero hbest
    -- extending the range by an index that changes nothing for `u`
    have hext : ∀ (u : Int) (r : Option Nat),
        (∀ other, items[k]? = some other → key other ≠ u) →
        MigrateOrgAlerts.setACL.isBest key items k u r →
        MigrateOrgAlerts.setACL.isBest key items (k + 1) u r := by
      intro u r hk hr
      cases r with
      | none =>
        intro j other hj hget
        rcases Nat.lt_succ_iff_lt_or_eq.mp hj with h | h
        · exact hr j other h hget
        · subst h
          exact hk other hget
      | some i =>
        obtain ⟨hi, best, hb, hkey, hmax⟩ := hr
        refine ⟨Nat.lt_succ_of_lt hi, best, hb, hkey, ?_⟩
        intro j other hj hget hko
        rcases Nat.lt_succ_iff_lt_or_eq.mp hj with h | h
        · exact hmax j other h hget hko
        · subst h
          exact absurd hko (hk other hget)
    unfold MigrateOrgAlerts.setACL.highestFor
    cases hitem : items[k]? with
    | none =>
      simp only
      refine ⟨hzero, fun u hu => hext u _ (fun other h => by rw [hitem] at h; simp at h)
        (hbest u hu)⟩
    | some item =>
      simp only
      by_cases hkz : key item = 0
      · rw [if_neg (not_not.mpr hkz)]
        refine ⟨hzero, fun u hu => hext u _ ?_ (hbest u hu)⟩
        intro other h
        rw [hitem] at h
        simp only [Option.some.injEq] at h
        subst h
        rw [hkz]
        exact fun h => hu h.symm
      · rw [if_pos hkz]
        -- the map after writing index `k` under the key of its item
        have hset : (mapSet map (key item) k).lookup 0 = none ∧
            ∀ u, u ≠ 0 → (∀ j other, j < k → items[j]? = some other → key other = key item →
                other.Permission < item.Permission) →
              MigrateOrgAlerts.setACL.isBest key items (k + 1) u
                ((mapSet map (key item) k).lookup u) := by
          refine ⟨?_, ?_⟩
          · rw [lookup_mapSet_of_ne _ _ _ _ (fun h => hkz h.symm)]
            exact hzero
          · intro u hu hlower
            by_cases huk : u = key item
            · subst huk
              rw [lookup_mapSet_self]
              refine ⟨Nat.lt_succ_self k, item, hitem, rfl, ?_⟩
              intro j other hj hget hko
              rcases Nat.lt_succ_iff_lt_or_eq.mp hj with h | h
              · exact Or.inl (hlower j other h hget hko)
              · subst h
                rw [hitem] at hget
                simp only [Option.some.injEq] at hget
                subst hget
                exact Or.inr ⟨rfl, le_refl _⟩
            · rw [lookup_mapSet_of_ne _ _ _ _ huk]
              apply hext u _ _ (hbest u hu)
              intro other h
              rw [hitem] at h
              simp only [Option.some.injEq] at h
              subst h
              exact fun h => huk h.symm
        have hcur := hbest (key item) hkz
        cases hl : map.lookup (key item) with
        | none =>
          simp only
          rw [hl] at hcur
          refine ⟨hset.1, fun u hu => hset.2 u hu ?_⟩
          intro j other hj hget hko
          exact absurd hko (hcur j other hj hget)
        | some i =>
          simp only
          rw [hl] at hcur
          obtain ⟨hi, best, hb, hkey, hmax⟩ := hcur
          rw [hb]
          simp only
          by_cases hgt : item.Permission > best.Permission
          · rw [if_pos hgt]
            refine ⟨hset.1, fun u hu => hset.2 u hu ?_⟩
            intro j other hj hget hko
            rcases hmax j other hj hget hko with h | ⟨h, _⟩
            · exact lt_trans h hgt
            · rw [h]
              exact hgt
          · rw [if_neg hgt]
            refine ⟨hzero, ?_⟩
            intro u hu
            by_cases huk : u = key item
            · subst huk
              rw [hl]
              refine ⟨Nat.lt_succ_of_lt hi, best, hb, hkey, ?_⟩
              intro j other hj hget hko
              rcases Nat.lt_succ_iff_lt_or_eq.mp hj with h | h
              · exact hmax j other h hget hko
              · subst h
                rw [hitem] at hget
                simp only [Option.some.injEq] at hget
                subst hget
                rcases lt_or_eq_of_le (not_lt.mp hgt) with h | h
                · exact Or.inl h
                · exact Or.inr ⟨h, le_of_lt hi⟩
            · apply hext u _ _ (hbest u hu)
              intro other h
              rw [hitem] at h
              simp only [Option.some.injEq] at h
              subst h
              exact fun h => huk h.symm

theorem MigrateOrgAlerts.setACL.mapOk_of_fold (key : dashboardAcl → Int)
    (items : List dashboardAcl) :
    MigrateOrgAlerts.setACL.mapOk key items
      ((List.range items.length).foldl (MigrateOrgAlerts.setACL.highestFor key items) []) := by
  obtain ⟨hzero, hbest⟩ := MigrateOrgAlerts.setACL.highestFor_isBest key items items.length
  refine ⟨?_, ?_⟩
  · intro u w hl
    have hu : u ≠ 0 := by
      intro h
      rw [h, hzero] at hl
      simp at hl
    have hb := hbest u hu
    rw [hl] at hb
    obtain ⟨_, best, hget, hkey, _⟩ := hb
    exact ⟨hu, best, hget, hkey⟩
  · intro k item hget hk
    cases hl : ((List.range items.length).foldl
        (MigrateOrgAlerts.setACL.highestFor key items) []).lookup (key item) with
    | some w => exact ⟨w, rfl⟩
    | none =>
      have hb := hbest (key item) hk
      rw [hl] at hb
      have hlt : k < items.length := by
        by_contra h
        rw [List.getElem?_eq_none (not_lt.mp h)] at hget
        simp at hget
      exact absurd rfl (hb k item hlt hget)

theorem getElem?_inj_of_nodup_map {α β : Type} (f : α → β) (l : List α)
    (h : (l.map f).Nodup) (i j : Nat) (a b : α) (ha : l[i]? = some a) (hb : l[j]? = some b)
    (hab : f a = f b) : i = j := by
  have hi : i < l.length := by
    by_contra hn
    rw [List.getElem?_eq_none (not_lt.mp hn)] at ha
    simp at ha
  have hj : j < l.length := by
    by_contra hn
    rw [List.getElem?_eq_none (not_lt.mp hn)] at hb
    simp at hb
  rw [List.getElem?_eq_getElem hi, Option.some.injEq] at ha
  rw [List.getElem?_eq_getElem hj, Option.some.injEq] at hb
  have hi2 : i < (l.map f).length := by simpa using hi
  have hj2 : j < (l.map f).length := by simpa using hj
  apply (@List.Nodup.getElem_inj_iff _ _ h i hi2 j hj2).mp
  rw [List.getElem_map, List.getElem_map, ha, hb, hab]

theorem MigrateOrgAlerts.setACL.keyInv_skip (orgID dashboardID : Int)
    (key : dashboardAcl → Int) (items : List dashboardAcl) (map : List (Int × Nat))
    (inserted : List dashboardAcl) (k : Nat)
    (h : MigrateOrgAlerts.setACL.keyInv orgID dashboardID key items map inserted k)
    (hk : ∀ u best, map.lookup u = some k → items[k]? = some best → False) :
    MigrateOrgAlerts.setACL.keyInv orgID dashboardID key items map inserted (k + 1) := by
  intro u w best hl hget
  have hne : w ≠ k := by
    intro hw
    subst hw
    exact hk u best hl hget
  obtain ⟨h1, h2⟩ := h u w best hl hget
  exact ⟨fun hw => h1 (by omega), fun hw => h2 (by omega)⟩

theorem MigrateOrgAlerts.setACL.keyInv_insert_self (orgID dashboardID : Int)
    (key : dashboardAcl → Int) (items : List dashboardAcl) (map : List (Int × Nat))
    (inserted : List dashboardAcl) (k : Nat) (item ins : dashboardAcl) (c c2 : Time)
    (h : MigrateOrgAlerts.setACL.keyInv orgID dashboardID key items map inserted k)
    (hmap : MigrateOrgAlerts.setACL.mapOk key items map)
    (hget : items[k]? = some item) (hl : map.lookup (key item) = some k)
    (hkey : key ins = key item)
    (hins : ins = dashboardAcl.mk 0 orgID dashboardID item.UserID item.TeamID item.Role
      item.Permission c c2) :
    MigrateOrgAlerts.setACL.keyInv orgID dashboardID key items map (inserted ++ [ins])
      (k + 1) := by
  intro u w best hlu hgetw
  rw [List.filter_append]
  by_cases hu : u = key item
  · subst hu
    rw [hl] at hlu
    simp only [Option.some.injEq] at hlu
    subst hlu
    rw [hget] at hgetw
    simp only [Option.some.injEq] at hgetw
    subst hgetw
    have hempty := (h (key item) k item hl hget).2 (le_refl _)
    rw [hempty]
    refine ⟨fun _ => ⟨c, c2, ?_⟩, fun hw => absurd hw (by omega)⟩
    rw [← hins]
    simp [hkey]
  · have hne : w ≠ k := by
      intro hw
      subst hw
      obtain ⟨_, best2, hb2, hk2⟩ := hmap.left u w hlu
      rw [hget] at hb2
      simp only [Option.some.injEq] at hb2
      subst hb2
      exact hu hk2.symm
    have hfil : [ins].filter (fun it => decide (key it = u)) = [] := by
      simp only [List.filter_cons, List.filter_nil, hkey]
      rw [if_neg]
      simpa using fun h => hu h.symm
    rw [hfil, List.append_nil]
    obtain ⟨h1, h2⟩ := h u w best hlu hgetw
    exact ⟨fun hw => h1 (by omega), fun hw => h2 (by omega)⟩

theorem MigrateOrgAlerts.setACL.keyInv_insert_other (orgID dashboardID : Int)
    (key : dashboardAcl → Int) (items : List dashboardAcl) (map : List (Int × Nat))
    (inserted : List dashboardAcl) (k : Nat) (item ins : dashboardAcl)
    (h : MigrateOrgAlerts.setACL.keyInv orgID dashboardID key items map inserted k)
    (hmap : MigrateOrgAlerts.setACL.mapOk key items map)
    (hget : items[k]? = some item) (hzero : key item = 0) (hkey : key ins = 0) :
    MigrateOrgAlerts.setACL.keyInv orgID dashboardID key items map (inserted ++ [ins])
      (k + 1) := by
  intro u w best hlu hgetw
  rw [List.filter_append]
  obtain ⟨hu, best2, hb2, hk2⟩ := hmap.left u w hlu
  have hne : w ≠ k := by
    intro hw
    subst hw
    rw [hget] at hb2
    simp only [Option.some.injEq] at hb2
    subst hb2
    exact hu (hk2 ▸ hzero)
  have hfil : [ins].filter (fun it => decide (key it = u)) = [] := by
    simp only [List.filter_cons, List.filter_nil, hkey]
    rw [if_neg]
    simpa using fun h => hu h.symm
  rw [hfil, List.append_nil]
  obtain ⟨h1, h2⟩ := h u w best hlu hgetw
  exact ⟨fun hw => h1 (by omega), fun hw => h2 (by omega)⟩

theorem MigrateOrgAlerts.setACL.isDuplicate_zero (its : List dashboardAcl)
    (map : List (Int × Nat)) (item : dashboardAcl) :
    MigrateOrgAlerts.setACL.isDuplicate its map 0 item = false := by
  simp [MigrateOrgAlerts.setACL.isDuplicate]

theorem MigrateOrgAlerts.setACL.isDuplicate_self (its : List dashboardAcl)
    (map : List (Int × Nat)) (u : Int) (k : Nat) (item : dashboardAcl)
    (hl : map.lookup u = some k) (hget : its[k]? = some item) :
    MigrateOrgAlerts.setACL.isDuplicate its map u item = false := by
  unfold MigrateOrgAlerts.setACL.isDuplicate
  by_cases hu : u ≠ 0
  · rw [if_pos hu, hl]
    simp only
    rw [hget]
    simp
  · rw [if_neg hu]

theorem MigrateOrgAlerts.setACL.isDuplicate_other (its : List dashboardAcl)
    (map : List (Int × Nat)) (u : Int) (w : Nat) (item acl : dashboardAcl) (hu : u ≠ 0)
    (hl : map.lookup u = some w) (hget : its[w]? = some acl) (hne : acl.Id ≠ item.Id) :
    MigrateOrgAlerts.setACL.isDuplicate its map u item = true := by
  unfold MigrateOrgAlerts.setACL.isDuplicate
  rw [if_pos hu, hl]
  simp only
  rw [hget]
  simpa using hne

theorem MigrateOrgAlerts.setACL.insertLoop_skip (env : ExecEnv) (orgID dashboardID : Int)
    (maps : List (Int × Nat) × List (Int × Nat)) (k : Nat) (rest : List Nat)
    (st : SetACLState) (item : dashboardAcl) (hst : st.items[k]? = some item)
    (hnz : item.UserID ≠ 0 ∨ item.TeamID ≠ 0)
    (hdup : MigrateOrgAlerts.setACL.isDuplicate st.items maps.1 item.UserID item = true ∨
      MigrateOrgAlerts.setACL.isDuplicate st.items maps.2 item.TeamID item = true) :
    MigrateOrgAlerts.setACL.insertLoop env orgID dashboardID maps (k :: rest) st =
      MigrateOrgAlerts.setACL.insertLoop env orgID dashboardID maps rest st := by
  rw [MigrateOrgAlerts.setACL.insertLoop, hst]
  simp only
  rw [if_neg (by
    rintro ⟨h1, h2, _⟩
    rcases hnz with h | h
    · exact h h1
    · exact h h2)]
  by_cases h1 : MigrateOrgAlerts.setACL.isDuplicate st.items maps.1 item.UserID item = true
  · rw [if_pos h1]
  · rw [if_neg h1]
    rcases hdup with h | h
    · exact absurd h h1
    · rw [if_pos h]

theorem MigrateOrgAlerts.setACL.insertLoop_insert (env : ExecEnv) (orgID dashboardID : Int)
    (maps : List (Int × Nat) × List (Int × Nat)) (k : Nat) (rest : List Nat)
    (st : SetACLState) (item : dashboardAcl) (id : Int) (hst : st.items[k]? = some item)
    (hnz : item.UserID ≠ 0 ∨ item.TeamID ≠ 0)
    (hd1 : MigrateOrgAlerts.setACL.isDuplicate st.items maps.1 item.UserID item = false)
    (hd2 : MigrateOrgAlerts.setACL.isDuplicate st.items maps.2 item.TeamID item = false)
    (hseen : (item.UserID, item.TeamID, item.Role.getD "", item.Permission) ∉ st.seen)
    (hid : env.insertACL (dashboardAcl.mk 0 orgID dashboardID item.UserID item.TeamID
      item.Role item.Permission (env.Now st.m.nowCalls) (env.Now (st.m.nowCalls + 1))) =
        Except.ok id) :
    MigrateOrgAlerts.setACL.insertLoop env orgID dashboardID maps (k :: rest) st =
      MigrateOrgAlerts.setACL.insertLoop env orgID dashboardID maps rest
        (SetACLState.mk
          ((st.items.set k (dashboardAcl.mk 0 orgID dashboardID item.UserID item.TeamID
            item.Role item.Permission (env.Now st.m.nowCalls)
            (env.Now (st.m.nowCalls + 1)))).set k
              (dashboardAcl.mk id orgID dashboardID item.UserID item.TeamID
                item.Role item.Permission (env.Now st.m.nowCalls)
                (env.Now (st.m.nowCalls + 1))))
          ((item.UserID, item.TeamID, item.Role.getD "", item.Permission) :: st.seen)
          (st.inserted ++ [dashboardAcl.mk 0 orgID dashboardID item.UserID item.TeamID
            item.Role item.Permission (env.Now st.m.nowCalls) (env.Now (st.m.nowCalls + 1))])
          { st.m with nowCalls := st.m.nowCalls + 2 }) := by
  rw [MigrateOrgAlerts.setACL.insertLoop, hst]
  simp only
  rw [if_neg (by
    rintro ⟨h1, h2, _⟩
    rcases hnz with h | h
    · exact h h1
    · exact h h2)]
  rw [hd1, hd2]
  simp only [Bool.false_eq_true, if_false]
  rw [if_neg hseen, hid]

theorem MigrateOrgAlerts.setACL.insertLoop_step (env : ExecEnv) (orgID dashboardID : Int)
    (items : List dashboardAcl) (maps : List (Int × Nat) × List (Int × Nat))
    (hids : (items.map (fun it => it.Id)).Nodup)
    (hname : ∀ item ∈ items,
      (item.UserID ≠ 0 ∧ item.TeamID = 0) ∨ (item.UserID = 0 ∧ item.TeamID ≠ 0))
    (hins : ∀ item, ∃ id, env.insertACL item = Except.ok id ∧
      id ∉ items.map (fun it => it.Id))
    (hu : MigrateOrgAlerts.setACL.mapOk (fun it => it.UserID) items maps.1)
    (ht : MigrateOrgAlerts.setACL.mapOk (fun it => it.TeamID) items maps.2)
    (st : SetACLState) (k : Nat) (rest : List Nat) (hk : k < items.length)
    (hinv : MigrateOrgAlerts.setACL.loopInv orgID dashboardID items maps st k) :
    ∃ st1, MigrateOrgAlerts.setACL.insertLoop env orgID dashboardID maps (k :: rest) st =
        MigrateOrgAlerts.setACL.insertLoop env orgID dashboardID maps rest st1 ∧
      MigrateOrgAlerts.setACL.loopInv orgID dashboardID items maps st1 (k + 1) := by
  obtain ⟨hA, hlen, hB, hC, hKu, hKt⟩ := hinv
  obtain ⟨item, hitem⟩ : ∃ item, items[k]? = some item :=
    ⟨items[k], List.getElem?_eq_getElem hk⟩
  have hst : st.items[k]? = some item := by
    rw [hA k (le_refl k)]
    exact hitem
  have hmem : item ∈ items := List.getElem?_mem hitem
  have hn := hname item hmem
  have hnz : item.UserID ≠ 0 ∨ item.TeamID ≠ 0 := by
    rcases hn with h | h
    · exact Or.inl h.1
    · exact Or.inr h.2
  have hother : ∀ w best, w ≠ k → items[w]? = some best →
      MigrateOrgAlerts.setACL.isWinner maps w best →
      ∃ acl, st.items[w]? = some acl ∧ acl.Id ≠ item.Id := by
    intro w best hwk hbest hwin
    have hwlt : w < items.length := by
      by_contra hcon
      rw [List.getElem?_eq_none (not_lt.mp hcon)] at hbest
      simp at hbest
    rcases Nat.lt_or_gt_of_ne hwk with h | h
    · have hw2 : w < st.items.length := by
        rw [hlen]
        exact hwlt
      refine ⟨st.items[w], List.getElem?_eq_getElem hw2, ?_⟩
      intro heq
      apply hB w best _ h hbest (List.getElem?_eq_getElem hw2) hwin
      rw [heq]
      exact List.mem_map.mpr ⟨item, hmem, rfl⟩
    · refine ⟨best, ?_, ?_⟩
      · rw [hA w (le_of_lt h)]
        exact hbest
      · intro heq
        exact hwk (getElem?_inj_of_nodup_map (fun it => it.Id) items hids w k best item
          hbest hitem heq)
  by_cases hwin : MigrateOrgAlerts.setACL.isWinner maps k item
  · have hd1 : MigrateOrgAlerts.setACL.isDuplicate st.items maps.1 item.UserID item = false := by
      rcases hn with ⟨h1, h2⟩ | ⟨h1, h2⟩
      · rcases hwin with ⟨_, hl⟩ | ⟨h, _⟩
        · exact MigrateOrgAlerts.setACL.isDuplicate_self _ _ _ _ _ hl hst
        · exact absurd h2 h
      · rw [h1]
        exact MigrateOrgAlerts.setACL.isDuplicate_zero _ _ _
    have hd2 : MigrateOrgAlerts.setACL.isDuplicate st.items maps.2 item.TeamID item = false := by
      rcases hn with ⟨h1, h2⟩ | ⟨h1, h2⟩
      · rw [h2]
        exact MigrateOrgAlerts.setACL.isDuplicate_zero _ _ _
      · rcases hwin with ⟨h, _⟩ | ⟨_, hl⟩
        · exact absurd h1 h
        · exact MigrateOrgAlerts.setACL.isDuplicate_self _ _ _ _ _ hl hst
    have hseen : (item.UserID, item.TeamID, item.Role.getD "", item.Permission) ∉ st.seen := by
      intro hmemk
      obtain ⟨j, it, hj, hgj, hku, hkt, hwj⟩ := hC _ hmemk
      have hku2 : item.UserID = it.UserID := hku
      have hkt2 : item.TeamID = it.TeamID := hkt
      have hjk : j = k := by
        rcases hwin with ⟨hne, hl⟩ | ⟨hne, hl⟩
        · rcases hwj with ⟨_, hl2⟩ | ⟨hne2, _⟩
          · rw [← hku2, hl] at hl2
            exact (Option.some.inj hl2).symm
          · rcases hn with ⟨_, h2⟩ | ⟨h1, _⟩
            · exact absurd (hkt2 ▸ h2) hne2
            · exact absurd h1 hne
        · rcases hwj with ⟨hne2, _⟩ | ⟨_, hl2⟩
          · rcases hn with ⟨_, h2⟩ | ⟨h1, _⟩
            · exact absurd h2 hne
            · exact absurd (hku2 ▸ h1) hne2
          · rw [← hkt2, hl] at hl2
            exact (Option.some.inj hl2).symm
      omega
    obtain ⟨id, hid, hfresh⟩ := hins (dashboardAcl.mk 0 orgID dashboardID item.UserID
      item.TeamID item.Role item.Permission (env.Now st.m.nowCalls)
      (env.Now (st.m.nowCalls + 1)))
    refine ⟨_, MigrateOrgAlerts.setACL.insertLoop_insert env orgID dashboardID maps k rest st
      item id hst hnz hd1 hd2 hseen hid, ?_⟩
    refine ⟨?_, ?_, ?_, ?_, ?_, ?_⟩
    · intro j hj
      show ((st.items.set k _).set k _)[j]? = items[j]?
      rw [List.getElem?_set_ne (by omega), List.getElem?_set_ne (by omega)]
      exact hA j (by omega)
    · show ((st.items.set k _).set k _).length = items.length
      rw [List.length_set, List.length_set]
      exact hlen
    · intro j it cur hj hgj hcur hwj
      change ((st.items.set k _).set k _)[j]? = some cur at hcur
      by_cases hjk : j = k
      · subst hjk
        rw [List.getElem?_set_self (by rw [List.length_set, hlen]; exact hk)] at hcur
        rw [← Option.some.inj hcur]
        exact hfresh
      · rw [List.getElem?_set_ne (Ne.symm hjk), List.getElem?_set_ne (Ne.symm hjk)] at hcur
        exact hB j it cur (by omega) hgj hcur hwj
    · intro key hkey
      change key ∈ _ :: st.seen at hkey
      rcases List.mem_cons.mp hkey with h | h
      · subst h
        exact ⟨k, item, by omega, hitem, rfl, rfl, hwin⟩
      · obtain ⟨j, it, hj, hrest⟩ := hC key h
        exact ⟨j, it, by omega, hrest⟩
    · show MigrateOrgAlerts.setACL.keyInv orgID dashboardID (fun it => it.UserID) items maps.1
        (st.inserted ++ [_]) (k + 1)
      rcases hn with ⟨h1, h2⟩ | ⟨h1, h2⟩
      · have hl : maps.1.lookup item.UserID = some k := by
          rcases hwin with ⟨_, hl⟩ | ⟨h, _⟩
          · exact hl
          · exact absurd h2 h
        exact MigrateOrgAlerts.setACL.keyInv_insert_self orgID dashboardID _ items maps.1
          st.inserted k item _ _ _ hKu hu hitem hl rfl rfl
      · exact MigrateOrgAlerts.setACL.keyInv_insert_other orgID dashboardID _ items maps.1
          st.inserted k item _ hKu hu hitem h1 h1
    · show MigrateOrgAlerts.setACL.keyInv orgID dashboardID (fun it => it.TeamID) items maps.2
        (st.inserted ++ [_]) (k + 1)
      rcases hn with ⟨h1, h2⟩ | ⟨h1, h2⟩
      · exact MigrateOrgAlerts.setACL.keyInv_insert_other orgID dashboardID _ items maps.2
          st.inserted k item _ hKt ht hitem h2 h2
      · have hl : maps.2.lookup item.TeamID = some k := by
          rcases hwin with ⟨h, _⟩ | ⟨_, hl⟩
          · exact absurd h1 h
          · exact hl
        exact MigrateOrgAlerts.setACL.keyInv_insert_self orgID dashboardID _ items maps.2
          st.inserted k item _ _ _ hKt ht hitem hl rfl rfl
  · have hdup : MigrateOrgAlerts.setACL.isDuplicate st.items maps.1 item.UserID item = true ∨
        MigrateOrgAlerts.setACL.isDuplicate st.items maps.2 item.TeamID item = true := by
      rcases hn with ⟨h1, h2⟩ | ⟨h1, h2⟩
      · left
        obtain ⟨w, hl⟩ := hu.right k item hitem h1
        have hl : maps.1.lookup item.UserID = some w := hl
        have hwk : w ≠ k := by
          intro h
          subst h
          exact hwin (Or.inl ⟨h1, hl⟩)
        obtain ⟨_, best, hbest, hkb⟩ := hu.left _ w hl
        have hkb : best.UserID = item.UserID := hkb
        obtain ⟨acl, hacl, hne⟩ := hother w best hwk hbest
          (Or.inl ⟨by rw [hkb]; exact h1, by rw [hkb]; exact hl⟩)
        exact MigrateOrgAlerts.setACL.isDuplicate_other _ _ _ w item acl h1 hl hacl hne
      · right
        obtain ⟨w, hl⟩ := ht.right k item hitem h2
        have hl : maps.2.lookup item.TeamID = some w := hl
        have hwk : w ≠ k := by
          intro h
          subst h
          exact hwin (Or.inr ⟨h2, hl⟩)
        obtain ⟨_, best, hbest, hkb⟩ := ht.left _ w hl
        have hkb : best.TeamID = item.TeamID := hkb
        obtain ⟨acl, hacl, hne⟩ := hother w best hwk hbest
          (Or.inr ⟨by rw [hkb]; exact h2, by rw [hkb]; exact hl⟩)
        exact MigrateOrgAlerts.setACL.isDuplicate_other _ _ _ w item acl h2 hl hacl hne
    refine ⟨st, MigrateOrgAlerts.setACL.insertLoop_skip env orgID dashboardID maps k rest st
      item hst hnz hdup, ?_⟩
    refine ⟨fun j hj => hA j (by omega), hlen, ?_, ?_, ?_, ?_⟩
    · intro j it cur hj hgj hcur hwj
      by_cases hjk : j = k
      · subst hjk
        rw [hitem] at hgj
        rw [← Option.some.inj hgj] at hwj
        exact absurd hwj hwin
      · exact hB j it cur (by omega) hgj hcur hwj
    · intro key hkey
      obtain ⟨j, it, hj, hrest⟩ := hC key hkey
      exact ⟨j, it, by omega, hrest⟩
    · apply MigrateOrgAlerts.setACL.keyInv_skip _ _ _ _ _ _ _ hKu
      intro u best hl _
      obtain ⟨hu0, b2, hb2, hk2⟩ := hu.left u k hl
      rw [hitem] at hb2
      rw [← Option.some.inj hb2] at hk2
      have hk2 : item.UserID = u := hk2
      exact hwin (Or.inl ⟨by rw [hk2]; exact hu0, by rw [hk2]; exact hl⟩)
    · apply MigrateOrgAlerts.setACL.keyInv_skip _ _ _ _ _ _ _ hKt
      intro u best hl _
      obtain ⟨hu0, b2, hb2, hk2⟩ := ht.left u k hl
      rw [hitem] at hb2
      rw [← Option.some.inj hb2] at hk2
      have hk2 : item.TeamID = u := hk2
      exact hwin (Or.inr ⟨by rw [hk2]; exact hu0, by rw [hk2]; exact hl⟩)

theorem MigrateOrgAlerts.setACL.insertLoop_spec (env : ExecEnv) (orgID dashboardID : Int)
    (items : List dashboardAcl) (maps : List (Int × Nat) × List (Int × Nat))
    (hids : (items.map (fun it => it.Id)).Nodup)
    (hname : ∀ item ∈ items,
      (item.UserID ≠ 0 ∧ item.TeamID = 0) ∨ (item.UserID = 0 ∧ item.TeamID ≠ 0))
    (hins : ∀ item, ∃ id, env.insertACL item = Except.ok id ∧
      id ∉ items.map (fun it => it.Id))
    (hu : MigrateOrgAlerts.setACL.mapOk (fun it => it.UserID) items maps.1)
    (ht : MigrateOrgAlerts.setACL.mapOk (fun it => it.TeamID) items maps.2) :
    ∀ (len k : Nat) (st : SetACLState), k + len = items.length →
      MigrateOrgAlerts.setACL.loopInv orgID dashboardID items maps st k →
      ∃ stf, MigrateOrgAlerts.setACL.insertLoop env orgID dashboardID maps
          (List.range' k len) st = (Except.ok (), stf) ∧
        MigrateOrgAlerts.setACL.loopInv orgID dashboardID items maps stf items.length := by
  intro len
  induction len with
  | zero =>
    intro k st hk hinv
    refine ⟨st, ?_, ?_⟩
    · simp [MigrateOrgAlerts.setACL.insertLoop]
    · have hk2 : k = items.length := by omega
      rw [← hk2]
      exact hinv
  | succ len ih =>
    intro k st hk hinv
    rw [List.range'_succ]
    obtain ⟨st1, heq, hinv1⟩ := MigrateOrgAlerts.setACL.insertLoop_step env orgID dashboardID
      items maps hids hname hins hu ht st k (List.range' (k + 1) len) (by omega) hinv
    rw [heq]
    exact ih (k + 1) st1 (by omega) hinv1

theorem MigrateOrgAlerts.setACL.highestWins_of_keyInv (key : dashboardAcl → Int)
    (orgID dashboardID : Int) (items inserted : List dashboardAcl)
    (hK : MigrateOrgAlerts.setACL.keyInv orgID dashboardID key items
      ((List.range items.length).foldl (MigrateOrgAlerts.setACL.highestFor key items) [])
      inserted items.length) :
    MigrateOrgAlerts.setACL.highestWins key orgID dashboardID items inserted := by
  unfold MigrateOrgAlerts.setACL.highestWins
  intro u hu0 hex
  obtain ⟨item, hmem, hkey⟩ := hex
  obtain ⟨n, hn⟩ := List.getElem?_of_mem hmem
  have hlt : ∀ (j : Nat) (other : dashboardAcl), items[j]? = some other → j < items.length := by
    intro j other h
    by_contra hcon
    rw [List.getElem?_eq_none (not_lt.mp hcon)] at h
    simp at h
  have hb := (MigrateOrgAlerts.setACL.highestFor_isBest key items items.length).2 u hu0
  cases hl : ((List.range items.length).foldl
      (MigrateOrgAlerts.setACL.highestFor key items) []).lookup u with
  | none =>
    rw [hl] at hb
    exact absurd hkey (hb n item (hlt n item hn) hn)
  | some i =>
    rw [hl] at hb
    obtain ⟨hi, best, hget, hkb, hall⟩ := hb
    refine ⟨i, best, hget, hkb, ?_, (hK u i best hl hget).1 hi⟩
    intro j other hj hko
    exact hall j other (hlt j other hj) hj hko

/-- Claim C27. For a positive folder ID and items with pairwise distinct IDs,
each naming a user or a team and not both, when every `Insert` of the session
succeeds and gives the row an `Id` that no item of the list has: for each user
(and each team) of the list exactly one of the items `setACL` hands to `Insert`
is of that user (team), and it is the first item of the list among those of
the user (team) whose permission is the highest, with `Id` 0 and the
organisation and the folder of the call. -/
theorem setACL_highest_permission_wins (env : ExecEnv) (m : MigrateOrgAlerts)
    (orgID dashboardID : Int) (items : List dashboardAcl) (hpos : 0 < dashboardID)
    (hids : (items.map (fun it => it.Id)).Nodup)
    (hname : ∀ item ∈ items,
      (item.UserID ≠ 0 ∧ item.TeamID = 0) ∨ (item.UserID = 0 ∧ item.TeamID ≠ 0))
    (hins : ∀ item, ∃ id, env.insertACL item = Except.ok id ∧
      id ∉ items.map (fun it => it.Id)) :
    MigrateOrgAlerts.setACL.highestWins (fun it => it.UserID) orgID dashboardID items
      (m.setACL env orgID dashboardID items).1 ∧
    MigrateOrgAlerts.setACL.highestWins (fun it => it.TeamID) orgID dashboardID items
      (m.setACL env orgID dashboardID items).1 := by
  have hu := MigrateOrgAlerts.setACL.mapOk_of_fold (fun it => it.UserID) items
  have ht := MigrateOrgAlerts.setACL.mapOk_of_fold (fun it => it.TeamID) items
  have hinit : MigrateOrgAlerts.setACL.loopInv orgID dashboardID items
      ((List.range items.length).foldl
          (MigrateOrgAlerts.setACL.highestFor (fun it => it.UserID) items) [],
        (List.range items.length).foldl
          (MigrateOrgAlerts.setACL.highestFor (fun it => it.TeamID) items) [])
      (SetACLState.mk items [] [] m) 0 := by
    refine ⟨fun _ _ => rfl, rfl, ?_, ?_, ?_, ?_⟩
    · intro j it cur hj
      exact absurd hj (Nat.not_lt_zero j)
    · intro key hkey
      exact absurd hkey (List.not_mem_nil key)
    · intro u w best _ _
      exact ⟨fun h => absurd h (Nat.not_lt_zero w), fun _ => rfl⟩
    · intro u w best _ _
      exact ⟨fun h => absurd h (Nat.not_lt_zero w), fun _ => rfl⟩
  obtain ⟨stf, heq, hfin⟩ := MigrateOrgAlerts.setACL.insertLoop_spec env orgID dashboardID
    items _ hids hname hins hu ht items.length 0 (SetACLState.mk items [] [] m)
    (by omega) hinit
  obtain ⟨_, _, _, _, hKu, hKt⟩ := hfin
  have hres : (m.setACL env orgID dashboardID items).1 = stf.inserted := by
    unfold MigrateOrgAlerts.setACL
    rw [if_neg (not_le.mpr hpos)]
    simp only
    rw [MigrateOrgAlerts.setACL.foldl_highest, List.range_eq_range']
    rw [List.range_eq_range'] at heq
    rw [heq]
  rw [hres]
  exact ⟨MigrateOrgAlerts.setACL.highestWins_of_keyInv _ orgID dashboardID items _ hKu,
    MigrateOrgAlerts.setACL.highestWins_of_keyInv _ orgID dashboardID items _ hKt⟩

theorem setACL_highest_permission_wins_witness :
    (0 : Int) < 3 ∧
    (dashboardAcl.sampleItems.map (fun it => it.Id)).Nodup ∧
    (MigrateOrgAlerts.sample.setACL (ExecEnv.sampleWithAcl true) 1 3
      dashboardAcl.sampleItems).1 =
      [dashboardAcl.mk 0 1 3 5 0 none 2 1000 1001, dashboardAcl.mk 0 1 3 0 9 none 4 1002 1003] ∧
    MigrateOrgAlerts.setACL.highestWins (fun it => it.UserID) 1 3 dashboardAcl.sampleItems
      (MigrateOrgAlerts.sample.setACL (ExecEnv.sampleWithAcl true) 1 3
        dashboardAcl.sampleItems).1 ∧
    MigrateOrgAlerts.setACL.highestWins (fun it => it.TeamID) 1 3 dashboardAcl.sampleItems
      (MigrateOrgAlerts.sample.setACL (ExecEnv.sampleWithAcl true) 1 3
        dashboardAcl.sampleItems).1 :=
  ⟨by decide, by decide, by decide,
    setACL_highest_permission_wins (ExecEnv.sampleWithAcl true) MigrateOrgAlerts.sample 1 3
      dashboardAcl.sampleItems (by decide) (by decide) (by decide)
      (fun _ => ⟨20, rfl, by decide⟩)⟩

end DataViz
